import Mathlib

/-!
# The Lua HTTP filter: stream handle state machine

A shallow embedding of `source/common/http/filter/lua/lua_filter.{h,cc}` and
`source/common/lua/wrappers.{h,cc}`.

* The C++ objects become records; a member function becomes a function from the
  record (and the state reachable through `callbacks_`) to the updated record.
* A Lua script is an input of the filter.  It is represented by the sequence of
  calls it makes into the native bridge (`Seg`), each call carrying the
  continuation that receives the values the bridge pushes.
* `ASSERT(...)` is modelled with its debug-build meaning: a failed assertion
  aborts, which the model reports as `none` / `Outcome.abort`.
-/

namespace LuaFilter

/-! ## Proxy data types -/

/-- Contents of a `Buffer::Instance`: one list element per byte. -/
abbrev Buffer := List Nat

/-- Modelled from the spec: `HeaderMap` (envoy/http/header_map.h is not part of
the sources) is an ordered multi-map from header name to value. -/
structure HeaderMap where
  entries : List (String × String)
  deriving DecidableEq, Repr

/-- Modelled from the spec: `LowerCaseString`, the key type of the case-insensitive
header map. -/
def LowerCaseString (name : String) : String :=
  String.mk (name.data.map Char.toLower)

/-- Modelled from the spec: `HeaderMap::addCopy` appends a header. -/
def HeaderMap.addCopy (m : HeaderMap) (key value : String) : HeaderMap :=
  { entries := m.entries ++ [(key, value)] }

/-- Modelled from the spec: `HeaderMap::get` returns the first entry with the key. -/
def HeaderMap.get (m : HeaderMap) (key : String) : Option String :=
  (m.entries.find? (fun e => e.1 == key)).map (fun e => e.2)

/-- Modelled from the spec: `HeaderMap::remove` removes every entry with the key. -/
def HeaderMap.remove (m : HeaderMap) (key : String) : HeaderMap :=
  { entries := m.entries.filter (fun e => e.1 != key) }

/-- `FilterHeadersStatus` as used by the filter. -/
inductive FilterHeadersStatus where
  | Continue
  | StopIteration
  deriving DecidableEq, Repr

/-- `FilterDataStatus` as used by the filter. -/
inductive FilterDataStatus where
  | Continue
  | StopIterationAndBuffer
  deriving DecidableEq, Repr

/-- `FilterTrailersStatus` as used by the filter. -/
inductive FilterTrailersStatus where
  | Continue
  deriving DecidableEq, Repr

/-! ## Callbacks -/

/-- Modelled from the spec: the proxy side of one direction
(`StreamDecoderFilterCallbacks` / `StreamEncoderFilterCallbacks`): the buffered body
(`decodingBuffer()` / `encodingBuffer()`, null until something is buffered) and a
record of the frames handed to `addDecodedData` / `addEncodedData`. -/
structure StreamFilterCallbacks where
  buffer_ : Option Buffer
  added_ : List Buffer
  deriving DecidableEq, Repr

/-- Modelled from the spec: `addDecodedData(data, false)` appends the frame to the
buffered body, creating the buffer when there is none. -/
def StreamFilterCallbacks.addData (c : StreamFilterCallbacks) (data : Buffer) :
    StreamFilterCallbacks :=
  { buffer_ := some (c.buffer_.getD [] ++ data), added_ := c.added_ ++ [data] }

/-- `FilterCallbacks` (lua_filter.h): what a stream handle reaches through its
`callbacks_` reference.  `logger` is the list of `scriptLog(level, message)` calls
received by the `ScriptLogger`; `callbacks_` is the proxy side of the direction. -/
structure FilterCallbacks where
  logger : List (Int × String)
  callbacks_ : StreamFilterCallbacks
  deriving DecidableEq, Repr

/-- `ScriptLogger::scriptLog` as seen by the handle: the call is recorded. -/
def FilterCallbacks.scriptLog (cb : FilterCallbacks) (level : Int) (message : String) :
    FilterCallbacks :=
  { cb with logger := cb.logger ++ [(level, message)] }

/-- `DecoderCallbacks::addData` / `EncoderCallbacks::addData`. -/
def FilterCallbacks.addData (cb : FilterCallbacks) (data : Buffer) : FilterCallbacks :=
  { cb with callbacks_ := cb.callbacks_.addData data }

/-- `DecoderCallbacks::bufferedBody` / `EncoderCallbacks::bufferedBody`. -/
def FilterCallbacks.bufferedBody (cb : FilterCallbacks) : Option Buffer :=
  cb.callbacks_.buffer_

/-! ## Lua side: values, wrappers, scripts, coroutines -/

/-- The native objects a script can hold.  `headers`, `body` and `trailers` are the
userdata cached in `headers_wrapper_`, `body_wrapper_` and `trailers_wrapper_`;
`chunk n` is the transient `BufferWrapper` created by the n-th resumed data frame;
`iterator` is the closure pushed by `bodyChunks()`; `handle` is the stream handle. -/
inductive Value where
  | handle
  | headers
  | body
  | trailers
  | chunk (n : Nat)
  | iterator
  deriving DecidableEq, Repr

/-- Modelled from the spec: `LuaDeathRef<T>` (common/lua/lua.h is not part of the
sources).  It is empty or holds a wrapper object with a liveness flag; a wrapper is
created live. -/
inductive LuaDeathRef where
  | empty
  | holds (live : Bool)
  deriving DecidableEq, Repr

/-- Modelled from the spec: `LuaDeathRef::get() != nullptr`. -/
def LuaDeathRef.get (r : LuaDeathRef) : Bool :=
  match r with
  | .empty => false
  | .holds _ => true

/-- Modelled from the spec: `LuaDeathRef::markDead` flags the held object dead. -/
def LuaDeathRef.markDead (r : LuaDeathRef) : LuaDeathRef :=
  match r with
  | .empty => .empty
  | .holds _ => .holds false

/-- Modelled from the spec: `LuaDeathRef::markLive` flags the held object live. -/
def LuaDeathRef.markLive (r : LuaDeathRef) : LuaDeathRef :=
  match r with
  | .empty => .empty
  | .holds _ => .holds true

/-- Modelled from the spec: `LuaDeathRef::reset(T::create(...), true)`: the reference
now holds a newly created object, which is born live. -/
def LuaDeathRef.reset (_r : LuaDeathRef) : LuaDeathRef := .holds true

/-- Where a coroutine yielded: in script code (`coroutine.yield()`), or inside one of
the three bridge functions that call `lua_yield`. -/
inductive YieldSite where
  | script
  | body
  | bodyIterator
  | trailers
  deriving DecidableEq, Repr

/-- Modelled from the spec: a run segment of a script coroutine, from the point where
it is started or resumed to the point where it returns, raises or yields.  Each
constructor is one thing a script can do next; `k` is the continuation receiving the
values pushed by the native function, and `susp` names the suspension point at which
the coroutine waits when the native function yields instead (what the script does when
it is resumed there is given by `Script.resume`).  In a script both continuations are
the same code; they are kept apart so that one run segment is a well-founded tree while
the script as a whole may loop from one suspension point to the next, as a chunk loop
does. -/
inductive Seg (σ : Type) : Type where
  /-- The entry function returns. -/
  | ret : Seg σ
  /-- The script raises a runtime error (nil index, bad argument, `error(...)`). -/
  | error (msg : String) : Seg σ
  /-- The script itself calls `coroutine.yield()`. -/
  | yield (susp : σ) : Seg σ
  /-- Call of `handle:headers()`. -/
  | headers (k : List Value → Seg σ) : Seg σ
  /-- Call of `handle:body()`. -/
  | body (k : List Value → Seg σ) (susp : σ) : Seg σ
  /-- Call of `handle:bodyChunks()`. -/
  | bodyChunks (k : List Value → Seg σ) : Seg σ
  /-- Call of the closure returned by `bodyChunks()`. -/
  | bodyIterator (k : List Value → Seg σ) (susp : σ) : Seg σ
  /-- Call of `handle:trailers()`. -/
  | trailers (k : List Value → Seg σ) (susp : σ) : Seg σ
  /-- Call of `handle:log(level, message)`. -/
  | log (level : Int) (message : String) (k : Seg σ) : Seg σ
  /-- Call of `handle:httpCall(...)`. -/
  | httpCall (k : Seg σ) : Seg σ
  /-- Call of `w:byteSize()` on a buffer wrapper. -/
  | byteSize (w : Value) (k : Nat → Seg σ) : Seg σ
  /-- Call of `w:add(name, value)` on a header map wrapper. -/
  | headerAdd (w : Value) (name value : String) (k : Seg σ) : Seg σ
  /-- Call of `w:get(name)` on a header map wrapper. -/
  | headerGet (w : Value) (name : String) (k : Option String → Seg σ) : Seg σ
  /-- Call of `w:remove(name)` on a header map wrapper. -/
  | headerRemove (w : Value) (name : String) (k : Seg σ) : Seg σ
  /-- Call of `w:iterate(callback)`; the callback is represented by the error it
  raises, if any, on a given header. -/
  | headerIterate (w : Value) (callback : String → String → Option String) (k : Seg σ) : Seg σ

/-- Modelled from the spec: a compiled script program.  `function ref` is the Lua
function stored under registry reference `ref` (none when the reference does not
hold a function); `resume s vs` is what the script does when the coroutine suspended
at `s` is resumed with the values `vs`. -/
structure Script (σ : Type) where
  function : Int → Option (Seg σ)
  resume : σ → List Value → Seg σ

/-- Modelled from the spec: the execution state of a `Coroutine`. -/
inductive CoroutineState (σ : Type) where
  | NotStarted
  | Yielded (susp : σ)
  | Finished

/-- Modelled from the spec: `Coroutine` (common/lua/lua.h is not part of the
sources).  `resumes_` records the argument values of every start or resume. -/
structure Coroutine (σ : Type) where
  script : Script σ
  state_ : CoroutineState σ
  resumes_ : List (List Value)

/-! ## StreamHandleWrapper -/

/-- `StreamHandleWrapper::State`. -/
inductive State where
  | Running
  | WaitForBodyChunk
  | WaitForBody
  | WaitForTrailers
  deriving DecidableEq, Repr

/-- `StreamHandleWrapper` (lua_filter.h).  `headers_` and `trailers_` hold the
contents of the referenced header maps (`trailers_` is none for a null pointer).
`live_` is the liveness flag the handle has as a `BaseLuaObject`.  `chunk_` is the data
frame wrapped by the transient chunk wrapper of `onData` while that wrapper is in
scope, and `chunks_` counts the chunk wrappers created so far.  The `callbacks_`
reference is passed to each function as a `FilterCallbacks` argument. -/
structure StreamHandleWrapper (σ : Type) where
  coroutine_ : Coroutine σ
  headers_ : HeaderMap
  end_stream_ : Bool
  trailers_ : Option HeaderMap
  headers_wrapper_ : LuaDeathRef
  body_wrapper_ : LuaDeathRef
  trailers_wrapper_ : LuaDeathRef
  state_ : State
  live_ : Bool
  chunk_ : Option Buffer
  chunks_ : Nat

/-- The result of a native function called from Lua: the values it pushed (the C++
function returns their number), or `lua_yield(state, 0)`. -/
inductive LuaRet where
  | values (vs : List Value)
  | yield
  deriving DecidableEq, Repr

/-- How a native entry point ends: normally, by throwing `LuaException(what)`, or by a
failed assertion. -/
inductive Outcome (α : Type) where
  | ok (a : α)
  | luaException (what : String)
  | abort
  deriving DecidableEq, Repr

/-- Why a run segment of the coroutine stopped (the result of `lua_resume`). -/
inductive Stop (σ : Type) where
  | finished
  | yielded (susp : σ) (site : YieldSite)
  | error (msg : String)
  | abort

namespace StreamHandleWrapper

variable {σ : Type}

/-- The constructor `StreamHandleWrapper::StreamHandleWrapper`. -/
def create (coroutine : Coroutine σ) (headers : HeaderMap) (end_stream : Bool) :
    StreamHandleWrapper σ :=
  { coroutine_ := coroutine
    headers_ := headers
    end_stream_ := end_stream
    trailers_ := none
    headers_wrapper_ := .empty
    body_wrapper_ := .empty
    trailers_wrapper_ := .empty
    state_ := .Running
    live_ := true
    chunk_ := none
    chunks_ := 0 }

/-- The message thrown by `yield_callback_`. -/
def unexpectedYieldMessage : String := "script performed an unexpected yield"

/-- The lambda `yield_callback_` of the constructor: it throws when `state_` is
`Running`; the result is the thrown message, if any. -/
def yield_callback_ (h : StreamHandleWrapper σ) : Option String :=
  if h.state_ = State.Running then some unexpectedYieldMessage else none

/-- `StreamHandleWrapper::onMarkDead`. -/
def onMarkDead (h : StreamHandleWrapper σ) : StreamHandleWrapper σ :=
  { h with
    headers_wrapper_ := h.headers_wrapper_.markDead
    body_wrapper_ := h.body_wrapper_.markDead
    trailers_wrapper_ := h.trailers_wrapper_.markDead }

/-- `StreamHandleWrapper::onMarkLive`. -/
def onMarkLive (h : StreamHandleWrapper σ) : StreamHandleWrapper σ :=
  { h with
    headers_wrapper_ := h.headers_wrapper_.markLive
    body_wrapper_ := h.body_wrapper_.markLive
    trailers_wrapper_ := h.trailers_wrapper_.markLive }

/-- Modelled from the spec: `BaseLuaObject::markDead` flags the object dead and calls
`onMarkDead`. -/
def markDead (h : StreamHandleWrapper σ) : StreamHandleWrapper σ :=
  onMarkDead { h with live_ := false }

/-- Modelled from the spec: `BaseLuaObject::markLive` flags the object live and calls
`onMarkLive`. -/
def markLive (h : StreamHandleWrapper σ) : StreamHandleWrapper σ :=
  onMarkLive { h with live_ := true }

/-- `StreamHandleWrapper::luaHttpCall`: `ASSERT(false)`. -/
def luaHttpCall (_h : StreamHandleWrapper σ) :
    Option (List Value × StreamHandleWrapper σ) :=
  none

/-- `StreamHandleWrapper::luaHeaders`: it always pushes one value. -/
def luaHeaders (h : StreamHandleWrapper σ) : List Value × StreamHandleWrapper σ :=
  if h.headers_wrapper_.get then
    ([Value.headers], h)
  else
    ([Value.headers], { h with headers_wrapper_ := h.headers_wrapper_.reset })

/-- `StreamHandleWrapper::luaBody`. -/
def luaBody (h : StreamHandleWrapper σ) (cb : FilterCallbacks) :
    Option (LuaRet × StreamHandleWrapper σ) :=
  if h.state_ ≠ State.Running then none
  else if h.end_stream_ then
    match cb.bufferedBody with
    | none => some (.values [], h)
    | some _ =>
      if h.body_wrapper_.get then
        some (.values [Value.body], h)
      else
        some (.values [Value.body], { h with body_wrapper_ := h.body_wrapper_.reset })
  else
    some (.yield, { h with state_ := State.WaitForBody })

/-- `StreamHandleWrapper::luaBodyChunks`: it pushes the iterator closure. -/
def luaBodyChunks (h : StreamHandleWrapper σ) :
    Option (List Value × StreamHandleWrapper σ) :=
  if h.state_ ≠ State.Running then none
  else some ([Value.iterator], h)

/-- `StreamHandleWrapper::luaBodyIterator`. -/
def luaBodyIterator (h : StreamHandleWrapper σ) : Option (LuaRet × StreamHandleWrapper σ) :=
  if h.state_ ≠ State.Running then none
  else if h.end_stream_ then
    some (.values [], h)
  else
    some (.yield, { h with state_ := State.WaitForBodyChunk })

/-- `StreamHandleWrapper::luaTrailers`. -/
def luaTrailers (h : StreamHandleWrapper σ) : Option (LuaRet × StreamHandleWrapper σ) :=
  if h.state_ ≠ State.Running then none
  else if h.end_stream_ && h.trailers_.isNone then
    some (.values [], h)
  else if h.trailers_.isSome then
    if h.trailers_wrapper_.get then
      some (.values [Value.trailers], h)
    else
      some (.values [Value.trailers], { h with trailers_wrapper_ := h.trailers_wrapper_.reset })
  else
    some (.yield, { h with state_ := State.WaitForTrailers })

/-- `StreamHandleWrapper::luaLog`: the call `callbacks_.logger().scriptLog(level, message)`;
the function pushes no value. -/
def luaLog (cb : FilterCallbacks) (level : Int) (message : String) : FilterCallbacks :=
  cb.scriptLog level message

/-- The fixed message of the liveness check made before every exported method. -/
def deadObjectMessage : String := "object used outside of proper scope"

/-- Stand-in for the message of the interpreter when a script calls a method on a
value that is not an object of the expected type. -/
def noSuchObjectMessage : String := "attempt to call a nil value"

/-- The result of resolving a script value to the native object it wraps. -/
inductive Lookup (α : Type) where
  | missing
  | dead
  | live (a : α)
  deriving DecidableEq, Repr

/-- The buffer behind a `BufferWrapper` value: the body wrapper refers to the proxy's
buffered body, the n-th chunk wrapper to the data frame of the n-th resumed `onData`,
and is live only while that call has it in scope. -/
def bufferWrapper (h : StreamHandleWrapper σ) (cb : FilterCallbacks) (w : Value) :
    Lookup Buffer :=
  match w with
  | .body =>
    match h.body_wrapper_ with
    | .empty => .missing
    | .holds false => .dead
    | .holds true =>
      match cb.bufferedBody with
      | some b => .live b
      | none => .missing
  | .chunk n =>
    if n + 1 = h.chunks_ then
      match h.chunk_ with
      | some b => .live b
      | none => .dead
    else if n < h.chunks_ then .dead
    else .missing
  | _ => .missing

/-- The header map behind a `HeaderMapWrapper` value. -/
def headerMapWrapper (h : StreamHandleWrapper σ) (w : Value) : Lookup HeaderMap :=
  match w with
  | .headers =>
    match h.headers_wrapper_ with
    | .empty => .missing
    | .holds false => .dead
    | .holds true => .live h.headers_
  | .trailers =>
    match h.trailers_wrapper_ with
    | .empty => .missing
    | .holds false => .dead
    | .holds true =>
      match h.trailers_ with
      | some t => .live t
      | none => .missing
  | _ => .missing

/-- Write through a `HeaderMapWrapper` value to the header map it refers to. -/
def setHeaderMap (h : StreamHandleWrapper σ) (w : Value) (m : HeaderMap) :
    StreamHandleWrapper σ :=
  match w with
  | .headers => { h with headers_ := m }
  | .trailers => { h with trailers_ := some m }
  | _ => h

/-- `BufferWrapper::luaByteSize`: pushes `data_.length()`. -/
def luaByteSize (data : Buffer) : Nat := data.length

/-- Modelled from the spec: `HeaderMapWrapper::luaAdd` (its definition is not part of
the sources) appends a header. -/
def luaAdd (m : HeaderMap) (name value : String) : HeaderMap :=
  m.addCopy (LowerCaseString name) value

/-- Modelled from the spec: `HeaderMapWrapper::luaGet` (its definition is not part of
the sources) returns the first value for the name, or nil. -/
def luaGet (m : HeaderMap) (name : String) : Option String :=
  m.get (LowerCaseString name)

/-- Modelled from the spec: `HeaderMapWrapper::luaRemove` (its definition is not part
of the sources) removes all headers with the name. -/
def luaRemove (m : HeaderMap) (name : String) : HeaderMap :=
  m.remove (LowerCaseString name)

/-- Modelled from the spec: `HeaderMapWrapper::luaIterate` (its definition is not part
of the sources) calls the callback on each header in map order; the result is the
first error raised by the callback, if any. -/
def luaIterate (m : HeaderMap) (callback : String → String → Option String) :
    Option String :=
  m.entries.findSome? (fun e => callback e.1 e.2)

/-- Modelled from the spec: one run segment of the coroutine (`lua_resume`): the
script's calls are executed against the handle until the script returns, raises or
yields.  Every exported method first checks the liveness of the object it is called
on and raises `deadObjectMessage` on a dead one. -/
def run : Seg σ → StreamHandleWrapper σ → FilterCallbacks →
    Stop σ × StreamHandleWrapper σ × FilterCallbacks
  | .ret, h, cb => (.finished, h, cb)
  | .error msg, h, cb => (.error msg, h, cb)
  | .yield susp, h, cb => (.yielded susp .script, h, cb)
  | .headers k, h, cb =>
    if h.live_ then run (k (luaHeaders h).1) (luaHeaders h).2 cb
    else (.error deadObjectMessage, h, cb)
  | .body k susp, h, cb =>
    if h.live_ then
      match luaBody h cb with
      | some (.values vs, h1) => run (k vs) h1 cb
      | some (.yield, h1) => (.yielded susp .body, h1, cb)
      | none => (.abort, h, cb)
    else (.error deadObjectMessage, h, cb)
  | .bodyChunks k, h, cb =>
    if h.live_ then
      match luaBodyChunks h with
      | some (vs, h1) => run (k vs) h1 cb
      | none => (.abort, h, cb)
    else (.error deadObjectMessage, h, cb)
  | .bodyIterator k susp, h, cb =>
    if h.live_ then
      match luaBodyIterator h with
      | some (.values vs, h1) => run (k vs) h1 cb
      | some (.yield, h1) => (.yielded susp .bodyIterator, h1, cb)
      | none => (.abort, h, cb)
    else (.error deadObjectMessage, h, cb)
  | .trailers k susp, h, cb =>
    if h.live_ then
      match luaTrailers h with
      | some (.values vs, h1) => run (k vs) h1 cb
      | some (.yield, h1) => (.yielded susp .trailers, h1, cb)
      | none => (.abort, h, cb)
    else (.error deadObjectMessage, h, cb)
  | .log level message k, h, cb =>
    if h.live_ then run k h (luaLog cb level message)
    else (.error deadObjectMessage, h, cb)
  | .httpCall k, h, cb =>
    if h.live_ then
      match luaHttpCall h with
      | some (_, h1) => run k h1 cb
      | none => (.abort, h, cb)
    else (.error deadObjectMessage, h, cb)
  | .byteSize w k, h, cb =>
    match bufferWrapper h cb w with
    | .missing => (.error noSuchObjectMessage, h, cb)
    | .dead => (.error deadObjectMessage, h, cb)
    | .live data => run (k (luaByteSize data)) h cb
  | .headerAdd w name value k, h, cb =>
    match headerMapWrapper h w with
    | .missing => (.error noSuchObjectMessage, h, cb)
    | .dead => (.error deadObjectMessage, h, cb)
    | .live m => run k (setHeaderMap h w (luaAdd m name value)) cb
  | .headerGet w name k, h, cb =>
    match headerMapWrapper h w with
    | .missing => (.error noSuchObjectMessage, h, cb)
    | .dead => (.error deadObjectMessage, h, cb)
    | .live m => run (k (luaGet m name)) h cb
  | .headerRemove w name k, h, cb =>
    match headerMapWrapper h w with
    | .missing => (.error noSuchObjectMessage, h, cb)
    | .dead => (.error deadObjectMessage, h, cb)
    | .live m => run k (setHeaderMap h w (luaRemove m name)) cb
  | .headerIterate w callback k, h, cb =>
    match headerMapWrapper h w with
    | .missing => (.error noSuchObjectMessage, h, cb)
    | .dead => (.error deadObjectMessage, h, cb)
    | .live m =>
      match luaIterate m callback with
      | some msg => (.error msg, h, cb)
      | none => run k h cb

/-- The result of one script action: the script goes on with `seg`, or the run
segment stops. -/
inductive Next (σ : Type) where
  | more (seg : Seg σ) (h : StreamHandleWrapper σ) (cb : FilterCallbacks)
  | stop (s : Stop σ) (h : StreamHandleWrapper σ) (cb : FilterCallbacks)

/-- One action of `run`: the first call of the segment is executed against the
handle. -/
def step : Seg σ → StreamHandleWrapper σ → FilterCallbacks → Next σ
  | .ret, h, cb => .stop .finished h cb
  | .error msg, h, cb => .stop (.error msg) h cb
  | .yield susp, h, cb => .stop (.yielded susp .script) h cb
  | .headers k, h, cb =>
    if h.live_ then .more (k (luaHeaders h).1) (luaHeaders h).2 cb
    else .stop (.error deadObjectMessage) h cb
  | .body k susp, h, cb =>
    if h.live_ then
      match luaBody h cb with
      | some (.values vs, h1) => .more (k vs) h1 cb
      | some (.yield, h1) => .stop (.yielded susp .body) h1 cb
      | none => .stop .abort h cb
    else .stop (.error deadObjectMessage) h cb
  | .bodyChunks k, h, cb =>
    if h.live_ then
      match luaBodyChunks h with
      | some (vs, h1) => .more (k vs) h1 cb
      | none => .stop .abort h cb
    else .stop (.error deadObjectMessage) h cb
  | .bodyIterator k susp, h, cb =>
    if h.live_ then
      match luaBodyIterator h with
      | some (.values vs, h1) => .more (k vs) h1 cb
      | some (.yield, h1) => .stop (.yielded susp .bodyIterator) h1 cb
      | none => .stop .abort h cb
    else .stop (.error deadObjectMessage) h cb
  | .trailers k susp, h, cb =>
    if h.live_ then
      match luaTrailers h with
      | some (.values vs, h1) => .more (k vs) h1 cb
      | some (.yield, h1) => .stop (.yielded susp .trailers) h1 cb
      | none => .stop .abort h cb
    else .stop (.error deadObjectMessage) h cb
  | .log level message k, h, cb =>
    if h.live_ then .more k h (luaLog cb level message)
    else .stop (.error deadObjectMessage) h cb
  | .httpCall k, h, cb =>
    if h.live_ then
      match luaHttpCall h with
      | some (_, h1) => .more k h1 cb
      | none => .stop .abort h cb
    else .stop (.error deadObjectMessage) h cb
  | .byteSize w k, h, cb =>
    match bufferWrapper h cb w with
    | .missing => .stop (.error noSuchObjectMessage) h cb
    | .dead => .stop (.error deadObjectMessage) h cb
    | .live data => .more (k (luaByteSize data)) h cb
  | .headerAdd w name value k, h, cb =>
    match headerMapWrapper h w with
    | .missing => .stop (.error noSuchObjectMessage) h cb
    | .dead => .stop (.error deadObjectMessage) h cb
    | .live m => .more k (setHeaderMap h w (luaAdd m name value)) cb
  | .headerGet w name k, h, cb =>
    match headerMapWrapper h w with
    | .missing => .stop (.error noSuchObjectMessage) h cb
    | .dead => .stop (.error deadObjectMessage) h cb
    | .live m => .more (k (luaGet m name)) h cb
  | .headerRemove w name k, h, cb =>
    match headerMapWrapper h w with
    | .missing => .stop (.error noSuchObjectMessage) h cb
    | .dead => .stop (.error deadObjectMessage) h cb
    | .live m => .more k (setHeaderMap h w (luaRemove m name)) cb
  | .headerIterate w callback k, h, cb =>
    match headerMapWrapper h w with
    | .missing => .stop (.error noSuchObjectMessage) h cb
    | .dead => .stop (.error deadObjectMessage) h cb
    | .live m =>
      match luaIterate m callback with
      | some msg => .stop (.error msg) h cb
      | none => .more k h cb

/-- The configurations a run segment passes through: `Visits seg h cb seg' h' cb'`
holds when the script started as `seg` on `(h, cb)` reaches, after some of its
actions, the point where it is about to do `seg'` on `(h', cb')`. -/
inductive Visits : Seg σ → StreamHandleWrapper σ → FilterCallbacks →
    Seg σ → StreamHandleWrapper σ → FilterCallbacks → Prop where
  | here (seg : Seg σ) (h : StreamHandleWrapper σ) (cb : FilterCallbacks) :
    Visits seg h cb seg h cb
  | later {seg seg1 seg2 : Seg σ} {h h1 h2 : StreamHandleWrapper σ}
    {cb cb1 cb2 : FilterCallbacks} :
    step seg h cb = .more seg1 h1 cb1 → Visits seg1 h1 cb1 seg2 h2 cb2 →
    Visits seg h cb seg2 h2 cb2

/-- Update of the execution state of the handle's coroutine. -/
def setCoroutineState (h : StreamHandleWrapper σ) (s : CoroutineState σ) :
    StreamHandleWrapper σ :=
  { h with coroutine_ := { h.coroutine_ with state_ := s } }

/-- Record that the coroutine is started or resumed with the values `vs`. -/
def noteResume (h : StreamHandleWrapper σ) (vs : List Value) : StreamHandleWrapper σ :=
  { h with coroutine_ := { h.coroutine_ with resumes_ := h.coroutine_.resumes_ ++ [vs] } }

/-- Modelled from the spec: what `Coroutine::resume` does once `lua_resume` has
returned.  A finished script leaves the coroutine finished; a yield invokes the yield
callback, which may throw; a script error is rethrown as `LuaException`. -/
def afterRun (r : Stop σ × StreamHandleWrapper σ × FilterCallbacks) :
    Outcome Unit × StreamHandleWrapper σ × FilterCallbacks :=
  match r with
  | (.finished, h, cb) => (.ok (), setCoroutineState h .Finished, cb)
  | (.yielded susp _, h, cb) =>
    match yield_callback_ (setCoroutineState h (.Yielded susp)) with
    | some what => (.luaException what, setCoroutineState h (.Yielded susp), cb)
    | none => (.ok (), setCoroutineState h (.Yielded susp), cb)
  | (.error msg, h, cb) => (.luaException msg, setCoroutineState h .Finished, cb)
  | (.abort, h, cb) => (.abort, h, cb)

/-- Modelled from the spec: `coroutine_->start(function_ref, 1, yield_callback_)`: the
function under `function_ref` is run with the handle as its single argument. -/
def coroutineStart (h : StreamHandleWrapper σ) (cb : FilterCallbacks) (function_ref : Int) :
    Outcome Unit × StreamHandleWrapper σ × FilterCallbacks :=
  match h.coroutine_.state_, h.coroutine_.script.function function_ref with
  | .NotStarted, some seg => afterRun (run seg (noteResume h [Value.handle]) cb)
  | _, _ => (.abort, h, cb)

/-- Modelled from the spec: `coroutine_->resume(n, yield_callback_)`: the suspended
coroutine continues with the `n` values `vs` on top of its stack. -/
def coroutineResume (h : StreamHandleWrapper σ) (cb : FilterCallbacks) (vs : List Value) :
    Outcome Unit × StreamHandleWrapper σ × FilterCallbacks :=
  match h.coroutine_.state_ with
  | .Yielded susp => afterRun (run (h.coroutine_.script.resume susp vs) (noteResume h vs) cb)
  | _ => (.abort, h, cb)

/-- `StreamHandleWrapper::start`. -/
def start (h : StreamHandleWrapper σ) (cb : FilterCallbacks) (function_ref : Int) :
    Outcome FilterHeadersStatus × StreamHandleWrapper σ × FilterCallbacks :=
  match coroutineStart h cb function_ref with
  | (.ok _, h1, cb1) =>
    (.ok (if h1.state_ = State.WaitForBody then FilterHeadersStatus.StopIteration
          else FilterHeadersStatus.Continue), h1, cb1)
  | (.luaException what, h1, cb1) => (.luaException what, h1, cb1)
  | (.abort, h1, cb1) => (.abort, h1, cb1)

/-- The tail of `onData` after a resume: unless the resume threw, the function returns
`Continue`. -/
def dataReturn (r : Outcome Unit × StreamHandleWrapper σ × FilterCallbacks) :
    Outcome FilterDataStatus × StreamHandleWrapper σ × FilterCallbacks :=
  match r with
  | (.ok _, h, cb) => (.ok FilterDataStatus.Continue, h, cb)
  | (.luaException what, h, cb) => (.luaException what, h, cb)
  | (.abort, h, cb) => (.abort, h, cb)

/-- The tail of the `WaitForBodyChunk` branch of `onData` after the resume: the local
chunk wrapper goes out of scope, also when the resume threw; unless it threw, the
function returns `Continue`. -/
def chunkReturn (r : Outcome Unit × StreamHandleWrapper σ × FilterCallbacks) :
    Outcome FilterDataStatus × StreamHandleWrapper σ × FilterCallbacks :=
  match r with
  | (.ok _, h, cb) => (.ok FilterDataStatus.Continue, { h with chunk_ := none }, cb)
  | (.luaException what, h, cb) => (.luaException what, { h with chunk_ := none }, cb)
  | (.abort, h, cb) => (.abort, h, cb)

/-- `StreamHandleWrapper::onData`.  A resume with the result of `luaBody` is only
defined when `luaBody` pushed values. -/
def onData (h : StreamHandleWrapper σ) (cb : FilterCallbacks) (data : Buffer)
    (end_stream : Bool) :
    Outcome FilterDataStatus × StreamHandleWrapper σ × FilterCallbacks :=
  if h.end_stream_ then (.abort, h, cb)
  else
    let h1 := { h with end_stream_ := end_stream }
    if h1.state_ = State.WaitForBodyChunk then
      let h2 := { h1 with chunk_ := some data, chunks_ := h1.chunks_ + 1 }
      chunkReturn (coroutineResume { h2 with state_ := State.Running } cb
        [Value.chunk h1.chunks_])
    else if h1.state_ = State.WaitForBody && h1.end_stream_ then
      let cb1 := cb.addData data
      let h2 := { h1 with state_ := State.Running }
      match luaBody h2 cb1 with
      | some (.values vs, h3) => dataReturn (coroutineResume h3 cb1 vs)
      | _ => (.abort, h2, cb1)
    else if h1.state_ = State.WaitForBody && !h1.end_stream_ then
      (.ok FilterDataStatus.StopIterationAndBuffer, h1, cb)
    else if h1.state_ = State.WaitForTrailers && h1.end_stream_ then
      dataReturn (coroutineResume { h1 with state_ := State.Running } cb [])
    else
      (.ok FilterDataStatus.Continue, h1, cb)

/-- The first conditional of `StreamHandleWrapper::onTrailers`, entered after
`end_stream_` and `trailers_` have been set. -/
def onTrailersBody (h : StreamHandleWrapper σ) (cb : FilterCallbacks) :
    Outcome Unit × StreamHandleWrapper σ × FilterCallbacks :=
  if h.state_ = State.WaitForBodyChunk then
    coroutineResume { h with state_ := State.Running } cb []
  else if h.state_ = State.WaitForBody then
    match luaBody { h with state_ := State.Running } cb with
    | some (.values vs, h1) => coroutineResume h1 cb vs
    | _ => (.abort, { h with state_ := State.Running }, cb)
  else (.ok (), h, cb)

/-- The second conditional of `StreamHandleWrapper::onTrailers`. -/
def onTrailersTrailers (h : StreamHandleWrapper σ) (cb : FilterCallbacks) :
    Outcome Unit × StreamHandleWrapper σ × FilterCallbacks :=
  if h.state_ = State.WaitForTrailers then
    match luaTrailers { h with state_ := State.Running } with
    | some (.values vs, h1) => coroutineResume h1 cb vs
    | _ => (.abort, { h with state_ := State.Running }, cb)
  else (.ok (), h, cb)

/-- `StreamHandleWrapper::onTrailers`. -/
def onTrailers (h : StreamHandleWrapper σ) (cb : FilterCallbacks) (trailers : HeaderMap) :
    Outcome Unit × StreamHandleWrapper σ × FilterCallbacks :=
  if h.end_stream_ then (.abort, h, cb)
  else
    match onTrailersBody { h with end_stream_ := true, trailers_ := some trailers } cb with
    | (.ok _, h1, cb1) => onTrailersTrailers h1 cb1
    | (.luaException what, h1, cb1) => (.luaException what, h1, cb1)
    | (.abort, h1, cb1) => (.abort, h1, cb1)

/-- The part of a handle that no script action changes: the coroutine, the end of
stream flag, the liveness of the handle, the transient chunk, and whether trailers
have been recorded. -/
def Frame (h h1 : StreamHandleWrapper σ) : Prop :=
  h1.coroutine_ = h.coroutine_ ∧ h1.end_stream_ = h.end_stream_ ∧
  h1.live_ = h.live_ ∧ h1.chunk_ = h.chunk_ ∧ h1.chunks_ = h.chunks_ ∧
  h1.trailers_.isSome = h.trailers_.isSome

/-- The value of `state_` at the moment a run segment started in state `s0` stops:
the three yielding bridge functions set it before they yield, nothing else changes
it. -/
def stateAfter (s0 : State) : Stop σ → State
  | .yielded _ .body => State.WaitForBody
  | .yielded _ .bodyIterator => State.WaitForBodyChunk
  | .yielded _ .trailers => State.WaitForTrailers
  | _ => s0

end StreamHandleWrapper

/-! ## The filter -/

/-- The sentinel reference `LUA_REFNIL` of the Lua auxiliary library. -/
def LUA_REFNIL : Int := -1

/-- `FilterConfig`: the script program and the registry references of the two entry
points, `LUA_REFNIL` for an entry point the script does not define. -/
structure FilterConfig (σ : Type) where
  lua_state_ : Script σ
  requestFunctionRef : Int
  responseFunctionRef : Int

/-- `FilterConfig::createCoroutine`: a new coroutine of the program. -/
def FilterConfig.createCoroutine {σ : Type} (c : FilterConfig σ) : Coroutine σ :=
  { script := c.lua_state_, state_ := .NotStarted, resumes_ := [] }

/-- The two pipeline directions of a stream filter. -/
inductive Direction where
  | request
  | response
  deriving DecidableEq, Repr

/-- `Filter` (lua_filter.h).  `log_` is the list of `scriptLog` calls the filter
received as the `ScriptLogger`; the two callback members hold the proxy side of each
direction; an empty `StreamHandleRef` is none. -/
structure Filter (σ : Type) where
  config_ : FilterConfig σ
  log_ : List (Int × String)
  decoder_callbacks_ : StreamFilterCallbacks
  encoder_callbacks_ : StreamFilterCallbacks
  request_stream_wrapper_ : Option (StreamHandleWrapper σ)
  response_stream_wrapper_ : Option (StreamHandleWrapper σ)

namespace Filter

variable {σ : Type}

/-- A filter as constructed by `Filter(config)`, attached to proxy callbacks that
have nothing buffered. -/
def create (config : FilterConfig σ) : Filter σ :=
  { config_ := config
    log_ := []
    decoder_callbacks_ := { buffer_ := none, added_ := [] }
    encoder_callbacks_ := { buffer_ := none, added_ := [] }
    request_stream_wrapper_ := none
    response_stream_wrapper_ := none }

/-- The stream handle reference of a direction. -/
def handle (f : Filter σ) (d : Direction) : Option (StreamHandleWrapper σ) :=
  match d with
  | .request => f.request_stream_wrapper_
  | .response => f.response_stream_wrapper_

/-- Assignment to the stream handle reference of a direction. -/
def setHandle (f : Filter σ) (d : Direction) (h : Option (StreamHandleWrapper σ)) :
    Filter σ :=
  match d with
  | .request => { f with request_stream_wrapper_ := h }
  | .response => { f with response_stream_wrapper_ := h }

/-- The proxy side of a direction. -/
def streamCallbacks (f : Filter σ) (d : Direction) : StreamFilterCallbacks :=
  match d with
  | .request => f.decoder_callbacks_
  | .response => f.encoder_callbacks_

/-- What `decoder_callbacks_` / `encoder_callbacks_` give access to: the filter as the
logger and the proxy side of the direction. -/
def callbacks (f : Filter σ) (d : Direction) : FilterCallbacks :=
  { logger := f.log_, callbacks_ := f.streamCallbacks d }

/-- The filter after a handle function has acted through the callbacks of a
direction. -/
def withCallbacks (f : Filter σ) (d : Direction) (cb : FilterCallbacks) : Filter σ :=
  match d with
  | .request => { f with log_ := cb.logger, decoder_callbacks_ := cb.callbacks_ }
  | .response => { f with log_ := cb.logger, encoder_callbacks_ := cb.callbacks_ }

/-- `Filter::scriptLog`: every level is logged the same way; the call is recorded. -/
def scriptLog (f : Filter σ) (level : Int) (message : String) : Filter σ :=
  { f with log_ := f.log_ ++ [(level, message)] }

/-- `Filter::handleScriptError`. -/
def handleScriptError (f : Filter σ) (what : String) : Filter σ :=
  { scriptLog f 2 what with
    request_stream_wrapper_ := none
    response_stream_wrapper_ := none }

/-- The `try` / `catch` of `doHeaders` around `start`: a normal return marks the handle
dead and passes the status on, a `LuaException` goes to `handleScriptError` and the
filter returns `Continue`; a failed assertion gives none. -/
def headersResult (f : Filter σ) (d : Direction)
    (r : Outcome FilterHeadersStatus × StreamHandleWrapper σ × FilterCallbacks) :
    Option (FilterHeadersStatus × Filter σ) :=
  match r with
  | (.ok status, h1, cb1) =>
    some (status, (f.withCallbacks d cb1).setHandle d (some h1.markDead))
  | (.luaException what, h1, cb1) =>
    some (FilterHeadersStatus.Continue,
      ((f.withCallbacks d cb1).setHandle d (some h1)).handleScriptError what)
  | (.abort, _, _) => none

/-- `Filter::doHeaders`; the result is none when an assertion aborts. -/
def doHeaders (f : Filter σ) (d : Direction) (function_ref : Int) (headers : HeaderMap)
    (end_stream : Bool) : Option (FilterHeadersStatus × Filter σ) :=
  if function_ref = LUA_REFNIL then some (FilterHeadersStatus.Continue, f)
  else
    let coroutine := f.config_.createCoroutine
    let handle := StreamHandleWrapper.create coroutine headers end_stream
    f.headersResult d (StreamHandleWrapper.start handle (f.callbacks d) function_ref)

/-- The `try` / `catch` of `doData` around `onData`. -/
def dataResult (f : Filter σ) (d : Direction)
    (r : Outcome FilterDataStatus × StreamHandleWrapper σ × FilterCallbacks) :
    Option (FilterDataStatus × Filter σ) :=
  match r with
  | (.ok status, h1, cb1) =>
    some (status, (f.withCallbacks d cb1).setHandle d (some h1.markDead))
  | (.luaException what, h1, cb1) =>
    some (FilterDataStatus.Continue,
      ((f.withCallbacks d cb1).setHandle d (some h1)).handleScriptError what)
  | (.abort, _, _) => none

/-- `Filter::doData`; the result is none when an assertion aborts. -/
def doData (f : Filter σ) (d : Direction) (data : Buffer) (end_stream : Bool) :
    Option (FilterDataStatus × Filter σ) :=
  match f.handle d with
  | some handle =>
    f.dataResult d
      (StreamHandleWrapper.onData handle.markLive (f.callbacks d) data end_stream)
  | none => some (FilterDataStatus.Continue, f)

/-- The `try` / `catch` of `doTrailers` around `onTrailers`. -/
def trailersResult (f : Filter σ) (d : Direction)
    (r : Outcome Unit × StreamHandleWrapper σ × FilterCallbacks) :
    Option (FilterTrailersStatus × Filter σ) :=
  match r with
  | (.ok _, h1, cb1) =>
    some (FilterTrailersStatus.Continue,
      (f.withCallbacks d cb1).setHandle d (some h1.markDead))
  | (.luaException what, h1, cb1) =>
    some (FilterTrailersStatus.Continue,
      ((f.withCallbacks d cb1).setHandle d (some h1)).handleScriptError what)
  | (.abort, _, _) => none

/-- `Filter::doTrailers`; the result is none when an assertion aborts. -/
def doTrailers (f : Filter σ) (d : Direction) (trailers : HeaderMap) :
    Option (FilterTrailersStatus × Filter σ) :=
  match f.handle d with
  | some handle =>
    f.trailersResult d
      (StreamHandleWrapper.onTrailers handle.markLive (f.callbacks d) trailers)
  | none => some (FilterTrailersStatus.Continue, f)

/-- `Filter::decodeHeaders`. -/
def decodeHeaders (f : Filter σ) (headers : HeaderMap) (end_stream : Bool) :
    Option (FilterHeadersStatus × Filter σ) :=
  f.doHeaders .request f.config_.requestFunctionRef headers end_stream

/-- `Filter::decodeData`. -/
def decodeData (f : Filter σ) (data : Buffer) (end_stream : Bool) :
    Option (FilterDataStatus × Filter σ) :=
  f.doData .request data end_stream

/-- `Filter::decodeTrailers`. -/
def decodeTrailers (f : Filter σ) (trailers : HeaderMap) :
    Option (FilterTrailersStatus × Filter σ) :=
  f.doTrailers .request trailers

/-- `Filter::encodeHeaders`. -/
def encodeHeaders (f : Filter σ) (headers : HeaderMap) (end_stream : Bool) :
    Option (FilterHeadersStatus × Filter σ) :=
  f.doHeaders .response f.config_.responseFunctionRef headers end_stream

/-- `Filter::encodeData`. -/
def encodeData (f : Filter σ) (data : Buffer) (end_stream : Bool) :
    Option (FilterDataStatus × Filter σ) :=
  f.doData .response data end_stream

/-- `Filter::encodeTrailers`. -/
def encodeTrailers (f : Filter σ) (trailers : HeaderMap) :
    Option (FilterTrailersStatus × Filter σ) :=
  f.doTrailers .response trailers

/-- Modelled from the spec: the proxy appends a frame to the buffered body of the
direction when the filter answered the frame with `StopIterationAndBuffer`. -/
def bufferFrame (f : Filter σ) (d : Direction) (data : Buffer) : Filter σ :=
  match d with
  | .request =>
    { f with decoder_callbacks_ :=
        { f.decoder_callbacks_ with
          buffer_ := some (f.decoder_callbacks_.buffer_.getD [] ++ data) } }
  | .response =>
    { f with encoder_callbacks_ :=
        { f.encoder_callbacks_ with
          buffer_ := some (f.encoder_callbacks_.buffer_.getD [] ++ data) } }

/-- Modelled from the spec: the proxy delivers one data frame to the filter and buffers
it when told to. -/
def deliverData (f : Filter σ) (d : Direction) (data : Buffer) (end_stream : Bool) :
    Option (FilterDataStatus × Filter σ) :=
  match f.doData d data end_stream with
  | some (.StopIterationAndBuffer, f1) =>
    some (FilterDataStatus.StopIterationAndBuffer, f1.bufferFrame d data)
  | some (.Continue, f1) => some (FilterDataStatus.Continue, f1)
  | none => none

/-- Modelled from the spec: the proxy delivers data frames in order, none of them ending
the stream; the result lists the status returned for each frame. -/
def deliverFrames (f : Filter σ) (d : Direction) :
    List Buffer → Option (List FilterDataStatus × Filter σ)
  | [] => some ([], f)
  | data :: rest =>
    match f.deliverData d data false with
    | some (status, f1) =>
      match deliverFrames f1 d rest with
      | some (statuses, f2) => some (status :: statuses, f2)
      | none => none
    | none => none

/-- The handle of direction `d` is suspended: it is in the waiting state `st` with
`end_stream_` false, its coroutine, which runs the program of the filter configuration,
has yielded at `susp`, the proxy's buffered body of the direction is `buf` and the
filter's log is `log`. -/
def Suspended (f : Filter σ) (d : Direction) (st : State) (susp : σ) (buf : Option Buffer)
    (log : List (Int × String)) : Prop :=
  ∃ h, f.handle d = some h ∧ h.state_ = st ∧ h.end_stream_ = false ∧
    h.coroutine_.state_ = CoroutineState.Yielded susp ∧
    h.coroutine_.script = f.config_.lua_state_ ∧
    (f.streamCallbacks d).buffer_ = buf ∧ f.log_ = log

end Filter

/-! ## Scripts

The scripts of `test/common/http/filter/lua/lua_filter_test.cc`, written as run
segments.  Suspension points are numbered. -/

namespace Scripts

/-- The registry reference under which the example programs keep `envoy_on_request`. -/
def requestRef : Int := 1

/-- The statement `handle:log(0, handle:headers():get(":path"))`, followed by `k`. -/
def logPath (k : Seg Nat) : Seg Nat :=
  Seg.headers (fun vs =>
    match vs with
    | w :: _ =>
      Seg.headerGet w ":path" (fun p =>
        match p with
        | some v => Seg.log 0 v k
        | none => Seg.error "bad argument #2 to log (string expected, got nil)")
    | [] => Seg.error "attempt to index a nil value")

/-- The statement `handle:log(0, w:byteSize())` on the first of the values `vs`,
followed by `k`. -/
def logByteSize (vs : List Value) (k : Seg Nat) : Seg Nat :=
  match vs with
  | w :: _ => Seg.byteSize w (fun n => Seg.log 0 (toString n) k)
  | [] => Seg.error "attempt to index a nil value"

/-- The statement `handle:log(0, w:get("foo"))` on the first of the values `vs`,
followed by `k`. -/
def logFoo (vs : List Value) (k : Seg Nat) : Seg Nat :=
  match vs with
  | w :: _ =>
    Seg.headerGet w "foo" (fun p =>
      match p with
      | some v => Seg.log 0 v k
      | none => Seg.error "bad argument #2 to log (string expected, got nil)")
  | [] => Seg.error "attempt to index a nil value"

/-- The branch `if handle:trailers() ~= nil then log(0, handle:trailers():get("foo"))
else log(0, "no trailers") end`, entered with the result `vs` of the first call; the
second call suspends at `s`. -/
def trailersBranch (s : Nat) (vs : List Value) : Seg Nat :=
  match vs with
  | [] => Seg.log 0 "no trailers" Seg.ret
  | _ :: _ => Seg.trailers (fun ws => logFoo ws Seg.ret) s

/-- The branch `if handle:body() ~= nil then log(0, handle:body():byteSize()) else
log(0, "no body") end` followed by `k`, entered with the result `vs` of the first
call; the second call suspends at `s`. -/
def bodyBranch (s : Nat) (k : Seg Nat) (vs : List Value) : Seg Nat :=
  match vs with
  | [] => Seg.log 0 "no body" k
  | _ :: _ => Seg.body (fun ws => logByteSize ws k) s

/-- The function `envoy_on_request` of `BODY_SCRIPT`. -/
def bodyEntry : Seg Nat := logPath (Seg.body (bodyBranch 1 Seg.ret) 0)

/-- The program `BODY_SCRIPT`. -/
def bodyScript : Script Nat :=
  { function := fun ref => if ref = requestRef then some bodyEntry else none
    resume := fun s vs =>
      match s with
      | 0 => bodyBranch 1 Seg.ret vs
      | _ => logByteSize vs Seg.ret }

/-- The program `TRAILERS_NO_BODY_SCRIPT`. -/
def trailersNoBodyScript : Script Nat :=
  { function := fun ref =>
      if ref = requestRef then some (logPath (Seg.trailers (trailersBranch 1) 0)) else none
    resume := fun s vs =>
      match s with
      | 0 => trailersBranch 1 vs
      | _ => logFoo vs Seg.ret }

/-- The program `BODY_TRAILERS_SCRIPT`. -/
def bodyTrailersScript : Script Nat :=
  { function := fun ref =>
      if ref = requestRef then
        some (logPath (Seg.body (bodyBranch 1 (Seg.trailers (trailersBranch 3) 2)) 0))
      else none
    resume := fun s vs =>
      match s with
      | 0 => bodyBranch 1 (Seg.trailers (trailersBranch 3) 2) vs
      | 1 => logByteSize vs (Seg.trailers (trailersBranch 3) 2)
      | 2 => trailersBranch 3 vs
      | _ => logFoo vs Seg.ret }

/-- The head of the loop `for chunk in handle:bodyChunks() do ... end`: the call of
the iterator.  When it returns at once it returns nil and the script goes on with
`after`; otherwise the coroutine waits at `s0`. -/
def chunkLoopHead {σ : Type} (after : Seg σ) (s0 : σ) : Seg σ :=
  Seg.bodyIterator (fun _ => after) s0

/-- What the loop `for chunk in handle:bodyChunks() do handle:log(0, chunk:byteSize())
end` does when the iterator call suspended at `s0` returns `vs`: on nil the
loop ends and the script goes on with `after`, on a chunk the body logs its size and
the iterator is called again. -/
def chunkLoopResume {σ : Type} (after : Seg σ) (s0 : σ) (vs : List Value) : Seg σ :=
  match vs with
  | [] => after
  | chunk :: _ =>
    Seg.byteSize chunk (fun n => Seg.log 0 (toString n) (chunkLoopHead after s0))

/-- The program `BODY_CHUNK_SCRIPT`. -/
def bodyChunkScript : Script Nat :=
  { function := fun ref =>
      if ref = requestRef then
        some (logPath (Seg.bodyChunks (fun _ =>
          chunkLoopHead (Seg.log 0 "done" Seg.ret) 0)))
      else none
    resume := fun _ vs => chunkLoopResume (Seg.log 0 "done" Seg.ret) 0 vs }

/-- A program that takes one body chunk from the iterator and then asks for the whole
body:
`local next = handle:bodyChunks(); local chunk = next();`
`handle:log(0, handle:body():byteSize())`. -/
def chunkThenBodyScript : Script Nat :=
  { function := fun ref =>
      if ref = requestRef then
        some (Seg.bodyChunks (fun _ =>
          Seg.bodyIterator (fun _ => Seg.body (fun ws => logByteSize ws Seg.ret) 1) 0))
      else none
    resume := fun s vs =>
      match s with
      | 0 => Seg.body (fun ws => logByteSize ws Seg.ret) 1
      | _ => logByteSize vs Seg.ret }

/-- The filter configuration of a program that defines `envoy_on_request` only. -/
def config (script : Script Nat) : FilterConfig Nat :=
  { lua_state_ := script, requestFunctionRef := requestRef, responseFunctionRef := LUA_REFNIL }

/-- The request headers of the unit tests. -/
def requestHeaders : HeaderMap := { entries := [(":path", "/")] }

/-- The request trailers of the unit tests. -/
def requestTrailers : HeaderMap := { entries := [("foo", "bar")] }

/-- The data frame `hello`. -/
def hello : Buffer := [104, 101, 108, 108, 111]

/-- The data frame `world`. -/
def world : Buffer := [119, 111, 114, 108, 100]

/-- Callbacks with an empty log and nothing buffered. -/
def emptyCallbacks : FilterCallbacks :=
  { logger := [], callbacks_ := { buffer_ := none, added_ := [] } }

/-- The stream handle of a request with a body, as `doHeaders` creates it. -/
def newHandle (script : Script Nat) : StreamHandleWrapper Nat :=
  StreamHandleWrapper.create (config script).createCoroutine requestHeaders false

/-- The stream handle of a headers-only request, as `doHeaders` creates it. -/
def headersOnlyHandle (script : Script Nat) : StreamHandleWrapper Nat :=
  StreamHandleWrapper.create (config script).createCoroutine requestHeaders true

/-- Callbacks with an empty log and the frame `hello` buffered by the proxy. -/
def bufferedCallbacks : FilterCallbacks :=
  { logger := [], callbacks_ := { buffer_ := some hello, added_ := [] } }

/-- The stream handle of `script` after `start` on a request with a body. -/
def started (script : Script Nat) : StreamHandleWrapper Nat :=
  (StreamHandleWrapper.start (newHandle script) emptyCallbacks requestRef).2.1

/-- The filter running `script` after the headers event of a request with a body. -/
def afterHeaders (script : Script Nat) : Filter Nat :=
  match (Filter.create (config script)).decodeHeaders requestHeaders false with
  | some r => r.2
  | none => Filter.create (config script)

/-- The headers event of a request with a body on a filter running
`chunkThenBodyScript`. -/
def chunkThenBodyHeaders : Option (FilterHeadersStatus × Filter Nat) :=
  (Filter.create (config chunkThenBodyScript)).decodeHeaders requestHeaders false

/-- The data event that follows: the frame `hello`, not ending the stream. -/
def chunkThenBodyData : Option (FilterDataStatus × Filter Nat) :=
  chunkThenBodyHeaders.bind (fun r => r.2.deliverData Direction.request hello false)

/-- The last data event: the frame `world`, ending the stream. -/
def chunkThenBodyLast : Option (FilterDataStatus × Filter Nat) :=
  chunkThenBodyData.bind (fun r => r.2.deliverData Direction.request world true)

end Scripts

/-! ## Pipeline events and call sequences -/

/-- A pipeline event that follows the headers of a direction: a data frame or the
trailers. -/
inductive Event where
  | data (data : Buffer) (end_stream : Bool)
  | trailers (trailers : HeaderMap)
  deriving DecidableEq, Repr

/-- The event is the last one of its direction. -/
def Event.endsStream : Event → Bool
  | .data _ end_stream => end_stream
  | .trailers _ => true

/-- Modelled from the spec: the proxy delivers the events of a direction in order and
delivers nothing after the event that ends the stream. -/
def Event.wellFormed : List Event → Bool
  | [] => true
  | [_] => true
  | e :: rest => !e.endsStream && Event.wellFormed rest

namespace Filter

variable {σ : Type}

/-- Modelled from the spec: the proxy delivers one event to a direction of the filter;
the result says whether the filter answered `Continue`. -/
def deliver (f : Filter σ) (d : Direction) : Event → Option (Bool × Filter σ)
  | .data data end_stream =>
    match f.deliverData d data end_stream with
    | some (status, f1) => some (decide (status = FilterDataStatus.Continue), f1)
    | none => none
  | .trailers trailers =>
    match f.doTrailers d trailers with
    | some (status, f1) => some (decide (status = FilterTrailersStatus.Continue), f1)
    | none => none

/-- Modelled from the spec: the proxy delivers events, each to its direction, in order;
the result lists for each event whether the filter answered `Continue`. -/
def deliverEvents (f : Filter σ) : List (Direction × Event) → Option (List Bool × Filter σ)
  | [] => some ([], f)
  | (d, e) :: rest =>
    match f.deliver d e with
    | some (ok, f1) =>
      match deliverEvents f1 rest with
      | some (oks, f2) => some (ok :: oks, f2)
      | none => none
    | none => none

end Filter

/-- A call of one of the three entry points of a stream handle. -/
inductive Call where
  | start (function_ref : Int)
  | onData (data : Buffer) (end_stream : Bool)
  | onTrailers (trailers : HeaderMap)
  deriving DecidableEq, Repr

namespace StreamHandleWrapper

variable {σ : Type}

/-- The handle and the callbacks after one call of an entry point, with the way the
call ended. -/
def call (h : StreamHandleWrapper σ) (cb : FilterCallbacks) :
    Call → Outcome Unit × StreamHandleWrapper σ × FilterCallbacks
  | .start function_ref =>
    match start h cb function_ref with
    | (.ok _, h1, cb1) => (.ok (), h1, cb1)
    | (.luaException what, h1, cb1) => (.luaException what, h1, cb1)
    | (.abort, h1, cb1) => (.abort, h1, cb1)
  | .onData data end_stream =>
    match onData h cb data end_stream with
    | (.ok _, h1, cb1) => (.ok (), h1, cb1)
    | (.luaException what, h1, cb1) => (.luaException what, h1, cb1)
    | (.abort, h1, cb1) => (.abort, h1, cb1)
  | .onTrailers trailers => onTrailers h cb trailers

/-- The handles a sequence of calls passes through: the handle after each call, up to
and including the first call that does not return normally (the filter drops the handle
when a call throws; a failed assertion ends the program). -/
def calls (h : StreamHandleWrapper σ) (cb : FilterCallbacks) :
    List Call → List (Outcome Unit × StreamHandleWrapper σ)
  | [] => []
  | c :: rest =>
    match call h cb c with
    | (.ok u, h1, cb1) => (.ok u, h1) :: calls h1 cb1 rest
    | (o, h1, _) => [(o, h1)]

end StreamHandleWrapper

namespace Scripts

/-- The tail of `TRAILERS_SCRIPT`: `local trailers = handle:trailers()` has returned
`vs`; the script logs the trailer `foo`, or `no trailers` on nil. -/
def trailersTail (vs : List Value) : Seg Nat :=
  match vs with
  | [] => Seg.log 0 "no trailers" Seg.ret
  | _ :: _ => logFoo vs Seg.ret

/-- The program `TRAILERS_SCRIPT`. -/
def trailersScript : Script Nat :=
  { function := fun ref =>
      if ref = requestRef then
        some (logPath (Seg.bodyChunks (fun _ =>
          chunkLoopHead (Seg.trailers trailersTail 1) 0)))
      else none
    resume := fun s vs =>
      match s with
      | 0 => chunkLoopResume (Seg.trailers trailersTail 1) 0 vs
      | _ => trailersTail vs }

/-- The program of the test `UnexpectedYield`: `coroutine.yield()`. -/
def unexpectedYieldScript : Script Nat :=
  { function := fun ref => if ref = requestRef then some (Seg.yield 0) else none
    resume := fun _ _ => Seg.ret }

/-- The message of a script that indexes a nil value. -/
def indexNilMessage : String := "attempt to index a nil value"

/-- The program of the test `ScriptErrorHeadersRequestBodyTrailers`:
`local foo = nil; foo["bar"] = "baz"`. -/
def errorScript : Script Nat :=
  { function := fun ref => if ref = requestRef then some (Seg.error indexNilMessage) else none
    resume := fun _ _ => Seg.ret }

/-- A program that waits for a body chunk and then indexes a nil value:
`local next = handle:bodyChunks(); next(); local foo = nil; foo["bar"] = "baz"`. -/
def chunkErrorScript : Script Nat :=
  { function := fun ref =>
      if ref = requestRef then
        some (Seg.bodyChunks (fun _ => Seg.bodyIterator (fun _ => Seg.error indexNilMessage) 0))
      else none
    resume := fun _ _ => Seg.error indexNilMessage }

/-- The program `HEADER_ONLY_SCRIPT`. -/
def headerOnlyScript : Script Nat :=
  { function := fun ref => if ref = requestRef then some (logPath Seg.ret) else none
    resume := fun _ _ => Seg.ret }

/-- The program of the test `ScriptRandomRequestBodyTrailers`: it defines neither
entry point. -/
def randomScript : Script Nat :=
  { function := fun _ => none
    resume := fun _ _ => Seg.ret }

/-- The filter configuration of a program that defines no entry point. -/
def randomConfig : FilterConfig Nat :=
  { lua_state_ := randomScript, requestFunctionRef := LUA_REFNIL,
    responseFunctionRef := LUA_REFNIL }

/-- The registry reference under which the example programs keep `envoy_on_response`. -/
def responseRef : Int := 2

/-- A program with both entry points: `envoy_on_request` indexes a nil value,
`envoy_on_response` is `handle:log(0, "response"); handle:body()`. -/
def errorThenResponseScript : Script Nat :=
  { function := fun ref =>
      if ref = requestRef then some (Seg.error indexNilMessage)
      else if ref = responseRef then
        some (Seg.log 0 "response" (Seg.body (fun _ => Seg.ret) 0))
      else none
    resume := fun _ _ => Seg.ret }

/-- The filter configuration of `errorThenResponseScript`. -/
def errorThenResponseConfig : FilterConfig Nat :=
  { lua_state_ := errorThenResponseScript, requestFunctionRef := requestRef,
    responseFunctionRef := responseRef }

/-- The response headers of the unit tests. -/
def responseHeaders : HeaderMap := { entries := [(":status", "200")] }

/-- The request headers event on a filter running `errorThenResponseScript`. -/
def errorThenResponseRequest : Option (FilterHeadersStatus × Filter Nat) :=
  (Filter.create errorThenResponseConfig).decodeHeaders requestHeaders true

/-- The response headers event that follows. -/
def errorThenResponseResponse : Option (FilterHeadersStatus × Filter Nat) :=
  errorThenResponseRequest.bind (fun r => r.2.encodeHeaders responseHeaders false)

end Scripts

/-! ## Exported methods and objects kept across streams -/

/-- `BufferWrapper::exportedFunctions` (common/lua/wrappers.h): the names of the methods
a script can call on a buffer wrapper. -/
def BufferWrapper.exportedFunctions : List String := ["byteSize"]

/-- `HeaderMapWrapper::exportedFunctions` (wrappers.h): the names of the methods a
script can call on a header map wrapper. -/
def HeaderMapWrapper.exportedFunctions : List String := ["add", "get", "iterate", "remove"]

/-- `StreamHandleWrapper::exportedFunctions`: the names of the methods a script can call
on a stream handle. -/
def StreamHandleWrapper.exportedFunctions : List String :=
  ["headers", "body", "bodyChunks", "trailers", "log", "httpCall"]

/-- The coroutine is suspended at a yield. -/
def CoroutineState.isYielded {σ : Type} : CoroutineState σ → Bool
  | .Yielded _ => true
  | _ => false

/-- Modelled from the spec: the check that every exported method makes, before anything
else, on the object it is called on (the method trampolines of common/lua/lua.h are not
part of the sources).  `live` is the liveness flag of that object: on a dead object the
call raises `deadObjectMessage`; on a live one the method runs and the script goes on
with `k`. -/
def methodOn {σ : Type} (live : Bool) (k : Seg σ) : Seg σ :=
  if live then k else Seg.error StreamHandleWrapper.deadObjectMessage

/-- Modelled from the spec: the liveness flag of the handle object that the reference
of a direction holds or held last, as a script that kept the object in a global finds
it: a reference marks its object dead before it lets go of it (`LuaDeathRef::reset`,
common/lua/lua.h is not part of the sources). -/
def Filter.handleLive {σ : Type} (f : Filter σ) (d : Direction) : Bool :=
  match f.handle d with
  | some h => h.live_
  | none => false

namespace Scripts

/-- The program of the test `ThreadEnvironments`, as a function of the value the
global `global_request_handle` has when the entry function is called: none for nil,
otherwise the liveness flag of the handle object kept there by an earlier call.  On nil
the script stores its handle in the global and returns; otherwise it calls `log` on the
kept handle, which on a live object logs through the filter of that object. -/
def threadEnvironmentsScript (global_request_handle : Option Bool) : Script Nat :=
  { function := fun ref =>
      if ref = requestRef then
        match global_request_handle with
        | none => some Seg.ret
        | some live => some (methodOn live Seg.ret)
      else none
    resume := fun _ _ => Seg.ret }

/-- The headers event of the first filter of the test `ThreadEnvironments`: the global
is nil. -/
def threadEnvironmentsFirst : Option (FilterHeadersStatus × Filter Nat) :=
  (Filter.create (config (threadEnvironmentsScript none))).decodeHeaders requestHeaders true

/-- The first filter of the test `ThreadEnvironments` after its headers event. -/
def threadEnvironmentsFirstFilter : Filter Nat :=
  match threadEnvironmentsFirst with
  | some r => r.2
  | none => Filter.create (config (threadEnvironmentsScript none))

/-- The second filter of the test `ThreadEnvironments`: it runs the same program, and
the global holds the handle object of the first filter. -/
def threadEnvironmentsSecondFilter : Filter Nat :=
  Filter.create (config (threadEnvironmentsScript
    (some (threadEnvironmentsFirstFilter.handleLive Direction.request))))

end Scripts

namespace Scripts

/-- A program that changes the request headers each time it receives a body chunk:
`for chunk in handle:bodyChunks() do local headers = handle:headers();`
`headers:add("late", "1"); headers:remove(":path") end`. -/
def lateHeadersScript : Script Nat :=
  { function := fun ref =>
      if ref = requestRef then
        some (Seg.bodyChunks (fun _ => chunkLoopHead Seg.ret 0))
      else none
    resume := fun _ vs =>
      match vs with
      | [] => Seg.ret
      | _ :: _ =>
        Seg.headers (fun ws =>
          match ws with
          | w :: _ =>
            Seg.headerAdd w "late" "1" (Seg.headerRemove w ":path" (chunkLoopHead Seg.ret 0))
          | [] => Seg.ret) }

/-- The headers event of a request with a body on a filter running
`lateHeadersScript`. -/
def lateHeadersHeaders : Option (FilterHeadersStatus × Filter Nat) :=
  (Filter.create (config lateHeadersScript)).decodeHeaders requestHeaders false

/-- The data event that follows: the frame `hello`, not ending the stream. -/
def lateHeadersData : Option (FilterDataStatus × Filter Nat) :=
  lateHeadersHeaders.bind (fun r => r.2.deliverData Direction.request hello false)

end Scripts

namespace Scripts

/-- A program with both entry functions, each the chunk loop of the test
`RequestAndResponse`: `for chunk in handle:bodyChunks() do`
`handle:log(0, chunk:byteSize()) end`.  The request function waits in its iterator at
suspension point 0, the response function at 1. -/
def requestAndResponseScript : Script Nat :=
  { function := fun ref =>
      if ref = requestRef then some (Seg.bodyChunks (fun _ => chunkLoopHead Seg.ret 0))
      else if ref = responseRef then
        some (Seg.bodyChunks (fun _ => chunkLoopHead Seg.ret 1))
      else none
    resume := fun s vs => chunkLoopResume Seg.ret s vs }

/-- The filter configuration of `requestAndResponseScript`. -/
def requestAndResponseConfig : FilterConfig Nat :=
  { lua_state_ := requestAndResponseScript, requestFunctionRef := requestRef,
    responseFunctionRef := responseRef }

/-- The filter running `requestAndResponseScript` after the request headers and the
response headers of streams with a body: both scripts wait for a body chunk. -/
def requestAndResponseFilter : Filter Nat :=
  match (Filter.create requestAndResponseConfig).decodeHeaders requestHeaders false with
  | some r =>
    match r.2.encodeHeaders responseHeaders false with
    | some r1 => r1.2
    | none => r.2
  | none => Filter.create requestAndResponseConfig

end Scripts

namespace Scripts

/-- A program whose chunk loop also asks for the trailers:
`for chunk in handle:bodyChunks() do handle:log(0, chunk:byteSize());`
`local trailers = handle:trailers() end handle:log(0, "done")`.
The iterator call suspends at 0, the call of `trailers()` at 1. -/
def chunksAndTrailersScript : Script Nat :=
  { function := fun ref =>
      if ref = requestRef then
        some (Seg.bodyChunks (fun _ => chunkLoopHead (Seg.log 0 "done" Seg.ret) 0))
      else none
    resume := fun s vs =>
      match s with
      | 0 =>
        match vs with
        | [] => Seg.log 0 "done" Seg.ret
        | chunk :: _ =>
          Seg.byteSize chunk (fun n =>
            Seg.log 0 (toString n)
              (Seg.trailers (fun _ => chunkLoopHead (Seg.log 0 "done" Seg.ret) 0) 1))
      | _ => chunkLoopHead (Seg.log 0 "done" Seg.ret) 0 }

/-- The data frame `!`. -/
def bang : Buffer := [33]

/-- The headers event of a request with a body on a filter running
`chunksAndTrailersScript`. -/
def chunksAndTrailersHeaders : Option (FilterHeadersStatus × Filter Nat) :=
  (Filter.create (config chunksAndTrailersScript)).decodeHeaders requestHeaders false

/-- The first data event: the frame `hello`, not ending the stream. -/
def chunksAndTrailersFirst : Option (FilterDataStatus × Filter Nat) :=
  chunksAndTrailersHeaders.bind (fun r => r.2.deliverData Direction.request hello false)

/-- The second data event: the frame `world`, not ending the stream. -/
def chunksAndTrailersSecond : Option (FilterDataStatus × Filter Nat) :=
  chunksAndTrailersFirst.bind (fun r => r.2.deliverData Direction.request world false)

/-- The last data event: the frame `!`, ending the stream. -/
def chunksAndTrailersLast : Option (FilterDataStatus × Filter Nat) :=
  chunksAndTrailersSecond.bind (fun r => r.2.deliverData Direction.request bang true)

end Scripts

/-! ## Theorems -/

namespace StreamHandleWrapper

variable {σ : Type}

theorem run_eq_step (seg : Seg σ) (h : StreamHandleWrapper σ) (cb : FilterCallbacks) :
    run seg h cb =
      match step seg h cb with
      | .more seg1 h1 cb1 => run seg1 h1 cb1
      | .stop s h1 cb1 => (s, h1, cb1) := by
  cases seg <;> simp only [run, step] <;> (repeat' split) <;> simp_all

theorem step_induction {motive : Seg σ → Prop}
    (H : ∀ seg, (∀ h cb seg1 h1 cb1, step seg h cb = .more seg1 h1 cb1 → motive seg1) →
      motive seg) : ∀ seg, motive seg := by
  intro seg
  induction seg <;> apply H <;> clear H <;> intro h cb seg1 h1 cb1 hs <;>
    simp only [step] at hs <;> (repeat' split at hs) <;> cases hs <;> apply_assumption

theorem run_visits (seg : Seg σ) : ∀ (h : StreamHandleWrapper σ) (cb : FilterCallbacks),
    ∃ seg1 h1 cb1, Visits seg h cb seg1 h1 cb1 ∧
      step seg1 h1 cb1 = .stop (run seg h cb).1 (run seg h cb).2.1 (run seg h cb).2.2 := by
  induction seg using step_induction with
  | H seg ih =>
    intro h cb
    rw [run_eq_step]
    cases hs : step seg h cb with
    | stop s h1 cb1 => exact ⟨seg, h, cb, .here _ _ _, hs⟩
    | more seg1 h1 cb1 =>
      obtain ⟨seg2, h2, cb2, hv, hst⟩ := ih h cb seg1 h1 cb1 hs h1 cb1
      exact ⟨seg2, h2, cb2, .later hs hv, hst⟩

/-- An invariant of the script actions holds at every configuration a run visits. -/
theorem Visits.invariant {P : StreamHandleWrapper σ → FilterCallbacks → Prop}
    (hstep : ∀ seg h cb seg1 h1 cb1, P h cb → step seg h cb = .more seg1 h1 cb1 → P h1 cb1)
    {seg seg1 : Seg σ} {h h1 : StreamHandleWrapper σ} {cb cb1 : FilterCallbacks}
    (hv : Visits seg h cb seg1 h1 cb1) (hP : P h cb) : P h1 cb1 := by
  induction hv with
  | here => exact hP
  | later hs _ ih => exact ih (hstep _ _ _ _ _ _ hP hs)


theorem Frame.refl (h : StreamHandleWrapper σ) : Frame h h := by simp [Frame]

theorem Frame.trans {h h1 h2 : StreamHandleWrapper σ} (a : Frame h h1) (b : Frame h1 h2) :
    Frame h h2 := by
  simp only [Frame] at *
  obtain ⟨a1, a2, a3, a4, a5, a6⟩ := a
  obtain ⟨b1, b2, b3, b4, b5, b6⟩ := b
  exact ⟨b1.trans a1, b2.trans a2, b3.trans a3, b4.trans a4, b5.trans a5, b6.trans a6⟩

theorem luaHeaders_values (h : StreamHandleWrapper σ) :
    (luaHeaders h).1 = [Value.headers] ∧ Frame h (luaHeaders h).2 ∧
      (luaHeaders h).2.state_ = h.state_ := by
  unfold luaHeaders; split <;> simp [Frame]

theorem luaBody_values {h h1 : StreamHandleWrapper σ} {cb : FilterCallbacks} {vs : List Value}
    (e : luaBody h cb = some (.values vs, h1)) :
    Frame h h1 ∧ h1.state_ = h.state_ ∧ h.end_stream_ = true := by
  unfold luaBody at e
  (repeat' split at e) <;> simp at e <;> obtain ⟨-, rfl⟩ := e <;> simp_all [Frame]

theorem luaBody_yield {h h1 : StreamHandleWrapper σ} {cb : FilterCallbacks}
    (e : luaBody h cb = some (.yield, h1)) :
    h1 = { h with state_ := State.WaitForBody } ∧ h.end_stream_ = false ∧
      h.state_ = State.Running := by
  unfold luaBody at e
  (repeat' split at e) <;> (simp at e; try simp_all)

theorem luaBodyChunks_values {h h1 : StreamHandleWrapper σ} {vs : List Value}
    (e : luaBodyChunks h = some (vs, h1)) : vs = [Value.iterator] ∧ h1 = h := by
  unfold luaBodyChunks at e
  split at e <;> (simp at e; try simp_all)

theorem luaBodyIterator_values {h h1 : StreamHandleWrapper σ} {vs : List Value}
    (e : luaBodyIterator h = some (.values vs, h1)) :
    vs = [] ∧ h1 = h ∧ h.end_stream_ = true := by
  unfold luaBodyIterator at e
  (repeat' split at e) <;> (simp at e; try simp_all)

theorem luaBodyIterator_yield {h h1 : StreamHandleWrapper σ}
    (e : luaBodyIterator h = some (.yield, h1)) :
    h1 = { h with state_ := State.WaitForBodyChunk } ∧ h.end_stream_ = false ∧
      h.state_ = State.Running := by
  unfold luaBodyIterator at e
  (repeat' split at e) <;> (simp at e; try simp_all)

theorem luaTrailers_values {h h1 : StreamHandleWrapper σ} {vs : List Value}
    (e : luaTrailers h = some (.values vs, h1)) :
    Frame h h1 ∧ h1.state_ = h.state_ ∧ h1.trailers_ = h.trailers_ := by
  unfold luaTrailers at e
  (repeat' split at e) <;> simp at e <;> obtain ⟨-, rfl⟩ := e <;> simp_all [Frame]

theorem luaTrailers_yield {h h1 : StreamHandleWrapper σ}
    (e : luaTrailers h = some (.yield, h1)) :
    h1 = { h with state_ := State.WaitForTrailers } ∧ h.end_stream_ = false ∧
      h.trailers_ = none ∧ h.state_ = State.Running := by
  unfold luaTrailers at e
  (repeat' split at e) <;> (simp at e; try simp_all)

theorem setHeaderMap_frame {h : StreamHandleWrapper σ} {w : Value} {m : HeaderMap}
    (m1 : HeaderMap) (e : headerMapWrapper h w = .live m) :
    Frame h (setHeaderMap h w m1) ∧ (setHeaderMap h w m1).state_ = h.state_ := by
  cases w <;> simp [setHeaderMap, Frame]
  simp only [headerMapWrapper] at e
  (repeat' split at e) <;> simp_all


theorem step_more_frame {seg seg1 : Seg σ} {h h1 : StreamHandleWrapper σ}
    {cb cb1 : FilterCallbacks} (hs : step seg h cb = .more seg1 h1 cb1) :
    Frame h h1 ∧ h1.state_ = h.state_ ∧ cb1.callbacks_ = cb.callbacks_ := by
  cases seg <;> simp only [step] at hs <;> (repeat' split at hs) <;> cases hs
  · have := luaHeaders_values h; simp_all
  · rename_i e; have := luaBody_values e; simp_all
  · rename_i e; have := luaBodyChunks_values e; simp_all [Frame.refl]
  · rename_i e; have := luaBodyIterator_values e; simp_all [Frame.refl]
  · rename_i e; have := luaTrailers_values e; simp_all
  · simp [Frame.refl, luaLog, FilterCallbacks.scriptLog]
  · rename_i e; simp [luaHttpCall] at e
  · simp [Frame.refl]
  · rename_i nm v _ m e; have := setHeaderMap_frame (luaAdd m nm v) e; simp_all
  · simp [Frame.refl]
  · rename_i nm _ m e; have := setHeaderMap_frame (luaRemove m nm) e; simp_all
  · simp [Frame.refl]

theorem step_stop_spec {seg : Seg σ} {s : Stop σ} {h h1 : StreamHandleWrapper σ}
    {cb cb1 : FilterCallbacks} (hs : step seg h cb = .stop s h1 cb1) :
    Frame h h1 ∧ cb1 = cb ∧ h1.state_ = stateAfter h.state_ s ∧
    (∀ susp site, s = .yielded susp site → site ≠ .script →
      h.state_ = State.Running ∧ h.end_stream_ = false) ∧
    (∀ susp, s = .yielded susp .trailers → h.trailers_ = none) := by
  cases seg <;> simp only [step] at hs <;> (repeat' split at hs) <;> cases hs <;>
    simp [Frame.refl, stateAfter]
  · rename_i e; obtain ⟨rfl, e1, e2⟩ := luaBody_yield e; simp [Frame, e1, e2]
  · rename_i e; obtain ⟨rfl, e1, e2⟩ := luaBodyIterator_yield e; simp [Frame, e1, e2]
  · rename_i e; obtain ⟨rfl, e1, e2, e3⟩ := luaTrailers_yield e; simp [Frame, e1, e2, e3]

theorem run_spec (seg : Seg σ) (h : StreamHandleWrapper σ) (cb : FilterCallbacks) :
    Frame h (run seg h cb).2.1 ∧ (run seg h cb).2.2.callbacks_ = cb.callbacks_ ∧
    (run seg h cb).2.1.state_ = stateAfter h.state_ (run seg h cb).1 ∧
    (∀ susp site, (run seg h cb).1 = .yielded susp site → site ≠ .script →
      h.state_ = State.Running ∧ h.end_stream_ = false) ∧
    (∀ susp, (run seg h cb).1 = .yielded susp .trailers → h.trailers_.isSome = false) := by
  obtain ⟨seg1, h1, cb1, hv, hst⟩ := run_visits seg h cb
  have inv : Frame h h1 ∧ h1.state_ = h.state_ ∧ cb1.callbacks_ = cb.callbacks_ := by
    refine Visits.invariant
      (P := fun h2 cb2 => Frame h h2 ∧ h2.state_ = h.state_ ∧ cb2.callbacks_ = cb.callbacks_)
      ?_ hv ⟨Frame.refl h, rfl, rfl⟩
    intro sg h2 cb2 sg3 h3 cb3 hP hs
    obtain ⟨f, e1, e2⟩ := step_more_frame hs
    exact ⟨hP.1.trans f, e1.trans hP.2.1, e2.trans hP.2.2⟩
  obtain ⟨f, e1, e2, e3, e4⟩ := step_stop_spec hst
  obtain ⟨i1, i2, i3⟩ := inv
  refine ⟨i1.trans f, by rw [e1]; exact i3, by rw [e2, i2], ?_, ?_⟩
  · intro susp site hy hne
    have := e3 susp site hy hne
    rw [i2] at this
    exact ⟨this.1, by rw [← i1.2.1]; exact this.2⟩
  · intro susp hy
    have := e4 susp hy
    rw [← i1.2.2.2.2.2, this]; rfl


theorem afterRun_state (r : Stop σ × StreamHandleWrapper σ × FilterCallbacks) :
    (afterRun r).2.1.state_ = r.2.1.state_ ∧ (afterRun r).2.1.end_stream_ = r.2.1.end_stream_ ∧
    (afterRun r).2.1.trailers_ = r.2.1.trailers_ ∧ (afterRun r).2.2 = r.2.2 := by
  obtain ⟨s, h, cb⟩ := r
  cases s <;> simp only [afterRun, setCoroutineState] <;> (try split) <;> simp

theorem afterRun_outcome (s : Stop σ) (h : StreamHandleWrapper σ) (cb : FilterCallbacks) :
    (afterRun (s, h, cb)).1 =
      match s with
      | .finished => .ok ()
      | .yielded _ _ =>
        if h.state_ = State.Running then .luaException unexpectedYieldMessage else .ok ()
      | .error msg => .luaException msg
      | .abort => .abort := by
  cases s <;> (simp only [afterRun, setCoroutineState, yield_callback_]; try split) <;>
    simp_all

theorem dataReturn_status (r : Outcome Unit × StreamHandleWrapper σ × FilterCallbacks)
    (status : FilterDataStatus) :
    (dataReturn r).1 = .ok status ↔ (status = FilterDataStatus.Continue ∧ r.1 = .ok ()) := by
  obtain ⟨o, h, cb⟩ := r
  cases o <;> simp [dataReturn, eq_comm]

theorem chunkReturn_status (r : Outcome Unit × StreamHandleWrapper σ × FilterCallbacks)
    (status : FilterDataStatus) :
    (chunkReturn r).1 = .ok status ↔ (status = FilterDataStatus.Continue ∧ r.1 = .ok ()) := by
  obtain ⟨o, h, cb⟩ := r
  cases o <;> simp [chunkReturn, eq_comm]

end StreamHandleWrapper

open StreamHandleWrapper

variable {σ : Type}

/-- C1: with `end_stream_` false on entry, `onData` returns `StopIterationAndBuffer`
exactly when the state on entry is `WaitForBody` and the frame does not end the
stream; whenever it returns normally in any other case, it returns `Continue`, and in
the states in which no coroutine is resumed it does return normally. -/
theorem C1_onData_status (h : StreamHandleWrapper σ) (cb : FilterCallbacks) (data : Buffer)
    (end_stream : Bool) (hes : h.end_stream_ = false) :
    ((onData h cb data end_stream).1 = .ok FilterDataStatus.StopIterationAndBuffer ↔
      (h.state_ = State.WaitForBody ∧ end_stream = false)) ∧
    (∀ status, (onData h cb data end_stream).1 = .ok status →
      ¬ (h.state_ = State.WaitForBody ∧ end_stream = false) →
      status = FilterDataStatus.Continue) ∧
    ((h.state_ = State.Running ∨ (h.state_ = State.WaitForTrailers ∧ end_stream = false)) →
      (onData h cb data end_stream).1 = .ok FilterDataStatus.Continue) := by
  unfold onData
  simp only [hes]
  cases hst : h.state_ <;> cases end_stream <;>
    simp [dataReturn_status, chunkReturn_status]
  split <;> simp [dataReturn_status]


/-- Witness for C1: the handle of `BODY_SCRIPT`, suspended in `body()` after the headers
of a request with a body, receiving the frame `hello` that does not end the stream. -/
theorem C1_onData_status_witness :
    (Scripts.started Scripts.bodyScript).end_stream_ = false ∧
    (((onData (Scripts.started Scripts.bodyScript) Scripts.emptyCallbacks Scripts.hello
        false).1 = .ok FilterDataStatus.StopIterationAndBuffer ↔
      ((Scripts.started Scripts.bodyScript).state_ = State.WaitForBody ∧ false = false)) ∧
    (∀ status, (onData (Scripts.started Scripts.bodyScript) Scripts.emptyCallbacks
        Scripts.hello false).1 = .ok status →
      ¬ ((Scripts.started Scripts.bodyScript).state_ = State.WaitForBody ∧ false = false) →
      status = FilterDataStatus.Continue) ∧
    (((Scripts.started Scripts.bodyScript).state_ = State.Running ∨
      ((Scripts.started Scripts.bodyScript).state_ = State.WaitForTrailers ∧ false = false)) →
      (onData (Scripts.started Scripts.bodyScript) Scripts.emptyCallbacks Scripts.hello
        false).1 = .ok FilterDataStatus.Continue)) :=
  ⟨rfl, C1_onData_status (Scripts.started Scripts.bodyScript) Scripts.emptyCallbacks
    Scripts.hello false rfl⟩

theorem StreamHandleWrapper.start_eq (h : StreamHandleWrapper σ) (cb : FilterCallbacks)
    (function_ref : Int) (seg : Seg σ) (hrun : h.state_ = State.Running)
    (hco : h.coroutine_.state_ = .NotStarted)
    (hfn : h.coroutine_.script.function function_ref = some seg) :
    ∃ s h1 cb1, run seg (noteResume h [Value.handle]) cb = (s, h1, cb1) ∧
      h1.state_ = stateAfter State.Running s ∧ Frame (noteResume h [Value.handle]) h1 ∧
      cb1.callbacks_ = cb.callbacks_ ∧
      (start h cb function_ref).2.1.state_ = h1.state_ ∧
      (start h cb function_ref).2.2 = cb1 ∧
      (start h cb function_ref).1 =
        match s with
        | .finished => .ok FilterHeadersStatus.Continue
        | .yielded _ .body => .ok FilterHeadersStatus.StopIteration
        | .yielded _ .bodyIterator => .ok FilterHeadersStatus.Continue
        | .yielded _ .trailers => .ok FilterHeadersStatus.Continue
        | .yielded _ .script => .luaException unexpectedYieldMessage
        | .error msg => .luaException msg
        | .abort => .abort := by
  have hsp := run_spec seg (noteResume h [Value.handle]) cb
  rcases hr : run seg (noteResume h [Value.handle]) cb with ⟨s, h1, cb1⟩
  rw [hr] at hsp
  obtain ⟨hf, hcb, hst, -, -⟩ := hsp
  simp only [noteResume, hrun] at hst
  refine ⟨s, h1, cb1, rfl, hst, hf, hcb, ?_⟩
  have hao := afterRun_outcome s h1 cb1
  have has := afterRun_state (s, h1, cb1)
  simp only [start, coroutineStart, hco, hfn, hr]
  rcases ha : afterRun (s, h1, cb1) with ⟨o, h2, cb2⟩
  rw [ha] at hao has
  simp only at hao has
  obtain ⟨hs2, -, -, hcb2⟩ := has
  subst hao
  cases s with
  | finished => simp_all [stateAfter]
  | yielded susp site => cases site <;> simp_all [stateAfter]
  | error msg => simp_all [stateAfter]
  | abort => simp_all [stateAfter]

/-- C2: for a newly created handle, `start` returns `StopIteration` exactly when
`state_` is `WaitForBody` once the first run of the coroutine has stopped, which is
exactly when the script yielded inside `body()`; when the script returned, or yielded
inside the chunk iterator or inside `trailers()`, `start` returns `Continue`, and so
does every normal return with `state_` other than `WaitForBody`. -/
theorem C2_start_status (h : StreamHandleWrapper σ) (cb : FilterCallbacks)
    (function_ref : Int) (seg : Seg σ) (hrun : h.state_ = State.Running)
    (hco : h.coroutine_.state_ = .NotStarted)
    (hfn : h.coroutine_.script.function function_ref = some seg) :
    ((start h cb function_ref).1 = .ok FilterHeadersStatus.StopIteration ↔
      (start h cb function_ref).2.1.state_ = State.WaitForBody) ∧
    ((start h cb function_ref).2.1.state_ = State.WaitForBody ↔
      ∃ susp, (run seg (noteResume h [Value.handle]) cb).1 = .yielded susp .body) ∧
    (((run seg (noteResume h [Value.handle]) cb).1 = .finished ∨
      (∃ susp, (run seg (noteResume h [Value.handle]) cb).1 = .yielded susp .bodyIterator) ∨
      (∃ susp, (run seg (noteResume h [Value.handle]) cb).1 = .yielded susp .trailers)) →
      (start h cb function_ref).1 = .ok FilterHeadersStatus.Continue) ∧
    (∀ status, (start h cb function_ref).1 = .ok status →
      (start h cb function_ref).2.1.state_ ≠ State.WaitForBody →
      status = FilterHeadersStatus.Continue) := by
  obtain ⟨s, h1, cb1, hr, hst, -, -, hs2, -, ho⟩ := start_eq h cb function_ref seg hrun hco hfn
  rw [hr, ho, hs2, hst]
  cases s with
  | finished => simp [stateAfter]
  | yielded susp site => cases site <;> simp [stateAfter, unexpectedYieldMessage]
  | error msg => simp [stateAfter]
  | abort => simp [stateAfter]


/-- Witness for C2: `BODY_SCRIPT` started on a request with a body. -/
theorem C2_start_status_witness :
    (Scripts.newHandle Scripts.bodyScript).state_ = State.Running ∧
    (Scripts.newHandle Scripts.bodyScript).coroutine_.state_ = .NotStarted ∧
    (Scripts.newHandle Scripts.bodyScript).coroutine_.script.function Scripts.requestRef =
      some Scripts.bodyEntry ∧
    (((start (Scripts.newHandle Scripts.bodyScript) Scripts.emptyCallbacks
        Scripts.requestRef).1 = .ok FilterHeadersStatus.StopIteration ↔
      (start (Scripts.newHandle Scripts.bodyScript) Scripts.emptyCallbacks
        Scripts.requestRef).2.1.state_ = State.WaitForBody) ∧
    ((start (Scripts.newHandle Scripts.bodyScript) Scripts.emptyCallbacks
        Scripts.requestRef).2.1.state_ = State.WaitForBody ↔
      ∃ susp, (run Scripts.bodyEntry
        (noteResume (Scripts.newHandle Scripts.bodyScript) [Value.handle])
        Scripts.emptyCallbacks).1 = .yielded susp .body) ∧
    (((run Scripts.bodyEntry
        (noteResume (Scripts.newHandle Scripts.bodyScript) [Value.handle])
        Scripts.emptyCallbacks).1 = .finished ∨
      (∃ susp, (run Scripts.bodyEntry
        (noteResume (Scripts.newHandle Scripts.bodyScript) [Value.handle])
        Scripts.emptyCallbacks).1 = .yielded susp .bodyIterator) ∨
      (∃ susp, (run Scripts.bodyEntry
        (noteResume (Scripts.newHandle Scripts.bodyScript) [Value.handle])
        Scripts.emptyCallbacks).1 = .yielded susp .trailers)) →
      (start (Scripts.newHandle Scripts.bodyScript) Scripts.emptyCallbacks
        Scripts.requestRef).1 = .ok FilterHeadersStatus.Continue) ∧
    (∀ status, (start (Scripts.newHandle Scripts.bodyScript) Scripts.emptyCallbacks
        Scripts.requestRef).1 = .ok status →
      (start (Scripts.newHandle Scripts.bodyScript) Scripts.emptyCallbacks
        Scripts.requestRef).2.1.state_ ≠ State.WaitForBody →
      status = FilterHeadersStatus.Continue)) :=
  ⟨rfl, rfl, rfl, C2_start_status (Scripts.newHandle Scripts.bodyScript)
    Scripts.emptyCallbacks Scripts.requestRef Scripts.bodyEntry rfl rfl rfl⟩

/-- C3 (evaluation at the failing input): the script takes one chunk from the body
iterator and then calls `body()` while `end_stream_` is false.  The data event during
which `body()` is called returns `Continue`, not `StopIterationAndBuffer`: the handle
is left in `WaitForBody`, the frame `hello` is not buffered, and the body the script
finally receives holds the 5 bytes of `world` only. -/
theorem C3_body_called_during_data_event :
    Scripts.chunkThenBodyHeaders.map (fun r => r.1) = some FilterHeadersStatus.Continue ∧
    Scripts.chunkThenBodyData.map (fun r => r.1) = some FilterDataStatus.Continue ∧
    (Scripts.chunkThenBodyData.bind (fun r => r.2.request_stream_wrapper_)).map
      (fun h => h.state_) = some State.WaitForBody ∧
    Scripts.chunkThenBodyData.map (fun r => r.2.decoder_callbacks_.buffer_) = some none ∧
    Scripts.chunkThenBodyLast.map (fun r => (r.1, r.2.log_)) =
      some (FilterDataStatus.Continue, [(0, "5")]) := by
  decide

/-- C6: a call of the body iterator in state `Running` has exactly two outcomes.  With
`end_stream_` true it pushes nothing (the script sees nil) and leaves the handle, hence
`state_`, unchanged; with `end_stream_` false it sets `state_` to `WaitForBodyChunk` and
yields.  Seen from a script holding a live handle: the script goes on with no values,
or the run segment stops with a yield at the iterator. -/
theorem C6_body_iterator (h : StreamHandleWrapper σ) (hrun : h.state_ = State.Running) :
    (h.end_stream_ = true → luaBodyIterator h = some (.values [], h)) ∧
    (h.end_stream_ = false →
      luaBodyIterator h = some (.yield, { h with state_ := State.WaitForBodyChunk })) ∧
    (luaBodyIterator h = some (.values [], h) ∨
      luaBodyIterator h = some (.yield, { h with state_ := State.WaitForBodyChunk })) ∧
    (∀ (cb : FilterCallbacks) (k : List Value → Seg σ) (susp : σ), h.live_ = true →
      run (Seg.bodyIterator k susp) h cb =
        if h.end_stream_ then run (k []) h cb
        else (.yielded susp .bodyIterator, { h with state_ := State.WaitForBodyChunk }, cb)) := by
  by_cases hes : h.end_stream_ = true
  · simp only [luaBodyIterator, hrun, hes, run]
    simp
    intro cb k susp hl hd
    rw [hl] at hd
    cases hd
  · simp only [luaBodyIterator, hrun, hes, run]
    simp

/-- Witness for C6: a new handle of a request with a body. -/
theorem C6_body_iterator_witness :
    (Scripts.newHandle Scripts.bodyChunkScript).state_ = State.Running ∧
    (((Scripts.newHandle Scripts.bodyChunkScript).end_stream_ = true →
      luaBodyIterator (Scripts.newHandle Scripts.bodyChunkScript) =
        some (.values [], Scripts.newHandle Scripts.bodyChunkScript)) ∧
    ((Scripts.newHandle Scripts.bodyChunkScript).end_stream_ = false →
      luaBodyIterator (Scripts.newHandle Scripts.bodyChunkScript) =
        some (.yield, { Scripts.newHandle Scripts.bodyChunkScript with
          state_ := State.WaitForBodyChunk })) ∧
    (luaBodyIterator (Scripts.newHandle Scripts.bodyChunkScript) =
        some (.values [], Scripts.newHandle Scripts.bodyChunkScript) ∨
      luaBodyIterator (Scripts.newHandle Scripts.bodyChunkScript) =
        some (.yield, { Scripts.newHandle Scripts.bodyChunkScript with
          state_ := State.WaitForBodyChunk })) ∧
    (∀ (cb : FilterCallbacks) (k : List Value → Seg Nat) (susp : Nat),
      (Scripts.newHandle Scripts.bodyChunkScript).live_ = true →
      run (Seg.bodyIterator k susp) (Scripts.newHandle Scripts.bodyChunkScript) cb =
        if (Scripts.newHandle Scripts.bodyChunkScript).end_stream_ then
          run (k []) (Scripts.newHandle Scripts.bodyChunkScript) cb
        else (.yielded susp .bodyIterator,
          { Scripts.newHandle Scripts.bodyChunkScript with
            state_ := State.WaitForBodyChunk }, cb))) :=
  ⟨rfl, C6_body_iterator (Scripts.newHandle Scripts.bodyChunkScript) rfl⟩

/-- C7: a call of `body()` in state `Running` with `end_stream_` true never yields and
leaves `state_` at `Running`.  When the proxy has no buffered body it pushes nothing
(the script sees nil) and leaves the handle unchanged; otherwise it pushes exactly one
value, the body wrapper, which is cached in `body_wrapper_` (created if there was none)
and, unless a cached wrapper had been marked dead, resolves to the buffered body. -/
theorem C7_body_at_end_of_stream (h : StreamHandleWrapper σ) (cb : FilterCallbacks)
    (hrun : h.state_ = State.Running) (hes : h.end_stream_ = true) :
    (cb.bufferedBody = none → luaBody h cb = some (.values [], h)) ∧
    (∀ b, cb.bufferedBody = some b →
      luaBody h cb = some (.values [Value.body],
        { h with body_wrapper_ :=
            if h.body_wrapper_.get then h.body_wrapper_ else LuaDeathRef.holds true }) ∧
      (h.body_wrapper_ ≠ LuaDeathRef.holds false →
        bufferWrapper { h with body_wrapper_ :=
            if h.body_wrapper_.get then h.body_wrapper_ else LuaDeathRef.holds true }
          cb Value.body = .live b)) ∧
    (∀ r h1, luaBody h cb = some (r, h1) → r ≠ .yield ∧ h1.state_ = State.Running) ∧
    luaBody h cb ≠ none := by
  refine ⟨?_, ?_, ?_, ?_⟩
  · intro hb
    simp [luaBody, hrun, hes, hb]
  · intro b hb
    constructor
    · cases h
      simp only at hrun hes
      subst hrun hes
      rename_i bw _ _ _ _
      cases bw <;> simp [luaBody, hb, LuaDeathRef.get, LuaDeathRef.reset]
    · intro hne
      cases hw : h.body_wrapper_ with
      | empty => simp [bufferWrapper, LuaDeathRef.get, hb]
      | holds live =>
        cases live
        · exact absurd hw hne
        · simp [bufferWrapper, LuaDeathRef.get, hb]
  · intro r h1 e
    cases r with
    | values vs => exact ⟨by simp, by rw [(luaBody_values e).2.1]; exact hrun⟩
    | yield => have := (luaBody_yield e).2.1; rw [hes] at this; cases this
  · cases hb : cb.bufferedBody <;> simp [luaBody, hrun, hes, hb]
    split <;> simp

/-- Witness for C7: the handle of a headers-only request with `hello` buffered by the
proxy. -/
theorem C7_body_at_end_of_stream_witness :
    (Scripts.headersOnlyHandle Scripts.bodyScript).state_ = State.Running ∧
    (Scripts.headersOnlyHandle Scripts.bodyScript).end_stream_ = true ∧
    ((Scripts.bufferedCallbacks.bufferedBody = none →
      luaBody (Scripts.headersOnlyHandle Scripts.bodyScript) Scripts.bufferedCallbacks =
        some (.values [], Scripts.headersOnlyHandle Scripts.bodyScript)) ∧
    (∀ b, Scripts.bufferedCallbacks.bufferedBody = some b →
      luaBody (Scripts.headersOnlyHandle Scripts.bodyScript) Scripts.bufferedCallbacks =
        some (.values [Value.body],
          { (Scripts.headersOnlyHandle Scripts.bodyScript) with
            body_wrapper_ :=
              if (Scripts.headersOnlyHandle Scripts.bodyScript).body_wrapper_.get then
                (Scripts.headersOnlyHandle Scripts.bodyScript).body_wrapper_
              else LuaDeathRef.holds true }) ∧
      ((Scripts.headersOnlyHandle Scripts.bodyScript).body_wrapper_ ≠
          LuaDeathRef.holds false →
        bufferWrapper { (Scripts.headersOnlyHandle Scripts.bodyScript) with
            body_wrapper_ :=
              if (Scripts.headersOnlyHandle Scripts.bodyScript).body_wrapper_.get then
                (Scripts.headersOnlyHandle Scripts.bodyScript).body_wrapper_
              else LuaDeathRef.holds true }
          Scripts.bufferedCallbacks Value.body = .live b)) ∧
    (∀ r h1,
      luaBody (Scripts.headersOnlyHandle Scripts.bodyScript) Scripts.bufferedCallbacks =
        some (r, h1) → r ≠ .yield ∧ h1.state_ = State.Running) ∧
    luaBody (Scripts.headersOnlyHandle Scripts.bodyScript) Scripts.bufferedCallbacks ≠
      none) :=
  ⟨rfl, rfl, C7_body_at_end_of_stream (Scripts.headersOnlyHandle Scripts.bodyScript)
    Scripts.bufferedCallbacks rfl rfl⟩

/-- C8: a call of `trailers()` in state `Running`.  With `end_stream_` true and no
trailers recorded it pushes nothing and leaves the handle unchanged; with trailers
recorded it pushes exactly one value, the trailers wrapper, which is cached in
`trailers_wrapper_` (created if there was none) and, unless a cached wrapper had been
marked dead, resolves to the recorded trailers, and `state_` stays `Running`; otherwise
(`end_stream_` false, no trailers) it sets `state_` to `WaitForTrailers` and yields. -/
theorem C8_trailers (h : StreamHandleWrapper σ) (hrun : h.state_ = State.Running) :
    (h.end_stream_ = true → h.trailers_ = none → luaTrailers h = some (.values [], h)) ∧
    (∀ t, h.trailers_ = some t →
      luaTrailers h = some (.values [Value.trailers],
        { h with trailers_wrapper_ :=
            if h.trailers_wrapper_.get then h.trailers_wrapper_
            else LuaDeathRef.holds true }) ∧
      (h.trailers_wrapper_ ≠ LuaDeathRef.holds false →
        headerMapWrapper { h with trailers_wrapper_ :=
            if h.trailers_wrapper_.get then h.trailers_wrapper_
            else LuaDeathRef.holds true } Value.trailers = .live t)) ∧
    (h.end_stream_ = false → h.trailers_ = none →
      luaTrailers h = some (.yield, { h with state_ := State.WaitForTrailers })) := by
  refine ⟨?_, ?_, ?_⟩
  · intro hes ht
    simp [luaTrailers, hrun, hes, ht]
  · intro t ht
    constructor
    · cases h
      simp only at hrun ht
      subst hrun ht
      rename_i tw _ _ _
      cases tw <;> simp [luaTrailers, LuaDeathRef.get, LuaDeathRef.reset]
    · intro hne
      cases hw : h.trailers_wrapper_ with
      | empty => simp [headerMapWrapper, LuaDeathRef.get, ht]
      | holds live =>
        cases live
        · exact absurd hw hne
        · simp [headerMapWrapper, LuaDeathRef.get, ht]
  · intro hes ht
    simp [luaTrailers, hrun, hes, ht]

/-- Witness for C8: the handle of a headers-only request. -/
theorem C8_trailers_witness :
    (Scripts.headersOnlyHandle Scripts.trailersNoBodyScript).state_ = State.Running ∧
    (((Scripts.headersOnlyHandle Scripts.trailersNoBodyScript).end_stream_ = true →
      (Scripts.headersOnlyHandle Scripts.trailersNoBodyScript).trailers_ = none →
      luaTrailers (Scripts.headersOnlyHandle Scripts.trailersNoBodyScript) =
        some (.values [], Scripts.headersOnlyHandle Scripts.trailersNoBodyScript)) ∧
    (∀ t, (Scripts.headersOnlyHandle Scripts.trailersNoBodyScript).trailers_ = some t →
      luaTrailers (Scripts.headersOnlyHandle Scripts.trailersNoBodyScript) =
        some (.values [Value.trailers],
          { (Scripts.headersOnlyHandle Scripts.trailersNoBodyScript) with
            trailers_wrapper_ :=
              if (Scripts.headersOnlyHandle
                  Scripts.trailersNoBodyScript).trailers_wrapper_.get then
                (Scripts.headersOnlyHandle Scripts.trailersNoBodyScript).trailers_wrapper_
              else LuaDeathRef.holds true }) ∧
      ((Scripts.headersOnlyHandle Scripts.trailersNoBodyScript).trailers_wrapper_ ≠
          LuaDeathRef.holds false →
        headerMapWrapper
          { (Scripts.headersOnlyHandle Scripts.trailersNoBodyScript) with
            trailers_wrapper_ :=
              if (Scripts.headersOnlyHandle
                  Scripts.trailersNoBodyScript).trailers_wrapper_.get then
                (Scripts.headersOnlyHandle Scripts.trailersNoBodyScript).trailers_wrapper_
              else LuaDeathRef.holds true } Value.trailers = .live t)) ∧
    ((Scripts.headersOnlyHandle Scripts.trailersNoBodyScript).end_stream_ = false →
      (Scripts.headersOnlyHandle Scripts.trailersNoBodyScript).trailers_ = none →
      luaTrailers (Scripts.headersOnlyHandle Scripts.trailersNoBodyScript) =
        some (.yield, { (Scripts.headersOnlyHandle Scripts.trailersNoBodyScript) with
          state_ := State.WaitForTrailers }))) :=
  ⟨rfl, C8_trailers (Scripts.headersOnlyHandle Scripts.trailersNoBodyScript) rfl⟩

/-- C9: a handle in state `WaitForTrailers` (with `end_stream_` false).
`onTrailers(tr)` records `tr` and is exactly one resume of the coroutine with the single
value `Value.trailers`, the trailers wrapper, which resolves to `tr` unless a cached
wrapper had been marked dead.  `onData(_, true)` is exactly one resume with no values
and, when the resume returns normally, returns `Continue`.  `onData(_, false)` resumes
nothing: it returns `Continue` and leaves the handle, still in `WaitForTrailers`, and
the callbacks as they were. -/
theorem C9_waitForTrailers (h : StreamHandleWrapper σ) (cb : FilterCallbacks)
    (hst : h.state_ = State.WaitForTrailers) (hes : h.end_stream_ = false) :
    (∀ tr : HeaderMap,
      onTrailers h cb tr =
        coroutineResume
          { h with
            end_stream_ := true
            trailers_ := some tr
            state_ := State.Running
            trailers_wrapper_ :=
              if h.trailers_wrapper_.get then h.trailers_wrapper_
              else LuaDeathRef.holds true } cb [Value.trailers] ∧
      (h.trailers_wrapper_ ≠ LuaDeathRef.holds false →
        headerMapWrapper
          { h with
            end_stream_ := true
            trailers_ := some tr
            state_ := State.Running
            trailers_wrapper_ :=
              if h.trailers_wrapper_.get then h.trailers_wrapper_
              else LuaDeathRef.holds true } Value.trailers = .live tr)) ∧
    (∀ data : Buffer,
      onData h cb data true =
        dataReturn (coroutineResume
          { h with end_stream_ := true, state_ := State.Running } cb []) ∧
      (∀ status, (onData h cb data true).1 = .ok status →
        status = FilterDataStatus.Continue) ∧
      ((coroutineResume { h with end_stream_ := true, state_ := State.Running } cb []).1 =
          .ok () → (onData h cb data true).1 = .ok FilterDataStatus.Continue)) ∧
    (∀ data : Buffer,
      onData h cb data false = (.ok FilterDataStatus.Continue, h, cb)) := by
  refine ⟨?_, ?_, ?_⟩
  · intro tr
    constructor
    · cases h
      simp only at hst hes
      subst hst hes
      rename_i tw _ _ _
      cases tw <;>
        simp [onTrailers, onTrailersBody, onTrailersTrailers, luaTrailers, LuaDeathRef.get,
          LuaDeathRef.reset]
    · intro hne
      cases hw : h.trailers_wrapper_ with
      | empty => simp [headerMapWrapper, LuaDeathRef.get]
      | holds live =>
        cases live
        · exact absurd hw hne
        · simp [headerMapWrapper, LuaDeathRef.get]
  · intro data
    have e : onData h cb data true =
        dataReturn (coroutineResume
          { h with end_stream_ := true, state_ := State.Running } cb []) := by
      simp [onData, hst, hes]
    refine ⟨e, ?_, ?_⟩
    · intro status hs
      rw [e, dataReturn_status] at hs
      exact hs.1
    · intro hok
      rw [e, dataReturn_status]
      exact ⟨rfl, hok⟩
  · intro data
    cases h
    simp only at hst hes
    subst hst hes
    simp [onData]

theorem StreamHandleWrapper.visits_frame {seg seg1 : Seg σ} {h h1 : StreamHandleWrapper σ}
    {cb cb1 : FilterCallbacks} (hv : Visits seg h cb seg1 h1 cb1) :
    Frame h h1 ∧ h1.state_ = h.state_ ∧ cb1.callbacks_ = cb.callbacks_ := by
  refine Visits.invariant
    (P := fun h2 cb2 => Frame h h2 ∧ h2.state_ = h.state_ ∧ cb2.callbacks_ = cb.callbacks_)
    ?_ hv ⟨Frame.refl h, rfl, rfl⟩
  intro sg h2 cb2 sg3 h3 cb3 hP hs
  obtain ⟨f, e1, e2⟩ := step_more_frame hs
  exact ⟨hP.1.trans f, e1.trans hP.2.1, e2.trans hP.2.2⟩

theorem StreamHandleWrapper.coroutineResume_spec (h : StreamHandleWrapper σ)
    (cb : FilterCallbacks) (vs : List Value) (hrun : h.state_ = State.Running) :
    (coroutineResume h cb vs).2.1.end_stream_ = h.end_stream_ ∧
    (coroutineResume h cb vs).2.1.trailers_.isSome = h.trailers_.isSome ∧
    (coroutineResume h cb vs).2.2.callbacks_ = cb.callbacks_ ∧
    ((coroutineResume h cb vs).2.1.state_ ≠ State.Running → h.end_stream_ = false) ∧
    ((coroutineResume h cb vs).2.1.state_ = State.WaitForTrailers →
      h.trailers_.isSome = false) := by
  unfold coroutineResume
  cases hc : h.coroutine_.state_ with
  | NotStarted => simp [hrun]
  | Finished => simp [hrun]
  | Yielded susp =>
    simp only
    have hsp := run_spec (h.coroutine_.script.resume susp vs) (noteResume h vs) cb
    have has := afterRun_state (run (h.coroutine_.script.resume susp vs) (noteResume h vs) cb)
    rcases hr : run (h.coroutine_.script.resume susp vs) (noteResume h vs) cb with ⟨s, h1, cb1⟩
    rw [hr] at hsp has
    obtain ⟨hf, hcb, hst, hy, ht⟩ := hsp
    obtain ⟨a1, a2, a3, a4⟩ := has
    simp only [noteResume, hrun] at hst hy ht
    simp only [Frame, noteResume] at hf
    simp only at a1 a2 a3 a4
    rw [a1, a2, a3, a4]
    refine ⟨hf.2.1, hf.2.2.2.2.2, hcb, ?_, ?_⟩
    · intro hne
      rw [hst] at hne
      cases s with
      | finished => simp [stateAfter] at hne
      | yielded sp site =>
        cases site with
        | script => simp [stateAfter] at hne
        | body => exact (hy sp .body rfl (by simp)).2
        | bodyIterator => exact (hy sp .bodyIterator rfl (by simp)).2
        | trailers => exact (hy sp .trailers rfl (by simp)).2
      | error msg => simp [stateAfter] at hne
      | abort => simp [stateAfter] at hne
    · intro he
      rw [hst] at he
      cases s with
      | finished => simp [stateAfter] at he
      | yielded sp site =>
        cases site with
        | script => simp [stateAfter] at he
        | body => simp [stateAfter] at he
        | bodyIterator => simp [stateAfter] at he
        | trailers => exact ht sp rfl
      | error msg => simp [stateAfter] at he
      | abort => simp [stateAfter] at he

theorem StreamHandleWrapper.luaTrailers_recorded (h : StreamHandleWrapper σ)
    (hrun : h.state_ = State.Running) (ht : h.trailers_.isSome = true) :
    ∃ h1, luaTrailers h = some (.values [Value.trailers], h1) ∧
      h1.state_ = State.Running ∧ h1.trailers_ = h.trailers_ ∧
      h1.trailers_wrapper_.get = true := by
  obtain ⟨t, ht1⟩ := Option.isSome_iff_exists.mp ht
  cases hw : h.trailers_wrapper_ with
  | empty =>
    exact ⟨{ h with trailers_wrapper_ := LuaDeathRef.holds true },
      by simp [luaTrailers, hrun, ht1, hw, LuaDeathRef.get, LuaDeathRef.reset], hrun, rfl, rfl⟩
  | holds live =>
    exact ⟨h, by simp [luaTrailers, hrun, ht1, hw, LuaDeathRef.get], hrun, rfl,
      by simp [hw, LuaDeathRef.get]⟩

theorem StreamHandleWrapper.luaBody_at_end (h : StreamHandleWrapper σ) (cb : FilterCallbacks)
    (hrun : h.state_ = State.Running) (hes : h.end_stream_ = true) :
    ∃ vs h1, luaBody h cb = some (.values vs, h1) ∧
      (cb.bufferedBody = none → vs = []) ∧
      (∀ b, cb.bufferedBody = some b → vs = [Value.body] ∧
        (h.body_wrapper_ ≠ LuaDeathRef.holds false →
          bufferWrapper h1 cb Value.body = .live b)) ∧
      Frame h h1 ∧ h1.state_ = State.Running ∧ h1.trailers_ = h.trailers_ := by
  cases hb : cb.bufferedBody with
  | none =>
    exact ⟨[], h, by simp [luaBody, hrun, hes, hb], by simp, by simp, Frame.refl h, hrun,
      rfl⟩
  | some b =>
    cases hw : h.body_wrapper_ with
    | empty =>
      refine ⟨[Value.body], { h with body_wrapper_ := LuaDeathRef.holds true },
        ?_, ?_, ?_, ?_, ?_, ?_⟩
        <;> simp [luaBody, hrun, hes, hb, hw, LuaDeathRef.get, LuaDeathRef.reset, Frame,
          bufferWrapper]
    | holds live =>
      refine ⟨[Value.body], h, ?_, ?_, ?_, ?_, ?_, ?_⟩
        <;> simp [luaBody, hrun, hes, hb, hw, LuaDeathRef.get, LuaDeathRef.reset, Frame,
          bufferWrapper]
      cases live <;> simp

theorem Filter.handle_setHandle (f : Filter σ) (d : Direction)
    (x : Option (StreamHandleWrapper σ)) : (f.setHandle d x).handle d = x := by
  cases d <;> rfl

theorem Filter.callbacks_setHandle (f : Filter σ) (d d1 : Direction)
    (x : Option (StreamHandleWrapper σ)) : (f.setHandle d x).callbacks d1 = f.callbacks d1 := by
  cases d <;> cases d1 <;> rfl

theorem Filter.callbacks_withCallbacks (f : Filter σ) (d : Direction) (cb : FilterCallbacks) :
    (f.withCallbacks d cb).callbacks d = cb := by
  cases d <;> rfl

theorem Filter.handle_withCallbacks (f : Filter σ) (d d1 : Direction) (cb : FilterCallbacks) :
    (f.withCallbacks d cb).handle d1 = f.handle d1 := by
  cases d <;> cases d1 <;> rfl

theorem Filter.trailersResult_some (f : Filter σ) (d : Direction)
    (r : Outcome Unit × StreamHandleWrapper σ × FilterCallbacks) (hr : r.1 ≠ .abort) :
    ∃ f1, f.trailersResult d r = some (FilterTrailersStatus.Continue, f1) := by
  obtain ⟨o, h, cb⟩ := r
  cases o with
  | ok a => exact ⟨_, rfl⟩
  | luaException what => exact ⟨_, rfl⟩
  | abort => exact absurd rfl hr

theorem StreamHandleWrapper.onTrailers_waitForBody (h : StreamHandleWrapper σ)
    (cb : FilterCallbacks) (tr : HeaderMap) (hst : h.state_ = State.WaitForBody)
    (hes : h.end_stream_ = false) :
    ∃ vs h1,
      luaBody { h with end_stream_ := true, trailers_ := some tr, state_ := State.Running } cb =
        some (.values vs, h1) ∧
      (cb.bufferedBody = none → vs = []) ∧
      (∀ b, cb.bufferedBody = some b → vs = [Value.body] ∧
        (h.body_wrapper_ ≠ LuaDeathRef.holds false →
          bufferWrapper h1 cb Value.body = .live b)) ∧
      h1.end_stream_ = true ∧ h1.trailers_ = some tr ∧ h1.state_ = State.Running ∧
      h1.coroutine_ = h.coroutine_ ∧
      onTrailers h cb tr = coroutineResume h1 cb vs := by
  obtain ⟨vs, h1, hb, hnone, hsome, hf, hs1, ht1⟩ :=
    luaBody_at_end
      { h with end_stream_ := true, trailers_ := some tr, state_ := State.Running } cb rfl rfl
  refine ⟨vs, h1, hb, hnone, hsome, hf.2.1, ht1, hs1, hf.1, ?_⟩
  have hsp := coroutineResume_spec h1 cb vs hs1
  simp only [onTrailers, hes, onTrailersBody, hst]
  simp only [Bool.false_eq_true, ↓reduceIte, reduceCtorEq]
  rw [hb]
  simp only
  rcases hr : coroutineResume h1 cb vs with ⟨o, h2, cb2⟩
  rw [hr] at hsp
  cases o with
  | ok a =>
    have hne : h2.state_ ≠ State.WaitForTrailers := by
      intro he
      have := hsp.2.2.2.2 he
      rw [ht1] at this
      simp at this
    simp [onTrailersTrailers, hne]
  | luaException what => rfl
  | abort => rfl

theorem StreamHandleWrapper.luaBody_ne_none (h : StreamHandleWrapper σ) (cb : FilterCallbacks)
    (hrun : h.state_ = State.Running) : luaBody h cb ≠ none := by
  simp only [luaBody, hrun]
  cases h.end_stream_ <;> cases cb.bufferedBody <;> simp
  split <;> simp

theorem StreamHandleWrapper.luaBodyIterator_ne_none (h : StreamHandleWrapper σ)
    (hrun : h.state_ = State.Running) : luaBodyIterator h ≠ none := by
  simp only [luaBodyIterator, hrun]
  cases h.end_stream_ <;> simp

theorem StreamHandleWrapper.luaTrailers_ne_none (h : StreamHandleWrapper σ)
    (hrun : h.state_ = State.Running) : luaTrailers h ≠ none := by
  simp only [luaTrailers, hrun]
  cases h.end_stream_ <;> cases h.trailers_ <;> simp <;> split <;> simp

/-- With `state_` at `Running`, the only script action that fails an assertion is a call
of `httpCall`. -/
theorem StreamHandleWrapper.step_abort {seg : Seg σ} {h h1 : StreamHandleWrapper σ}
    {cb cb1 : FilterCallbacks} (hrun : h.state_ = State.Running)
    (hs : step seg h cb = .stop .abort h1 cb1) : ∃ k, seg = Seg.httpCall k := by
  cases seg <;> simp only [step] at hs <;> (repeat' split at hs) <;>
    (try (cases hs; done))
  · rename_i e; exact absurd e (luaBody_ne_none h cb hrun)
  · rename_i e; simp [luaBodyChunks, hrun] at e
  · rename_i e; exact absurd e (luaBodyIterator_ne_none h hrun)
  · rename_i e; exact absurd e (luaTrailers_ne_none h hrun)
  · exact ⟨_, rfl⟩

/-- A resume of a suspended coroutine on a handle with `state_` at `Running` fails an
assertion only if the script reaches a call of `httpCall`. -/
theorem StreamHandleWrapper.coroutineResume_abort (h : StreamHandleWrapper σ)
    (cb : FilterCallbacks) (vs : List Value) (susp : σ) (hrun : h.state_ = State.Running)
    (hco : h.coroutine_.state_ = .Yielded susp)
    (hab : (coroutineResume h cb vs).1 = .abort) :
    ∃ k h1 cb1, Visits (h.coroutine_.script.resume susp vs) (noteResume h vs) cb
      (Seg.httpCall k) h1 cb1 := by
  simp only [coroutineResume, hco] at hab
  obtain ⟨seg1, h1, cb1, hv, hst⟩ :=
    run_visits (h.coroutine_.script.resume susp vs) (noteResume h vs) cb
  rcases hr : run (h.coroutine_.script.resume susp vs) (noteResume h vs) cb with ⟨s, h2, cb2⟩
  rw [hr] at hab hst
  rw [afterRun_outcome] at hab
  cases s with
  | finished => simp at hab
  | yielded sp site => simp only at hab; split at hab <;> simp at hab
  | error msg => simp at hab
  | abort =>
    have hrun1 : h1.state_ = State.Running := by
      rw [(visits_frame hv).2.1]; simpa [noteResume] using hrun
    obtain ⟨k, rfl⟩ := step_abort hrun1 hst
    exact ⟨k, h1, cb1, hv⟩

/-- C10: a trailers event on a direction whose handle is in state `WaitForBody` (with
`end_stream_` false and its coroutine suspended at `susp`).  `onTrailers(tr)` is exactly
one resume of the coroutine, made on a handle with `end_stream_` true and `tr` recorded,
with the values `body()` gives at that moment: none when the proxy has nothing buffered,
otherwise the body wrapper, which resolves to the proxy's buffered body.  At every point
the resumed script reaches, `state_` is `Running`, the trailers are still recorded, and
a call of `trailers()` pushes the trailers wrapper without yielding.  The trailers event
returns `Continue` to the proxy whenever it returns, and it does return unless the
resumed script calls `httpCall`, whose body is `ASSERT(false)`. -/
theorem C10_trailers_while_waiting_for_body (f : Filter σ) (d : Direction)
    (h0 : StreamHandleWrapper σ) (tr : HeaderMap) (susp : σ) (hh : f.handle d = some h0)
    (hst : h0.state_ = State.WaitForBody) (hes : h0.end_stream_ = false)
    (hco : h0.coroutine_.state_ = .Yielded susp) :
    ∃ vs h1,
      luaBody { h0.markLive with
          end_stream_ := true, trailers_ := some tr, state_ := State.Running }
        (f.callbacks d) = some (.values vs, h1) ∧
      ((f.callbacks d).bufferedBody = none → vs = []) ∧
      (∀ b, (f.callbacks d).bufferedBody = some b →
        vs = [Value.body] ∧ bufferWrapper h1 (f.callbacks d) Value.body = .live b) ∧
      h1.end_stream_ = true ∧ h1.trailers_ = some tr ∧
      onTrailers h0.markLive (f.callbacks d) tr = coroutineResume h1 (f.callbacks d) vs ∧
      f.doTrailers d tr = f.trailersResult d (coroutineResume h1 (f.callbacks d) vs) ∧
      h1.coroutine_ = h0.coroutine_ ∧
      (∀ seg2 h2 cb2,
        Visits (h0.coroutine_.script.resume susp vs) (noteResume h1 vs) (f.callbacks d)
          seg2 h2 cb2 →
        h2.state_ = State.Running ∧ h2.trailers_.isSome = true ∧
        ∃ h3, luaTrailers h2 = some (.values [Value.trailers], h3) ∧
          h3.state_ = State.Running ∧ h3.trailers_ = h2.trailers_) ∧
      (∀ r, f.doTrailers d tr = some r → r.1 = FilterTrailersStatus.Continue) ∧
      ((∀ k h2 cb2,
          ¬ Visits (h0.coroutine_.script.resume susp vs) (noteResume h1 vs) (f.callbacks d)
            (Seg.httpCall k) h2 cb2) →
        ∃ f1, f.doTrailers d tr = some (FilterTrailersStatus.Continue, f1)) := by
  have hst1 : h0.markLive.state_ = State.WaitForBody := by
    simpa [markLive, onMarkLive] using hst
  have hes1 : h0.markLive.end_stream_ = false := by
    simpa [markLive, onMarkLive] using hes
  have hbw : h0.markLive.body_wrapper_ ≠ LuaDeathRef.holds false := by
    simp only [markLive, onMarkLive]
    cases h0.body_wrapper_ <;> simp [LuaDeathRef.markLive]
  obtain ⟨vs, h1, hb, hnone, hsome, he1, ht1, hs1, hc1, hon⟩ :=
    onTrailers_waitForBody h0.markLive (f.callbacks d) tr hst1 hes1
  have hdo : f.doTrailers d tr =
      f.trailersResult d (coroutineResume h1 (f.callbacks d) vs) := by
    simp only [Filter.doTrailers, hh, hon]
  have hc0 : h1.coroutine_ = h0.coroutine_ := by
    rw [hc1]; simp [markLive, onMarkLive]
  refine ⟨vs, h1, hb, hnone, fun b hbb => ⟨(hsome b hbb).1, (hsome b hbb).2 hbw⟩, he1, ht1,
    hon, hdo, hc0, ?_, ?_, ?_⟩
  · intro seg2 h2 cb2 hv
    obtain ⟨hf, hs2, -⟩ := visits_frame hv
    have hrun2 : h2.state_ = State.Running := by
      rw [hs2]; simpa [noteResume] using hs1
    have ht2 : h2.trailers_.isSome = true := by
      rw [hf.2.2.2.2.2]; simp [noteResume, ht1]
    obtain ⟨h3, e3, s3, t3, -⟩ := luaTrailers_recorded h2 hrun2 ht2
    exact ⟨hrun2, ht2, h3, e3, s3, t3⟩
  · intro r _
    cases r.1
    rfl
  · intro hno
    rw [hdo]
    refine Filter.trailersResult_some f d _ ?_
    intro hab
    obtain ⟨k, h2, cb2, hv⟩ :=
      coroutineResume_abort h1 (f.callbacks d) vs susp hs1 (by rw [hc0]; exact hco) hab
    rw [hc0] at hv
    exact hno k h2 cb2 hv

/-- Witness for C9: the handle of `TRAILERS_NO_BODY_SCRIPT`, suspended in `trailers()`
after the headers of a request with a body. -/
theorem C9_waitForTrailers_witness :
    (Scripts.started Scripts.trailersNoBodyScript).state_ = State.WaitForTrailers ∧
    (Scripts.started Scripts.trailersNoBodyScript).end_stream_ = false ∧
    ((∀ tr : HeaderMap,
      onTrailers (Scripts.started Scripts.trailersNoBodyScript) Scripts.emptyCallbacks tr =
        coroutineResume
          { (Scripts.started Scripts.trailersNoBodyScript) with
            end_stream_ := true
            trailers_ := some tr
            state_ := State.Running
            trailers_wrapper_ :=
              if (Scripts.started Scripts.trailersNoBodyScript).trailers_wrapper_.get then
                (Scripts.started Scripts.trailersNoBodyScript).trailers_wrapper_
              else LuaDeathRef.holds true } Scripts.emptyCallbacks [Value.trailers] ∧
      ((Scripts.started Scripts.trailersNoBodyScript).trailers_wrapper_ ≠
          LuaDeathRef.holds false →
        headerMapWrapper
          { (Scripts.started Scripts.trailersNoBodyScript) with
            end_stream_ := true
            trailers_ := some tr
            state_ := State.Running
            trailers_wrapper_ :=
              if (Scripts.started Scripts.trailersNoBodyScript).trailers_wrapper_.get then
                (Scripts.started Scripts.trailersNoBodyScript).trailers_wrapper_
              else LuaDeathRef.holds true } Value.trailers = .live tr)) ∧
    (∀ data : Buffer,
      onData (Scripts.started Scripts.trailersNoBodyScript) Scripts.emptyCallbacks data true =
        dataReturn (coroutineResume
          { (Scripts.started Scripts.trailersNoBodyScript) with
            end_stream_ := true, state_ := State.Running } Scripts.emptyCallbacks []) ∧
      (∀ status, (onData (Scripts.started Scripts.trailersNoBodyScript)
          Scripts.emptyCallbacks data true).1 = .ok status →
        status = FilterDataStatus.Continue) ∧
      ((coroutineResume { (Scripts.started Scripts.trailersNoBodyScript) with
          end_stream_ := true, state_ := State.Running } Scripts.emptyCallbacks []).1 =
          .ok () →
        (onData (Scripts.started Scripts.trailersNoBodyScript) Scripts.emptyCallbacks
          data true).1 = .ok FilterDataStatus.Continue)) ∧
    (∀ data : Buffer,
      onData (Scripts.started Scripts.trailersNoBodyScript) Scripts.emptyCallbacks data
        false =
        (.ok FilterDataStatus.Continue, Scripts.started Scripts.trailersNoBodyScript,
          Scripts.emptyCallbacks))) :=
  ⟨rfl, rfl, C9_waitForTrailers (Scripts.started Scripts.trailersNoBodyScript)
    Scripts.emptyCallbacks rfl rfl⟩

/-- Witness for C10: the filter running `BODY_TRAILERS_SCRIPT` after the headers of a
request with a body receives the trailers of the unit tests. -/
theorem C10_trailers_while_waiting_for_body_witness :
    (Scripts.afterHeaders Scripts.bodyTrailersScript).handle Direction.request =
      some (Scripts.started Scripts.bodyTrailersScript).markDead ∧
    (Scripts.started Scripts.bodyTrailersScript).markDead.state_ = State.WaitForBody ∧
    (Scripts.started Scripts.bodyTrailersScript).markDead.end_stream_ = false ∧
    (Scripts.started Scripts.bodyTrailersScript).markDead.coroutine_.state_ = .Yielded 0 ∧
    ∃ vs h1,
      luaBody { (Scripts.started Scripts.bodyTrailersScript).markDead.markLive with
          end_stream_ := true, trailers_ := some Scripts.requestTrailers,
          state_ := State.Running }
        ((Scripts.afterHeaders Scripts.bodyTrailersScript).callbacks Direction.request) =
        some (.values vs, h1) ∧
      (((Scripts.afterHeaders Scripts.bodyTrailersScript).callbacks
          Direction.request).bufferedBody = none → vs = []) ∧
      (∀ b, ((Scripts.afterHeaders Scripts.bodyTrailersScript).callbacks
          Direction.request).bufferedBody = some b →
        vs = [Value.body] ∧
        bufferWrapper h1
          ((Scripts.afterHeaders Scripts.bodyTrailersScript).callbacks Direction.request)
          Value.body = .live b) ∧
      h1.end_stream_ = true ∧ h1.trailers_ = some Scripts.requestTrailers ∧
      onTrailers (Scripts.started Scripts.bodyTrailersScript).markDead.markLive
          ((Scripts.afterHeaders Scripts.bodyTrailersScript).callbacks Direction.request)
          Scripts.requestTrailers =
        coroutineResume h1
          ((Scripts.afterHeaders Scripts.bodyTrailersScript).callbacks Direction.request)
          vs ∧
      (Scripts.afterHeaders Scripts.bodyTrailersScript).doTrailers Direction.request
          Scripts.requestTrailers =
        (Scripts.afterHeaders Scripts.bodyTrailersScript).trailersResult Direction.request
          (coroutineResume h1
            ((Scripts.afterHeaders Scripts.bodyTrailersScript).callbacks Direction.request)
            vs) ∧
      h1.coroutine_ = (Scripts.started Scripts.bodyTrailersScript).markDead.coroutine_ ∧
      (∀ seg2 h2 cb2,
        Visits ((Scripts.started Scripts.bodyTrailersScript).markDead.coroutine_.script.resume
            0 vs) (noteResume h1 vs)
          ((Scripts.afterHeaders Scripts.bodyTrailersScript).callbacks Direction.request)
          seg2 h2 cb2 →
        h2.state_ = State.Running ∧ h2.trailers_.isSome = true ∧
        ∃ h3, luaTrailers h2 = some (.values [Value.trailers], h3) ∧
          h3.state_ = State.Running ∧ h3.trailers_ = h2.trailers_) ∧
      (∀ r, (Scripts.afterHeaders Scripts.bodyTrailersScript).doTrailers Direction.request
          Scripts.requestTrailers = some r → r.1 = FilterTrailersStatus.Continue) ∧
      ((∀ k h2 cb2,
          ¬ Visits
            ((Scripts.started Scripts.bodyTrailersScript).markDead.coroutine_.script.resume
              0 vs) (noteResume h1 vs)
            ((Scripts.afterHeaders Scripts.bodyTrailersScript).callbacks Direction.request)
            (Seg.httpCall k) h2 cb2) →
        ∃ f1, (Scripts.afterHeaders Scripts.bodyTrailersScript).doTrailers
          Direction.request Scripts.requestTrailers =
            some (FilterTrailersStatus.Continue, f1)) :=
  ⟨rfl, rfl, rfl, rfl, C10_trailers_while_waiting_for_body
    (Scripts.afterHeaders Scripts.bodyTrailersScript) Direction.request
    (Scripts.started Scripts.bodyTrailersScript).markDead Scripts.requestTrailers 0
    rfl rfl rfl rfl⟩

theorem StreamHandleWrapper.afterRun_handle (s : Stop σ) (h : StreamHandleWrapper σ)
    (cb : FilterCallbacks) :
    (afterRun (s, h, cb)).2.1 =
      match s with
      | .finished => setCoroutineState h .Finished
      | .yielded susp _ => setCoroutineState h (.Yielded susp)
      | .error _ => setCoroutineState h .Finished
      | .abort => h := by
  cases s <;> (simp only [afterRun]; try split) <;> rfl

theorem Filter.handle_handleScriptError (f : Filter σ) (what : String) (d : Direction) :
    (f.handleScriptError what).handle d = none := by
  cases d <;> rfl

theorem Filter.streamCallbacks_setHandle (f : Filter σ) (d d1 : Direction)
    (x : Option (StreamHandleWrapper σ)) :
    (f.setHandle d x).streamCallbacks d1 = f.streamCallbacks d1 := by
  cases d <;> cases d1 <;> rfl

theorem Filter.streamCallbacks_withCallbacks (f : Filter σ) (d : Direction)
    (cb : FilterCallbacks) : (f.withCallbacks d cb).streamCallbacks d = cb.callbacks_ := by
  cases d <;> rfl

theorem Filter.log_setHandle (f : Filter σ) (d : Direction)
    (x : Option (StreamHandleWrapper σ)) : (f.setHandle d x).log_ = f.log_ := by
  cases d <;> rfl

theorem Filter.log_withCallbacks (f : Filter σ) (d : Direction) (cb : FilterCallbacks) :
    (f.withCallbacks d cb).log_ = cb.logger := by
  cases d <;> rfl

theorem Filter.config_setHandle (f : Filter σ) (d : Direction)
    (x : Option (StreamHandleWrapper σ)) : (f.setHandle d x).config_ = f.config_ := by
  cases d <;> rfl

theorem Filter.config_withCallbacks (f : Filter σ) (d : Direction) (cb : FilterCallbacks) :
    (f.withCallbacks d cb).config_ = f.config_ := by
  cases d <;> rfl

theorem Filter.handle_bufferFrame (f : Filter σ) (d d1 : Direction) (data : Buffer) :
    (f.bufferFrame d data).handle d1 = f.handle d1 := by
  cases d <;> cases d1 <;> rfl

theorem Filter.log_bufferFrame (f : Filter σ) (d : Direction) (data : Buffer) :
    (f.bufferFrame d data).log_ = f.log_ := by
  cases d <;> rfl

theorem Filter.config_bufferFrame (f : Filter σ) (d : Direction) (data : Buffer) :
    (f.bufferFrame d data).config_ = f.config_ := by
  cases d <;> rfl

theorem Filter.buffer_bufferFrame (f : Filter σ) (d : Direction) (data : Buffer) :
    ((f.bufferFrame d data).streamCallbacks d).buffer_ =
      some ((f.streamCallbacks d).buffer_.getD [] ++ data) := by
  cases d <;> rfl

/-- The headers event left the handle suspended in `body()`. -/
theorem Filter.doHeaders_waitForBody (f : Filter σ) (d : Direction) (function_ref : Int)
    (headers : HeaderMap) (status : FilterHeadersStatus) (f1 : Filter σ)
    (h1 : StreamHandleWrapper σ) (href : function_ref ≠ LUA_REFNIL)
    (hhdr : f.doHeaders d function_ref headers false = some (status, f1))
    (hh : f1.handle d = some h1) (hst : h1.state_ = State.WaitForBody) :
    status = FilterHeadersStatus.StopIteration ∧
    ∃ susp, f1.Suspended d State.WaitForBody susp (f.streamCallbacks d).buffer_ f1.log_ := by
  simp only [Filter.doHeaders, href, ↓reduceIte] at hhdr
  cases hfn : f.config_.lua_state_.function function_ref with
  | none =>
    simp [start, coroutineStart, StreamHandleWrapper.create, FilterConfig.createCoroutine, hfn,
      Filter.headersResult] at hhdr
  | some seg =>
    obtain ⟨s, h2, cb2, hr, hst2, hf, hcb, hs3, hcb3, ho⟩ :=
      start_eq (StreamHandleWrapper.create f.config_.createCoroutine headers false)
        (f.callbacks d) function_ref
        seg rfl rfl hfn
    have hah := afterRun_handle s h2 cb2
    have hstart : start (StreamHandleWrapper.create f.config_.createCoroutine headers false)
        (f.callbacks d)
        function_ref =
        ((start (StreamHandleWrapper.create f.config_.createCoroutine headers false) (f.callbacks d)
          function_ref).1, (afterRun (s, h2, cb2)).2.1, cb2) := by
      have : (start (StreamHandleWrapper.create f.config_.createCoroutine headers false)
          (f.callbacks d)
          function_ref).2.1 = (afterRun (s, h2, cb2)).2.1 := by
        simp only [start, coroutineStart, StreamHandleWrapper.create,
          FilterConfig.createCoroutine, hfn]
        simp only [StreamHandleWrapper.create, FilterConfig.createCoroutine] at hr
        rw [hr]
        rcases afterRun (s, h2, cb2) with ⟨o, h4, cb4⟩
        cases o <;> rfl
      rw [← this, ← hcb3]
    rw [hstart, ho] at hhdr
    cases s with
    | finished =>
      simp only [Filter.headersResult, Option.some.injEq, Prod.mk.injEq] at hhdr
      obtain ⟨-, rfl⟩ := hhdr
      rw [Filter.handle_setHandle] at hh
      cases hh
      simp [markDead, onMarkDead, hah, setCoroutineState, hst2, stateAfter] at hst
    | error msg =>
      simp only [Filter.headersResult, Option.some.injEq, Prod.mk.injEq] at hhdr
      obtain ⟨-, rfl⟩ := hhdr
      rw [Filter.handle_handleScriptError] at hh
      cases hh
    | abort => simp [Filter.headersResult] at hhdr
    | yielded susp site =>
      cases site with
      | script =>
        simp only [Filter.headersResult, Option.some.injEq, Prod.mk.injEq] at hhdr
        obtain ⟨-, rfl⟩ := hhdr
        rw [Filter.handle_handleScriptError] at hh
        cases hh
      | bodyIterator =>
        simp only [Filter.headersResult, Option.some.injEq, Prod.mk.injEq] at hhdr
        obtain ⟨-, rfl⟩ := hhdr
        rw [Filter.handle_setHandle] at hh
        cases hh
        simp [markDead, onMarkDead, hah, setCoroutineState, hst2, stateAfter] at hst
      | trailers =>
        simp only [Filter.headersResult, Option.some.injEq, Prod.mk.injEq] at hhdr
        obtain ⟨-, rfl⟩ := hhdr
        rw [Filter.handle_setHandle] at hh
        cases hh
        simp [markDead, onMarkDead, hah, setCoroutineState, hst2, stateAfter] at hst
      | body =>
        simp only [Filter.headersResult, Option.some.injEq, Prod.mk.injEq] at hhdr
        obtain ⟨rfl, rfl⟩ := hhdr
        refine ⟨rfl, susp, ?_⟩
        rw [Filter.handle_setHandle] at hh
        cases hh
        refine ⟨_, Filter.handle_setHandle _ _ _, hst, ?_, ?_, ?_, ?_, rfl⟩
        · simp only [markDead, onMarkDead, hah, setCoroutineState]
          rw [hf.2.1]; rfl
        · simp only [markDead, onMarkDead, hah, setCoroutineState]
        · simp only [markDead, onMarkDead, hah, setCoroutineState,
            Filter.config_setHandle, Filter.config_withCallbacks]
          rw [hf.1]; rfl
        · rw [Filter.streamCallbacks_setHandle, Filter.streamCallbacks_withCallbacks, hcb]
          rfl

/-- A frame that does not end the stream, delivered while the handle waits in `body()`,
is answered with `StopIterationAndBuffer` and buffered by the proxy; the handle keeps
waiting. -/
theorem Filter.deliverData_waitForBody (f : Filter σ) (d : Direction) (susp : σ)
    (buf : Option Buffer) (log : List (Int × String)) (data : Buffer)
    (hw : f.Suspended d State.WaitForBody susp buf log) :
    ∃ f1, f.deliverData d data false = some (FilterDataStatus.StopIterationAndBuffer, f1) ∧
      f1.Suspended d State.WaitForBody susp (some (buf.getD [] ++ data)) log := by
  obtain ⟨h, hh, hst, hes, hco, hsc, hbuf, hlog⟩ := hw
  have hon : onData h.markLive (f.callbacks d) data false =
      (.ok FilterDataStatus.StopIterationAndBuffer,
        { h.markLive with end_stream_ := false }, f.callbacks d) := by
    simp [onData, markLive, onMarkLive, hst, hes]
  refine ⟨((f.withCallbacks d (f.callbacks d)).setHandle d
    (some (markDead { h.markLive with end_stream_ := false }))).bufferFrame d data, ?_, ?_⟩
  · simp only [Filter.deliverData, Filter.doData, hh, hon, Filter.dataResult]
  · refine ⟨markDead { h.markLive with end_stream_ := false }, ?_, ?_, ?_, ?_, ?_, ?_, ?_⟩
    · rw [Filter.handle_bufferFrame, Filter.handle_setHandle]
    · simpa [markLive, onMarkLive, markDead, onMarkDead] using hst
    · simp [markLive, onMarkLive, markDead, onMarkDead]
    · simpa [markLive, onMarkLive, markDead, onMarkDead] using hco
    · rw [Filter.config_bufferFrame, Filter.config_setHandle, Filter.config_withCallbacks]
      simpa [markLive, onMarkLive, markDead, onMarkDead] using hsc
    · rw [Filter.buffer_bufferFrame, Filter.streamCallbacks_setHandle,
        Filter.streamCallbacks_withCallbacks]
      simp only [Filter.callbacks]
      rw [hbuf]
    · rw [Filter.log_bufferFrame, Filter.log_setHandle, Filter.log_withCallbacks]
      exact hlog

/-- Appending frames one after the other to the buffered body appends their
concatenation. -/
theorem Filter.buffered_frames (frames : List Buffer) (buf : Option Buffer) :
    (frames.foldl (fun b data => some (b.getD [] ++ data)) buf).getD [] =
      buf.getD [] ++ frames.flatten := by
  induction frames generalizing buf with
  | nil => simp
  | cons data rest ih => simp [ih]

/-- Frames that do not end the stream, delivered while the handle waits in `body()`,
are all answered with `StopIterationAndBuffer` and buffered. -/
theorem Filter.deliverFrames_waitForBody (frames : List Buffer) :
    ∀ (f : Filter σ) (d : Direction) (susp : σ) (buf : Option Buffer)
      (log : List (Int × String)), f.Suspended d State.WaitForBody susp buf log →
    ∃ f1, f.deliverFrames d frames =
        some (List.replicate frames.length FilterDataStatus.StopIterationAndBuffer, f1) ∧
      f1.Suspended d State.WaitForBody susp
        (frames.foldl (fun b data => some (b.getD [] ++ data)) buf) log := by
  induction frames with
  | nil =>
    intro f d susp buf log hw
    exact ⟨f, rfl, hw⟩
  | cons data rest ih =>
    intro f d susp buf log hw
    obtain ⟨f1, h1, hw1⟩ := Filter.deliverData_waitForBody f d susp buf log data hw
    obtain ⟨f2, h2, hw2⟩ := ih f1 d susp _ log hw1
    refine ⟨f2, ?_, hw2⟩
    simp only [Filter.deliverFrames, h1, h2, List.length_cons, List.replicate_succ]

theorem Filter.dataResult_dataReturn (f : Filter σ) (d : Direction)
    (r : Outcome Unit × StreamHandleWrapper σ × FilterCallbacks) :
    (∀ x, f.dataResult d (dataReturn r) = some x → x.1 = FilterDataStatus.Continue) ∧
    (r.1 ≠ .abort →
      ∃ f1, f.dataResult d (dataReturn r) = some (FilterDataStatus.Continue, f1)) := by
  obtain ⟨o, h, cb⟩ := r
  cases o with
  | ok a => exact ⟨fun x hx => (by cases hx; rfl), fun _ => ⟨_, rfl⟩⟩
  | luaException what => exact ⟨fun x hx => (by cases hx; rfl), fun _ => ⟨_, rfl⟩⟩
  | abort => exact ⟨fun x hx => (by cases hx), fun hne => absurd rfl hne⟩

/-- The frame that ends the stream, delivered while the handle waits in `body()`: the
frame is added to the buffered body and the coroutine is resumed with the body
wrapper, which resolves to the whole buffered body. -/
theorem Filter.doData_last_waitForBody (f : Filter σ) (d : Direction) (susp : σ)
    (buf : Option Buffer) (log : List (Int × String)) (data : Buffer)
    (hw : f.Suspended d State.WaitForBody susp buf log) :
    ∃ h3 cb3,
      f.doData d data true = f.dataResult d (dataReturn (coroutineResume h3 cb3 [Value.body])) ∧
      bufferWrapper h3 cb3 Value.body = .live (buf.getD [] ++ data) ∧
      h3.coroutine_.state_ = .Yielded susp ∧ h3.end_stream_ = true ∧
      h3.state_ = State.Running := by
  obtain ⟨h, hh, hst, hes, hco, hsc, hbuf, hlog⟩ := hw
  have hbw : h.markLive.body_wrapper_ ≠ LuaDeathRef.holds false := by
    simp only [markLive, onMarkLive]
    cases h.body_wrapper_ <;> simp [LuaDeathRef.markLive]
  obtain ⟨vs, h3, hb, -, hsome, hf, hs3, -⟩ :=
    luaBody_at_end { h.markLive with end_stream_ := true, state_ := State.Running }
      ((f.callbacks d).addData data) rfl rfl
  have hbb : ((f.callbacks d).addData data).bufferedBody = some (buf.getD [] ++ data) := by
    simp [FilterCallbacks.addData, FilterCallbacks.bufferedBody, StreamFilterCallbacks.addData,
      Filter.callbacks, hbuf]
  obtain ⟨rfl, hlive⟩ := hsome _ hbb
  refine ⟨h3, (f.callbacks d).addData data, ?_, hlive hbw, ?_, hf.2.1, hs3⟩
  · have hon : onData h.markLive (f.callbacks d) data true =
        dataReturn (coroutineResume h3 ((f.callbacks d).addData data) [Value.body]) := by
      have e1 : h.markLive.end_stream_ = false := by
        simpa [markLive, onMarkLive] using hes
      have e2 : h.markLive.state_ = State.WaitForBody := by
        simpa [markLive, onMarkLive] using hst
      simp only [onData, e1, e2]
      simp only [Bool.false_eq_true, ↓reduceIte, reduceCtorEq, Bool.and_self, decide_True]
      rw [hb]
    simp only [Filter.doData, hh, hon]
  · rw [hf.1]
    simpa [markLive, onMarkLive] using hco

/-- C4: a script that is suspended in `body()` when the headers event of a stream with
a body returns, followed by the data frames `frames` (none ending the stream) and the
frame `last` (ending it), on a proxy that had nothing buffered, buffers every frame
answered with `StopIterationAndBuffer` and implements `addData` as append.  The headers
event returns `StopIteration`; each frame of `frames` returns `StopIterationAndBuffer`;
the last frame resumes the coroutine with exactly one value, the body wrapper, which at
that moment resolves to the concatenation of all frames, so that its `byteSize` is the
sum of their lengths; and the last frame returns `Continue` whenever it returns, which
it does unless the resumed script calls `httpCall`, whose body is `ASSERT(false)`. -/
theorem C4_body_across_frames (f : Filter σ) (d : Direction) (function_ref : Int)
    (headers : HeaderMap) (status : FilterHeadersStatus) (f1 : Filter σ)
    (h1 : StreamHandleWrapper σ) (frames : List Buffer) (last : Buffer)
    (href : function_ref ≠ LUA_REFNIL) (hbuf : (f.streamCallbacks d).buffer_ = none)
    (hhdr : f.doHeaders d function_ref headers false = some (status, f1))
    (hh : f1.handle d = some h1) (hst : h1.state_ = State.WaitForBody) :
    status = FilterHeadersStatus.StopIteration ∧
    ∃ f2, f1.deliverFrames d frames =
        some (List.replicate frames.length FilterDataStatus.StopIterationAndBuffer, f2) ∧
      ∃ h3 cb3,
        f2.doData d last true =
          f2.dataResult d (dataReturn (coroutineResume h3 cb3 [Value.body])) ∧
        bufferWrapper h3 cb3 Value.body = .live (frames.flatten ++ last) ∧
        luaByteSize (frames.flatten ++ last) =
          (frames.map List.length).sum + last.length ∧
        (∀ r, f2.doData d last true = some r → r.1 = FilterDataStatus.Continue) ∧
        ((∀ susp k h4 cb4, h3.coroutine_.state_ = .Yielded susp →
            ¬ Visits (h3.coroutine_.script.resume susp [Value.body])
              (noteResume h3 [Value.body]) cb3 (Seg.httpCall k) h4 cb4) →
          ∃ f3, f2.doData d last true = some (FilterDataStatus.Continue, f3)) := by
  obtain ⟨hs, susp, hw⟩ :=
    Filter.doHeaders_waitForBody f d function_ref headers status f1 h1 href hhdr hh hst
  rw [hbuf] at hw
  obtain ⟨f2, hfr, hw2⟩ := Filter.deliverFrames_waitForBody frames f1 d susp none f1.log_ hw
  obtain ⟨h3, cb3, hdo, hlive, hco3, -, hs3⟩ :=
    Filter.doData_last_waitForBody f2 d susp _ f1.log_ last hw2
  rw [Filter.buffered_frames] at hlive
  simp only [Option.getD_none, List.nil_append] at hlive
  have hres := Filter.dataResult_dataReturn f2 d (coroutineResume h3 cb3 [Value.body])
  refine ⟨hs, f2, hfr, h3, cb3, hdo, hlive, ?_, ?_, ?_⟩
  · simp [luaByteSize, List.length_flatten]
  · intro r hr
    rw [hdo] at hr
    exact hres.1 r hr
  · intro hno
    rw [hdo]
    refine hres.2 ?_
    intro hab
    obtain ⟨k, h4, cb4, hv⟩ := coroutineResume_abort h3 cb3 [Value.body] susp hs3 hco3 hab
    exact hno susp k h4 cb4 hco3 hv

/-- One iteration of the chunk loop: resumed with the chunk wrapper of `data`, the
script logs its size and calls the iterator again. -/
theorem StreamHandleWrapper.run_chunkLoop_step (h : StreamHandleWrapper σ)
    (cb : FilterCallbacks) (after : Seg σ) (s0 : σ) (data : Buffer) (n : Nat)
    (hl : h.live_ = true) (hc : h.chunk_ = some data) (hn : h.chunks_ = n + 1) :
    run (Scripts.chunkLoopResume after s0 [Value.chunk n]) h cb =
      run (Scripts.chunkLoopHead after s0) h (cb.scriptLog 0 (toString data.length)) := by
  simp [Scripts.chunkLoopResume, run, bufferWrapper, hn, hc, hl, luaByteSize, luaLog]

/-- A frame that does not end the stream, delivered while the script waits in the
iterator of its chunk loop: the loop body logs the size of the frame, the script waits
in the iterator again, and the frame is answered with `Continue`. -/
theorem Filter.deliverData_chunk (f : Filter σ) (d : Direction) (s0 : σ) (after : Seg σ)
    (buf : Option Buffer) (log : List (Int × String)) (data : Buffer)
    (hw : f.Suspended d State.WaitForBodyChunk s0 buf log)
    (hloop : f.config_.lua_state_.resume s0 = Scripts.chunkLoopResume after s0) :
    ∃ f1, f.deliverData d data false = some (FilterDataStatus.Continue, f1) ∧
      f1.Suspended d State.WaitForBodyChunk s0 buf (log ++ [(0, toString data.length)]) ∧
      f1.config_ = f.config_ := by
  obtain ⟨h, hh, hst, hes, hco, hsc, hbuf, hlog⟩ := hw
  have e1 : h.markLive.end_stream_ = false := by simpa [markLive, onMarkLive] using hes
  have e2 : h.markLive.state_ = State.WaitForBodyChunk := by
    simpa [markLive, onMarkLive] using hst
  have e3 : h.markLive.coroutine_ = h.coroutine_ := by simp [markLive, onMarkLive]
  have hon : ∃ h2, onData h.markLive (f.callbacks d) data false =
      (.ok FilterDataStatus.Continue, h2, (f.callbacks d).scriptLog 0 (toString data.length)) ∧
      h2.state_ = State.WaitForBodyChunk ∧ h2.end_stream_ = false ∧
      h2.coroutine_.state_ = .Yielded s0 ∧ h2.coroutine_.script = h.coroutine_.script := by
    simp only [onData, e1, e2]
    simp only [Bool.false_eq_true, ↓reduceIte, coroutineResume, e3, hco, hsc, hloop]
    rw [run_chunkLoop_step _ _ _ _ data h.markLive.chunks_
      (by simp [noteResume, markLive, onMarkLive])
      (by simp [noteResume]) (by simp [noteResume])]
    simp [Scripts.chunkLoopHead, run, noteResume, markLive, onMarkLive, luaBodyIterator,
      afterRun, yield_callback_, setCoroutineState, chunkReturn, hsc]
  obtain ⟨h2, hon, hs2, hes2, hco2, hsc2⟩ := hon
  refine ⟨(f.withCallbacks d ((f.callbacks d).scriptLog 0 (toString data.length))).setHandle d
    (some h2.markDead), ?_, ?_, ?_⟩
  · simp only [Filter.deliverData, Filter.doData, hh, hon, Filter.dataResult]
  rotate_left
  · rw [Filter.config_setHandle, Filter.config_withCallbacks]
  · refine ⟨h2.markDead, ?_, ?_, ?_, ?_, ?_, ?_, ?_⟩
    · rw [Filter.handle_setHandle]
    · simpa [markDead, onMarkDead] using hs2
    · simpa [markDead, onMarkDead] using hes2
    · simpa [markDead, onMarkDead] using hco2
    · rw [Filter.config_setHandle, Filter.config_withCallbacks]
      simp only [markDead, onMarkDead]
      rw [hsc2, hsc]
    · rw [Filter.streamCallbacks_setHandle, Filter.streamCallbacks_withCallbacks]
      simp only [FilterCallbacks.scriptLog, Filter.callbacks]
      exact hbuf
    · rw [Filter.log_setHandle, Filter.log_withCallbacks]
      simp only [FilterCallbacks.scriptLog, Filter.callbacks]
      rw [hlog]

/-- Frames that do not end the stream, delivered while the script waits in the iterator
of its chunk loop: every frame is answered with `Continue` and the loop body logs the
sizes of the frames in delivery order. -/
theorem Filter.deliverFrames_chunks (after : Seg σ) (frames : List Buffer) :
    ∀ (f : Filter σ) (d : Direction) (s0 : σ) (buf : Option Buffer)
      (log : List (Int × String)), f.Suspended d State.WaitForBodyChunk s0 buf log →
      f.config_.lua_state_.resume s0 = Scripts.chunkLoopResume after s0 →
    ∃ f1, f.deliverFrames d frames =
        some (List.replicate frames.length FilterDataStatus.Continue, f1) ∧
      f1.Suspended d State.WaitForBodyChunk s0 buf
        (log ++ frames.map (fun data => ((0 : Int), toString data.length))) ∧
      f1.config_ = f.config_ := by
  induction frames with
  | nil =>
    intro f d s0 buf log hw _
    exact ⟨f, rfl, by simpa using hw, rfl⟩
  | cons data rest ih =>
    intro f d s0 buf log hw hloop
    obtain ⟨f1, h1, hw1, hc1⟩ := Filter.deliverData_chunk f d s0 after buf log data hw hloop
    obtain ⟨f2, h2, hw2, hc2⟩ := ih f1 d s0 buf _ hw1 (by rw [hc1]; exact hloop)
    refine ⟨f2, ?_, ?_, hc2.trans hc1⟩
    · simp only [Filter.deliverFrames, h1, h2, List.length_cons, List.replicate_succ]
    · simpa using hw2

/-- The frame that ends the stream, delivered while the script waits in the iterator of
its chunk loop: the loop body logs the size of the frame, the next iterator call
returns nil and the script goes on with what follows the loop. -/
theorem Filter.doData_last_chunk (f : Filter σ) (d : Direction) (s0 : σ) (after : Seg σ)
    (buf : Option Buffer) (log : List (Int × String)) (data : Buffer)
    (hw : f.Suspended d State.WaitForBodyChunk s0 buf log)
    (hloop : f.config_.lua_state_.resume s0 = Scripts.chunkLoopResume after s0) :
    ∃ h4 cb4,
      f.doData d data true = f.dataResult d (chunkReturn (afterRun (run after h4 cb4))) ∧
      cb4.logger = log ++ [(0, toString data.length)] ∧ h4.end_stream_ = true ∧
      h4.state_ = State.Running ∧ h4.live_ = true := by
  obtain ⟨h, hh, hst, hes, hco, hsc, hbuf, hlog⟩ := hw
  have e1 : h.markLive.end_stream_ = false := by simpa [markLive, onMarkLive] using hes
  have e2 : h.markLive.state_ = State.WaitForBodyChunk := by
    simpa [markLive, onMarkLive] using hst
  have e3 : h.markLive.coroutine_ = h.coroutine_ := by simp [markLive, onMarkLive]
  refine ⟨noteResume { h.markLive with
      end_stream_ := true, chunk_ := some data, chunks_ := h.markLive.chunks_ + 1,
      state_ := State.Running } [Value.chunk h.markLive.chunks_],
    (f.callbacks d).scriptLog 0 (toString data.length), ?_, ?_, rfl, rfl, ?_⟩
  · simp only [Filter.doData, hh, onData, e1, e2]
    simp only [Bool.false_eq_true, ↓reduceIte, coroutineResume, e3, hco, hsc, hloop]
    rw [run_chunkLoop_step _ _ _ _ data h.markLive.chunks_
      (by simp [noteResume, markLive, onMarkLive]) (by simp [noteResume])
      (by simp [noteResume])]
    simp [Scripts.chunkLoopHead, run, noteResume, markLive, onMarkLive, luaBodyIterator]
  · simp [FilterCallbacks.scriptLog, Filter.callbacks, hlog]
  · simp [noteResume, markLive, onMarkLive]

/-- Trailers, delivered while the script waits in the iterator of its chunk loop: the
iterator call returns nil and the script goes on with what follows the loop. -/
theorem Filter.doTrailers_chunk (f : Filter σ) (d : Direction) (s0 : σ) (after : Seg σ)
    (buf : Option Buffer) (log : List (Int × String)) (tr : HeaderMap)
    (hw : f.Suspended d State.WaitForBodyChunk s0 buf log)
    (hloop : f.config_.lua_state_.resume s0 = Scripts.chunkLoopResume after s0) :
    ∃ h5 cb5,
      f.doTrailers d tr = f.trailersResult d (afterRun (run after h5 cb5)) ∧
      cb5.logger = log ∧ h5.end_stream_ = true ∧ h5.trailers_ = some tr ∧
      h5.state_ = State.Running ∧ h5.live_ = true := by
  obtain ⟨h, hh, hst, hes, hco, hsc, hbuf, hlog⟩ := hw
  have e1 : h.markLive.end_stream_ = false := by simpa [markLive, onMarkLive] using hes
  have e2 : h.markLive.state_ = State.WaitForBodyChunk := by
    simpa [markLive, onMarkLive] using hst
  have e3 : h.markLive.coroutine_ = h.coroutine_ := by simp [markLive, onMarkLive]
  refine ⟨noteResume { h.markLive with
      end_stream_ := true, trailers_ := some tr, state_ := State.Running } [],
    f.callbacks d, ?_, ?_, rfl, rfl, rfl, ?_⟩
  · have hsp := coroutineResume_spec
      { h.markLive with end_stream_ := true, trailers_ := some tr, state_ := State.Running }
      (f.callbacks d) [] rfl
    have hres : coroutineResume
        { h.markLive with end_stream_ := true, trailers_ := some tr, state_ := State.Running }
        (f.callbacks d) [] =
        afterRun (run after (noteResume { h.markLive with
          end_stream_ := true, trailers_ := some tr, state_ := State.Running } [])
          (f.callbacks d)) := by
      simp only [coroutineResume, e3, hco, hsc, hloop, Scripts.chunkLoopResume]
    rw [hres] at hsp
    simp only [Filter.doTrailers, hh, onTrailers, e1, onTrailersBody, e2]
    simp only [Bool.false_eq_true, ↓reduceIte, hres]
    rcases hr : afterRun (run after (noteResume { h.markLive with
          end_stream_ := true, trailers_ := some tr, state_ := State.Running } [])
          (f.callbacks d)) with ⟨o, h6, cb6⟩
    rw [hr] at hsp
    cases o with
    | ok a =>
      have hne : h6.state_ ≠ State.WaitForTrailers := by
        intro he
        have := hsp.2.2.2.2 he
        simp at this
      simp [onTrailersTrailers, hne]
    | luaException what => rfl
    | abort => rfl
  · simp [Filter.callbacks, hlog]
  · simp [noteResume, markLive, onMarkLive]

/-- Witness for C4: `BODY_SCRIPT` on a request with headers, the frame `hello` and the
last frame `world`. -/
theorem C4_body_across_frames_witness :
    Scripts.requestRef ≠ LUA_REFNIL ∧
    ((Filter.create (Scripts.config Scripts.bodyScript)).streamCallbacks
      Direction.request).buffer_ = none ∧
    (Filter.create (Scripts.config Scripts.bodyScript)).doHeaders Direction.request
      Scripts.requestRef Scripts.requestHeaders false =
      some (FilterHeadersStatus.StopIteration, Scripts.afterHeaders Scripts.bodyScript) ∧
    (Scripts.afterHeaders Scripts.bodyScript).handle Direction.request =
      some (Scripts.started Scripts.bodyScript).markDead ∧
    (Scripts.started Scripts.bodyScript).markDead.state_ = State.WaitForBody ∧
    (FilterHeadersStatus.StopIteration = FilterHeadersStatus.StopIteration ∧
    ∃ f2, (Scripts.afterHeaders Scripts.bodyScript).deliverFrames Direction.request
        [Scripts.hello] =
        some (List.replicate [Scripts.hello].length
          FilterDataStatus.StopIterationAndBuffer, f2) ∧
      ∃ h3 cb3,
        f2.doData Direction.request Scripts.world true =
          f2.dataResult Direction.request
            (dataReturn (coroutineResume h3 cb3 [Value.body])) ∧
        bufferWrapper h3 cb3 Value.body =
          .live ([Scripts.hello].flatten ++ Scripts.world) ∧
        luaByteSize ([Scripts.hello].flatten ++ Scripts.world) =
          ([Scripts.hello].map List.length).sum + Scripts.world.length ∧
        (∀ r, f2.doData Direction.request Scripts.world true = some r →
          r.1 = FilterDataStatus.Continue) ∧
        ((∀ susp k h4 cb4, h3.coroutine_.state_ = .Yielded susp →
            ¬ Visits (h3.coroutine_.script.resume susp [Value.body])
              (noteResume h3 [Value.body]) cb3 (Seg.httpCall k) h4 cb4) →
          ∃ f3, f2.doData Direction.request Scripts.world true =
            some (FilterDataStatus.Continue, f3))) :=
  ⟨by decide, rfl, rfl, rfl, rfl,
    C4_body_across_frames (Filter.create (Scripts.config Scripts.bodyScript))
      Direction.request Scripts.requestRef Scripts.requestHeaders
      FilterHeadersStatus.StopIteration (Scripts.afterHeaders Scripts.bodyScript)
      (Scripts.started Scripts.bodyScript).markDead [Scripts.hello] Scripts.world
      (by decide) rfl rfl rfl rfl⟩

/-- The chunk loop of the unit tests.  A script suspended at the iterator call `s0` of a
loop `for chunk in handle:bodyChunks() do handle:log(0, chunk:byteSize()) end`, followed
by `after`.  For every sequence `frames` of data frames that do not end the stream, each
frame returns `Continue`, the loop body runs once per frame in delivery order and sees
a chunk whose `byteSize` is the length of the frame (the script's log grows by exactly
these sizes), and the script is again suspended in the iterator: the loop has not
ended.  The loop ends exactly in the event that carries the end of the stream: a last
data frame is seen as one more chunk and then the script goes on with `after`, with
`end_stream_` true; trailers make the pending iterator call return nil and the script
goes on with `after`.  The sizes seen add up to the length of the body. -/
theorem Filter.chunkLoop_sizes_logged (f : Filter σ) (d : Direction) (s0 : σ) (after : Seg σ)
    (buf : Option Buffer) (log : List (Int × String)) (frames : List Buffer)
    (hw : f.Suspended d State.WaitForBodyChunk s0 buf log)
    (hloop : f.config_.lua_state_.resume s0 = Scripts.chunkLoopResume after s0) :
    ∃ f2, f.deliverFrames d frames =
        some (List.replicate frames.length FilterDataStatus.Continue, f2) ∧
      f2.Suspended d State.WaitForBodyChunk s0 buf
        (log ++ frames.map (fun data => ((0 : Int), toString (luaByteSize data)))) ∧
      (∀ last : Buffer, ∃ h4 cb4,
        f2.doData d last true =
          f2.dataResult d (chunkReturn (afterRun (run after h4 cb4))) ∧
        cb4.logger =
          log ++ (frames ++ [last]).map (fun data => ((0 : Int), toString (luaByteSize data))) ∧
        h4.end_stream_ = true ∧ h4.state_ = State.Running ∧
        ((frames ++ [last]).map luaByteSize).sum = luaByteSize (frames ++ [last]).flatten) ∧
      (∀ tr : HeaderMap, ∃ h5 cb5,
        f2.doTrailers d tr = f2.trailersResult d (afterRun (run after h5 cb5)) ∧
        cb5.logger =
          log ++ frames.map (fun data => ((0 : Int), toString (luaByteSize data))) ∧
        h5.end_stream_ = true ∧ h5.trailers_ = some tr ∧ h5.state_ = State.Running ∧
        (frames.map luaByteSize).sum = luaByteSize frames.flatten) := by
  obtain ⟨f2, hfr, hw2, hc2⟩ := Filter.deliverFrames_chunks after frames f d s0 buf log hw hloop
  have hloop2 : f2.config_.lua_state_.resume s0 = Scripts.chunkLoopResume after s0 := by
    rw [hc2]; exact hloop
  have hsum : ∀ l : List Buffer, (l.map luaByteSize).sum = luaByteSize l.flatten := by
    intro l
    simp only [luaByteSize, List.length_flatten]
    rfl
  refine ⟨f2, hfr, hw2, ?_, ?_⟩
  · intro last
    obtain ⟨h4, cb4, hdo, hlog4, he4, hs4, -⟩ :=
      Filter.doData_last_chunk f2 d s0 after buf _ last hw2 hloop2
    refine ⟨h4, cb4, hdo, ?_, he4, hs4, hsum _⟩
    rw [hlog4]
    simp [luaByteSize]
  · intro tr
    obtain ⟨h5, cb5, hdo, hlog5, he5, ht5, hs5, -⟩ :=
      Filter.doTrailers_chunk f2 d s0 after buf _ tr hw2 hloop2
    exact ⟨h5, cb5, hdo, hlog5, he5, ht5, hs5, hsum _⟩

/-- No script action marks one of the three cached wrappers dead. -/
theorem StreamHandleWrapper.step_more_wrappers {seg seg1 : Seg σ} {h h1 : StreamHandleWrapper σ}
    {cb cb1 : FilterCallbacks} (hs : step seg h cb = .more seg1 h1 cb1) :
    (h.headers_wrapper_ ≠ LuaDeathRef.holds false →
      h1.headers_wrapper_ ≠ LuaDeathRef.holds false) ∧
    (h.body_wrapper_ ≠ LuaDeathRef.holds false →
      h1.body_wrapper_ ≠ LuaDeathRef.holds false) ∧
    (h.trailers_wrapper_ ≠ LuaDeathRef.holds false →
      h1.trailers_wrapper_ ≠ LuaDeathRef.holds false) := by
  cases seg <;> simp only [step] at hs <;> (repeat' split at hs) <;> cases hs <;>
    (try exact ⟨id, id, id⟩)
  · simp only [luaHeaders]
    split <;> simp [LuaDeathRef.reset]
  · rename_i e
    simp only [luaBody] at e
    (repeat' split at e) <;> simp at e <;> obtain ⟨-, rfl⟩ := e <;> simp [LuaDeathRef.reset]
  · rename_i e; obtain ⟨-, rfl⟩ := luaBodyChunks_values e; exact ⟨id, id, id⟩
  · rename_i e; obtain ⟨-, rfl, -⟩ := luaBodyIterator_values e; exact ⟨id, id, id⟩
  · rename_i e
    simp only [luaTrailers] at e
    (repeat' split at e) <;> simp at e <;> obtain ⟨-, rfl⟩ := e <;> simp [LuaDeathRef.reset]
  · rename_i e; simp [luaHttpCall] at e
  · rename_i w _ _ _ _ _; cases w <;> exact ⟨id, id, id⟩
  · rename_i w _ _ _ _; cases w <;> exact ⟨id, id, id⟩

theorem StreamHandleWrapper.visits_wrappers {seg seg1 : Seg σ} {h h1 : StreamHandleWrapper σ}
    {cb cb1 : FilterCallbacks} (hv : Visits seg h cb seg1 h1 cb1) :
    (h.headers_wrapper_ ≠ LuaDeathRef.holds false →
      h1.headers_wrapper_ ≠ LuaDeathRef.holds false) ∧
    (h.body_wrapper_ ≠ LuaDeathRef.holds false →
      h1.body_wrapper_ ≠ LuaDeathRef.holds false) ∧
    (h.trailers_wrapper_ ≠ LuaDeathRef.holds false →
      h1.trailers_wrapper_ ≠ LuaDeathRef.holds false) := by
  induction hv with
  | here => exact ⟨id, id, id⟩
  | later hs _ ih =>
    obtain ⟨a1, a2, a3⟩ := step_more_wrappers hs
    exact ⟨fun x => ih.1 (a1 x), fun x => ih.2.1 (a2 x), fun x => ih.2.2 (a3 x)⟩

/-- With trailers recorded and a trailers wrapper that is not marked dead, `trailers()`
pushes the wrapper, which resolves to the recorded trailers. -/
theorem StreamHandleWrapper.luaTrailers_live (h : StreamHandleWrapper σ) (t : HeaderMap)
    (hrun : h.state_ = State.Running) (ht : h.trailers_ = some t)
    (hw : h.trailers_wrapper_ ≠ LuaDeathRef.holds false) :
    ∃ h1, luaTrailers h = some (.values [Value.trailers], h1) ∧
      h1.state_ = State.Running ∧ h1.trailers_ = some t ∧
      headerMapWrapper h1 Value.trailers = .live t := by
  cases hw1 : h.trailers_wrapper_ with
  | empty =>
    exact ⟨{ h with trailers_wrapper_ := LuaDeathRef.holds true },
      by simp [luaTrailers, hrun, ht, hw1, LuaDeathRef.get, LuaDeathRef.reset], hrun, ht,
      by simp [headerMapWrapper, ht]⟩
  | holds live =>
    cases live
    · exact absurd hw1 hw
    · exact ⟨h, by simp [luaTrailers, hrun, ht, hw1, LuaDeathRef.get], hrun, ht,
        by simp [headerMapWrapper, ht, hw1]⟩

/-- In `WaitForBodyChunk`, `onTrailers` is one resume of the coroutine with no values. -/
theorem StreamHandleWrapper.onTrailers_waitForBodyChunk (h : StreamHandleWrapper σ)
    (cb : FilterCallbacks) (tr : HeaderMap) (hst : h.state_ = State.WaitForBodyChunk)
    (hes : h.end_stream_ = false) :
    onTrailers h cb tr =
      coroutineResume
        { h with end_stream_ := true, trailers_ := some tr, state_ := State.Running } cb [] := by
  have hsp := coroutineResume_spec
    { h with end_stream_ := true, trailers_ := some tr, state_ := State.Running } cb [] rfl
  simp only [onTrailers, hes, onTrailersBody, hst]
  simp only [Bool.false_eq_true, ↓reduceIte]
  rcases hr : coroutineResume
    { h with end_stream_ := true, trailers_ := some tr, state_ := State.Running } cb []
    with ⟨o, h2, cb2⟩
  rw [hr] at hsp
  cases o with
  | ok a =>
    have hne : h2.state_ ≠ State.WaitForTrailers := by
      intro he
      have := hsp.2.2.2.2 he
      simp at this
    simp [onTrailersTrailers, hne]
  | luaException what => rfl
  | abort => rfl

/-- C11: a handle in state `WaitForBodyChunk` (with `end_stream_` false, its coroutine
suspended at `susp`, and a trailers wrapper that is not marked dead).  `onTrailers(tr)`
is exactly one resume of the coroutine, made on a handle with `tr` recorded and
`end_stream_` true, with no values: the script continues at the pending iterator call
with nil, so that a chunk loop suspended there ends and the script goes on with what
follows the loop.  At every point the resumed script reaches, `state_` is `Running`,
`end_stream_` is true, a further iterator call returns nil at once, and a call of
`trailers()` does not yield: it pushes the trailers wrapper, which resolves to the
recorded trailers; called first thing after the resume, the wrapper resolves to `tr`. -/
theorem C11_trailers_while_waiting_for_chunk (h : StreamHandleWrapper σ)
    (cb : FilterCallbacks) (tr : HeaderMap) (susp : σ)
    (hst : h.state_ = State.WaitForBodyChunk) (hes : h.end_stream_ = false)
    (hco : h.coroutine_.state_ = .Yielded susp)
    (htw : h.trailers_wrapper_ ≠ LuaDeathRef.holds false) :
    onTrailers h cb tr =
      coroutineResume
        { h with end_stream_ := true, trailers_ := some tr, state_ := State.Running } cb [] ∧
    onTrailers h cb tr =
      afterRun (run (h.coroutine_.script.resume susp [])
        (noteResume
          { h with end_stream_ := true, trailers_ := some tr, state_ := State.Running } [])
        cb) ∧
    (∀ after, h.coroutine_.script.resume susp = Scripts.chunkLoopResume after susp →
      onTrailers h cb tr =
        afterRun (run after
          (noteResume
            { h with end_stream_ := true, trailers_ := some tr, state_ := State.Running } [])
          cb)) ∧
    (∃ h3,
      luaTrailers (noteResume
          { h with end_stream_ := true, trailers_ := some tr, state_ := State.Running } []) =
        some (.values [Value.trailers], h3) ∧
      headerMapWrapper h3 Value.trailers = .live tr) ∧
    (∀ seg2 h2 cb2,
      Visits (h.coroutine_.script.resume susp [])
        (noteResume
          { h with end_stream_ := true, trailers_ := some tr, state_ := State.Running } [])
        cb seg2 h2 cb2 →
      h2.state_ = State.Running ∧ h2.end_stream_ = true ∧
      luaBodyIterator h2 = some (.values [], h2) ∧
      ∃ t h3, h2.trailers_ = some t ∧
        luaTrailers h2 = some (.values [Value.trailers], h3) ∧
        h3.state_ = State.Running ∧ headerMapWrapper h3 Value.trailers = .live t) := by
  have hon := onTrailers_waitForBodyChunk h cb tr hst hes
  have hres : coroutineResume
      { h with end_stream_ := true, trailers_ := some tr, state_ := State.Running } cb [] =
      afterRun (run (h.coroutine_.script.resume susp [])
        (noteResume
          { h with end_stream_ := true, trailers_ := some tr, state_ := State.Running } [])
        cb) := by
    simp only [coroutineResume, hco]
  refine ⟨hon, hon.trans hres, ?_, ?_, ?_⟩
  · intro after hloop
    rw [hon, hres, hloop]
    rfl
  · obtain ⟨h3, e3, -, -, l3⟩ :=
      luaTrailers_live
        (noteResume
          { h with end_stream_ := true, trailers_ := some tr, state_ := State.Running } [])
        tr rfl rfl htw
    exact ⟨h3, e3, l3⟩
  · intro seg2 h2 cb2 hv
    obtain ⟨hf, hs2, -⟩ := visits_frame hv
    have hw2 := (visits_wrappers hv).2.2 htw
    have hrun2 : h2.state_ = State.Running := by rw [hs2]; rfl
    have hes2 : h2.end_stream_ = true := by rw [hf.2.1]; rfl
    have ht2 : h2.trailers_.isSome = true := by rw [hf.2.2.2.2.2]; rfl
    obtain ⟨t, ht⟩ := Option.isSome_iff_exists.mp ht2
    obtain ⟨h3, e3, s3, -, l3⟩ := luaTrailers_live h2 t hrun2 ht hw2
    exact ⟨hrun2, hes2, by simp [luaBodyIterator, hrun2, hes2], t, h3, ht, e3, s3, l3⟩

/-- Witness for C11: the handle of `TRAILERS_SCRIPT`, suspended in the iterator of its
chunk loop after the headers of a request with a body, receives the trailers of the
unit tests. -/
theorem C11_trailers_while_waiting_for_chunk_witness :
    (Scripts.started Scripts.trailersScript).state_ = State.WaitForBodyChunk ∧
    (Scripts.started Scripts.trailersScript).end_stream_ = false ∧
    (Scripts.started Scripts.trailersScript).coroutine_.state_ = .Yielded 0 ∧
    (Scripts.started Scripts.trailersScript).trailers_wrapper_ ≠ LuaDeathRef.holds false ∧
    (onTrailers (Scripts.started Scripts.trailersScript) Scripts.emptyCallbacks
        Scripts.requestTrailers =
      coroutineResume
        { (Scripts.started Scripts.trailersScript) with
          end_stream_ := true, trailers_ := some Scripts.requestTrailers,
          state_ := State.Running } Scripts.emptyCallbacks [] ∧
    onTrailers (Scripts.started Scripts.trailersScript) Scripts.emptyCallbacks
        Scripts.requestTrailers =
      afterRun (run ((Scripts.started Scripts.trailersScript).coroutine_.script.resume 0 [])
        (noteResume
          { (Scripts.started Scripts.trailersScript) with
            end_stream_ := true, trailers_ := some Scripts.requestTrailers,
            state_ := State.Running } [])
        Scripts.emptyCallbacks) ∧
    (∀ after, (Scripts.started Scripts.trailersScript).coroutine_.script.resume 0 =
        Scripts.chunkLoopResume after 0 →
      onTrailers (Scripts.started Scripts.trailersScript) Scripts.emptyCallbacks
          Scripts.requestTrailers =
        afterRun (run after
          (noteResume
            { (Scripts.started Scripts.trailersScript) with
              end_stream_ := true, trailers_ := some Scripts.requestTrailers,
              state_ := State.Running } [])
          Scripts.emptyCallbacks)) ∧
    (∃ h3,
      luaTrailers (noteResume
          { (Scripts.started Scripts.trailersScript) with
            end_stream_ := true, trailers_ := some Scripts.requestTrailers,
            state_ := State.Running } []) =
        some (.values [Value.trailers], h3) ∧
      headerMapWrapper h3 Value.trailers = .live Scripts.requestTrailers) ∧
    (∀ seg2 h2 cb2,
      Visits ((Scripts.started Scripts.trailersScript).coroutine_.script.resume 0 [])
        (noteResume
          { (Scripts.started Scripts.trailersScript) with
            end_stream_ := true, trailers_ := some Scripts.requestTrailers,
            state_ := State.Running } [])
        Scripts.emptyCallbacks seg2 h2 cb2 →
      h2.state_ = State.Running ∧ h2.end_stream_ = true ∧
      luaBodyIterator h2 = some (.values [], h2) ∧
      ∃ t h3, h2.trailers_ = some t ∧
        luaTrailers h2 = some (.values [Value.trailers], h3) ∧
        h3.state_ = State.Running ∧ headerMapWrapper h3 Value.trailers = .live t)) :=
  ⟨rfl, rfl, rfl, by decide,
    C11_trailers_while_waiting_for_chunk (Scripts.started Scripts.trailersScript)
      Scripts.emptyCallbacks Scripts.requestTrailers 0 rfl rfl rfl (by decide)⟩

/-- The outcome of `Coroutine::resume` when the run segment stopped with a yield: the
yield guard throws exactly when `state_` is `Running` at that moment. -/
theorem StreamHandleWrapper.afterRun_yielded (susp : σ) (site : YieldSite)
    (h : StreamHandleWrapper σ) (cb : FilterCallbacks) :
    ((afterRun (.yielded susp site, h, cb)).1 =
        .luaException "script performed an unexpected yield" ↔ h.state_ = State.Running) ∧
    (h.state_ ≠ State.Running → (afterRun (.yielded susp site, h, cb)).1 = .ok ()) := by
  rw [afterRun_outcome]
  by_cases hr : h.state_ = State.Running <;> simp [hr, unexpectedYieldMessage]

/-- C12: the yield guard.  Whenever the run segment begun by a start or a resume of the
coroutine stops with a yield, leaving the handle as `h1`, the start or resume throws a
`LuaException` with the message "script performed an unexpected yield" exactly when
`h1.state_` is `Running`; with `h1.state_` one of `WaitForBody`, `WaitForBodyChunk`,
`WaitForTrailers` it returns normally.  The guard itself throws that message exactly in
state `Running`.  For a coroutine begun or resumed in state `Running`, the state at the
yield is `Running` exactly when the script yielded on its own, not inside `body()`, the
chunk iterator or `trailers()`. -/
theorem C12_yield_guard (h h1 : StreamHandleWrapper σ) (cb cb1 : FilterCallbacks)
    (susp : σ) (site : YieldSite) :
    (yield_callback_ h1 = some "script performed an unexpected yield" ↔
      h1.state_ = State.Running) ∧
    ((h1.state_ = State.WaitForBody ∨ h1.state_ = State.WaitForBodyChunk ∨
        h1.state_ = State.WaitForTrailers) → yield_callback_ h1 = none) ∧
    (∀ function_ref seg, h.coroutine_.state_ = .NotStarted →
      h.coroutine_.script.function function_ref = some seg →
      run seg (noteResume h [Value.handle]) cb = (.yielded susp site, h1, cb1) →
      ((coroutineStart h cb function_ref).1 =
          .luaException "script performed an unexpected yield" ↔
        h1.state_ = State.Running) ∧
      ((h1.state_ = State.WaitForBody ∨ h1.state_ = State.WaitForBodyChunk ∨
          h1.state_ = State.WaitForTrailers) →
        (coroutineStart h cb function_ref).1 = .ok ()) ∧
      (h.state_ = State.Running → (h1.state_ = State.Running ↔ site = .script))) ∧
    (∀ vs susp0, h.coroutine_.state_ = .Yielded susp0 →
      run (h.coroutine_.script.resume susp0 vs) (noteResume h vs) cb =
        (.yielded susp site, h1, cb1) →
      ((coroutineResume h cb vs).1 =
          .luaException "script performed an unexpected yield" ↔
        h1.state_ = State.Running) ∧
      ((h1.state_ = State.WaitForBody ∨ h1.state_ = State.WaitForBodyChunk ∨
          h1.state_ = State.WaitForTrailers) →
        (coroutineResume h cb vs).1 = .ok ()) ∧
      (h.state_ = State.Running → (h1.state_ = State.Running ↔ site = .script))) := by
  have hwait : (h1.state_ = State.WaitForBody ∨ h1.state_ = State.WaitForBodyChunk ∨
      h1.state_ = State.WaitForTrailers) → h1.state_ ≠ State.Running := by
    intro hw hr
    rw [hr] at hw
    simp at hw
  have hsite : ∀ seg h0, run seg h0 cb = (.yielded susp site, h1, cb1) →
      h0.state_ = State.Running → (h1.state_ = State.Running ↔ site = .script) := by
    intro seg h0 hr hrun
    have hsp := (run_spec seg h0 cb).2.2.1
    rw [hr, hrun] at hsp
    simp only at hsp
    rw [hsp]
    cases site <;> simp [stateAfter]
  refine ⟨?_, ?_, ?_, ?_⟩
  · by_cases hr : h1.state_ = State.Running <;>
      simp [yield_callback_, hr, unexpectedYieldMessage]
  · intro hw
    simp [yield_callback_, hwait hw]
  · intro function_ref seg hco hfn hr
    have e : coroutineStart h cb function_ref = afterRun (.yielded susp site, h1, cb1) := by
      simp only [coroutineStart, hco, hfn, hr]
    rw [e]
    exact ⟨(afterRun_yielded susp site h1 cb1).1,
      fun hw => (afterRun_yielded susp site h1 cb1).2 (hwait hw),
      fun hrun => hsite seg _ hr (by simpa [noteResume] using hrun)⟩
  · intro vs susp0 hco hr
    have e : coroutineResume h cb vs = afterRun (.yielded susp site, h1, cb1) := by
      simp only [coroutineResume, hco, hr]
    rw [e]
    exact ⟨(afterRun_yielded susp site h1 cb1).1,
      fun hw => (afterRun_yielded susp site h1 cb1).2 (hwait hw),
      fun hrun => hsite _ _ hr (by simpa [noteResume] using hrun)⟩

/-- Witness for C12: the script of the test `UnexpectedYield`, which yields on its own,
is stopped by the guard; `BODY_SCRIPT`, which yields inside `body()`, is not. -/
theorem C12_yield_guard_witness :
    (coroutineStart (Scripts.headersOnlyHandle Scripts.unexpectedYieldScript)
        Scripts.emptyCallbacks Scripts.requestRef).1 =
      .luaException "script performed an unexpected yield" ∧
    (coroutineStart (Scripts.newHandle Scripts.bodyScript) Scripts.emptyCallbacks
        Scripts.requestRef).1 = .ok () :=
  ⟨((C12_yield_guard (Scripts.headersOnlyHandle Scripts.unexpectedYieldScript)
      (noteResume (Scripts.headersOnlyHandle Scripts.unexpectedYieldScript) [Value.handle])
      Scripts.emptyCallbacks Scripts.emptyCallbacks 0 YieldSite.script).2.2.1
      Scripts.requestRef (Seg.yield 0) rfl rfl rfl).1.mpr rfl,
   ((C12_yield_guard (Scripts.newHandle Scripts.bodyScript)
      (run Scripts.bodyEntry (noteResume (Scripts.newHandle Scripts.bodyScript) [Value.handle])
        Scripts.emptyCallbacks).2.1
      Scripts.emptyCallbacks
      (run Scripts.bodyEntry (noteResume (Scripts.newHandle Scripts.bodyScript) [Value.handle])
        Scripts.emptyCallbacks).2.2
      0 YieldSite.body).2.2.1
      Scripts.requestRef Scripts.bodyEntry rfl rfl rfl).2.1 (Or.inl rfl)⟩

theorem Filter.log_handleScriptError (f : Filter σ) (what : String) :
    (f.handleScriptError what).log_ = f.log_ ++ [(2, what)] := rfl

/-- C13: script errors are contained by the three entry points of the filter.  When
`start` (for `doHeaders` with an entry point), `onData` (for `doData`) or `onTrailers`
(for `doTrailers`) throws `LuaException(what)`, leaving the callbacks as `cb1`, the
entry point returns, and returns `Continue`; the filter has received exactly one more
`scriptLog` call than the script had made, with level 2 and message `what`; and both
`request_stream_wrapper_` and `response_stream_wrapper_` are empty.  A start or resume
of the coroutine throws `what` only when the script raised an error with that message or
yielded on its own, `what` then being the message of the yield guard. -/
theorem C13_script_error_contained (f : Filter σ) (d : Direction) (what : String)
    (h1 : StreamHandleWrapper σ) (cb1 : FilterCallbacks) :
    (∀ function_ref headers end_stream, function_ref ≠ LUA_REFNIL →
      start (StreamHandleWrapper.create f.config_.createCoroutine headers end_stream)
        (f.callbacks d) function_ref = (.luaException what, h1, cb1) →
      ∃ f1, f.doHeaders d function_ref headers end_stream =
          some (FilterHeadersStatus.Continue, f1) ∧
        f1.log_ = cb1.logger ++ [(2, what)] ∧
        f1.request_stream_wrapper_ = none ∧ f1.response_stream_wrapper_ = none) ∧
    (∀ h data end_stream, f.handle d = some h →
      onData h.markLive (f.callbacks d) data end_stream = (.luaException what, h1, cb1) →
      ∃ f1, f.doData d data end_stream = some (FilterDataStatus.Continue, f1) ∧
        f1.log_ = cb1.logger ++ [(2, what)] ∧
        f1.request_stream_wrapper_ = none ∧ f1.response_stream_wrapper_ = none) ∧
    (∀ h trailers, f.handle d = some h →
      onTrailers h.markLive (f.callbacks d) trailers = (.luaException what, h1, cb1) →
      ∃ f1, f.doTrailers d trailers = some (FilterTrailersStatus.Continue, f1) ∧
        f1.log_ = cb1.logger ++ [(2, what)] ∧
        f1.request_stream_wrapper_ = none ∧ f1.response_stream_wrapper_ = none) ∧
    (∀ (seg : Seg σ) h cb, (afterRun (run seg h cb)).1 = .luaException what →
      (run seg h cb).1 = .error what ∨
      ((∃ susp site, (run seg h cb).1 = .yielded susp site) ∧
        what = "script performed an unexpected yield")) := by
  have hlog : (((f.withCallbacks d cb1).setHandle d (some h1)).handleScriptError what).log_ =
      cb1.logger ++ [(2, what)] := by
    rw [Filter.log_handleScriptError, Filter.log_setHandle, Filter.log_withCallbacks]
  refine ⟨?_, ?_, ?_, ?_⟩
  · intro function_ref headers end_stream href hthrow
    refine ⟨((f.withCallbacks d cb1).setHandle d (some h1)).handleScriptError what,
      ?_, hlog, rfl, rfl⟩
    simp only [Filter.doHeaders, href, ↓reduceIte, hthrow, Filter.headersResult]
  · intro h data end_stream hh hthrow
    refine ⟨((f.withCallbacks d cb1).setHandle d (some h1)).handleScriptError what,
      ?_, hlog, rfl, rfl⟩
    simp only [Filter.doData, hh, hthrow, Filter.dataResult]
  · intro h trailers hh hthrow
    refine ⟨((f.withCallbacks d cb1).setHandle d (some h1)).handleScriptError what,
      ?_, hlog, rfl, rfl⟩
    simp only [Filter.doTrailers, hh, hthrow, Filter.trailersResult]
  · intro seg h cb hthrow
    rcases hr : run seg h cb with ⟨s, h2, cb2⟩
    rw [hr, afterRun_outcome] at hthrow
    cases s with
    | finished => simp at hthrow
    | yielded susp site =>
      right
      simp only at hthrow
      split at hthrow <;> simp [unexpectedYieldMessage] at hthrow
      exact ⟨⟨susp, site, rfl⟩, hthrow.symm⟩
    | error msg =>
      left
      simp only [Outcome.luaException.injEq] at hthrow
      rw [hthrow]
    | abort => simp at hthrow

/-- Witness for C13: the script of the test `ScriptErrorHeadersRequestBodyTrailers`
throws during the headers event; a script that indexes a nil value after its first body
chunk throws during the data event, or during the trailers event, that resumes it. -/
theorem C13_script_error_contained_witness :
    (∃ f1, (Filter.create (Scripts.config Scripts.errorScript)).doHeaders Direction.request
        Scripts.requestRef Scripts.requestHeaders false =
          some (FilterHeadersStatus.Continue, f1) ∧
      f1.log_ = Scripts.emptyCallbacks.logger ++ [(2, Scripts.indexNilMessage)] ∧
      f1.request_stream_wrapper_ = none ∧ f1.response_stream_wrapper_ = none) ∧
    (∃ f1, (Scripts.afterHeaders Scripts.chunkErrorScript).doData Direction.request
        Scripts.hello false = some (FilterDataStatus.Continue, f1) ∧
      f1.log_ = Scripts.emptyCallbacks.logger ++ [(2, Scripts.indexNilMessage)] ∧
      f1.request_stream_wrapper_ = none ∧ f1.response_stream_wrapper_ = none) ∧
    (∃ f1, (Scripts.afterHeaders Scripts.chunkErrorScript).doTrailers Direction.request
        Scripts.requestTrailers = some (FilterTrailersStatus.Continue, f1) ∧
      f1.log_ = Scripts.emptyCallbacks.logger ++ [(2, Scripts.indexNilMessage)] ∧
      f1.request_stream_wrapper_ = none ∧ f1.response_stream_wrapper_ = none) :=
  ⟨(C13_script_error_contained (Filter.create (Scripts.config Scripts.errorScript))
      Direction.request Scripts.indexNilMessage
      (start (Scripts.newHandle Scripts.errorScript) Scripts.emptyCallbacks
        Scripts.requestRef).2.1
      Scripts.emptyCallbacks).1
      Scripts.requestRef Scripts.requestHeaders false (by decide) rfl,
   (C13_script_error_contained (Scripts.afterHeaders Scripts.chunkErrorScript)
      Direction.request Scripts.indexNilMessage
      (onData (Scripts.started Scripts.chunkErrorScript).markDead.markLive
        Scripts.emptyCallbacks Scripts.hello false).2.1
      Scripts.emptyCallbacks).2.1
      (Scripts.started Scripts.chunkErrorScript).markDead Scripts.hello false rfl rfl,
   (C13_script_error_contained (Scripts.afterHeaders Scripts.chunkErrorScript)
      Direction.request Scripts.indexNilMessage
      (onTrailers (Scripts.started Scripts.chunkErrorScript).markDead.markLive
        Scripts.emptyCallbacks Scripts.requestTrailers).2.1
      Scripts.emptyCallbacks).2.2.1
      (Scripts.started Scripts.chunkErrorScript).markDead Scripts.requestTrailers rfl rfl⟩

theorem StreamHandleWrapper.afterRun_resumes
    (r : Stop σ × StreamHandleWrapper σ × FilterCallbacks) :
    (afterRun r).2.1.coroutine_.resumes_ = r.2.1.coroutine_.resumes_ ∧
    (afterRun r).2.1.coroutine_.script = r.2.1.coroutine_.script := by
  obtain ⟨s, h, cb⟩ := r
  rw [afterRun_handle]
  cases s <;> simp [setCoroutineState]

/-- A resume of a suspended coroutine is recorded once; on a coroutine that is not
suspended nothing is resumed. -/
theorem StreamHandleWrapper.coroutineResume_resumes (h : StreamHandleWrapper σ)
    (cb : FilterCallbacks) (vs : List Value) :
    (coroutineResume h cb vs).2.1.coroutine_.resumes_ =
      match h.coroutine_.state_ with
      | .Yielded _ => h.coroutine_.resumes_ ++ [vs]
      | _ => h.coroutine_.resumes_ := by
  unfold coroutineResume
  cases hc : h.coroutine_.state_ with
  | NotStarted => rfl
  | Finished => rfl
  | Yielded susp =>
    simp only
    rw [(afterRun_resumes _).1, (run_spec _ _ _).1.1]
    rfl

/-- A start of a new coroutine is recorded once; otherwise nothing is started. -/
theorem StreamHandleWrapper.coroutineStart_resumes (h : StreamHandleWrapper σ)
    (cb : FilterCallbacks) (function_ref : Int) :
    (coroutineStart h cb function_ref).2.1.coroutine_.resumes_ =
      match h.coroutine_.state_, h.coroutine_.script.function function_ref with
      | .NotStarted, some _ => h.coroutine_.resumes_ ++ [[Value.handle]]
      | _, _ => h.coroutine_.resumes_ := by
  unfold coroutineStart
  cases hc : h.coroutine_.state_ <;> cases hf : h.coroutine_.script.function function_ref <;>
    simp only
  rw [(afterRun_resumes _).1, (run_spec _ _ _).1.1]
  rfl

theorem StreamHandleWrapper.start_resumes (h : StreamHandleWrapper σ)
    (cb : FilterCallbacks) (function_ref : Int) :
    (start h cb function_ref).2.1.coroutine_.resumes_ =
      (coroutineStart h cb function_ref).2.1.coroutine_.resumes_ := by
  unfold start
  rcases coroutineStart h cb function_ref with ⟨o, h1, cb1⟩
  cases o <;> rfl

theorem Filter.handle_setHandle_ne (f : Filter σ) (d d1 : Direction)
    (x : Option (StreamHandleWrapper σ)) (hne : d1 ≠ d) :
    (f.setHandle d1 x).handle d = f.handle d := by
  cases d <;> cases d1 <;> first | rfl | exact absurd rfl hne

/-- An event on a direction without a handle is answered with `Continue` and leaves the
filter as it was. -/
theorem Filter.deliver_no_handle (f : Filter σ) (d : Direction) (e : Event)
    (hh : f.handle d = none) : f.deliver d e = some (true, f) := by
  cases e <;> simp [Filter.deliver, Filter.deliverData, Filter.doData, Filter.doTrailers, hh]

theorem Filter.deliverEvents_no_handle (f : Filter σ) (evs : List (Direction × Event))
    (hh : ∀ x ∈ evs, f.handle x.1 = none) :
    f.deliverEvents evs = some (List.replicate evs.length true, f) := by
  induction evs with
  | nil => rfl
  | cons x rest ih =>
    obtain ⟨d, e⟩ := x
    have h1 := Filter.deliver_no_handle f d e (hh (d, e) (List.mem_cons_self _ _))
    have h2 := ih (fun y hy => hh y (List.mem_cons_of_mem _ hy))
    simp only [Filter.deliverEvents, h1, h2, List.length_cons, List.replicate_succ]

/-- C14 (counterexample): a program with both entry points whose `envoy_on_request`
raises an error.  The request headers event handles the error (logged at level 2, both
handles empty, `Continue`).  The response headers event that follows starts the
coroutine of `envoy_on_response`: the script logs, calls `body()`, and the event returns
`StopIteration`, not `Continue`, with a new handle in `WaitForBody`. -/
theorem C14_response_script_runs_after_request_error :
    Scripts.errorThenResponseRequest.map
        (fun r => (r.1, r.2.log_, r.2.request_stream_wrapper_.isSome,
          r.2.response_stream_wrapper_.isSome)) =
      some (FilterHeadersStatus.Continue, [(2, "attempt to index a nil value")],
        false, false) ∧
    Scripts.errorThenResponseResponse.map (fun r => (r.1, r.2.log_)) =
      some (FilterHeadersStatus.StopIteration,
        [(2, "attempt to index a nil value"), (0, "response")]) ∧
    (Scripts.errorThenResponseResponse.bind (fun r => r.2.response_stream_wrapper_)).map
        (fun h => (h.state_, h.coroutine_.resumes_)) =
      some (State.WaitForBody, [[Value.handle]]) := by
  decide

/-- C14 (amended): once a script error has been handled both stream handles are empty.
Every later data or trailers event, in either direction, is answered with `Continue`
and leaves the filter exactly as it was: no coroutine is resumed, nothing is logged and
no data is added.  A later headers event does the same for a direction without an entry
point; for a direction with an entry point it creates a new handle with a new
coroutine and starts the script of that direction. -/
theorem C14_after_script_error (f : Filter σ) (what : String) :
    (f.handleScriptError what).request_stream_wrapper_ = none ∧
    (f.handleScriptError what).response_stream_wrapper_ = none ∧
    (∀ evs : List (Direction × Event),
      (f.handleScriptError what).deliverEvents evs =
        some (List.replicate evs.length true, f.handleScriptError what)) ∧
    (∀ d headers end_stream,
      (f.handleScriptError what).doHeaders d LUA_REFNIL headers end_stream =
        some (FilterHeadersStatus.Continue, f.handleScriptError what)) ∧
    (∀ d function_ref headers end_stream, function_ref ≠ LUA_REFNIL →
      (f.handleScriptError what).doHeaders d function_ref headers end_stream =
        (f.handleScriptError what).headersResult d
          (start (StreamHandleWrapper.create f.config_.createCoroutine headers end_stream)
            ((f.handleScriptError what).callbacks d) function_ref) ∧
      (∀ seg, f.config_.lua_state_.function function_ref = some seg →
        (start (StreamHandleWrapper.create f.config_.createCoroutine headers end_stream)
          ((f.handleScriptError what).callbacks d)
          function_ref).2.1.coroutine_.resumes_ = [[Value.handle]])) := by
  refine ⟨rfl, rfl, ?_, ?_, ?_⟩
  · intro evs
    exact Filter.deliverEvents_no_handle _ evs
      (fun x _ => Filter.handle_handleScriptError f what x.1)
  · intro d headers end_stream
    simp [Filter.doHeaders]
  · intro d function_ref headers end_stream href
    constructor
    · simp only [Filter.doHeaders, href, ↓reduceIte]
      rfl
    · intro seg hfn
      rw [start_resumes, coroutineStart_resumes]
      simp [StreamHandleWrapper.create, FilterConfig.createCoroutine, hfn]

/-- Witness for C14 (amended): the filter of the counterexample after its request
script failed; the response headers event starts the response script. -/
theorem C14_after_script_error_witness :
    Scripts.responseRef ≠ LUA_REFNIL ∧
    Scripts.errorThenResponseConfig.lua_state_.function Scripts.responseRef =
      some (Seg.log 0 "response" (Seg.body (fun _ => Seg.ret) 0)) ∧
    (start (StreamHandleWrapper.create Scripts.errorThenResponseConfig.createCoroutine
        Scripts.responseHeaders false)
      (((Filter.create Scripts.errorThenResponseConfig).handleScriptError
        Scripts.indexNilMessage).callbacks Direction.response)
      Scripts.responseRef).2.1.coroutine_.resumes_ = [[Value.handle]] :=
  ⟨by decide, rfl,
    ((C14_after_script_error (Filter.create Scripts.errorThenResponseConfig)
      Scripts.indexNilMessage).2.2.2.2 Direction.response Scripts.responseRef
      Scripts.responseHeaders false (by decide)).2 _ rfl⟩

theorem Filter.headersResult_other (f : Filter σ) (d d1 : Direction) (hne : d1 ≠ d)
    (r : Outcome FilterHeadersStatus × StreamHandleWrapper σ × FilterCallbacks)
    (x : FilterHeadersStatus × Filter σ) (hr : f.headersResult d1 r = some x) :
    x.2.handle d = f.handle d ∨ x.2.handle d = none := by
  obtain ⟨o, h1, cb1⟩ := r
  cases o with
  | ok a =>
    simp only [Filter.headersResult, Option.some.injEq] at hr
    subst hr
    left
    rw [Filter.handle_setHandle_ne _ _ _ _ hne, Filter.handle_withCallbacks]
  | luaException what =>
    simp only [Filter.headersResult, Option.some.injEq] at hr
    subst hr
    exact Or.inr (Filter.handle_handleScriptError _ _ _)
  | abort => simp [Filter.headersResult] at hr

theorem Filter.dataResult_other (f : Filter σ) (d d1 : Direction) (hne : d1 ≠ d)
    (r : Outcome FilterDataStatus × StreamHandleWrapper σ × FilterCallbacks)
    (x : FilterDataStatus × Filter σ) (hr : f.dataResult d1 r = some x) :
    x.2.handle d = f.handle d ∨ x.2.handle d = none := by
  obtain ⟨o, h1, cb1⟩ := r
  cases o with
  | ok a =>
    simp only [Filter.dataResult, Option.some.injEq] at hr
    subst hr
    left
    rw [Filter.handle_setHandle_ne _ _ _ _ hne, Filter.handle_withCallbacks]
  | luaException what =>
    simp only [Filter.dataResult, Option.some.injEq] at hr
    subst hr
    exact Or.inr (Filter.handle_handleScriptError _ _ _)
  | abort => simp [Filter.dataResult] at hr

theorem Filter.trailersResult_other (f : Filter σ) (d d1 : Direction) (hne : d1 ≠ d)
    (r : Outcome Unit × StreamHandleWrapper σ × FilterCallbacks)
    (x : FilterTrailersStatus × Filter σ) (hr : f.trailersResult d1 r = some x) :
    x.2.handle d = f.handle d ∨ x.2.handle d = none := by
  obtain ⟨o, h1, cb1⟩ := r
  cases o with
  | ok a =>
    simp only [Filter.trailersResult, Option.some.injEq] at hr
    subst hr
    left
    rw [Filter.handle_setHandle_ne _ _ _ _ hne, Filter.handle_withCallbacks]
  | luaException what =>
    simp only [Filter.trailersResult, Option.some.injEq] at hr
    subst hr
    exact Or.inr (Filter.handle_handleScriptError _ _ _)
  | abort => simp [Filter.trailersResult] at hr

/-- An entry point of the filter called on one direction leaves the handle of the other
direction as it was, or empties it. -/
theorem Filter.other_handle (f : Filter σ) (d d1 : Direction) (hne : d1 ≠ d) :
    (∀ function_ref headers end_stream r,
      f.doHeaders d1 function_ref headers end_stream = some r →
      r.2.handle d = f.handle d ∨ r.2.handle d = none) ∧
    (∀ data end_stream r, f.doData d1 data end_stream = some r →
      r.2.handle d = f.handle d ∨ r.2.handle d = none) ∧
    (∀ trailers r, f.doTrailers d1 trailers = some r →
      r.2.handle d = f.handle d ∨ r.2.handle d = none) := by
  refine ⟨?_, ?_, ?_⟩
  · intro function_ref headers end_stream r hr
    simp only [Filter.doHeaders] at hr
    split at hr
    · cases hr; exact Or.inl rfl
    · exact Filter.headersResult_other f d d1 hne _ r hr
  · intro data end_stream r hr
    simp only [Filter.doData] at hr
    split at hr
    · exact Filter.dataResult_other f d d1 hne _ r hr
    · cases hr; exact Or.inl rfl
  · intro trailers r hr
    simp only [Filter.doTrailers] at hr
    split at hr
    · exact Filter.trailersResult_other f d d1 hne _ r hr
    · cases hr; exact Or.inl rfl

/-- C15: a direction `d` whose entry point is absent, on a filter that has no handle
for `d` (as a new filter has none).  `doHeaders` with `LUA_REFNIL` returns `Continue`
and leaves the filter exactly as it was: no handle and no coroutine is created.  Every
`doData` and `doTrailers` of the direction, and so every sequence of its data and
trailers events, returns `Continue` and leaves the filter exactly as it was: no
coroutine is resumed, the logger is not called and `addData` is not called.  Events of
the other direction in between never give `d` a handle. -/
theorem C15_no_entry_point (f : Filter σ) (d : Direction) (hh : f.handle d = none) :
    (∀ headers end_stream,
      f.doHeaders d LUA_REFNIL headers end_stream = some (FilterHeadersStatus.Continue, f)) ∧
    (∀ data end_stream, f.doData d data end_stream = some (FilterDataStatus.Continue, f)) ∧
    (∀ trailers, f.doTrailers d trailers = some (FilterTrailersStatus.Continue, f)) ∧
    (∀ evs : List Event,
      f.deliverEvents (evs.map (fun e => (d, e))) =
        some (List.replicate evs.length true, f)) ∧
    (∀ d1, d1 ≠ d →
      (∀ function_ref headers end_stream r,
        f.doHeaders d1 function_ref headers end_stream = some r → r.2.handle d = none) ∧
      (∀ data end_stream r, f.doData d1 data end_stream = some r → r.2.handle d = none) ∧
      (∀ trailers r, f.doTrailers d1 trailers = some r → r.2.handle d = none)) := by
  refine ⟨?_, ?_, ?_, ?_, ?_⟩
  · intro headers end_stream
    simp [Filter.doHeaders]
  · intro data end_stream
    simp [Filter.doData, hh]
  · intro trailers
    simp [Filter.doTrailers, hh]
  · intro evs
    have := Filter.deliverEvents_no_handle f (evs.map (fun e => (d, e)))
      (by
        intro x hx
        obtain ⟨e, -, rfl⟩ := List.mem_map.mp hx
        exact hh)
    simpa using this
  · intro d1 hne
    obtain ⟨a1, a2, a3⟩ := Filter.other_handle f d d1 hne
    refine ⟨?_, ?_, ?_⟩
    · intro function_ref headers end_stream r hr
      rcases a1 function_ref headers end_stream r hr with e | e
      · rw [e, hh]
      · exact e
    · intro data end_stream r hr
      rcases a2 data end_stream r hr with e | e
      · rw [e, hh]
      · exact e
    · intro trailers r hr
      rcases a3 trailers r hr with e | e
      · rw [e, hh]
      · exact e

/-- Witness for C15: a new filter for the program of the test
`ScriptRandomRequestBodyTrailers`, which defines no entry point, receives request
headers, the frame `hello` and trailers. -/
theorem C15_no_entry_point_witness :
    (Filter.create Scripts.randomConfig).handle Direction.request = none ∧
    Scripts.randomConfig.requestFunctionRef = LUA_REFNIL ∧
    (Filter.create Scripts.randomConfig).decodeHeaders Scripts.requestHeaders false =
      some (FilterHeadersStatus.Continue, Filter.create Scripts.randomConfig) ∧
    (Filter.create Scripts.randomConfig).deliverEvents
        ([Event.data Scripts.hello false, Event.trailers Scripts.requestTrailers].map
          (fun e => (Direction.request, e))) =
      some (List.replicate
        [Event.data Scripts.hello false, Event.trailers Scripts.requestTrailers].length true,
        Filter.create Scripts.randomConfig) :=
  ⟨rfl, rfl,
    (C15_no_entry_point (Filter.create Scripts.randomConfig) Direction.request rfl).1
      Scripts.requestHeaders false,
    (C15_no_entry_point (Filter.create Scripts.randomConfig) Direction.request rfl).2.2.2.1
      [Event.data Scripts.hello false, Event.trailers Scripts.requestTrailers]⟩

/-- A run segment begun with `state_` at `Running` fails an assertion only if the
script reaches a call of `httpCall`. -/
theorem StreamHandleWrapper.run_abort (seg : Seg σ) (h : StreamHandleWrapper σ)
    (cb : FilterCallbacks) (hrun : h.state_ = State.Running)
    (hab : (run seg h cb).1 = .abort) :
    ∃ k h1 cb1, Visits seg h cb (Seg.httpCall k) h1 cb1 := by
  obtain ⟨seg1, h1, cb1, hv, hst⟩ := run_visits seg h cb
  rw [hab] at hst
  have hrun1 : h1.state_ = State.Running := by
    rw [(visits_frame hv).2.1]; exact hrun
  obtain ⟨k, rfl⟩ := step_abort hrun1 hst
  exact ⟨k, h1, cb1, hv⟩

/-- The whole result of `start` on a new handle, in terms of the first run segment. -/
theorem StreamHandleWrapper.start_result (h : StreamHandleWrapper σ) (cb : FilterCallbacks)
    (function_ref : Int) (seg : Seg σ) (hco : h.coroutine_.state_ = .NotStarted)
    (hfn : h.coroutine_.script.function function_ref = some seg) :
    start h cb function_ref =
      match afterRun (run seg (noteResume h [Value.handle]) cb) with
      | (.ok _, h1, cb1) =>
        (.ok (if h1.state_ = State.WaitForBody then FilterHeadersStatus.StopIteration
              else FilterHeadersStatus.Continue), h1, cb1)
      | (.luaException what, h1, cb1) => (.luaException what, h1, cb1)
      | (.abort, h1, cb1) => (.abort, h1, cb1) := by
  simp only [start, coroutineStart, hco, hfn]

/-- C16: a headers event with `end_stream` true, for a direction with an entry point.
At every point the script reaches during the event, `state_` is `Running` and
`end_stream_` is true; a call of `body()` pushes values and does not yield, and pushes
nothing (the script sees nil) when the proxy has no buffered body; a call of
`trailers()` or of the chunk iterator pushes nothing, leaves the handle unchanged and
does not yield; the run never stops by a yield inside one of these three functions.
The event returns `Continue` whenever it returns, and it does return unless the script
calls `httpCall`, whose body is `ASSERT(false)`. -/
theorem C16_headers_only (f : Filter σ) (d : Direction) (function_ref : Int)
    (headers : HeaderMap) (seg : Seg σ) (href : function_ref ≠ LUA_REFNIL)
    (hfn : f.config_.lua_state_.function function_ref = some seg) :
    (∀ seg2 h2 cb2,
      Visits seg
        (noteResume (StreamHandleWrapper.create f.config_.createCoroutine headers true)
          [Value.handle])
        (f.callbacks d) seg2 h2 cb2 →
      h2.state_ = State.Running ∧ h2.end_stream_ = true ∧
      (∃ vs h3, luaBody h2 cb2 = some (.values vs, h3)) ∧
      ((f.streamCallbacks d).buffer_ = none → luaBody h2 cb2 = some (.values [], h2)) ∧
      luaTrailers h2 = some (.values [], h2) ∧
      luaBodyIterator h2 = some (.values [], h2)) ∧
    (∀ susp site,
      (run seg
        (noteResume (StreamHandleWrapper.create f.config_.createCoroutine headers true)
          [Value.handle])
        (f.callbacks d)).1 = .yielded susp site → site = .script) ∧
    (∀ r, f.doHeaders d function_ref headers true = some r →
      r.1 = FilterHeadersStatus.Continue) ∧
    ((∀ k h2 cb2,
        ¬ Visits seg
          (noteResume (StreamHandleWrapper.create f.config_.createCoroutine headers true)
            [Value.handle])
          (f.callbacks d) (Seg.httpCall k) h2 cb2) →
      ∃ f1, f.doHeaders d function_ref headers true =
        some (FilterHeadersStatus.Continue, f1)) := by
  have hyield : ∀ susp site,
      (run seg
        (noteResume (StreamHandleWrapper.create f.config_.createCoroutine headers true)
          [Value.handle])
        (f.callbacks d)).1 = .yielded susp site → site = .script := by
    intro susp site hy
    by_contra hne
    have := ((run_spec seg _ (f.callbacks d)).2.2.2.1 susp site hy hne).2
    simp [noteResume, StreamHandleWrapper.create] at this
  have hsp := run_spec seg
    (noteResume (StreamHandleWrapper.create f.config_.createCoroutine headers true)
      [Value.handle]) (f.callbacks d)
  have hdo : f.doHeaders d function_ref headers true =
      f.headersResult d
        (match afterRun (run seg
          (noteResume (StreamHandleWrapper.create f.config_.createCoroutine headers true)
            [Value.handle]) (f.callbacks d)) with
        | (.ok _, h1, cb1) =>
          (.ok (if h1.state_ = State.WaitForBody then FilterHeadersStatus.StopIteration
                else FilterHeadersStatus.Continue), h1, cb1)
        | (.luaException what, h1, cb1) => (.luaException what, h1, cb1)
        | (.abort, h1, cb1) => (.abort, h1, cb1)) := by
    simp only [Filter.doHeaders, href, ↓reduceIte]
    rw [start_result _ _ _ seg rfl hfn]
  have hres : ∀ o h1 cb1, afterRun (run seg
      (noteResume (StreamHandleWrapper.create f.config_.createCoroutine headers true)
        [Value.handle]) (f.callbacks d)) = (o, h1, cb1) →
      h1.state_ = State.Running ∧
      (o = .abort → (run seg
        (noteResume (StreamHandleWrapper.create f.config_.createCoroutine headers true)
          [Value.handle]) (f.callbacks d)).1 = .abort) := by
    intro o h1 cb1 ha
    have has := afterRun_state (run seg
      (noteResume (StreamHandleWrapper.create f.config_.createCoroutine headers true)
        [Value.handle]) (f.callbacks d))
    have hao := afterRun_outcome (run seg
      (noteResume (StreamHandleWrapper.create f.config_.createCoroutine headers true)
        [Value.handle]) (f.callbacks d)).1 (run seg
      (noteResume (StreamHandleWrapper.create f.config_.createCoroutine headers true)
        [Value.handle]) (f.callbacks d)).2.1 (run seg
      (noteResume (StreamHandleWrapper.create f.config_.createCoroutine headers true)
        [Value.handle]) (f.callbacks d)).2.2
    simp only [Prod.mk.eta] at hao
    rw [ha] at has hao
    simp only at has hao
    rcases hr : run seg
      (noteResume (StreamHandleWrapper.create f.config_.createCoroutine headers true)
        [Value.handle]) (f.callbacks d) with ⟨s, h2, cb2⟩
    rw [hr] at has hao hsp
    have hy := hyield
    rw [hr] at hy
    simp only at has hao hsp hy
    constructor
    · rw [has.1, hsp.2.2.1]
      cases s with
      | yielded susp site =>
        rw [hy susp site rfl]
        rfl
      | _ => rfl
    · intro hab
      subst hab
      cases s with
      | finished => simp at hao
      | yielded susp site => simp only at hao; split at hao <;> simp at hao
      | error msg => simp at hao
      | abort => rfl
  refine ⟨?_, hyield, ?_, ?_⟩
  · intro seg2 h2 cb2 hv
    obtain ⟨hf, hs2, hcb2⟩ := visits_frame hv
    have hrun2 : h2.state_ = State.Running := by rw [hs2]; rfl
    have hes2 : h2.end_stream_ = true := by rw [hf.2.1]; rfl
    have ht2 : h2.trailers_ = none := by
      have : h2.trailers_.isSome = false := by rw [hf.2.2.2.2.2]; rfl
      simpa using this
    refine ⟨hrun2, hes2, ?_, ?_, ?_, ?_⟩
    · obtain ⟨vs, h3, e3, -⟩ := luaBody_at_end h2 cb2 hrun2 hes2
      exact ⟨vs, h3, e3⟩
    · intro hbuf
      have hb2 : cb2.bufferedBody = none := by
        simp only [FilterCallbacks.bufferedBody, hcb2, Filter.callbacks]
        exact hbuf
      simp [luaBody, hrun2, hes2, hb2]
    · simp [luaTrailers, hrun2, hes2, ht2]
    · simp [luaBodyIterator, hrun2, hes2]
  · intro r hr
    rw [hdo] at hr
    rcases ha : afterRun (run seg
      (noteResume (StreamHandleWrapper.create f.config_.createCoroutine headers true)
        [Value.handle]) (f.callbacks d)) with ⟨o, h1, cb1⟩
    rw [ha] at hr
    have hs1 := (hres o h1 cb1 ha).1
    cases o with
    | ok a =>
      simp only [Filter.headersResult, hs1, Option.some.injEq] at hr
      subst hr
      simp
    | luaException what =>
      simp only [Filter.headersResult, Option.some.injEq] at hr
      subst hr
      rfl
    | abort => simp [Filter.headersResult] at hr
  · intro hno
    rw [hdo]
    rcases ha : afterRun (run seg
      (noteResume (StreamHandleWrapper.create f.config_.createCoroutine headers true)
        [Value.handle]) (f.callbacks d)) with ⟨o, h1, cb1⟩
    have hs1 := hres o h1 cb1 ha
    cases o with
    | ok a =>
      exact ⟨(f.withCallbacks d cb1).setHandle d (some h1.markDead),
        by simp [Filter.headersResult, hs1.1]⟩
    | luaException what => exact ⟨_, rfl⟩
    | abort =>
      obtain ⟨k, h2, cb2, hv⟩ := run_abort seg _ (f.callbacks d) rfl (hs1.2 rfl)
      exact absurd hv (hno k h2 cb2)

/-- Witness for C16: a new filter running `BODY_TRAILERS_SCRIPT` receives the headers of
a headers-only request. -/
theorem C16_headers_only_witness :
    Scripts.requestRef ≠ LUA_REFNIL ∧
    (Scripts.config Scripts.bodyTrailersScript).lua_state_.function Scripts.requestRef =
      some (Scripts.logPath (Seg.body
        (Scripts.bodyBranch 1 (Seg.trailers (Scripts.trailersBranch 3) 2)) 0)) ∧
    ((∀ seg2 h2 cb2,
      Visits (Scripts.logPath (Seg.body
          (Scripts.bodyBranch 1 (Seg.trailers (Scripts.trailersBranch 3) 2)) 0))
        (noteResume (StreamHandleWrapper.create
          (Filter.create (Scripts.config Scripts.bodyTrailersScript)).config_.createCoroutine
          Scripts.requestHeaders true) [Value.handle])
        ((Filter.create (Scripts.config Scripts.bodyTrailersScript)).callbacks
          Direction.request) seg2 h2 cb2 →
      h2.state_ = State.Running ∧ h2.end_stream_ = true ∧
      (∃ vs h3, luaBody h2 cb2 = some (.values vs, h3)) ∧
      (((Filter.create (Scripts.config Scripts.bodyTrailersScript)).streamCallbacks
          Direction.request).buffer_ = none → luaBody h2 cb2 = some (.values [], h2)) ∧
      luaTrailers h2 = some (.values [], h2) ∧
      luaBodyIterator h2 = some (.values [], h2)) ∧
    (∀ susp site,
      (run (Scripts.logPath (Seg.body
          (Scripts.bodyBranch 1 (Seg.trailers (Scripts.trailersBranch 3) 2)) 0))
        (noteResume (StreamHandleWrapper.create
          (Filter.create (Scripts.config Scripts.bodyTrailersScript)).config_.createCoroutine
          Scripts.requestHeaders true) [Value.handle])
        ((Filter.create (Scripts.config Scripts.bodyTrailersScript)).callbacks
          Direction.request)).1 = .yielded susp site → site = .script) ∧
    (∀ r, (Filter.create (Scripts.config Scripts.bodyTrailersScript)).doHeaders
        Direction.request Scripts.requestRef Scripts.requestHeaders true = some r →
      r.1 = FilterHeadersStatus.Continue) ∧
    ((∀ k h2 cb2,
        ¬ Visits (Scripts.logPath (Seg.body
            (Scripts.bodyBranch 1 (Seg.trailers (Scripts.trailersBranch 3) 2)) 0))
          (noteResume (StreamHandleWrapper.create
            (Filter.create
              (Scripts.config Scripts.bodyTrailersScript)).config_.createCoroutine
            Scripts.requestHeaders true) [Value.handle])
          ((Filter.create (Scripts.config Scripts.bodyTrailersScript)).callbacks
            Direction.request) (Seg.httpCall k) h2 cb2) →
      ∃ f1, (Filter.create (Scripts.config Scripts.bodyTrailersScript)).doHeaders
        Direction.request Scripts.requestRef Scripts.requestHeaders true =
          some (FilterHeadersStatus.Continue, f1))) :=
  ⟨by decide, rfl,
    C16_headers_only (Filter.create (Scripts.config Scripts.bodyTrailersScript))
      Direction.request Scripts.requestRef Scripts.requestHeaders
      (Scripts.logPath (Seg.body
        (Scripts.bodyBranch 1 (Seg.trailers (Scripts.trailersBranch 3) 2)) 0))
      (by decide) rfl⟩

theorem Filter.withCallbacks_callbacks (f : Filter σ) (d : Direction) :
    f.withCallbacks d (f.callbacks d) = f := by
  cases d <;> rfl

theorem Filter.callbacks_fields_setHandle (f : Filter σ) (d : Direction)
    (x : Option (StreamHandleWrapper σ)) :
    (f.setHandle d x).decoder_callbacks_ = f.decoder_callbacks_ ∧
    (f.setHandle d x).encoder_callbacks_ = f.encoder_callbacks_ := by
  cases d <;> exact ⟨rfl, rfl⟩

/-- An event delivered to a handle whose `state_` is `Running` outside a run of the
coroutine: no branch of `onData` or `onTrailers` is taken.  The event is answered with
`Continue`; the log, the proxy side and the coroutine are as before. -/
theorem Filter.deliver_running (f : Filter σ) (d : Direction) (e : Event)
    (h : StreamHandleWrapper σ) (hh : f.handle d = some h)
    (hst : h.state_ = State.Running) (hes : h.end_stream_ = false) :
    ∃ f1 h1, f.deliver d e = some (true, f1) ∧ f1.log_ = f.log_ ∧
      f1.decoder_callbacks_ = f.decoder_callbacks_ ∧
      f1.encoder_callbacks_ = f.encoder_callbacks_ ∧
      f1.handle d = some h1 ∧ h1.state_ = State.Running ∧
      h1.end_stream_ = e.endsStream ∧ h1.coroutine_ = h.coroutine_ := by
  have e1 : h.markLive.end_stream_ = false := by simpa [markLive, onMarkLive] using hes
  have e2 : h.markLive.state_ = State.Running := by simpa [markLive, onMarkLive] using hst
  cases e with
  | data data end_stream =>
    have hon : onData h.markLive (f.callbacks d) data end_stream =
        (.ok FilterDataStatus.Continue, { h.markLive with end_stream_ := end_stream },
          f.callbacks d) := by
      simp [onData, e1, e2]
    refine ⟨f.setHandle d (some (markDead { h.markLive with end_stream_ := end_stream })),
      markDead { h.markLive with end_stream_ := end_stream }, ?_, ?_, ?_, ?_, ?_, ?_, ?_, ?_⟩
    · simp only [Filter.deliver, Filter.deliverData, Filter.doData, hh, hon, Filter.dataResult,
        Filter.withCallbacks_callbacks, decide_True]
    · rw [Filter.log_setHandle]
    · exact (Filter.callbacks_fields_setHandle _ _ _).1
    · exact (Filter.callbacks_fields_setHandle _ _ _).2
    · rw [Filter.handle_setHandle]
    · simpa [markDead, onMarkDead] using e2
    · simp [markDead, onMarkDead, Event.endsStream]
    · simp [markDead, onMarkDead, markLive, onMarkLive]
  | trailers tr =>
    have hon : onTrailers h.markLive (f.callbacks d) tr =
        (.ok (), { h.markLive with end_stream_ := true, trailers_ := some tr },
          f.callbacks d) := by
      simp [onTrailers, onTrailersBody, onTrailersTrailers, e1, e2]
    refine ⟨f.setHandle d
        (some (markDead { h.markLive with end_stream_ := true, trailers_ := some tr })),
      markDead { h.markLive with end_stream_ := true, trailers_ := some tr },
      ?_, ?_, ?_, ?_, ?_, ?_, ?_, ?_⟩
    · simp only [Filter.deliver, Filter.doTrailers, hh, hon, Filter.trailersResult,
        Filter.withCallbacks_callbacks, decide_True]
    · rw [Filter.log_setHandle]
    · exact (Filter.callbacks_fields_setHandle _ _ _).1
    · exact (Filter.callbacks_fields_setHandle _ _ _).2
    · rw [Filter.handle_setHandle]
    · simpa [markDead, onMarkDead] using e2
    · simp [markDead, onMarkDead, Event.endsStream]
    · simp [markDead, onMarkDead, markLive, onMarkLive]

theorem Filter.deliverEvents_cons (f : Filter σ) (d : Direction) (e : Event)
    (rest : List (Direction × Event)) :
    f.deliverEvents ((d, e) :: rest) =
      match f.deliver d e with
      | some (ok, f1) =>
        match f1.deliverEvents rest with
        | some (oks, f2) => some (ok :: oks, f2)
        | none => none
      | none => none := rfl

/-- A well-formed sequence of events delivered to a handle whose `state_` is `Running`
outside a run of the coroutine: every event is answered with `Continue`; the log, the
proxy side and the coroutine are as before. -/
theorem Filter.deliverEvents_running (d : Direction) (c : Coroutine σ) (evs : List Event) :
    ∀ (f : Filter σ) (h : StreamHandleWrapper σ), Event.wellFormed evs = true →
      f.handle d = some h → h.state_ = State.Running → h.end_stream_ = false →
      h.coroutine_ = c →
    ∃ f2 h2, f.deliverEvents (evs.map (fun e => (d, e))) =
        some (List.replicate evs.length true, f2) ∧
      f2.log_ = f.log_ ∧ f2.decoder_callbacks_ = f.decoder_callbacks_ ∧
      f2.encoder_callbacks_ = f.encoder_callbacks_ ∧
      f2.handle d = some h2 ∧ h2.state_ = State.Running ∧ h2.coroutine_ = c := by
  induction evs with
  | nil =>
    intro f h _ hh hst _ hc
    exact ⟨f, h, rfl, rfl, rfl, rfl, hh, hst, hc⟩
  | cons e rest ih =>
    intro f h hwf hh hst hes hc
    obtain ⟨f1, h1, hd1, hl1, hdc1, hec1, hh1, hs1, he1, hc1⟩ :=
      Filter.deliver_running f d e h hh hst hes
    cases rest with
    | nil =>
      refine ⟨f1, h1, ?_, hl1, hdc1, hec1, hh1, hs1, hc1.trans hc⟩
      simp [Filter.deliverEvents, hd1]
    | cons e2 rest2 =>
      simp only [Event.wellFormed, Bool.and_eq_true, Bool.not_eq_true'] at hwf
      obtain ⟨f2, h2, hd2, hl2, hdc2, hec2, hh2, hs2, hc2⟩ :=
        ih f1 h1 hwf.2 hh1 hs1 (he1.trans hwf.1) (hc1.trans hc)
      refine ⟨f2, h2, ?_, hl2.trans hl1, hdc2.trans hdc1, hec2.trans hec1, hh2, hs2, hc2⟩
      rw [List.map_cons, Filter.deliverEvents_cons, hd1]
      simp only
      rw [hd2]
      simp [List.replicate_succ]

/-- C17: a script that returns from its entry point during the headers event of a
stream with a body (the first run of its coroutine ends by the function returning).
The headers event returns `Continue`, and the coroutine has been started once.  For
every well-formed sequence of later data and trailers events of the direction, every
event returns `Continue`; the filter's log is as it was after the headers event (no
script log call), the proxy side of both directions is as it was (no `addData` call),
and the coroutine of the handle, with its record of starts and resumes, is as it was
(the coroutine is not resumed). -/
theorem C17_script_returned_during_headers (f : Filter σ) (d : Direction)
    (function_ref : Int) (headers : HeaderMap) (seg : Seg σ)
    (href : function_ref ≠ LUA_REFNIL)
    (hfn : f.config_.lua_state_.function function_ref = some seg)
    (hfin : (run seg
      (noteResume (StreamHandleWrapper.create f.config_.createCoroutine headers false)
        [Value.handle]) (f.callbacks d)).1 = .finished) :
    ∃ f1 h1, f.doHeaders d function_ref headers false =
        some (FilterHeadersStatus.Continue, f1) ∧
      f1.handle d = some h1 ∧ h1.coroutine_.resumes_ = [[Value.handle]] ∧
      ∀ evs : List Event, Event.wellFormed evs = true →
        ∃ f2 h2, f1.deliverEvents (evs.map (fun e => (d, e))) =
            some (List.replicate evs.length true, f2) ∧
          f2.log_ = f1.log_ ∧ f2.decoder_callbacks_ = f1.decoder_callbacks_ ∧
          f2.encoder_callbacks_ = f1.encoder_callbacks_ ∧
          f2.handle d = some h2 ∧ h2.coroutine_ = h1.coroutine_ := by
  have hsp := run_spec seg
    (noteResume (StreamHandleWrapper.create f.config_.createCoroutine headers false)
      [Value.handle]) (f.callbacks d)
  rcases hr : run seg
    (noteResume (StreamHandleWrapper.create f.config_.createCoroutine headers false)
      [Value.handle]) (f.callbacks d) with ⟨s, h0, cb0⟩
  rw [hr] at hfin hsp
  simp only at hfin
  subst hfin
  obtain ⟨hf, -, hst, -, -⟩ := hsp
  simp only [stateAfter, noteResume, StreamHandleWrapper.create] at hst
  have hdo : f.doHeaders d function_ref headers false =
      some (FilterHeadersStatus.Continue,
        (f.withCallbacks d cb0).setHandle d
          (some (markDead (setCoroutineState h0 .Finished)))) := by
    simp only [Filter.doHeaders, href, ↓reduceIte]
    rw [start_result _ _ _ seg rfl hfn, hr]
    simp [afterRun, setCoroutineState, Filter.headersResult, hst]
  refine ⟨_, markDead (setCoroutineState h0 .Finished), hdo, Filter.handle_setHandle _ _ _,
    ?_, ?_⟩
  · simp only [markDead, onMarkDead, setCoroutineState]
    rw [hf.1]
    rfl
  · intro evs hwf
    obtain ⟨f2, h2, hd2, hl2, hdc2, hec2, hh2, -, hc2⟩ :=
      Filter.deliverEvents_running d (markDead (setCoroutineState h0 .Finished)).coroutine_ evs
        ((f.withCallbacks d cb0).setHandle d
          (some (markDead (setCoroutineState h0 .Finished))))
        (markDead (setCoroutineState h0 .Finished)) hwf (Filter.handle_setHandle _ _ _)
        (by simpa [markDead, onMarkDead, setCoroutineState] using hst)
        (by
          simp only [markDead, onMarkDead, setCoroutineState]
          rw [hf.2.1]
          rfl)
        rfl
    exact ⟨f2, h2, hd2, hl2, hdc2, hec2, hh2, hc2⟩

/-- Witness for C17: `HEADER_ONLY_SCRIPT` on a request with a body. -/
theorem C17_script_returned_during_headers_witness :
    Scripts.requestRef ≠ LUA_REFNIL ∧
    (Scripts.config Scripts.headerOnlyScript).lua_state_.function Scripts.requestRef =
      some (Scripts.logPath Seg.ret) ∧
    (run (Scripts.logPath Seg.ret)
      (noteResume (StreamHandleWrapper.create
        (Filter.create (Scripts.config Scripts.headerOnlyScript)).config_.createCoroutine
        Scripts.requestHeaders false) [Value.handle])
      ((Filter.create (Scripts.config Scripts.headerOnlyScript)).callbacks
        Direction.request)).1 = .finished ∧
    ∃ f1 h1, (Filter.create (Scripts.config Scripts.headerOnlyScript)).doHeaders
        Direction.request Scripts.requestRef Scripts.requestHeaders false =
        some (FilterHeadersStatus.Continue, f1) ∧
      f1.handle Direction.request = some h1 ∧ h1.coroutine_.resumes_ = [[Value.handle]] ∧
      ∀ evs : List Event, Event.wellFormed evs = true →
        ∃ f2 h2, f1.deliverEvents (evs.map (fun e => (Direction.request, e))) =
            some (List.replicate evs.length true, f2) ∧
          f2.log_ = f1.log_ ∧ f2.decoder_callbacks_ = f1.decoder_callbacks_ ∧
          f2.encoder_callbacks_ = f1.encoder_callbacks_ ∧
          f2.handle Direction.request = some h2 ∧ h2.coroutine_ = h1.coroutine_ :=
  ⟨by decide, rfl, rfl,
    C17_script_returned_during_headers (Filter.create (Scripts.config Scripts.headerOnlyScript))
      Direction.request Scripts.requestRef Scripts.requestHeaders (Scripts.logPath Seg.ret)
      (by decide) rfl rfl⟩

theorem StreamHandleWrapper.coroutineStart_end_stream (h : StreamHandleWrapper σ)
    (cb : FilterCallbacks) (function_ref : Int) :
    (coroutineStart h cb function_ref).2.1.end_stream_ = h.end_stream_ := by
  unfold coroutineStart
  cases hc : h.coroutine_.state_ <;> cases hf : h.coroutine_.script.function function_ref <;>
    simp only
  rw [(afterRun_state _).2.1, (run_spec _ _ _).1.2.1]
  rfl

theorem StreamHandleWrapper.start_end_stream (h : StreamHandleWrapper σ)
    (cb : FilterCallbacks) (function_ref : Int) :
    (start h cb function_ref).2.1.end_stream_ = h.end_stream_ := by
  rw [← coroutineStart_end_stream h cb function_ref]
  unfold start
  rcases coroutineStart h cb function_ref with ⟨o, h1, cb1⟩
  cases o <;> rfl

theorem StreamHandleWrapper.call_start (h : StreamHandleWrapper σ) (cb : FilterCallbacks)
    (function_ref : Int) :
    (call h cb (.start function_ref)).2.1 = (start h cb function_ref).2.1 := by
  simp only [call]
  rcases start h cb function_ref with ⟨o, h1, cb1⟩
  cases o <;> rfl

theorem StreamHandleWrapper.onData_after_end (h : StreamHandleWrapper σ)
    (cb : FilterCallbacks) (data : Buffer) (end_stream : Bool) (hes : h.end_stream_ = true) :
    onData h cb data end_stream = (.abort, h, cb) := by
  simp [onData, hes]

theorem StreamHandleWrapper.onTrailers_after_end (h : StreamHandleWrapper σ)
    (cb : FilterCallbacks) (trailers : HeaderMap) (hes : h.end_stream_ = true) :
    onTrailers h cb trailers = (.abort, h, cb) := by
  simp [onTrailers, hes]

/-- No call of an entry point changes `end_stream_` from true to false. -/
theorem StreamHandleWrapper.call_end_stream (h : StreamHandleWrapper σ)
    (cb : FilterCallbacks) (c : Call) (hes : h.end_stream_ = true) :
    (call h cb c).2.1.end_stream_ = true := by
  cases c with
  | start function_ref => rw [call_start, start_end_stream, hes]
  | onData data end_stream =>
    simp only [call, onData_after_end h cb data end_stream hes]
    exact hes
  | onTrailers trailers =>
    simp only [call, onTrailers_after_end h cb trailers hes]
    exact hes

theorem StreamHandleWrapper.calls_chain (cs : List Call) :
    ∀ (h : StreamHandleWrapper σ) (cb : FilterCallbacks) (o : Outcome Unit),
      List.Chain' (fun a b => a.2.end_stream_ = true → b.2.end_stream_ = true)
        ((o, h) :: calls h cb cs) := by
  induction cs with
  | nil =>
    intro h cb o
    simp [calls]
  | cons c rest ih =>
    intro h cb o
    have hstep := call_end_stream h cb c
    simp only [calls]
    rcases hc : call h cb c with ⟨o1, h1, cb1⟩
    rw [hc] at hstep
    cases o1 with
    | ok u => exact List.Chain'.cons hstep (ih h1 cb1 (.ok u))
    | luaException what => exact List.Chain'.cons hstep (List.chain'_singleton _)
    | abort => exact List.Chain'.cons hstep (List.chain'_singleton _)

/-- C18: `end_stream_` never regresses.  No call of `start`, `onData` or `onTrailers`
changes it from true to false, and neither does any script action during a run of the
coroutine; along every sequence of calls, once a handle has `end_stream_` true every
later handle of the sequence has.  A call of `onData` or `onTrailers` on a handle with
`end_stream_` true fails the entry assertion and leaves the handle and the callbacks
untouched; at the filter, `doData` and `doTrailers` on such a handle do not return. -/
theorem C18_end_stream_never_regresses (h : StreamHandleWrapper σ) (cb : FilterCallbacks) :
    (∀ c, h.end_stream_ = true → (call h cb c).2.1.end_stream_ = true) ∧
    (∀ function_ref, (start h cb function_ref).2.1.end_stream_ = h.end_stream_) ∧
    (∀ seg seg2 h2 cb2, Visits seg h cb seg2 h2 cb2 → h2.end_stream_ = h.end_stream_) ∧
    (∀ cs o, List.Chain' (fun a b => a.2.end_stream_ = true → b.2.end_stream_ = true)
      ((o, h) :: calls h cb cs)) ∧
    (h.end_stream_ = true →
      (∀ data end_stream, onData h cb data end_stream = (.abort, h, cb)) ∧
      (∀ trailers, onTrailers h cb trailers = (.abort, h, cb))) ∧
    (h.end_stream_ = true →
      ∀ (f : Filter σ) (d : Direction), f.handle d = some h →
        (∀ data end_stream, f.doData d data end_stream = none) ∧
        (∀ trailers, f.doTrailers d trailers = none)) := by
  refine ⟨fun c hes => call_end_stream h cb c hes, fun r => start_end_stream h cb r,
    fun seg seg2 h2 cb2 hv => (visits_frame hv).1.2.1, fun cs o => calls_chain cs h cb o,
    fun hes => ⟨fun data es => onData_after_end h cb data es hes,
      fun tr => onTrailers_after_end h cb tr hes⟩, ?_⟩
  intro hes f d hh
  have hes1 : h.markLive.end_stream_ = true := by simpa [markLive, onMarkLive] using hes
  constructor
  · intro data end_stream
    simp only [Filter.doData, hh, onData_after_end _ _ data end_stream hes1,
      Filter.dataResult]
  · intro trailers
    simp only [Filter.doTrailers, hh, onTrailers_after_end _ _ trailers hes1,
      Filter.trailersResult]

/-- Witness for C18: the handle of a headers-only request has `end_stream_` true from
its creation; a data frame or trailers delivered to it fail the entry assertion. -/
theorem C18_end_stream_never_regresses_witness :
    (Scripts.headersOnlyHandle Scripts.bodyScript).end_stream_ = true ∧
    (∀ data end_stream,
      onData (Scripts.headersOnlyHandle Scripts.bodyScript) Scripts.emptyCallbacks data
        end_stream =
        (.abort, Scripts.headersOnlyHandle Scripts.bodyScript, Scripts.emptyCallbacks)) ∧
    (∀ trailers,
      onTrailers (Scripts.headersOnlyHandle Scripts.bodyScript) Scripts.emptyCallbacks
        trailers =
        (.abort, Scripts.headersOnlyHandle Scripts.bodyScript, Scripts.emptyCallbacks)) :=
  ⟨rfl, (C18_end_stream_never_regresses (Scripts.headersOnlyHandle Scripts.bodyScript)
    Scripts.emptyCallbacks).2.2.2.2.1 rfl⟩

theorem StreamHandleWrapper.coroutineResume_once (h : StreamHandleWrapper σ)
    (cb : FilterCallbacks) (vs : List Value) :
    (coroutineResume h cb vs).2.1.coroutine_.resumes_ = h.coroutine_.resumes_ ∨
    (coroutineResume h cb vs).2.1.coroutine_.resumes_ = h.coroutine_.resumes_ ++ [vs] := by
  rw [coroutineResume_resumes]
  cases h.coroutine_.state_ <;> simp

theorem StreamHandleWrapper.dataReturn_handle
    (r : Outcome Unit × StreamHandleWrapper σ × FilterCallbacks) :
    (dataReturn r).2.1 = r.2.1 := by
  obtain ⟨o, h, cb⟩ := r
  cases o <;> rfl

theorem StreamHandleWrapper.chunkReturn_coroutine
    (r : Outcome Unit × StreamHandleWrapper σ × FilterCallbacks) :
    (chunkReturn r).2.1.coroutine_ = r.2.1.coroutine_ := by
  obtain ⟨o, h, cb⟩ := r
  cases o <;> rfl

/-- In `WaitForTrailers`, `onTrailers` is one resume of the coroutine with the trailers
wrapper. -/
theorem StreamHandleWrapper.onTrailers_waitForTrailers (h : StreamHandleWrapper σ)
    (cb : FilterCallbacks) (tr : HeaderMap) (hst : h.state_ = State.WaitForTrailers)
    (hes : h.end_stream_ = false) :
    ∃ h1, h1.coroutine_ = h.coroutine_ ∧ h1.state_ = State.Running ∧
      h1.end_stream_ = true ∧ h1.trailers_ = some tr ∧
      onTrailers h cb tr = coroutineResume h1 cb [Value.trailers] := by
  obtain ⟨h1, e1, s1, t1, -⟩ := luaTrailers_recorded
    { h with end_stream_ := true, trailers_ := some tr, state_ := State.Running } rfl rfl
  have hf := (luaTrailers_values e1).1
  refine ⟨h1, hf.1, s1, hf.2.1, t1, ?_⟩
  simp only [onTrailers, hes, onTrailersBody, hst, onTrailersTrailers]
  simp only [Bool.false_eq_true, ↓reduceIte, reduceCtorEq]
  rw [e1]

/-- Every call of `onData` starts no coroutine and resumes the coroutine at most once. -/
theorem StreamHandleWrapper.onData_once (h : StreamHandleWrapper σ) (cb : FilterCallbacks)
    (data : Buffer) (end_stream : Bool) :
    (onData h cb data end_stream).2.1.coroutine_.resumes_ = h.coroutine_.resumes_ ∨
    ∃ vs, (onData h cb data end_stream).2.1.coroutine_.resumes_ =
      h.coroutine_.resumes_ ++ [vs] := by
  unfold onData
  by_cases hes : h.end_stream_ = true
  · simp [hes]
  · simp only [hes, Bool.false_eq_true, ↓reduceIte]
    split
    · rw [chunkReturn_coroutine]
      rcases coroutineResume_once
        { h with end_stream_ := end_stream, chunk_ := some data, chunks_ := h.chunks_ + 1,
                 state_ := State.Running } cb [Value.chunk h.chunks_] with e | e
      · exact Or.inl e
      · exact Or.inr ⟨_, e⟩
    · split
      · split
        · rename_i vs h3 e
          have hf := (luaBody_values e).1
          rw [dataReturn_handle]
          rcases coroutineResume_once h3 (cb.addData data) vs with e1 | e1
          · left; rw [e1, hf.1]
          · right; exact ⟨vs, by rw [e1, hf.1]⟩
        · exact Or.inl rfl
      · split
        · exact Or.inl rfl
        · split
          · rw [dataReturn_handle]
            rcases coroutineResume_once
              { h with end_stream_ := end_stream, state_ := State.Running } cb [] with e | e
            · exact Or.inl e
            · exact Or.inr ⟨_, e⟩
          · exact Or.inl rfl

/-- Every call of `onTrailers` resumes the coroutine at most once. -/
theorem StreamHandleWrapper.onTrailers_once (h : StreamHandleWrapper σ)
    (cb : FilterCallbacks) (tr : HeaderMap) :
    (onTrailers h cb tr).2.1.coroutine_.resumes_ = h.coroutine_.resumes_ ∨
    ∃ vs, (onTrailers h cb tr).2.1.coroutine_.resumes_ = h.coroutine_.resumes_ ++ [vs] := by
  by_cases hes : h.end_stream_ = true
  · rw [onTrailers_after_end h cb tr hes]
    exact Or.inl rfl
  · simp only [Bool.not_eq_true] at hes
    cases hst : h.state_ with
    | Running =>
      left
      simp [onTrailers, onTrailersBody, onTrailersTrailers, hst, hes]
    | WaitForBodyChunk =>
      rw [onTrailers_waitForBodyChunk h cb tr hst hes]
      rcases coroutineResume_once
        { h with end_stream_ := true, trailers_ := some tr, state_ := State.Running } cb []
        with e | e
      · exact Or.inl e
      · exact Or.inr ⟨_, e⟩
    | WaitForBody =>
      obtain ⟨vs, h1, -, -, -, -, -, -, hc, hon⟩ := onTrailers_waitForBody h cb tr hst hes
      rw [hon, ← hc]
      rcases coroutineResume_once h1 cb vs with e | e
      · exact Or.inl e
      · exact Or.inr ⟨_, e⟩
    | WaitForTrailers =>
      obtain ⟨h1, hc, -, -, -, hon⟩ := onTrailers_waitForTrailers h cb tr hst hes
      rw [hon, ← hc]
      rcases coroutineResume_once h1 cb [Value.trailers] with e | e
      · exact Or.inl e
      · exact Or.inr ⟨_, e⟩

theorem Filter.headersResult_coroutine (f : Filter σ) (d : Direction)
    (r : Outcome FilterHeadersStatus × StreamHandleWrapper σ × FilterCallbacks)
    (x : FilterHeadersStatus × Filter σ) (h1 : StreamHandleWrapper σ)
    (hr : f.headersResult d r = some x) (hh : x.2.handle d = some h1) :
    h1.coroutine_ = r.2.1.coroutine_ := by
  obtain ⟨o, h2, cb2⟩ := r
  cases o with
  | ok a =>
    simp only [Filter.headersResult, Option.some.injEq] at hr
    subst hr
    rw [Filter.handle_setHandle] at hh
    cases hh
    rfl
  | luaException what =>
    simp only [Filter.headersResult, Option.some.injEq] at hr
    subst hr
    rw [Filter.handle_handleScriptError] at hh
    cases hh
  | abort => simp [Filter.headersResult] at hr

theorem Filter.dataResult_coroutine (f : Filter σ) (d : Direction)
    (r : Outcome FilterDataStatus × StreamHandleWrapper σ × FilterCallbacks)
    (x : FilterDataStatus × Filter σ) (h1 : StreamHandleWrapper σ)
    (hr : f.dataResult d r = some x) (hh : x.2.handle d = some h1) :
    h1.coroutine_ = r.2.1.coroutine_ := by
  obtain ⟨o, h2, cb2⟩ := r
  cases o with
  | ok a =>
    simp only [Filter.dataResult, Option.some.injEq] at hr
    subst hr
    rw [Filter.handle_setHandle] at hh
    cases hh
    rfl
  | luaException what =>
    simp only [Filter.dataResult, Option.some.injEq] at hr
    subst hr
    rw [Filter.handle_handleScriptError] at hh
    cases hh
  | abort => simp [Filter.dataResult] at hr

theorem Filter.trailersResult_coroutine (f : Filter σ) (d : Direction)
    (r : Outcome Unit × StreamHandleWrapper σ × FilterCallbacks)
    (x : FilterTrailersStatus × Filter σ) (h1 : StreamHandleWrapper σ)
    (hr : f.trailersResult d r = some x) (hh : x.2.handle d = some h1) :
    h1.coroutine_ = r.2.1.coroutine_ := by
  obtain ⟨o, h2, cb2⟩ := r
  cases o with
  | ok a =>
    simp only [Filter.trailersResult, Option.some.injEq] at hr
    subst hr
    rw [Filter.handle_setHandle] at hh
    cases hh
    rfl
  | luaException what =>
    simp only [Filter.trailersResult, Option.some.injEq] at hr
    subst hr
    rw [Filter.handle_handleScriptError] at hh
    cases hh
  | abort => simp [Filter.trailersResult] at hr

theorem StreamHandleWrapper.start_once (h : StreamHandleWrapper σ) (cb : FilterCallbacks)
    (function_ref : Int) :
    (start h cb function_ref).2.1.coroutine_.resumes_ = h.coroutine_.resumes_ ∨
    (start h cb function_ref).2.1.coroutine_.resumes_ =
      h.coroutine_.resumes_ ++ [[Value.handle]] := by
  rw [start_resumes, coroutineStart_resumes]
  cases h.coroutine_.state_ <;> cases h.coroutine_.script.function function_ref <;> simp

/-- C19: the coroutine of a handle is started or resumed at most once by each call of
`start`, `onData` and `onTrailers`: the record of starts and resumes is unchanged or
grows by exactly one entry.  In `onTrailers`, when the first conditional resumes the
coroutine (entry state `WaitForBody` or `WaitForBodyChunk`) and the resume returns, the
state is not `WaitForTrailers` and the second conditional resumes nothing; when the entry
state is `Running` or `WaitForTrailers` the first conditional resumes nothing.  The same
bound holds for the handle a direction has after `doHeaders`, `doData` or `doTrailers`:
`doHeaders` starts the new coroutine at most once, `doData` and `doTrailers` add at most
one resume to the record. -/
theorem C19_at_most_one_resume (h : StreamHandleWrapper σ) (cb : FilterCallbacks) :
    (∀ function_ref,
      (start h cb function_ref).2.1.coroutine_.resumes_ = h.coroutine_.resumes_ ∨
      (start h cb function_ref).2.1.coroutine_.resumes_ =
        h.coroutine_.resumes_ ++ [[Value.handle]]) ∧
    (∀ data end_stream,
      (onData h cb data end_stream).2.1.coroutine_.resumes_ = h.coroutine_.resumes_ ∨
      ∃ vs, (onData h cb data end_stream).2.1.coroutine_.resumes_ =
        h.coroutine_.resumes_ ++ [vs]) ∧
    (∀ tr,
      (onTrailers h cb tr).2.1.coroutine_.resumes_ = h.coroutine_.resumes_ ∨
      ∃ vs, (onTrailers h cb tr).2.1.coroutine_.resumes_ = h.coroutine_.resumes_ ++ [vs]) ∧
    (∀ tr h1 cb1, (h.state_ = State.WaitForBody ∨ h.state_ = State.WaitForBodyChunk) →
      onTrailersBody { h with end_stream_ := true, trailers_ := some tr } cb =
        (.ok (), h1, cb1) →
      h1.state_ ≠ State.WaitForTrailers ∧ onTrailersTrailers h1 cb1 = (.ok (), h1, cb1)) ∧
    (∀ tr, (h.state_ = State.Running ∨ h.state_ = State.WaitForTrailers) →
      onTrailersBody { h with end_stream_ := true, trailers_ := some tr } cb =
        (.ok (), { h with end_stream_ := true, trailers_ := some tr }, cb)) ∧
    (∀ (f : Filter σ) (d : Direction) function_ref headers end_stream r h1,
      function_ref ≠ LUA_REFNIL →
      f.doHeaders d function_ref headers end_stream = some r → r.2.handle d = some h1 →
      h1.coroutine_.resumes_.length ≤ 1) ∧
    (∀ (f : Filter σ) (d : Direction), f.handle d = some h →
      (∀ data end_stream r h1, f.doData d data end_stream = some r →
        r.2.handle d = some h1 →
        h1.coroutine_.resumes_.length ≤ h.coroutine_.resumes_.length + 1) ∧
      (∀ tr r h1, f.doTrailers d tr = some r → r.2.handle d = some h1 →
        h1.coroutine_.resumes_.length ≤ h.coroutine_.resumes_.length + 1)) := by
  refine ⟨start_once h cb, onData_once h cb, onTrailers_once h cb, ?_, ?_, ?_, ?_⟩
  · intro tr h1 cb1 hst hok
    have hne : h1.state_ ≠ State.WaitForTrailers := by
      intro he
      rcases hst with hst | hst
      · simp only [onTrailersBody, hst, reduceCtorEq, ↓reduceIte] at hok
        obtain ⟨vs, h2, hb, -, -, hf, hs2, ht2⟩ := luaBody_at_end
          { h with end_stream_ := true, trailers_ := some tr, state_ := State.Running } cb
          rfl rfl
        rw [hb] at hok
        simp only at hok
        have hsp := (coroutineResume_spec h2 cb vs hs2).2.2.2.2
        rw [hok, ht2] at hsp
        simp at hsp
        exact hsp he
      · simp only [onTrailersBody, hst, ↓reduceIte] at hok
        have hsp := (coroutineResume_spec
          { h with end_stream_ := true, trailers_ := some tr, state_ := State.Running } cb []
          rfl).2.2.2.2
        rw [hok] at hsp
        simp at hsp
        exact hsp he
    exact ⟨hne, by simp [onTrailersTrailers, hne]⟩
  · intro tr hst
    rcases hst with hst | hst <;> simp [onTrailersBody, hst]
  · intro f d function_ref headers end_stream r h1 href hr hh
    simp only [Filter.doHeaders, href, ↓reduceIte] at hr
    rw [Filter.headersResult_coroutine f d _ r h1 hr hh]
    rcases start_once (StreamHandleWrapper.create f.config_.createCoroutine headers end_stream)
      (f.callbacks d) function_ref with e | e <;>
      (rw [e]; simp [StreamHandleWrapper.create, FilterConfig.createCoroutine])
  · intro f d hh
    constructor
    · intro data end_stream r h1 hr hh1
      simp only [Filter.doData, hh] at hr
      rw [Filter.dataResult_coroutine f d _ r h1 hr hh1]
      rcases onData_once h.markLive (f.callbacks d) data end_stream with e | ⟨vs, e⟩ <;>
        (rw [e]; simp [markLive, onMarkLive])
    · intro tr r h1 hr hh1
      simp only [Filter.doTrailers, hh] at hr
      rw [Filter.trailersResult_coroutine f d _ r h1 hr hh1]
      rcases onTrailers_once h.markLive (f.callbacks d) tr with e | ⟨vs, e⟩ <;>
        (rw [e]; simp [markLive, onMarkLive])

/-- Witness for C19: the handle of `BODY_TRAILERS_SCRIPT`, suspended in `body()` after
the headers of a request with a body, receives trailers: the first conditional of
`onTrailers` resumes the coroutine, which runs to its end, and the second conditional
resumes nothing. -/
theorem C19_at_most_one_resume_witness :
    ((Scripts.started Scripts.bodyTrailersScript).state_ = State.WaitForBody ∨
      (Scripts.started Scripts.bodyTrailersScript).state_ = State.WaitForBodyChunk) ∧
    (onTrailersBody
      { (Scripts.started Scripts.bodyTrailersScript) with
        end_stream_ := true, trailers_ := some Scripts.requestTrailers }
      Scripts.emptyCallbacks).1 = .ok () ∧
    (onTrailersBody
      { (Scripts.started Scripts.bodyTrailersScript) with
        end_stream_ := true, trailers_ := some Scripts.requestTrailers }
      Scripts.emptyCallbacks).2.1.state_ ≠ State.WaitForTrailers ∧
    onTrailersTrailers
      (onTrailersBody
        { (Scripts.started Scripts.bodyTrailersScript) with
          end_stream_ := true, trailers_ := some Scripts.requestTrailers }
        Scripts.emptyCallbacks).2.1
      (onTrailersBody
        { (Scripts.started Scripts.bodyTrailersScript) with
          end_stream_ := true, trailers_ := some Scripts.requestTrailers }
        Scripts.emptyCallbacks).2.2 =
      (.ok (),
        (onTrailersBody
          { (Scripts.started Scripts.bodyTrailersScript) with
            end_stream_ := true, trailers_ := some Scripts.requestTrailers }
          Scripts.emptyCallbacks).2.1,
        (onTrailersBody
          { (Scripts.started Scripts.bodyTrailersScript) with
            end_stream_ := true, trailers_ := some Scripts.requestTrailers }
          Scripts.emptyCallbacks).2.2) :=
  ⟨Or.inl rfl, rfl,
    (C19_at_most_one_resume (Scripts.started Scripts.bodyTrailersScript)
      Scripts.emptyCallbacks).2.2.2.1 Scripts.requestTrailers _ _ (Or.inl rfl) rfl⟩

/-- A run of the coroutine begun with `state_` at `Running` never leaves the handle in
`WaitForTrailers` with `end_stream_` true: `trailers()` yields only when `end_stream_` is
false. -/
theorem StreamHandleWrapper.afterRun_run_not_stalled (seg : Seg σ)
    (h : StreamHandleWrapper σ) (cb : FilterCallbacks) (hrun : h.state_ = State.Running) :
    ¬ ((afterRun (run seg h cb)).2.1.state_ = State.WaitForTrailers ∧
      (afterRun (run seg h cb)).2.1.end_stream_ = true) := by
  rintro ⟨hs, he⟩
  have has := afterRun_state (run seg h cb)
  obtain ⟨hf, -, hst, hy, -⟩ := run_spec seg h cb
  rw [has.1, hst, hrun] at hs
  rw [has.2.1, hf.2.1] at he
  rcases hr : (run seg h cb).1 with _ | ⟨susp, site⟩ | msg | _ <;> rw [hr] at hs
  · simp [stateAfter] at hs
  · have := (hy susp site hr (by rintro rfl; simp [stateAfter] at hs)).2
    rw [he] at this
    cases this
  · simp [stateAfter] at hs
  · simp [stateAfter] at hs

theorem StreamHandleWrapper.coroutineResume_not_stalled (h : StreamHandleWrapper σ)
    (cb : FilterCallbacks) (vs : List Value) (hrun : h.state_ = State.Running) :
    ¬ ((coroutineResume h cb vs).2.1.state_ = State.WaitForTrailers ∧
      (coroutineResume h cb vs).2.1.end_stream_ = true) := by
  unfold coroutineResume
  cases hc : h.coroutine_.state_ with
  | NotStarted => simp [hrun]
  | Finished => simp [hrun]
  | Yielded susp => exact afterRun_run_not_stalled _ _ cb (by simpa [noteResume] using hrun)

theorem StreamHandleWrapper.start_not_stalled (h : StreamHandleWrapper σ)
    (cb : FilterCallbacks) (function_ref : Int) (hrun : h.state_ = State.Running) :
    ¬ ((start h cb function_ref).2.1.state_ = State.WaitForTrailers ∧
      (start h cb function_ref).2.1.end_stream_ = true) := by
  have hcs : ¬ ((coroutineStart h cb function_ref).2.1.state_ = State.WaitForTrailers ∧
      (coroutineStart h cb function_ref).2.1.end_stream_ = true) := by
    unfold coroutineStart
    cases hc : h.coroutine_.state_ <;>
      cases hf : h.coroutine_.script.function function_ref <;> simp only
    all_goals first
      | exact afterRun_run_not_stalled _ _ cb (by simpa [noteResume] using hrun)
      | simp [hrun]
  unfold start
  rcases hr : coroutineStart h cb function_ref with ⟨o, h1, cb1⟩
  rw [hr] at hcs
  cases o <;> exact hcs

theorem StreamHandleWrapper.chunkReturn_state
    (r : Outcome Unit × StreamHandleWrapper σ × FilterCallbacks) :
    (chunkReturn r).2.1.state_ = r.2.1.state_ ∧
    (chunkReturn r).2.1.end_stream_ = r.2.1.end_stream_ := by
  obtain ⟨o, h, cb⟩ := r
  cases o <;> exact ⟨rfl, rfl⟩

theorem StreamHandleWrapper.onData_not_stalled (h : StreamHandleWrapper σ)
    (cb : FilterCallbacks) (data : Buffer) (end_stream : Bool) (hes : h.end_stream_ = false) :
    ¬ ((onData h cb data end_stream).2.1.state_ = State.WaitForTrailers ∧
      (onData h cb data end_stream).2.1.end_stream_ = true) := by
  unfold onData
  simp only [hes, Bool.false_eq_true, ↓reduceIte]
  split
  · rw [(chunkReturn_state _).1, (chunkReturn_state _).2]
    exact coroutineResume_not_stalled _ cb _ rfl
  · split
    · split
      · rename_i vs h3 e
        rw [dataReturn_handle]
        exact coroutineResume_not_stalled h3 _ vs (by rw [(luaBody_values e).2.1])
      · simp
    · split
      · rename_i h1 h2 h3
        simp only [Bool.and_eq_true, Bool.not_eq_true', decide_eq_true_eq] at h3
        simp [h3.1]
      · split
        · rw [dataReturn_handle]
          exact coroutineResume_not_stalled _ cb _ rfl
        · rename_i h1 h2 h3 h4
          simp only [Bool.and_eq_true, decide_eq_true_eq, not_and, Bool.not_eq_true] at h4
          rintro ⟨a, b⟩
          have := h4 a
          simp only at b
          rw [b] at this
          cases this

theorem StreamHandleWrapper.onTrailers_not_stalled (h : StreamHandleWrapper σ)
    (cb : FilterCallbacks) (tr : HeaderMap) (hes : h.end_stream_ = false) :
    ¬ ((onTrailers h cb tr).2.1.state_ = State.WaitForTrailers ∧
      (onTrailers h cb tr).2.1.end_stream_ = true) := by
  cases hst : h.state_ with
  | Running => simp [onTrailers, onTrailersBody, onTrailersTrailers, hst, hes]
  | WaitForBodyChunk =>
    rw [onTrailers_waitForBodyChunk h cb tr hst hes]
    exact coroutineResume_not_stalled _ cb _ rfl
  | WaitForBody =>
    obtain ⟨vs, h1, -, -, -, -, -, hs1, -, hon⟩ := onTrailers_waitForBody h cb tr hst hes
    rw [hon]
    exact coroutineResume_not_stalled h1 cb vs hs1
  | WaitForTrailers =>
    obtain ⟨h1, -, hs1, -, -, hon⟩ := onTrailers_waitForTrailers h cb tr hst hes
    rw [hon]
    exact coroutineResume_not_stalled h1 cb _ hs1

/-- When the first conditional of `onTrailers` returns with `state_` at
`WaitForTrailers` on a handle with trailers recorded, it has resumed nothing: the state
was `WaitForTrailers` on entry. -/
theorem StreamHandleWrapper.onTrailersBody_waitForTrailers (h h1 : StreamHandleWrapper σ)
    (cb cb1 : FilterCallbacks) (ht : h.trailers_.isSome = true)
    (hok : onTrailersBody h cb = (.ok (), h1, cb1))
    (hs1 : h1.state_ = State.WaitForTrailers) :
    h.state_ = State.WaitForTrailers ∧ h1 = h ∧ cb1 = cb := by
  cases hst : h.state_ with
  | Running =>
    simp [onTrailersBody, hst] at hok
    rw [← hok.1, hst] at hs1
    cases hs1
  | WaitForBodyChunk =>
    simp only [onTrailersBody, hst, ↓reduceIte] at hok
    have hsp := (coroutineResume_spec { h with state_ := State.Running } cb [] rfl).2.2.2.2
    rw [hok] at hsp
    have := hsp hs1
    simp only at this
    rw [ht] at this
    cases this
  | WaitForBody =>
    simp only [onTrailersBody, hst, reduceCtorEq, ↓reduceIte] at hok
    split at hok
    · rename_i vs h2 e
      obtain ⟨hf, hs2, -⟩ := luaBody_values e
      have hsp := (coroutineResume_spec h2 cb vs (by rw [hs2])).2.2.2.2
      rw [hok] at hsp
      have := hsp hs1
      rw [hf.2.2.2.2.2] at this
      simp only at this
      rw [ht] at this
      cases this
    · cases hok
  | WaitForTrailers =>
    simp [onTrailersBody, hst] at hok
    exact ⟨rfl, hok.1.symm, hok.2.symm⟩

/-- C20: the post-resume rule.  After any resume of the coroutine made with `state_` at
`Running`, as `start`, `onData` and `onTrailers` make it, the handle is never in
`WaitForTrailers` with `end_stream_` true, because `trailers()` yields only while
`end_stream_` is false; so none of the three handlers returns to the proxy with the
coroutine waiting for trailers at the end of the stream.  The second conditional of
`onTrailers`, which resumes a coroutine found in `WaitForTrailers` with the trailers
wrapper, acts only when the state was `WaitForTrailers` on entry, and `onData` with
`end_stream` true resumes a coroutine found in `WaitForTrailers` with zero values. -/
theorem C20_post_resume_rule (h : StreamHandleWrapper σ) (cb : FilterCallbacks) :
    (∀ vs, h.state_ = State.Running →
      ¬ ((coroutineResume h cb vs).2.1.state_ = State.WaitForTrailers ∧
        (coroutineResume h cb vs).2.1.end_stream_ = true)) ∧
    (∀ function_ref, h.state_ = State.Running →
      ¬ ((start h cb function_ref).2.1.state_ = State.WaitForTrailers ∧
        (start h cb function_ref).2.1.end_stream_ = true)) ∧
    (∀ data end_stream, h.end_stream_ = false →
      ¬ ((onData h cb data end_stream).2.1.state_ = State.WaitForTrailers ∧
        (onData h cb data end_stream).2.1.end_stream_ = true)) ∧
    (∀ tr, h.end_stream_ = false →
      ¬ ((onTrailers h cb tr).2.1.state_ = State.WaitForTrailers ∧
        (onTrailers h cb tr).2.1.end_stream_ = true)) ∧
    (∀ tr h1 cb1, h.end_stream_ = false →
      onTrailersBody { h with end_stream_ := true, trailers_ := some tr } cb =
        (.ok (), h1, cb1) →
      h1.state_ = State.WaitForTrailers →
      h.state_ = State.WaitForTrailers ∧
      ∃ h2, luaTrailers { h1 with state_ := State.Running } =
          some (.values [Value.trailers], h2) ∧
        h2.trailers_ = some tr ∧
        onTrailers h cb tr = coroutineResume h2 cb1 [Value.trailers]) ∧
    (∀ data, h.end_stream_ = false → h.state_ = State.WaitForTrailers →
      onData h cb data true =
        dataReturn (coroutineResume
          { h with end_stream_ := true, state_ := State.Running } cb [])) := by
  refine ⟨fun vs hrun => coroutineResume_not_stalled h cb vs hrun,
    fun r hrun => start_not_stalled h cb r hrun,
    fun data es hes => onData_not_stalled h cb data es hes,
    fun tr hes => onTrailers_not_stalled h cb tr hes, ?_, ?_⟩
  · intro tr h1 cb1 hes hok hs1
    obtain ⟨hst, rfl, rfl⟩ :=
      onTrailersBody_waitForTrailers
        { h with end_stream_ := true, trailers_ := some tr } h1 cb cb1 rfl hok hs1
    obtain ⟨h2, e2, -, t2, -⟩ := luaTrailers_recorded
      { h with end_stream_ := true, trailers_ := some tr, state_ := State.Running } rfl rfl
    refine ⟨hst, h2, e2, t2, ?_⟩
    simp only [onTrailers, hes, Bool.false_eq_true, ↓reduceIte, hok, onTrailersTrailers]
    simp only at hst
    simp only [hst, ↓reduceIte]
    rw [e2]
  · intro data hes hst
    simp [onData, hes, hst]

/-- Witness for C20: `TRAILERS_NO_BODY_SCRIPT` started on a request with a body waits in
`trailers()` with `end_stream_` false; when trailers arrive, the first conditional of
`onTrailers` resumes nothing and the second resumes the coroutine with the trailers
wrapper. -/
theorem C20_post_resume_rule_witness :
    (Scripts.newHandle Scripts.trailersNoBodyScript).state_ = State.Running ∧
    ¬ ((start (Scripts.newHandle Scripts.trailersNoBodyScript) Scripts.emptyCallbacks
          Scripts.requestRef).2.1.state_ = State.WaitForTrailers ∧
        (start (Scripts.newHandle Scripts.trailersNoBodyScript) Scripts.emptyCallbacks
          Scripts.requestRef).2.1.end_stream_ = true) ∧
    (Scripts.started Scripts.trailersNoBodyScript).end_stream_ = false ∧
    (Scripts.started Scripts.trailersNoBodyScript).state_ = State.WaitForTrailers ∧
    ∃ h2, luaTrailers
        { (Scripts.started Scripts.trailersNoBodyScript) with
          end_stream_ := true, trailers_ := some Scripts.requestTrailers,
          state_ := State.Running } =
        some (.values [Value.trailers], h2) ∧
      h2.trailers_ = some Scripts.requestTrailers ∧
      onTrailers (Scripts.started Scripts.trailersNoBodyScript) Scripts.emptyCallbacks
          Scripts.requestTrailers =
        coroutineResume h2 Scripts.emptyCallbacks [Value.trailers] :=
  ⟨rfl,
    (C20_post_resume_rule (Scripts.newHandle Scripts.trailersNoBodyScript)
      Scripts.emptyCallbacks).2.1 Scripts.requestRef rfl,
    rfl,
    ((C20_post_resume_rule (Scripts.started Scripts.trailersNoBodyScript)
      Scripts.emptyCallbacks).2.2.2.2.1 Scripts.requestTrailers
      { (Scripts.started Scripts.trailersNoBodyScript) with
        end_stream_ := true, trailers_ := some Scripts.requestTrailers }
      Scripts.emptyCallbacks rfl rfl rfl)⟩

theorem StreamHandleWrapper.afterRun_live
    (r : Stop σ × StreamHandleWrapper σ × FilterCallbacks) :
    (afterRun r).2.1.live_ = r.2.1.live_ ∧
    (afterRun r).2.1.chunk_ = r.2.1.chunk_ ∧ (afterRun r).2.1.chunks_ = r.2.1.chunks_ ∧
    (afterRun r).2.1.headers_wrapper_ = r.2.1.headers_wrapper_ ∧
    (afterRun r).2.1.body_wrapper_ = r.2.1.body_wrapper_ ∧
    (afterRun r).2.1.trailers_wrapper_ = r.2.1.trailers_wrapper_ := by
  obtain ⟨s, h, cb⟩ := r
  rw [afterRun_handle]
  cases s <;> simp [setCoroutineState]

/-- After a run begun with `state_` at `Running` that `Coroutine::resume` reports as
normal, the coroutine is suspended exactly when `state_` is not `Running`. -/
theorem StreamHandleWrapper.afterRun_run_consistent (seg : Seg σ)
    (h : StreamHandleWrapper σ) (cb : FilterCallbacks) (hrun : h.state_ = State.Running)
    (hok : (afterRun (run seg h cb)).1 = .ok ()) :
    ((afterRun (run seg h cb)).2.1.coroutine_.state_.isYielded = true ↔
      (afterRun (run seg h cb)).2.1.state_ ≠ State.Running) := by
  have hst := (run_spec seg h cb).2.2.1
  rw [hrun] at hst
  rcases hr : run seg h cb with ⟨s, h1, cb1⟩
  rw [hr] at hok hst
  simp only at hst
  have hs := (afterRun_state (s, h1, cb1)).1
  simp only at hs
  rw [hs, hst, afterRun_handle]
  rw [afterRun_outcome] at hok
  cases s with
  | finished => simp [setCoroutineState, CoroutineState.isYielded, stateAfter]
  | yielded susp site =>
    simp only at hok
    split at hok
    · cases hok
    · rename_i hne
      rw [hst] at hne
      simp [setCoroutineState, CoroutineState.isYielded, hne]
  | error msg => cases hok
  | abort => cases hok

theorem StreamHandleWrapper.coroutineResume_consistent (h : StreamHandleWrapper σ)
    (cb : FilterCallbacks) (vs : List Value) (hrun : h.state_ = State.Running)
    (hok : (coroutineResume h cb vs).1 = .ok ()) :
    ((coroutineResume h cb vs).2.1.coroutine_.state_.isYielded = true ↔
      (coroutineResume h cb vs).2.1.state_ ≠ State.Running) := by
  unfold coroutineResume at hok ⊢
  cases hc : h.coroutine_.state_ with
  | NotStarted => rw [hc] at hok; cases hok
  | Finished => rw [hc] at hok; cases hok
  | Yielded susp =>
    rw [hc] at hok
    exact afterRun_run_consistent _ _ cb (by simpa [noteResume] using hrun) hok

theorem StreamHandleWrapper.coroutineResume_live (h : StreamHandleWrapper σ)
    (cb : FilterCallbacks) (vs : List Value) :
    (coroutineResume h cb vs).2.1.live_ = h.live_ := by
  unfold coroutineResume
  cases hc : h.coroutine_.state_ with
  | NotStarted => rfl
  | Finished => rfl
  | Yielded susp =>
    simp only
    rw [(afterRun_live _).1, (run_spec _ _ _).1.2.2.1]
    rfl

/-- What `onData` does, by cases: it resumes the coroutine once, on a handle whose
`state_` is `Running`, or it resumes nothing and only records `end_stream`. -/
theorem StreamHandleWrapper.onData_shape (h : StreamHandleWrapper σ) (cb : FilterCallbacks)
    (data : Buffer) (end_stream : Bool) (hes : h.end_stream_ = false) :
    (∃ h1 cb1 vs, h1.state_ = State.Running ∧ h1.live_ = h.live_ ∧
      h1.coroutine_ = h.coroutine_ ∧ h1.end_stream_ = end_stream ∧
      (onData h cb data end_stream = chunkReturn (coroutineResume h1 cb1 vs) ∨
        onData h cb data end_stream = dataReturn (coroutineResume h1 cb1 vs))) ∨
    (∃ status, onData h cb data end_stream =
      (.ok status, { h with end_stream_ := end_stream }, cb)) := by
  cases hst : h.state_ with
  | Running =>
    right
    exact ⟨FilterDataStatus.Continue, by simp [onData, hes, hst]⟩
  | WaitForBodyChunk =>
    left
    exact ⟨{ h with
             end_stream_ := end_stream
             chunk_ := some data
             chunks_ := h.chunks_ + 1
             state_ := State.Running }, cb, [Value.chunk h.chunks_], rfl, rfl, rfl, rfl,
      Or.inl (by simp [onData, hes, hst])⟩
  | WaitForBody =>
    cases end_stream with
    | false =>
      right
      exact ⟨FilterDataStatus.StopIterationAndBuffer, by simp [onData, hes, hst]⟩
    | true =>
      left
      obtain ⟨vs, h3, e3, -, -, hf, hs3, -⟩ := luaBody_at_end
        { h with end_stream_ := true, state_ := State.Running } (cb.addData data) rfl rfl
      refine ⟨h3, cb.addData data, vs, hs3, hf.2.2.1, hf.1, hf.2.1, Or.inr ?_⟩
      simp only [onData, hes, hst]
      simp only [Bool.false_eq_true, ↓reduceIte, reduceCtorEq, Bool.and_self, decide_True]
      rw [e3]
  | WaitForTrailers =>
    cases end_stream with
    | false =>
      right
      exact ⟨FilterDataStatus.Continue, by simp [onData, hes, hst]⟩
    | true =>
      left
      exact ⟨{ h with end_stream_ := true, state_ := State.Running }, cb, [], rfl, rfl, rfl,
        rfl, Or.inr (by simp [onData, hes, hst])⟩

/-- What `onTrailers` does, by cases: it resumes the coroutine once, on a handle whose
`state_` is `Running`, or it resumes nothing and only records the trailers. -/
theorem StreamHandleWrapper.onTrailers_shape (h : StreamHandleWrapper σ)
    (cb : FilterCallbacks) (tr : HeaderMap) (hes : h.end_stream_ = false) :
    (∃ h1 vs, h1.state_ = State.Running ∧ h1.live_ = h.live_ ∧
      h1.coroutine_ = h.coroutine_ ∧ h1.end_stream_ = true ∧ h1.trailers_ = some tr ∧
      onTrailers h cb tr = coroutineResume h1 cb vs) ∨
    onTrailers h cb tr =
      (.ok (), { h with end_stream_ := true, trailers_ := some tr }, cb) := by
  cases hst : h.state_ with
  | Running =>
    right
    simp [onTrailers, onTrailersBody, onTrailersTrailers, hes, hst]
  | WaitForBodyChunk =>
    left
    exact ⟨{ h with end_stream_ := true, trailers_ := some tr, state_ := State.Running }, [],
      rfl, rfl, rfl, rfl, rfl, onTrailers_waitForBodyChunk h cb tr hst hes⟩
  | WaitForBody =>
    left
    obtain ⟨vs, h1, hb, -, -, he1, ht1, hs1, hc1, hon⟩ :=
      onTrailers_waitForBody h cb tr hst hes
    exact ⟨h1, vs, hs1, (luaBody_values hb).1.2.2.1, hc1, he1, ht1, hon⟩
  | WaitForTrailers =>
    left
    obtain ⟨h1, e1, s1, t1, -⟩ := luaTrailers_recorded
      { h with end_stream_ := true, trailers_ := some tr, state_ := State.Running } rfl rfl
    have hf := (luaTrailers_values e1).1
    refine ⟨h1, [Value.trailers], s1, hf.2.2.1, hf.1, hf.2.1, t1, ?_⟩
    simp only [onTrailers, hes, onTrailersBody, hst, onTrailersTrailers]
    simp only [Bool.false_eq_true, ↓reduceIte, reduceCtorEq]
    rw [e1]

theorem Filter.headersResult_handle (f : Filter σ) (d : Direction)
    (r : Outcome FilterHeadersStatus × StreamHandleWrapper σ × FilterCallbacks)
    (x : FilterHeadersStatus × Filter σ) (h1 : StreamHandleWrapper σ)
    (hr : f.headersResult d r = some x) (hh : x.2.handle d = some h1) :
    r.1 = .ok x.1 ∧ h1 = r.2.1.markDead := by
  obtain ⟨o, h2, cb2⟩ := r
  cases o with
  | ok a =>
    simp only [Filter.headersResult, Option.some.injEq] at hr
    subst hr
    rw [Filter.handle_setHandle] at hh
    cases hh
    exact ⟨rfl, rfl⟩
  | luaException what =>
    simp only [Filter.headersResult, Option.some.injEq] at hr
    subst hr
    rw [Filter.handle_handleScriptError] at hh
    cases hh
  | abort => simp [Filter.headersResult] at hr

theorem Filter.dataResult_handle (f : Filter σ) (d : Direction)
    (r : Outcome FilterDataStatus × StreamHandleWrapper σ × FilterCallbacks)
    (x : FilterDataStatus × Filter σ) (h1 : StreamHandleWrapper σ)
    (hr : f.dataResult d r = some x) (hh : x.2.handle d = some h1) :
    r.1 = .ok x.1 ∧ h1 = r.2.1.markDead := by
  obtain ⟨o, h2, cb2⟩ := r
  cases o with
  | ok a =>
    simp only [Filter.dataResult, Option.some.injEq] at hr
    subst hr
    rw [Filter.handle_setHandle] at hh
    cases hh
    exact ⟨rfl, rfl⟩
  | luaException what =>
    simp only [Filter.dataResult, Option.some.injEq] at hr
    subst hr
    rw [Filter.handle_handleScriptError] at hh
    cases hh
  | abort => simp [Filter.dataResult] at hr

theorem Filter.trailersResult_handle (f : Filter σ) (d : Direction)
    (r : Outcome Unit × StreamHandleWrapper σ × FilterCallbacks)
    (x : FilterTrailersStatus × Filter σ) (h1 : StreamHandleWrapper σ)
    (hr : f.trailersResult d r = some x) (hh : x.2.handle d = some h1) :
    r.1 = .ok () ∧ h1 = r.2.1.markDead := by
  obtain ⟨o, h2, cb2⟩ := r
  cases o with
  | ok a =>
    simp only [Filter.trailersResult, Option.some.injEq] at hr
    subst hr
    rw [Filter.handle_setHandle] at hh
    cases hh
    exact ⟨rfl, rfl⟩
  | luaException what =>
    simp only [Filter.trailersResult, Option.some.injEq] at hr
    subst hr
    rw [Filter.handle_handleScriptError] at hh
    cases hh
  | abort => simp [Filter.trailersResult] at hr

/-- When `start` on a handle in state `Running` returns normally, a suspended coroutine
goes with a waiting state. -/
theorem StreamHandleWrapper.start_consistent (h : StreamHandleWrapper σ)
    (cb : FilterCallbacks) (function_ref : Int) (status : FilterHeadersStatus)
    (hrun : h.state_ = State.Running)
    (hok : (start h cb function_ref).1 = .ok status) :
    (start h cb function_ref).2.1.coroutine_.state_.isYielded = true →
      (start h cb function_ref).2.1.state_ ≠ State.Running := by
  unfold start at hok ⊢
  rcases hr : coroutineStart h cb function_ref with ⟨o, h1, cb1⟩
  rw [hr] at hok
  cases o with
  | luaException what => cases hok
  | abort => cases hok
  | ok a =>
    simp only
    have hcs : coroutineStart h cb function_ref = (.ok (), h1, cb1) := hr
    unfold coroutineStart at hcs
    cases hc : h.coroutine_.state_ <;>
      cases hf : h.coroutine_.script.function function_ref <;>
      rw [hc, hf] at hcs <;> simp only at hcs <;> (try cases hcs)
    rename_i seg
    have := afterRun_run_consistent seg (noteResume h [Value.handle]) cb
      (by simpa [noteResume] using hrun) (by rw [hcs])
    rw [hcs] at this
    exact this.mp

/-- When `onData` returns normally, a suspended coroutine goes with a waiting state,
provided this was so on entry. -/
theorem StreamHandleWrapper.onData_consistent (h : StreamHandleWrapper σ)
    (cb : FilterCallbacks) (data : Buffer) (end_stream : Bool) (status : FilterDataStatus)
    (hJ : h.coroutine_.state_.isYielded = true → h.state_ ≠ State.Running)
    (hok : (onData h cb data end_stream).1 = .ok status) :
    (onData h cb data end_stream).2.1.coroutine_.state_.isYielded = true →
      (onData h cb data end_stream).2.1.state_ ≠ State.Running := by
  by_cases hes : h.end_stream_ = true
  · rw [onData_after_end h cb data end_stream hes] at hok
    cases hok
  · simp only [Bool.not_eq_true] at hes
    rcases onData_shape h cb data end_stream hes with
      ⟨h1, cb1, vs, hs1, -, -, -, e | e⟩ | ⟨st, e⟩
    · rw [e] at hok ⊢
      rw [chunkReturn_status] at hok
      rw [chunkReturn_coroutine, (chunkReturn_state _).1]
      exact (coroutineResume_consistent h1 cb1 vs hs1 hok.2).mp
    · rw [e] at hok ⊢
      rw [dataReturn_status] at hok
      rw [dataReturn_handle]
      exact (coroutineResume_consistent h1 cb1 vs hs1 hok.2).mp
    · rw [e]
      exact hJ

/-- When `onTrailers` returns normally, a suspended coroutine goes with a waiting state,
provided this was so on entry. -/
theorem StreamHandleWrapper.onTrailers_consistent (h : StreamHandleWrapper σ)
    (cb : FilterCallbacks) (tr : HeaderMap)
    (hJ : h.coroutine_.state_.isYielded = true → h.state_ ≠ State.Running)
    (hok : (onTrailers h cb tr).1 = .ok ()) :
    (onTrailers h cb tr).2.1.coroutine_.state_.isYielded = true →
      (onTrailers h cb tr).2.1.state_ ≠ State.Running := by
  by_cases hes : h.end_stream_ = true
  · rw [onTrailers_after_end h cb tr hes] at hok
    cases hok
  · simp only [Bool.not_eq_true] at hes
    rcases onTrailers_shape h cb tr hes with ⟨h1, vs, hs1, -, -, -, -, e⟩ | e
    · rw [e] at hok ⊢
      exact (coroutineResume_consistent h1 cb vs hs1 hok).mp
    · rw [e]
      exact hJ

theorem StreamHandleWrapper.ne_running_iff (s : State) :
    s ≠ State.Running ↔
      (s = State.WaitForBodyChunk ∨ s = State.WaitForBody ∨ s = State.WaitForTrailers) := by
  cases s <;> simp

theorem StreamHandleWrapper.markDead_fields (h : StreamHandleWrapper σ) :
    h.markDead.state_ = h.state_ ∧ h.markDead.coroutine_ = h.coroutine_ ∧
    h.markDead.end_stream_ = h.end_stream_ ∧ h.markDead.live_ = false := by
  simp [markDead, onMarkDead]

theorem StreamHandleWrapper.markLive_fields (h : StreamHandleWrapper σ) :
    h.markLive.state_ = h.state_ ∧ h.markLive.coroutine_ = h.coroutine_ ∧
    h.markLive.end_stream_ = h.end_stream_ ∧ h.markLive.live_ = true := by
  simp [markLive, onMarkLive]

/-- Each entry point of the filter keeps the invariant that a handle whose coroutine is
suspended is in a waiting state. -/
theorem Filter.consistent_step (f : Filter σ)
    (hJ : ∀ d h0, f.handle d = some h0 →
      h0.coroutine_.state_.isYielded = true → h0.state_ ≠ State.Running) :
    (∀ d function_ref headers end_stream r,
      f.doHeaders d function_ref headers end_stream = some r →
      ∀ d1 h1, r.2.handle d1 = some h1 →
        h1.coroutine_.state_.isYielded = true → h1.state_ ≠ State.Running) ∧
    (∀ d data end_stream r, f.doData d data end_stream = some r →
      ∀ d1 h1, r.2.handle d1 = some h1 →
        h1.coroutine_.state_.isYielded = true → h1.state_ ≠ State.Running) ∧
    (∀ d tr r, f.doTrailers d tr = some r →
      ∀ d1 h1, r.2.handle d1 = some h1 →
        h1.coroutine_.state_.isYielded = true → h1.state_ ≠ State.Running) := by
  refine ⟨?_, ?_, ?_⟩
  · intro d function_ref headers end_stream r hr d1 h1 hh1
    by_cases hd : d1 = d
    · subst hd
      simp only [Filter.doHeaders] at hr
      split at hr
      · cases hr
        exact hJ d1 h1 hh1
      · obtain ⟨hok, rfl⟩ := Filter.headersResult_handle f d1 _ r h1 hr hh1
        rw [(markDead_fields _).1, (markDead_fields _).2.1]
        exact start_consistent _ _ _ _ rfl hok
    · rcases (Filter.other_handle f d1 d (fun e => hd e.symm)).1 function_ref headers
        end_stream r hr with e | e
      · rw [e] at hh1
        exact hJ d1 h1 hh1
      · rw [e] at hh1
        cases hh1
  · intro d data end_stream r hr d1 h1 hh1
    by_cases hd : d1 = d
    · subst hd
      simp only [Filter.doData] at hr
      split at hr
      · rename_i h0 hh0
        obtain ⟨hok, rfl⟩ := Filter.dataResult_handle f d1 _ r h1 hr hh1
        rw [(markDead_fields _).1, (markDead_fields _).2.1]
        refine onData_consistent _ _ _ _ _ ?_ hok
        rw [(markLive_fields _).1, (markLive_fields _).2.1]
        exact hJ d1 h0 hh0
      · cases hr
        exact hJ d1 h1 hh1
    · rcases (Filter.other_handle f d1 d (fun e => hd e.symm)).2.1 data end_stream r hr
        with e | e
      · rw [e] at hh1
        exact hJ d1 h1 hh1
      · rw [e] at hh1
        cases hh1
  · intro d tr r hr d1 h1 hh1
    by_cases hd : d1 = d
    · subst hd
      simp only [Filter.doTrailers] at hr
      split at hr
      · rename_i h0 hh0
        obtain ⟨hok, rfl⟩ := Filter.trailersResult_handle f d1 _ r h1 hr hh1
        rw [(markDead_fields _).1, (markDead_fields _).2.1]
        refine onTrailers_consistent _ _ _ ?_ hok
        rw [(markLive_fields _).1, (markLive_fields _).2.1]
        exact hJ d1 h0 hh0
      · cases hr
        exact hJ d1 h1 hh1
    · rcases (Filter.other_handle f d1 d (fun e => hd e.symm)).2.2 tr r hr with e | e
      · rw [e] at hh1
        exact hJ d1 h1 hh1
      · rw [e] at hh1
        cases hh1

/-- C21: `state_` is `Running` while the script runs, and a waiting state while the
coroutine is suspended between events.  (1) From a handle in state `Running`, at every
point a run of the script reaches `state_` is `Running`, so the assertions of `body()`,
`bodyChunks()`, the chunk iterator and `trailers()` hold.  (2) `onData` and `onTrailers`
resume the coroutine only on a handle whose `state_` they have set to `Running`, or
resume nothing; `start` is called on a new handle, whose state is `Running`.  (3) When
`start`, `onData` or `onTrailers` returns normally with the coroutine suspended at a
yield, `state_` is `WaitForBodyChunk`, `WaitForBody` or `WaitForTrailers` (for `onData`
and `onTrailers`, on a handle for which this held on entry).  (4) Every entry point of
the filter keeps this property for all handles of the filter, and a new filter has no
handle. -/
theorem C21_running_inside_coroutine (h : StreamHandleWrapper σ) (cb : FilterCallbacks) :
    (h.state_ = State.Running → ∀ seg seg2 h2 cb2, Visits seg h cb seg2 h2 cb2 →
      h2.state_ = State.Running ∧ luaBody h2 cb2 ≠ none ∧ luaBodyChunks h2 ≠ none ∧
      luaBodyIterator h2 ≠ none ∧ luaTrailers h2 ≠ none) ∧
    (∀ data end_stream, h.end_stream_ = false →
      (∃ h1 cb1 vs, h1.state_ = State.Running ∧
        (onData h cb data end_stream = chunkReturn (coroutineResume h1 cb1 vs) ∨
          onData h cb data end_stream = dataReturn (coroutineResume h1 cb1 vs))) ∨
      (∃ status, onData h cb data end_stream =
        (.ok status, { h with end_stream_ := end_stream }, cb))) ∧
    (∀ tr, h.end_stream_ = false →
      (∃ h1 vs, h1.state_ = State.Running ∧ onTrailers h cb tr = coroutineResume h1 cb vs) ∨
      onTrailers h cb tr =
        (.ok (), { h with end_stream_ := true, trailers_ := some tr }, cb)) ∧
    (∀ headers end_stream (coroutine : Coroutine σ),
      (StreamHandleWrapper.create coroutine headers end_stream).state_ = State.Running) ∧
    (∀ function_ref status, h.state_ = State.Running →
      (start h cb function_ref).1 = .ok status →
      (start h cb function_ref).2.1.coroutine_.state_.isYielded = true →
      (start h cb function_ref).2.1.state_ = State.WaitForBodyChunk ∨
      (start h cb function_ref).2.1.state_ = State.WaitForBody ∨
      (start h cb function_ref).2.1.state_ = State.WaitForTrailers) ∧
    (∀ data end_stream status,
      (h.coroutine_.state_.isYielded = true → h.state_ ≠ State.Running) →
      (onData h cb data end_stream).1 = .ok status →
      (onData h cb data end_stream).2.1.coroutine_.state_.isYielded = true →
      (onData h cb data end_stream).2.1.state_ = State.WaitForBodyChunk ∨
      (onData h cb data end_stream).2.1.state_ = State.WaitForBody ∨
      (onData h cb data end_stream).2.1.state_ = State.WaitForTrailers) ∧
    (∀ tr, (h.coroutine_.state_.isYielded = true → h.state_ ≠ State.Running) →
      (onTrailers h cb tr).1 = .ok () →
      (onTrailers h cb tr).2.1.coroutine_.state_.isYielded = true →
      (onTrailers h cb tr).2.1.state_ = State.WaitForBodyChunk ∨
      (onTrailers h cb tr).2.1.state_ = State.WaitForBody ∨
      (onTrailers h cb tr).2.1.state_ = State.WaitForTrailers) ∧
    (∀ (config : FilterConfig σ) d, (Filter.create config).handle d = none) ∧
    (∀ f : Filter σ,
      (∀ d h0, f.handle d = some h0 →
        h0.coroutine_.state_.isYielded = true → h0.state_ ≠ State.Running) →
      (∀ d function_ref headers end_stream r,
        f.doHeaders d function_ref headers end_stream = some r →
        ∀ d1 h1, r.2.handle d1 = some h1 →
          h1.coroutine_.state_.isYielded = true → h1.state_ ≠ State.Running) ∧
      (∀ d data end_stream r, f.doData d data end_stream = some r →
        ∀ d1 h1, r.2.handle d1 = some h1 →
          h1.coroutine_.state_.isYielded = true → h1.state_ ≠ State.Running) ∧
      (∀ d tr r, f.doTrailers d tr = some r →
        ∀ d1 h1, r.2.handle d1 = some h1 →
          h1.coroutine_.state_.isYielded = true → h1.state_ ≠ State.Running)) := by
  refine ⟨?_, ?_, ?_, fun _ _ _ => rfl, ?_, ?_, ?_, ?_, fun f hJ => Filter.consistent_step f hJ⟩
  · intro hrun seg seg2 h2 cb2 hv
    have hrun2 : h2.state_ = State.Running := by rw [(visits_frame hv).2.1]; exact hrun
    exact ⟨hrun2, luaBody_ne_none h2 cb2 hrun2, by simp [luaBodyChunks, hrun2],
      luaBodyIterator_ne_none h2 hrun2, luaTrailers_ne_none h2 hrun2⟩
  · intro data end_stream hes
    rcases onData_shape h cb data end_stream hes with ⟨h1, cb1, vs, hs1, -, -, -, e⟩ | e
    · exact Or.inl ⟨h1, cb1, vs, hs1, e⟩
    · exact Or.inr e
  · intro tr hes
    rcases onTrailers_shape h cb tr hes with ⟨h1, vs, hs1, -, -, -, -, e⟩ | e
    · exact Or.inl ⟨h1, vs, hs1, e⟩
    · exact Or.inr e
  · intro function_ref status hrun hok hy
    exact (ne_running_iff _).mp (start_consistent h cb function_ref status hrun hok hy)
  · intro data end_stream status hJ hok hy
    exact (ne_running_iff _).mp (onData_consistent h cb data end_stream status hJ hok hy)
  · intro tr hJ hok hy
    exact (ne_running_iff _).mp (onTrailers_consistent h cb tr hJ hok hy)
  · intro config d
    cases d <;> rfl

/-- Witness for C21: `BODY_SCRIPT` started on a request with a body is suspended in
`body()` when `start` returns; the state is then `WaitForBody`. -/
theorem C21_running_inside_coroutine_witness :
    (Scripts.newHandle Scripts.bodyScript).state_ = State.Running ∧
    (start (Scripts.newHandle Scripts.bodyScript) Scripts.emptyCallbacks
      Scripts.requestRef).1 = .ok FilterHeadersStatus.StopIteration ∧
    (start (Scripts.newHandle Scripts.bodyScript) Scripts.emptyCallbacks
      Scripts.requestRef).2.1.coroutine_.state_.isYielded = true ∧
    ((start (Scripts.newHandle Scripts.bodyScript) Scripts.emptyCallbacks
        Scripts.requestRef).2.1.state_ = State.WaitForBodyChunk ∨
      (start (Scripts.newHandle Scripts.bodyScript) Scripts.emptyCallbacks
        Scripts.requestRef).2.1.state_ = State.WaitForBody ∨
      (start (Scripts.newHandle Scripts.bodyScript) Scripts.emptyCallbacks
        Scripts.requestRef).2.1.state_ = State.WaitForTrailers) :=
  ⟨rfl, rfl, rfl,
    (C21_running_inside_coroutine (Scripts.newHandle Scripts.bodyScript)
      Scripts.emptyCallbacks).2.2.2.2.1 Scripts.requestRef FilterHeadersStatus.StopIteration
      rfl rfl rfl⟩

/-- After an entry point of the filter has returned, the handle of the direction it was
called on is empty or marked dead (for `doHeaders`, when the direction has an entry
point). -/
theorem Filter.dead_after (f : Filter σ) (d : Direction) :
    (∀ function_ref headers end_stream r h1, function_ref ≠ LUA_REFNIL →
      f.doHeaders d function_ref headers end_stream = some r →
      r.2.handle d = some h1 → h1.live_ = false) ∧
    (∀ data end_stream r h1, f.doData d data end_stream = some r →
      r.2.handle d = some h1 → f.handle d ≠ none ∧ h1.live_ = false) ∧
    (∀ tr r h1, f.doTrailers d tr = some r →
      r.2.handle d = some h1 → f.handle d ≠ none ∧ h1.live_ = false) := by
  refine ⟨?_, ?_, ?_⟩
  · intro function_ref headers end_stream r h1 href hr hh1
    simp only [Filter.doHeaders, href, ↓reduceIte] at hr
    obtain ⟨-, rfl⟩ := Filter.headersResult_handle f d _ r h1 hr hh1
    exact (markDead_fields _).2.2.2
  · intro data end_stream r h1 hr hh1
    simp only [Filter.doData] at hr
    split at hr
    · rename_i h0 hh0
      obtain ⟨-, rfl⟩ := Filter.dataResult_handle f d _ r h1 hr hh1
      exact ⟨by rw [hh0]; simp, (markDead_fields _).2.2.2⟩
    · rename_i hh0
      cases hr
      rw [hh0] at hh1
      cases hh1
  · intro tr r h1 hr hh1
    simp only [Filter.doTrailers] at hr
    split at hr
    · rename_i h0 hh0
      obtain ⟨-, rfl⟩ := Filter.trailersResult_handle f d _ r h1 hr hh1
      exact ⟨by rw [hh0]; simp, (markDead_fields _).2.2.2⟩
    · rename_i hh0
      cases hr
      rw [hh0] at hh1
      cases hh1

/-- Each entry point of the filter keeps the invariant that every handle of the filter
is marked dead. -/
theorem Filter.dead_step (f : Filter σ)
    (hD : ∀ d h0, f.handle d = some h0 → h0.live_ = false) :
    (∀ d function_ref headers end_stream r,
      f.doHeaders d function_ref headers end_stream = some r →
      ∀ d1 h1, r.2.handle d1 = some h1 → h1.live_ = false) ∧
    (∀ d data end_stream r, f.doData d data end_stream = some r →
      ∀ d1 h1, r.2.handle d1 = some h1 → h1.live_ = false) ∧
    (∀ d tr r, f.doTrailers d tr = some r →
      ∀ d1 h1, r.2.handle d1 = some h1 → h1.live_ = false) := by
  refine ⟨?_, ?_, ?_⟩
  · intro d function_ref headers end_stream r hr d1 h1 hh1
    by_cases hd : d1 = d
    · subst hd
      by_cases href : function_ref = LUA_REFNIL
      · simp only [Filter.doHeaders, href, ↓reduceIte, Option.some.injEq] at hr
        subst hr
        exact hD d1 h1 hh1
      · exact (Filter.dead_after f d1).1 function_ref headers end_stream r h1 href hr hh1
    · rcases (Filter.other_handle f d1 d (fun e => hd e.symm)).1 function_ref headers
        end_stream r hr with e | e
      · rw [e] at hh1
        exact hD d1 h1 hh1
      · rw [e] at hh1
        cases hh1
  · intro d data end_stream r hr d1 h1 hh1
    by_cases hd : d1 = d
    · subst hd
      exact ((Filter.dead_after f d1).2.1 data end_stream r h1 hr hh1).2
    · rcases (Filter.other_handle f d1 d (fun e => hd e.symm)).2.1 data end_stream r hr
        with e | e
      · rw [e] at hh1
        exact hD d1 h1 hh1
      · rw [e] at hh1
        cases hh1
  · intro d tr r hr d1 h1 hh1
    by_cases hd : d1 = d
    · subst hd
      exact ((Filter.dead_after f d1).2.2 tr r h1 hr hh1).2
    · rcases (Filter.other_handle f d1 d (fun e => hd e.symm)).2.2 tr r hr with e | e
      · rw [e] at hh1
        exact hD d1 h1 hh1
      · rw [e] at hh1
        cases hh1

/-- C22: the handle of a direction is live exactly while an entry point of the filter
is running.  (1) A new handle, on which `doHeaders` calls `start`, is live, and a handle
that is live when a run of the script begins is live at every point the run reaches.
(2) `doData` and `doTrailers` call `onData` and `onTrailers` on the handle marked live,
and these resume the coroutine, if at all, on a live handle.  (3) When `doHeaders` (for
a direction with an entry point), `doData` or `doTrailers` returns, the handle of the
direction is empty or marked dead.  (4) A new filter has no handle, and every entry
point keeps all handles of the filter marked dead: no handle is live between two
pipeline events. -/
theorem C22_handle_live_only_during_events (f : Filter σ) (d : Direction) :
    (∀ headers end_stream (coroutine : Coroutine σ),
      (StreamHandleWrapper.create coroutine headers end_stream).live_ = true) ∧
    (∀ (h : StreamHandleWrapper σ) cb seg seg2 h2 cb2, h.live_ = true →
      Visits seg h cb seg2 h2 cb2 → h2.live_ = true) ∧
    (∀ h0 data end_stream, f.handle d = some h0 → h0.end_stream_ = false →
      f.doData d data end_stream =
        f.dataResult d (onData h0.markLive (f.callbacks d) data end_stream) ∧
      ((∃ h1 cb1 vs, h1.live_ = true ∧
          (onData h0.markLive (f.callbacks d) data end_stream =
              chunkReturn (coroutineResume h1 cb1 vs) ∨
            onData h0.markLive (f.callbacks d) data end_stream =
              dataReturn (coroutineResume h1 cb1 vs))) ∨
        (∃ status, onData h0.markLive (f.callbacks d) data end_stream =
          (.ok status, { h0.markLive with end_stream_ := end_stream }, f.callbacks d)))) ∧
    (∀ h0 tr, f.handle d = some h0 → h0.end_stream_ = false →
      f.doTrailers d tr = f.trailersResult d (onTrailers h0.markLive (f.callbacks d) tr) ∧
      ((∃ h1 vs, h1.live_ = true ∧
          onTrailers h0.markLive (f.callbacks d) tr = coroutineResume h1 (f.callbacks d) vs) ∨
        onTrailers h0.markLive (f.callbacks d) tr =
          (.ok (), { h0.markLive with end_stream_ := true, trailers_ := some tr },
            f.callbacks d))) ∧
    (∀ function_ref headers end_stream r h1, function_ref ≠ LUA_REFNIL →
      f.doHeaders d function_ref headers end_stream = some r →
      r.2.handle d = some h1 → h1.live_ = false) ∧
    (∀ data end_stream r h1, f.doData d data end_stream = some r →
      r.2.handle d = some h1 → h1.live_ = false) ∧
    (∀ tr r h1, f.doTrailers d tr = some r → r.2.handle d = some h1 → h1.live_ = false) ∧
    (∀ (config : FilterConfig σ) d0, (Filter.create config).handle d0 = none) ∧
    ((∀ d0 h0, f.handle d0 = some h0 → h0.live_ = false) →
      (∀ d0 function_ref headers end_stream r,
        f.doHeaders d0 function_ref headers end_stream = some r →
        ∀ d1 h1, r.2.handle d1 = some h1 → h1.live_ = false) ∧
      (∀ d0 data end_stream r, f.doData d0 data end_stream = some r →
        ∀ d1 h1, r.2.handle d1 = some h1 → h1.live_ = false) ∧
      (∀ d0 tr r, f.doTrailers d0 tr = some r →
        ∀ d1 h1, r.2.handle d1 = some h1 → h1.live_ = false)) := by
  refine ⟨fun _ _ _ => rfl, ?_, ?_, ?_, (Filter.dead_after f d).1, ?_, ?_, ?_,
    fun hD => Filter.dead_step f hD⟩
  · intro h cb seg seg2 h2 cb2 hl hv
    rw [(visits_frame hv).1.2.2.1]
    exact hl
  · intro h0 data end_stream hh hes
    refine ⟨by simp only [Filter.doData, hh], ?_⟩
    have hes1 : h0.markLive.end_stream_ = false := by rw [(markLive_fields _).2.2.1]; exact hes
    rcases onData_shape h0.markLive (f.callbacks d) data end_stream hes1 with
      ⟨h1, cb1, vs, -, hl1, -, -, e⟩ | e
    · exact Or.inl ⟨h1, cb1, vs, by rw [hl1]; exact (markLive_fields _).2.2.2, e⟩
    · exact Or.inr e
  · intro h0 tr hh hes
    refine ⟨by simp only [Filter.doTrailers, hh], ?_⟩
    have hes1 : h0.markLive.end_stream_ = false := by rw [(markLive_fields _).2.2.1]; exact hes
    rcases onTrailers_shape h0.markLive (f.callbacks d) tr hes1 with
      ⟨h1, vs, -, hl1, -, -, -, e⟩ | e
    · exact Or.inl ⟨h1, vs, by rw [hl1]; exact (markLive_fields _).2.2.2, e⟩
    · exact Or.inr e
  · intro data end_stream r h1 hr hh1
    exact ((Filter.dead_after f d).2.1 data end_stream r h1 hr hh1).2
  · intro tr r h1 hr hh1
    exact ((Filter.dead_after f d).2.2 tr r h1 hr hh1).2
  · intro config d0
    cases d0 <;> rfl

/-- Witness for C22: the filter running `BODY_CHUNK_SCRIPT` after the headers of a
request with a body; while the frame `hello` is delivered the coroutine is resumed on a
live handle, and when `doData` returns the handle is marked dead. -/
theorem C22_handle_live_only_during_events_witness :
    (Scripts.afterHeaders Scripts.bodyChunkScript).handle Direction.request =
      some (Scripts.started Scripts.bodyChunkScript).markDead ∧
    (Scripts.started Scripts.bodyChunkScript).markDead.end_stream_ = false ∧
    (∃ r h1, (Scripts.afterHeaders Scripts.bodyChunkScript).doData Direction.request
        Scripts.hello false = some r ∧
      r.2.handle Direction.request = some h1 ∧ h1.live_ = false) ∧
    ((∃ h1 cb1 vs, h1.live_ = true ∧
        (onData (Scripts.started Scripts.bodyChunkScript).markDead.markLive
            ((Scripts.afterHeaders Scripts.bodyChunkScript).callbacks Direction.request)
            Scripts.hello false = chunkReturn (coroutineResume h1 cb1 vs) ∨
          onData (Scripts.started Scripts.bodyChunkScript).markDead.markLive
            ((Scripts.afterHeaders Scripts.bodyChunkScript).callbacks Direction.request)
            Scripts.hello false = dataReturn (coroutineResume h1 cb1 vs))) ∨
      (∃ status, onData (Scripts.started Scripts.bodyChunkScript).markDead.markLive
          ((Scripts.afterHeaders Scripts.bodyChunkScript).callbacks Direction.request)
          Scripts.hello false =
        (.ok status,
          { (Scripts.started Scripts.bodyChunkScript).markDead.markLive with
            end_stream_ := false },
          (Scripts.afterHeaders Scripts.bodyChunkScript).callbacks Direction.request))) :=
  ⟨rfl, rfl,
    ⟨_, _, rfl, rfl,
      (C22_handle_live_only_during_events (Scripts.afterHeaders Scripts.bodyChunkScript)
        Direction.request).2.2.2.2.2.1 Scripts.hello false _ _ rfl rfl⟩,
    ((C22_handle_live_only_during_events (Scripts.afterHeaders Scripts.bodyChunkScript)
      Direction.request).2.2.1 (Scripts.started Scripts.bodyChunkScript).markDead
      Scripts.hello false rfl rfl).2⟩

/-- C23: the three cached wrappers follow the liveness of the handle.  `markDead` on the
handle flags the handle dead and applies `markDead` to each of `headers_wrapper_`,
`body_wrapper_` and `trailers_wrapper_`, which flags a held wrapper dead: a method
called on a wrapper that exists then finds it dead.  `markLive` flags the handle live
and each held wrapper live: the wrapper resolves to its header map or buffer again.
Both leave everything else in the handle as it was.  A wrapper that `headers()`,
`body()` or `trailers()` creates, because the handle holds none yet, is created live. -/
theorem C23_wrappers_follow_handle (h : StreamHandleWrapper σ) (cb : FilterCallbacks) :
    (h.markDead.live_ = false ∧
      h.markDead.headers_wrapper_ = h.headers_wrapper_.markDead ∧
      h.markDead.body_wrapper_ = h.body_wrapper_.markDead ∧
      h.markDead.trailers_wrapper_ = h.trailers_wrapper_.markDead) ∧
    (h.markLive.live_ = true ∧
      h.markLive.headers_wrapper_ = h.headers_wrapper_.markLive ∧
      h.markLive.body_wrapper_ = h.body_wrapper_.markLive ∧
      h.markLive.trailers_wrapper_ = h.trailers_wrapper_.markLive) ∧
    (∀ live, LuaDeathRef.markDead (.holds live) = .holds false ∧
      LuaDeathRef.markLive (.holds live) = .holds true) ∧
    (LuaDeathRef.markDead .empty = .empty ∧ LuaDeathRef.markLive .empty = .empty) ∧
    ((h.headers_wrapper_.get = true → headerMapWrapper h.markDead Value.headers = .dead) ∧
      (h.body_wrapper_.get = true → bufferWrapper h.markDead cb Value.body = .dead) ∧
      (h.trailers_wrapper_.get = true →
        headerMapWrapper h.markDead Value.trailers = .dead)) ∧
    ((h.headers_wrapper_.get = true →
        headerMapWrapper h.markLive Value.headers = .live h.headers_) ∧
      (∀ b, h.body_wrapper_.get = true → cb.bufferedBody = some b →
        bufferWrapper h.markLive cb Value.body = .live b) ∧
      (∀ t, h.trailers_wrapper_.get = true → h.trailers_ = some t →
        headerMapWrapper h.markLive Value.trailers = .live t)) ∧
    (h.markDead = { h with
        live_ := false
        headers_wrapper_ := h.headers_wrapper_.markDead
        body_wrapper_ := h.body_wrapper_.markDead
        trailers_wrapper_ := h.trailers_wrapper_.markDead } ∧
      h.markLive = { h with
        live_ := true
        headers_wrapper_ := h.headers_wrapper_.markLive
        body_wrapper_ := h.body_wrapper_.markLive
        trailers_wrapper_ := h.trailers_wrapper_.markLive }) ∧
    ((h.headers_wrapper_.get = false →
        (luaHeaders h).2.headers_wrapper_ = .holds true ∧
        headerMapWrapper (luaHeaders h).2 Value.headers = .live h.headers_) ∧
      (∀ b, h.body_wrapper_.get = false → h.state_ = State.Running →
        h.end_stream_ = true → cb.bufferedBody = some b →
        ∃ h1, luaBody h cb = some (.values [Value.body], h1) ∧
          h1.body_wrapper_ = .holds true ∧ bufferWrapper h1 cb Value.body = .live b) ∧
      (∀ t, h.trailers_wrapper_.get = false → h.state_ = State.Running →
        h.trailers_ = some t →
        ∃ h1, luaTrailers h = some (.values [Value.trailers], h1) ∧
          h1.trailers_wrapper_ = .holds true ∧
          headerMapWrapper h1 Value.trailers = .live t)) := by
  refine ⟨⟨rfl, rfl, rfl, rfl⟩, ⟨rfl, rfl, rfl, rfl⟩, fun _ => ⟨rfl, rfl⟩, ⟨rfl, rfl⟩,
    ⟨?_, ?_, ?_⟩, ⟨?_, ?_, ?_⟩, ⟨rfl, rfl⟩, ⟨?_, ?_, ?_⟩⟩
  · intro hg
    cases hw : h.headers_wrapper_ with
    | empty => rw [hw] at hg; cases hg
    | holds live => simp [headerMapWrapper, markDead, onMarkDead, hw, LuaDeathRef.markDead]
  · intro hg
    cases hw : h.body_wrapper_ with
    | empty => rw [hw] at hg; cases hg
    | holds live => simp [bufferWrapper, markDead, onMarkDead, hw, LuaDeathRef.markDead]
  · intro hg
    cases hw : h.trailers_wrapper_ with
    | empty => rw [hw] at hg; cases hg
    | holds live => simp [headerMapWrapper, markDead, onMarkDead, hw, LuaDeathRef.markDead]
  · intro hg
    cases hw : h.headers_wrapper_ with
    | empty => rw [hw] at hg; cases hg
    | holds live => simp [headerMapWrapper, markLive, onMarkLive, hw, LuaDeathRef.markLive]
  · intro b hg hb
    cases hw : h.body_wrapper_ with
    | empty => rw [hw] at hg; cases hg
    | holds live =>
      simp [bufferWrapper, markLive, onMarkLive, hw, LuaDeathRef.markLive, hb]
  · intro t hg ht
    cases hw : h.trailers_wrapper_ with
    | empty => rw [hw] at hg; cases hg
    | holds live =>
      simp [headerMapWrapper, markLive, onMarkLive, hw, LuaDeathRef.markLive, ht]
  · intro hg
    simp [luaHeaders, hg, LuaDeathRef.reset, headerMapWrapper]
  · intro b hg hrun hes hb
    exact ⟨{ h with body_wrapper_ := LuaDeathRef.holds true },
      by simp [luaBody, hrun, hes, hb, hg, LuaDeathRef.reset], rfl,
      by simp [bufferWrapper, hb]⟩
  · intro t hg hrun ht
    exact ⟨{ h with trailers_wrapper_ := LuaDeathRef.holds true },
      by simp [luaTrailers, hrun, ht, hg, LuaDeathRef.reset], rfl,
      by simp [headerMapWrapper, ht]⟩

/-- Witness for C23: the handle of a request after its script has called `headers()`
once: the headers wrapper exists; it is dead after `markDead` and live again, over the
request headers, after `markLive`. -/
theorem C23_wrappers_follow_handle_witness :
    (luaHeaders (Scripts.newHandle Scripts.bodyScript)).2.headers_wrapper_.get = true ∧
    headerMapWrapper (luaHeaders (Scripts.newHandle Scripts.bodyScript)).2.markDead
      Value.headers = .dead ∧
    headerMapWrapper (luaHeaders (Scripts.newHandle Scripts.bodyScript)).2.markDead.markLive
      Value.headers = .live Scripts.requestHeaders ∧
    (Scripts.newHandle Scripts.bodyScript).headers_wrapper_.get = false ∧
    (luaHeaders (Scripts.newHandle Scripts.bodyScript)).2.headers_wrapper_ = .holds true :=
  ⟨rfl,
    (C23_wrappers_follow_handle (luaHeaders (Scripts.newHandle Scripts.bodyScript)).2
      Scripts.emptyCallbacks).2.2.2.2.1.1 rfl,
    (C23_wrappers_follow_handle (luaHeaders (Scripts.newHandle Scripts.bodyScript)).2.markDead
      Scripts.emptyCallbacks).2.2.2.2.2.1.1 rfl,
    rfl,
    ((C23_wrappers_follow_handle (Scripts.newHandle Scripts.bodyScript)
      Scripts.emptyCallbacks).2.2.2.2.2.2.2.1 rfl).1⟩

/-- A run goes on from every configuration it visits. -/
theorem StreamHandleWrapper.run_of_visits {seg seg1 : Seg σ} {h h1 : StreamHandleWrapper σ}
    {cb cb1 : FilterCallbacks} (hv : Visits seg h cb seg1 h1 cb1) :
    run seg h cb = run seg1 h1 cb1 := by
  induction hv with
  | here => rfl
  | later hs _ ih =>
    rw [run_eq_step, hs]
    exact ih

/-- Between events the handle object of a direction is dead, also for a script that kept
it: an entry point of the filter that finds it so leaves it so. -/
theorem Filter.handleLive_step (f : Filter σ) (d : Direction)
    (hl : f.handleLive d = false) :
    (∀ d0 function_ref headers end_stream r,
      f.doHeaders d0 function_ref headers end_stream = some r → r.2.handleLive d = false) ∧
    (∀ d0 data end_stream r, f.doData d0 data end_stream = some r →
      r.2.handleLive d = false) ∧
    (∀ d0 tr r, f.doTrailers d0 tr = some r → r.2.handleLive d = false) := by
  have key : ∀ f1 : Filter σ,
      (∀ h1, f1.handle d = some h1 → h1.live_ = false) → f1.handleLive d = false := by
    intro f1 hf1
    unfold Filter.handleLive
    cases hh : f1.handle d with
    | none => rfl
    | some h1 => exact hf1 h1 hh
  have hD : ∀ h0, f.handle d = some h0 → h0.live_ = false := by
    intro h0 hh
    simpa [Filter.handleLive, hh] using hl
  refine ⟨?_, ?_, ?_⟩
  · intro d0 function_ref headers end_stream r hr
    apply key
    intro h1 hh1
    by_cases hd : d0 = d
    · subst hd
      by_cases href : function_ref = LUA_REFNIL
      · simp only [Filter.doHeaders, href, ↓reduceIte, Option.some.injEq] at hr
        subst hr
        exact hD h1 hh1
      · exact (Filter.dead_after f d0).1 function_ref headers end_stream r h1 href hr hh1
    · rcases (Filter.other_handle f d d0 hd).1 function_ref headers end_stream r hr
        with e | e
      · rw [e] at hh1
        exact hD h1 hh1
      · rw [e] at hh1
        cases hh1
  · intro d0 data end_stream r hr
    apply key
    intro h1 hh1
    by_cases hd : d0 = d
    · subst hd
      exact ((Filter.dead_after f d0).2.1 data end_stream r h1 hr hh1).2
    · rcases (Filter.other_handle f d d0 hd).2.1 data end_stream r hr with e | e
      · rw [e] at hh1
        exact hD h1 hh1
      · rw [e] at hh1
        cases hh1
  · intro d0 tr r hr
    apply key
    intro h1 hh1
    by_cases hd : d0 = d
    · subst hd
      exact ((Filter.dead_after f d0).2.2 tr r h1 hr hh1).2
    · rcases (Filter.other_handle f d d0 hd).2.2 tr r hr with e | e
      · rw [e] at hh1
        exact hD h1 hh1
      · rw [e] at hh1
        cases hh1

/-- C24: a handle kept by a script beyond its event is dead.  Filter `f1` runs its
script in a headers event, after which the script still holds the handle object of that
event (kept in a global); `r1` is the result of the event.  The object is then dead, and
every later entry point of that filter leaves it dead.  When the script of a later
filter `f2`, during its request headers event, calls a method on that object (at a point
where it would go on with `k`), the call raises "object used outside of proper scope":
the run of the script ends with that error, `f2` logs it at level 2 after what the
script had logged, drops its handles, and `decodeHeaders` returns `Continue`. -/
theorem C24_captured_handle_is_dead (f1 : Filter σ) (d1 : Direction) (function_ref1 : Int)
    (headers1 : HeaderMap) (end_stream1 : Bool) (r1 : FilterHeadersStatus × Filter σ)
    (f2 : Filter σ) (headers2 : HeaderMap) (end_stream2 : Bool) (seg k : Seg σ)
    (h2 : StreamHandleWrapper σ) (cb2 : FilterCallbacks)
    (href1 : function_ref1 ≠ LUA_REFNIL)
    (hev : f1.doHeaders d1 function_ref1 headers1 end_stream1 = some r1)
    (href2 : f2.config_.requestFunctionRef ≠ LUA_REFNIL)
    (hfn : f2.config_.lua_state_.function f2.config_.requestFunctionRef = some seg)
    (hcall : Visits seg
      (noteResume (StreamHandleWrapper.create f2.config_.createCoroutine headers2 end_stream2)
        [Value.handle])
      (f2.callbacks Direction.request) (methodOn (r1.2.handleLive d1) k) h2 cb2) :
    r1.2.handleLive d1 = false ∧
    ((∀ d0 function_ref headers end_stream r,
        r1.2.doHeaders d0 function_ref headers end_stream = some r →
        r.2.handleLive d1 = false) ∧
      (∀ d0 data end_stream r, r1.2.doData d0 data end_stream = some r →
        r.2.handleLive d1 = false) ∧
      (∀ d0 tr r, r1.2.doTrailers d0 tr = some r → r.2.handleLive d1 = false)) ∧
    methodOn (r1.2.handleLive d1) k = Seg.error "object used outside of proper scope" ∧
    (run seg
      (noteResume (StreamHandleWrapper.create f2.config_.createCoroutine headers2 end_stream2)
        [Value.handle])
      (f2.callbacks Direction.request)).1 = .error "object used outside of proper scope" ∧
    ∃ f3, f2.decodeHeaders headers2 end_stream2 = some (FilterHeadersStatus.Continue, f3) ∧
      f3.log_ = cb2.logger ++ [(2, "object used outside of proper scope")] ∧
      f3.request_stream_wrapper_ = none ∧ f3.response_stream_wrapper_ = none := by
  have hdead : r1.2.handleLive d1 = false := by
    unfold Filter.handleLive
    cases hh : r1.2.handle d1 with
    | none => rfl
    | some h1 =>
      exact (Filter.dead_after f1 d1).1 function_ref1 headers1 end_stream1 r1 h1 href1 hev hh
  have hm : methodOn (r1.2.handleLive d1) k =
      (Seg.error "object used outside of proper scope" : Seg σ) := by
    rw [hdead]
    rfl
  rw [hm] at hcall
  have hrun := run_of_visits hcall
  simp only [run] at hrun
  refine ⟨hdead, Filter.handleLive_step r1.2 d1 hdead, hm, by rw [hrun], ?_⟩
  refine ⟨((f2.withCallbacks Direction.request cb2).setHandle Direction.request
      (some (setCoroutineState h2 .Finished))).handleScriptError
        "object used outside of proper scope", ?_, ?_, rfl, rfl⟩
  · simp only [Filter.decodeHeaders, Filter.doHeaders, href2, ↓reduceIte]
    rw [start_result _ _ _ seg rfl hfn, hrun]
    rfl
  · rw [Filter.log_handleScriptError, Filter.log_setHandle, Filter.log_withCallbacks]

/-- Witness for C24: the test `ThreadEnvironments`.  The first filter's script stores
its handle in the global; the second filter's script calls `log` on it. -/
theorem C24_captured_handle_is_dead_witness :
    Scripts.requestRef ≠ LUA_REFNIL ∧
    (Filter.create (Scripts.config (Scripts.threadEnvironmentsScript none))).doHeaders
      Direction.request Scripts.requestRef Scripts.requestHeaders true =
      some (FilterHeadersStatus.Continue, Scripts.threadEnvironmentsFirstFilter) ∧
    Scripts.threadEnvironmentsSecondFilter.config_.requestFunctionRef ≠ LUA_REFNIL ∧
    Scripts.threadEnvironmentsSecondFilter.config_.lua_state_.function
      Scripts.threadEnvironmentsSecondFilter.config_.requestFunctionRef =
      some (methodOn (Scripts.threadEnvironmentsFirstFilter.handleLive Direction.request)
        Seg.ret) ∧
    Scripts.threadEnvironmentsFirstFilter.handleLive Direction.request = false ∧
    ∃ f3, Scripts.threadEnvironmentsSecondFilter.decodeHeaders Scripts.requestHeaders true =
        some (FilterHeadersStatus.Continue, f3) ∧
      f3.log_ = Scripts.emptyCallbacks.logger ++
        [(2, "object used outside of proper scope")] ∧
      f3.request_stream_wrapper_ = none ∧ f3.response_stream_wrapper_ = none :=
  ⟨by decide, rfl, by decide, rfl,
    (C24_captured_handle_is_dead
      (Filter.create (Scripts.config (Scripts.threadEnvironmentsScript none)))
      Direction.request Scripts.requestRef Scripts.requestHeaders true
      (FilterHeadersStatus.Continue, Scripts.threadEnvironmentsFirstFilter)
      Scripts.threadEnvironmentsSecondFilter Scripts.requestHeaders true
      (methodOn (Scripts.threadEnvironmentsFirstFilter.handleLive Direction.request) Seg.ret)
      Seg.ret
      (noteResume (StreamHandleWrapper.create
        Scripts.threadEnvironmentsSecondFilter.config_.createCoroutine
        Scripts.requestHeaders true) [Value.handle])
      Scripts.emptyCallbacks
      (by decide) rfl (by decide) rfl (Visits.here _ _ _)).1,
    (C24_captured_handle_is_dead
      (Filter.create (Scripts.config (Scripts.threadEnvironmentsScript none)))
      Direction.request Scripts.requestRef Scripts.requestHeaders true
      (FilterHeadersStatus.Continue, Scripts.threadEnvironmentsFirstFilter)
      Scripts.threadEnvironmentsSecondFilter Scripts.requestHeaders true
      (methodOn (Scripts.threadEnvironmentsFirstFilter.handleLive Direction.request) Seg.ret)
      Seg.ret
      (noteResume (StreamHandleWrapper.create
        Scripts.threadEnvironmentsSecondFilter.config_.createCoroutine
        Scripts.requestHeaders true) [Value.handle])
      Scripts.emptyCallbacks
      (by decide) rfl (by decide) rfl (Visits.here _ _ _)).2.2.2.2⟩

theorem StreamHandleWrapper.coroutineResume_chunk (h : StreamHandleWrapper σ)
    (cb : FilterCallbacks) (vs : List Value) :
    (coroutineResume h cb vs).2.1.chunk_ = h.chunk_ ∧
    (coroutineResume h cb vs).2.1.chunks_ = h.chunks_ := by
  unfold coroutineResume
  cases hc : h.coroutine_.state_ with
  | NotStarted => exact ⟨rfl, rfl⟩
  | Finished => exact ⟨rfl, rfl⟩
  | Yielded susp =>
    simp only
    rw [(afterRun_live _).2.1, (afterRun_live _).2.2.1, (run_spec _ _ _).1.2.2.2.1,
      (run_spec _ _ _).1.2.2.2.2.1]
    exact ⟨rfl, rfl⟩

theorem StreamHandleWrapper.start_chunk (h : StreamHandleWrapper σ)
    (cb : FilterCallbacks) (function_ref : Int) :
    (start h cb function_ref).2.1.chunk_ = h.chunk_ ∧
    (start h cb function_ref).2.1.chunks_ = h.chunks_ := by
  have hcs : (coroutineStart h cb function_ref).2.1.chunk_ = h.chunk_ ∧
      (coroutineStart h cb function_ref).2.1.chunks_ = h.chunks_ := by
    unfold coroutineStart
    cases hc : h.coroutine_.state_ <;>
      cases hf : h.coroutine_.script.function function_ref <;> simp only <;>
      (first | exact ⟨trivial, trivial⟩ | exact ⟨rfl, rfl⟩ | skip)
    rw [(afterRun_live _).2.1, (afterRun_live _).2.2.1, (run_spec _ _ _).1.2.2.2.1,
      (run_spec _ _ _).1.2.2.2.2.1]
    exact ⟨rfl, rfl⟩
  unfold start
  rcases hr : coroutineStart h cb function_ref with ⟨o, h1, cb1⟩
  rw [hr] at hcs
  cases o <;> exact hcs

/-- The chunk counter after `onData`: unchanged, together with the chunk in scope, or
advanced by one. -/
theorem StreamHandleWrapper.onData_chunk (h : StreamHandleWrapper σ) (cb : FilterCallbacks)
    (data : Buffer) (end_stream : Bool) :
    ((onData h cb data end_stream).2.1.chunk_ = h.chunk_ ∧
      (onData h cb data end_stream).2.1.chunks_ = h.chunks_) ∨
    (onData h cb data end_stream).2.1.chunks_ = h.chunks_ + 1 := by
  unfold onData
  by_cases hes : h.end_stream_ = true
  · simp [hes]
  · simp only [hes, Bool.false_eq_true, ↓reduceIte]
    split
    · right
      rcases hr : coroutineResume
        { h with
          end_stream_ := end_stream
          chunk_ := some data
          chunks_ := h.chunks_ + 1
          state_ := State.Running } cb [Value.chunk h.chunks_] with ⟨o, h1, cb1⟩
      have := (coroutineResume_chunk
        { h with
          end_stream_ := end_stream
          chunk_ := some data
          chunks_ := h.chunks_ + 1
          state_ := State.Running } cb [Value.chunk h.chunks_]).2
      rw [hr] at this
      cases o <;> exact this
    · left
      split
      · split
        · rename_i vs h3 e
          have hf := (luaBody_values e).1
          rw [dataReturn_handle, (coroutineResume_chunk _ _ _).1,
            (coroutineResume_chunk _ _ _).2, hf.2.2.2.1, hf.2.2.2.2.1]
          exact ⟨rfl, rfl⟩
        · exact ⟨rfl, rfl⟩
      · split
        · exact ⟨rfl, rfl⟩
        · split
          · rw [dataReturn_handle, (coroutineResume_chunk _ _ _).1,
              (coroutineResume_chunk _ _ _).2]
            exact ⟨rfl, rfl⟩
          · exact ⟨rfl, rfl⟩

/-- `onTrailers` leaves the chunk counter and the chunk in scope as they were. -/
theorem StreamHandleWrapper.onTrailers_chunk (h : StreamHandleWrapper σ)
    (cb : FilterCallbacks) (tr : HeaderMap) :
    (onTrailers h cb tr).2.1.chunk_ = h.chunk_ ∧
    (onTrailers h cb tr).2.1.chunks_ = h.chunks_ := by
  by_cases hes : h.end_stream_ = true
  · rw [onTrailers_after_end h cb tr hes]
    exact ⟨rfl, rfl⟩
  · simp only [Bool.not_eq_true] at hes
    cases hst : h.state_ with
    | Running =>
      simp [onTrailers, onTrailersBody, onTrailersTrailers, hst, hes]
    | WaitForBodyChunk =>
      rw [onTrailers_waitForBodyChunk h cb tr hst hes, (coroutineResume_chunk _ _ _).1,
        (coroutineResume_chunk _ _ _).2]
      exact ⟨rfl, rfl⟩
    | WaitForBody =>
      obtain ⟨vs, h1, hb, -, -, -, -, -, -, hon⟩ := onTrailers_waitForBody h cb tr hst hes
      have hf := (luaBody_values hb).1
      rw [hon, (coroutineResume_chunk _ _ _).1, (coroutineResume_chunk _ _ _).2,
        hf.2.2.2.1, hf.2.2.2.2.1]
      exact ⟨rfl, rfl⟩
    | WaitForTrailers =>
      obtain ⟨h1, e1, -, -, -⟩ := luaTrailers_recorded
        { h with end_stream_ := true, trailers_ := some tr, state_ := State.Running } rfl rfl
      have hf := (luaTrailers_values e1).1
      have hon : onTrailers h cb tr = coroutineResume h1 cb [Value.trailers] := by
        simp only [onTrailers, hes, onTrailersBody, hst, onTrailersTrailers]
        simp only [Bool.false_eq_true, ↓reduceIte, reduceCtorEq]
        rw [e1]
      rw [hon, (coroutineResume_chunk _ _ _).1, (coroutineResume_chunk _ _ _).2,
        hf.2.2.2.1, hf.2.2.2.2.1]
      exact ⟨rfl, rfl⟩

/-- The wrapper of the `n`-th chunk is dead on a handle whose chunk counter has passed
it, or has reached it with no chunk in scope. -/
theorem StreamHandleWrapper.bufferWrapper_chunk_dead (h : StreamHandleWrapper σ)
    (cb : FilterCallbacks) (n : Nat)
    (hP : n + 1 < h.chunks_ ∨ (h.chunks_ = n + 1 ∧ h.chunk_ = none)) :
    bufferWrapper h cb (Value.chunk n) = .dead := by
  rcases hP with hlt | ⟨he, hn⟩
  · have h1 : ¬ n + 1 = h.chunks_ := by omega
    have h2 : n < h.chunks_ := by omega
    simp [bufferWrapper, h1, h2]
  · simp [bufferWrapper, he, hn]

/-- Once the wrapper of the `n`-th chunk is out of scope, no call of an entry point brings
it back. -/
theorem StreamHandleWrapper.call_chunk_dead (h : StreamHandleWrapper σ)
    (cb : FilterCallbacks) (n : Nat) (c : Call)
    (hP : n + 1 < h.chunks_ ∨ (h.chunks_ = n + 1 ∧ h.chunk_ = none)) :
    n + 1 < (call h cb c).2.1.chunks_ ∨
      ((call h cb c).2.1.chunks_ = n + 1 ∧ (call h cb c).2.1.chunk_ = none) := by
  have keep : ∀ h1 : StreamHandleWrapper σ, h1.chunk_ = h.chunk_ ∧ h1.chunks_ = h.chunks_ →
      n + 1 < h1.chunks_ ∨ (h1.chunks_ = n + 1 ∧ h1.chunk_ = none) := by
    intro h1 ⟨e1, e2⟩
    rw [e1, e2]
    exact hP
  cases c with
  | start function_ref =>
    rw [call_start]
    exact keep _ (start_chunk h cb function_ref)
  | onData data end_stream =>
    have hc : (call h cb (.onData data end_stream)).2.1 = (onData h cb data end_stream).2.1 := by
      simp only [call]
      rcases onData h cb data end_stream with ⟨o, h1, cb1⟩
      cases o <;> rfl
    rw [hc]
    rcases onData_chunk h cb data end_stream with e | e
    · exact keep _ e
    · left
      rw [e]
      omega
  | onTrailers tr =>
    simp only [call]
    exact keep _ (onTrailers_chunk h cb tr)

/-- In `WaitForBodyChunk` with the coroutine suspended, `onData` is one resume with the
wrapper of the new chunk as the only value, followed by the end of the wrapper's scope. -/
theorem StreamHandleWrapper.onData_waitForBodyChunk (h : StreamHandleWrapper σ)
    (cb : FilterCallbacks) (buf : Buffer) (eos : Bool) (susp : σ)
    (hst : h.state_ = State.WaitForBodyChunk) (hes : h.end_stream_ = false)
    (hco : h.coroutine_.state_ = .Yielded susp) :
    onData h cb buf eos =
      chunkReturn (afterRun (run (h.coroutine_.script.resume susp [Value.chunk h.chunks_])
        (noteResume
          { h with
            end_stream_ := eos
            chunk_ := some buf
            chunks_ := h.chunks_ + 1
            state_ := State.Running } [Value.chunk h.chunks_]) cb)) := by
  simp only [onData, hes, hst, coroutineResume, hco]
  simp

/-- C25: in state `WaitForBodyChunk`, with the coroutine suspended, `onData(buf, eos)`
resumes the coroutine once, with exactly one value, the wrapper of the new chunk.  At
every point the script reaches during that resume the wrapper is live and stands for
`buf`, `state_` is `Running` and `end_stream_` is `eos`.  When `onData` has returned or
thrown, the wrapper is dead, `end_stream_` is `eos`, and a normal return yields
`Continue`; `doData` returns `Continue` also when the script threw.  The wrapper stays
dead after every later call of an entry point, and at every point a later resume from
`onData` reaches a call of `byteSize` on it raises the error of a dead object.  The
assertions of `onData` fail only if the script reaches a call of `httpCall`. -/
theorem C25_chunk_wrapper_transient (h : StreamHandleWrapper σ) (cb : FilterCallbacks)
    (buf : Buffer) (eos : Bool) (susp : σ)
    (hst : h.state_ = State.WaitForBodyChunk) (hes : h.end_stream_ = false)
    (hco : h.coroutine_.state_ = .Yielded susp) :
    onData h cb buf eos =
      chunkReturn (afterRun (run (h.coroutine_.script.resume susp [Value.chunk h.chunks_])
        (noteResume
          { h with
            end_stream_ := eos
            chunk_ := some buf
            chunks_ := h.chunks_ + 1
            state_ := State.Running } [Value.chunk h.chunks_]) cb)) ∧
    (onData h cb buf eos).2.1.coroutine_.resumes_ =
      h.coroutine_.resumes_ ++ [[Value.chunk h.chunks_]] ∧
    (∀ seg2 h2 cb2,
      Visits (h.coroutine_.script.resume susp [Value.chunk h.chunks_])
        (noteResume
          { h with
            end_stream_ := eos
            chunk_ := some buf
            chunks_ := h.chunks_ + 1
            state_ := State.Running } [Value.chunk h.chunks_]) cb seg2 h2 cb2 →
      bufferWrapper h2 cb2 (Value.chunk h.chunks_) = .live buf ∧
      h2.state_ = State.Running ∧ h2.end_stream_ = eos) ∧
    ((onData h cb buf eos).1 ≠ .abort →
      bufferWrapper (onData h cb buf eos).2.1 (onData h cb buf eos).2.2
        (Value.chunk h.chunks_) = .dead) ∧
    (onData h cb buf eos).2.1.end_stream_ = eos ∧
    (∀ status, (onData h cb buf eos).1 = .ok status → status = FilterDataStatus.Continue) ∧
    (∀ (f : Filter σ) (d : Direction) (h0 : StreamHandleWrapper σ)
      (x : FilterDataStatus × Filter σ),
      f.handle d = some h0 → h0.markLive = h → f.callbacks d = cb →
      f.doData d buf eos = some x → x.1 = FilterDataStatus.Continue) ∧
    ((onData h cb buf eos).1 = .abort →
      ∃ k h2 cb2,
        Visits (h.coroutine_.script.resume susp [Value.chunk h.chunks_])
          (noteResume
            { h with
              end_stream_ := eos
              chunk_ := some buf
              chunks_ := h.chunks_ + 1
              state_ := State.Running } [Value.chunk h.chunks_]) cb
          (Seg.httpCall k) h2 cb2) ∧
    ((onData h cb buf eos).1 ≠ .abort →
      ∀ (h3 : StreamHandleWrapper σ) (cb3 : FilterCallbacks),
        (h3 = (onData h cb buf eos).2.1 ∨
          ∃ h4 cb4 c, h3 = (call h4 cb4 c).2.1 ∧
            (h.chunks_ + 1 < h4.chunks_ ∨
              (h4.chunks_ = h.chunks_ + 1 ∧ h4.chunk_ = none))) →
        (h.chunks_ + 1 < h3.chunks_ ∨ (h3.chunks_ = h.chunks_ + 1 ∧ h3.chunk_ = none)) ∧
        bufferWrapper h3 cb3 (Value.chunk h.chunks_) = .dead ∧
        ∀ (buf3 : Buffer) (eos3 : Bool) (susp3 : σ) (seg2 : Seg σ)
          (h2 : StreamHandleWrapper σ) (cb2 : FilterCallbacks),
          Visits (h3.coroutine_.script.resume susp3 [Value.chunk h3.chunks_])
            (noteResume
              { h3 with
                end_stream_ := eos3
                chunk_ := some buf3
                chunks_ := h3.chunks_ + 1
                state_ := State.Running } [Value.chunk h3.chunks_]) cb3 seg2 h2 cb2 →
          bufferWrapper h2 cb2 (Value.chunk h.chunks_) = .dead ∧
          ∀ k, run (Seg.byteSize (Value.chunk h.chunks_) k) h2 cb2 =
            (.error deadObjectMessage, h2, cb2)) := by
  have hon := onData_waitForBodyChunk h cb buf eos susp hst hes hco
  have hsp := run_spec (h.coroutine_.script.resume susp [Value.chunk h.chunks_])
    (noteResume
      { h with
        end_stream_ := eos
        chunk_ := some buf
        chunks_ := h.chunks_ + 1
        state_ := State.Running } [Value.chunk h.chunks_]) cb
  have hal := afterRun_live (run (h.coroutine_.script.resume susp [Value.chunk h.chunks_])
    (noteResume
      { h with
        end_stream_ := eos
        chunk_ := some buf
        chunks_ := h.chunks_ + 1
        state_ := State.Running } [Value.chunk h.chunks_]) cb)
  have has := afterRun_state (run (h.coroutine_.script.resume susp [Value.chunk h.chunks_])
    (noteResume
      { h with
        end_stream_ := eos
        chunk_ := some buf
        chunks_ := h.chunks_ + 1
        state_ := State.Running } [Value.chunk h.chunks_]) cb)
  have hres := afterRun_resumes (run (h.coroutine_.script.resume susp [Value.chunk h.chunks_])
    (noteResume
      { h with
        end_stream_ := eos
        chunk_ := some buf
        chunks_ := h.chunks_ + 1
        state_ := State.Running } [Value.chunk h.chunks_]) cb)
  have hab := fun hab => run_abort (h.coroutine_.script.resume susp [Value.chunk h.chunks_])
    (noteResume
      { h with
        end_stream_ := eos
        chunk_ := some buf
        chunks_ := h.chunks_ + 1
        state_ := State.Running } [Value.chunk h.chunks_]) cb rfl hab
  have hout : ∀ status, (onData h cb buf eos).1 = .ok status →
      status = FilterDataStatus.Continue := by
    intro status hs
    rw [hon] at hs
    exact ((chunkReturn_status _ status).1 hs).1
  have hdead : (onData h cb buf eos).1 ≠ .abort →
      (onData h cb buf eos).2.1.chunks_ = h.chunks_ + 1 ∧
      (onData h cb buf eos).2.1.chunk_ = none := by
    rw [hon]
    rcases hr : afterRun (run (h.coroutine_.script.resume susp [Value.chunk h.chunks_])
      (noteResume
        { h with
          end_stream_ := eos
          chunk_ := some buf
          chunks_ := h.chunks_ + 1
          state_ := State.Running } [Value.chunk h.chunks_]) cb) with ⟨o, h1, cb1⟩
    rw [hr] at hal
    have e2 : h1.chunks_ = h.chunks_ + 1 := by
      rw [hal.2.2.1, hsp.1.2.2.2.2.1]; rfl
    intro hne
    cases o with
    | ok u => exact ⟨e2, rfl⟩
    | luaException what => exact ⟨e2, rfl⟩
    | abort => exact absurd rfl hne
  have hlater : ∀ (h3 : StreamHandleWrapper σ),
      (h.chunks_ + 1 < h3.chunks_ ∨ (h3.chunks_ = h.chunks_ + 1 ∧ h3.chunk_ = none)) →
      ∀ (cb3 : FilterCallbacks) (buf3 : Buffer) (eos3 : Bool) (susp3 : σ) (seg2 : Seg σ)
        (h2 : StreamHandleWrapper σ) (cb2 : FilterCallbacks),
        Visits (h3.coroutine_.script.resume susp3 [Value.chunk h3.chunks_])
          (noteResume
            { h3 with
              end_stream_ := eos3
              chunk_ := some buf3
              chunks_ := h3.chunks_ + 1
              state_ := State.Running } [Value.chunk h3.chunks_]) cb3 seg2 h2 cb2 →
        bufferWrapper h2 cb2 (Value.chunk h.chunks_) = .dead ∧
        ∀ k, run (Seg.byteSize (Value.chunk h.chunks_) k) h2 cb2 =
          (.error deadObjectMessage, h2, cb2) := by
    intro h3 hP cb3 buf3 eos3 susp3 seg2 h2 cb2 hv
    have hf := (visits_frame hv).1
    have e2 : h2.chunks_ = h3.chunks_ + 1 := by rw [hf.2.2.2.2.1]; rfl
    have hd : bufferWrapper h2 cb2 (Value.chunk h.chunks_) = .dead :=
      bufferWrapper_chunk_dead h2 cb2 h.chunks_ (Or.inl (by rw [e2]; omega))
    refine ⟨hd, fun k => ?_⟩
    rw [run_eq_step]
    simp only [step, hd]
  refine ⟨hon, ?_, ?_, ?_, ?_, hout, ?_, ?_, ?_⟩
  · rw [hon, chunkReturn_coroutine, hres.1, hsp.1.1]
    rfl
  · intro seg2 h2 cb2 hv
    obtain ⟨hf, hs2, -⟩ := visits_frame hv
    refine ⟨?_, by rw [hs2]; rfl, by rw [hf.2.1]; rfl⟩
    have e1 : h2.chunk_ = some buf := by rw [hf.2.2.2.1]; rfl
    have e2 : h2.chunks_ = h.chunks_ + 1 := by rw [hf.2.2.2.2.1]; rfl
    simp [bufferWrapper, e1, e2]
  · intro hne
    exact bufferWrapper_chunk_dead _ _ _ (Or.inr (hdead hne))
  · rw [hon]
    rcases hr : afterRun (run (h.coroutine_.script.resume susp [Value.chunk h.chunks_])
      (noteResume
        { h with
          end_stream_ := eos
          chunk_ := some buf
          chunks_ := h.chunks_ + 1
          state_ := State.Running } [Value.chunk h.chunks_]) cb) with ⟨o, h1, cb1⟩
    rw [hr] at has
    have e : h1.end_stream_ = eos := by
      rw [has.2.1, hsp.1.2.1]; rfl
    cases o <;> exact e
  · intro f d h0 x hh hl hc hx
    simp only [Filter.doData, hh, hl, hc] at hx
    rcases hr : onData h cb buf eos with ⟨o, h1, cb1⟩
    rw [hr] at hx
    cases o with
    | ok status =>
      simp only [Filter.dataResult, Option.some.injEq] at hx
      subst hx
      exact hout status (by rw [hr])
    | luaException what =>
      simp only [Filter.dataResult, Option.some.injEq] at hx
      subst hx
      rfl
    | abort => simp [Filter.dataResult] at hx
  · intro habort
    apply hab
    rw [hon] at habort
    rcases hr : run (h.coroutine_.script.resume susp [Value.chunk h.chunks_])
      (noteResume
        { h with
          end_stream_ := eos
          chunk_ := some buf
          chunks_ := h.chunks_ + 1
          state_ := State.Running } [Value.chunk h.chunks_]) cb with ⟨s, h1, cb1⟩
    rw [hr] at habort
    cases s with
    | abort => rfl
    | finished => simp [afterRun, chunkReturn] at habort
    | error msg => simp [afterRun, chunkReturn] at habort
    | yielded susp2 site =>
      simp only [afterRun] at habort
      split at habort <;> simp [chunkReturn] at habort
  · intro hne h3 cb3 hfrom
    have hP : h.chunks_ + 1 < h3.chunks_ ∨
        (h3.chunks_ = h.chunks_ + 1 ∧ h3.chunk_ = none) := by
      rcases hfrom with rfl | ⟨h4, cb4, c, rfl, hP4⟩
      · exact Or.inr (hdead hne)
      · exact call_chunk_dead h4 cb4 h.chunks_ c hP4
    exact ⟨hP, bufferWrapper_chunk_dead h3 cb3 h.chunks_ hP, hlater h3 hP cb3⟩

/-- Witness for C25: the handle of `BODY_CHUNK_SCRIPT`, suspended in the iterator of its
chunk loop after the headers of a request with a body, receives the frame `hello`. -/
theorem C25_chunk_wrapper_transient_witness :
    (Scripts.started Scripts.bodyChunkScript).state_ = State.WaitForBodyChunk ∧
    (Scripts.started Scripts.bodyChunkScript).end_stream_ = false ∧
    (Scripts.started Scripts.bodyChunkScript).coroutine_.state_ = .Yielded 0 ∧
    (onData (Scripts.started Scripts.bodyChunkScript) Scripts.emptyCallbacks
      Scripts.hello false).1 = .ok FilterDataStatus.Continue ∧
    (onData (Scripts.started Scripts.bodyChunkScript) Scripts.emptyCallbacks
      Scripts.hello false).2.1.coroutine_.resumes_ =
      (Scripts.started Scripts.bodyChunkScript).coroutine_.resumes_ ++
        [[Value.chunk (Scripts.started Scripts.bodyChunkScript).chunks_]] ∧
    (bufferWrapper
      (onData (Scripts.started Scripts.bodyChunkScript) Scripts.emptyCallbacks
        Scripts.hello false).2.1
      (onData (Scripts.started Scripts.bodyChunkScript) Scripts.emptyCallbacks
        Scripts.hello false).2.2
      (Value.chunk (Scripts.started Scripts.bodyChunkScript).chunks_) = .dead) ∧
    (onData (Scripts.started Scripts.bodyChunkScript) Scripts.emptyCallbacks
      Scripts.hello false).2.1.end_stream_ = false :=
  ⟨rfl, rfl, rfl, rfl,
    (C25_chunk_wrapper_transient (Scripts.started Scripts.bodyChunkScript)
      Scripts.emptyCallbacks Scripts.hello false 0 rfl rfl rfl).2.1,
    (C25_chunk_wrapper_transient (Scripts.started Scripts.bodyChunkScript)
      Scripts.emptyCallbacks Scripts.hello false 0 rfl rfl rfl).2.2.2.1
      (fun e => Outcome.noConfusion ((rfl : (onData (Scripts.started Scripts.bodyChunkScript)
        Scripts.emptyCallbacks Scripts.hello false).1 =
          .ok FilterDataStatus.Continue).symm.trans e)),
    (C25_chunk_wrapper_transient (Scripts.started Scripts.bodyChunkScript)
      Scripts.emptyCallbacks Scripts.hello false 0 rfl rfl rfl).2.2.2.2.1⟩

/-- No script action takes a live body wrapper out of the handle. -/
theorem StreamHandleWrapper.step_more_body_wrapper {seg seg1 : Seg σ}
    {h h1 : StreamHandleWrapper σ} {cb cb1 : FilterCallbacks}
    (hs : step seg h cb = .more seg1 h1 cb1)
    (hw : h.body_wrapper_ = LuaDeathRef.holds true) :
    h1.body_wrapper_ = LuaDeathRef.holds true := by
  cases seg <;> simp only [step] at hs <;> (repeat' split at hs) <;> cases hs <;>
    (try exact hw)
  · simp only [luaHeaders]
    split <;> simp [hw]
  · rename_i e
    simp only [luaBody] at e
    (repeat' split at e) <;> simp at e <;> obtain ⟨-, rfl⟩ := e <;>
      simp [LuaDeathRef.reset, hw]
  · rename_i e; obtain ⟨-, rfl⟩ := luaBodyChunks_values e; exact hw
  · rename_i e; obtain ⟨-, rfl, -⟩ := luaBodyIterator_values e; exact hw
  · rename_i e
    simp only [luaTrailers] at e
    (repeat' split at e) <;> simp at e <;> obtain ⟨-, rfl⟩ := e <;> simp [hw]
  · rename_i e; simp [luaHttpCall] at e
  · rename_i w _ _ _ _ _; cases w <;> exact hw
  · rename_i w _ _ _ _; cases w <;> exact hw

theorem StreamHandleWrapper.visits_body_wrapper {seg seg1 : Seg σ}
    {h h1 : StreamHandleWrapper σ} {cb cb1 : FilterCallbacks}
    (hv : Visits seg h cb seg1 h1 cb1)
    (hw : h.body_wrapper_ = LuaDeathRef.holds true) :
    h1.body_wrapper_ = LuaDeathRef.holds true := by
  induction hv with
  | here => exact hw
  | later hs _ ih => exact ih (step_more_body_wrapper hs hw)

/-- C26: in state `WaitForBody`, with the coroutine suspended, `onData(buf, true)` hands
`buf` to `addData` once, sets `state_` to `Running`, lets `luaBody` push the body wrapper
and resumes the coroutine once with that single value.  At every point the script reaches
during the resume, `state_` is `Running`, `end_stream_` is true, the proxy side holds
what the one call of `addData` left, and the body wrapper (unless it was marked dead on
entry, which it is not on a handle marked live) resolves to the buffered body followed
by `buf`.  When `onData` has returned, `buf` has been added exactly once; a normal
return yields `Continue`, and `doData` returns `Continue` also when the script threw.
The assertions of `onData` fail only if the script reaches a call of `httpCall`. -/
theorem C26_last_frame_joins_body (h : StreamHandleWrapper σ) (cb : FilterCallbacks)
    (buf : Buffer) (susp : σ)
    (hst : h.state_ = State.WaitForBody) (hes : h.end_stream_ = false)
    (hco : h.coroutine_.state_ = .Yielded susp) :
    ∃ h3 : StreamHandleWrapper σ,
      luaBody { h with end_stream_ := true, state_ := State.Running } (cb.addData buf) =
        some (.values [Value.body], h3) ∧
      h3.state_ = State.Running ∧ h3.end_stream_ = true ∧ h3.coroutine_ = h.coroutine_ ∧
      onData h cb buf true =
        dataReturn (afterRun (run (h.coroutine_.script.resume susp [Value.body])
          (noteResume h3 [Value.body]) (cb.addData buf))) ∧
      (cb.addData buf).callbacks_.added_ = cb.callbacks_.added_ ++ [buf] ∧
      (cb.addData buf).bufferedBody = some (cb.bufferedBody.getD [] ++ buf) ∧
      (cb.addData buf).logger = cb.logger ∧
      (∀ seg2 h2 cb2,
        Visits (h.coroutine_.script.resume susp [Value.body]) (noteResume h3 [Value.body])
          (cb.addData buf) seg2 h2 cb2 →
        h2.state_ = State.Running ∧ h2.end_stream_ = true ∧
        cb2.callbacks_.added_ = cb.callbacks_.added_ ++ [buf] ∧
        cb2.bufferedBody = some (cb.bufferedBody.getD [] ++ buf) ∧
        (h.body_wrapper_ ≠ LuaDeathRef.holds false →
          bufferWrapper h2 cb2 Value.body = .live (cb.bufferedBody.getD [] ++ buf))) ∧
      (onData h cb buf true).2.2.callbacks_.added_ = cb.callbacks_.added_ ++ [buf] ∧
      (onData h cb buf true).2.1.coroutine_.resumes_ =
        h.coroutine_.resumes_ ++ [[Value.body]] ∧
      (∀ status, (onData h cb buf true).1 = .ok status →
        status = FilterDataStatus.Continue) ∧
      (∀ (f : Filter σ) (d : Direction) (h0 : StreamHandleWrapper σ)
        (x : FilterDataStatus × Filter σ),
        f.handle d = some h0 → h0.markLive = h → f.callbacks d = cb →
        f.doData d buf true = some x → x.1 = FilterDataStatus.Continue) ∧
      ((onData h cb buf true).1 = .abort →
        ∃ k h2 cb2,
          Visits (h.coroutine_.script.resume susp [Value.body]) (noteResume h3 [Value.body])
            (cb.addData buf) (Seg.httpCall k) h2 cb2) := by
  have hbb : (cb.addData buf).bufferedBody = some (cb.bufferedBody.getD [] ++ buf) := rfl
  obtain ⟨vs, h3, hb, -, hsome, hf, hs3, -⟩ :=
    luaBody_at_end { h with end_stream_ := true, state_ := State.Running }
      (cb.addData buf) rfl rfl
  obtain ⟨rfl, hlive⟩ := hsome _ hbb
  have hc3 : h3.coroutine_ = h.coroutine_ := hf.1
  have he3 : h3.end_stream_ = true := hf.2.1
  have hon : onData h cb buf true =
      dataReturn (afterRun (run (h.coroutine_.script.resume susp [Value.body])
        (noteResume h3 [Value.body]) (cb.addData buf))) := by
    simp only [onData, hes, hst]
    simp only [Bool.false_eq_true, ↓reduceIte, reduceCtorEq, Bool.and_self, decide_True]
    rw [hb]
    simp only [coroutineResume, hc3, hco]
  have hsp := run_spec (h.coroutine_.script.resume susp [Value.body])
    (noteResume h3 [Value.body]) (cb.addData buf)
  have has := afterRun_state (run (h.coroutine_.script.resume susp [Value.body])
    (noteResume h3 [Value.body]) (cb.addData buf))
  have hres := afterRun_resumes (run (h.coroutine_.script.resume susp [Value.body])
    (noteResume h3 [Value.body]) (cb.addData buf))
  have hout : ∀ status, (onData h cb buf true).1 = .ok status →
      status = FilterDataStatus.Continue := by
    intro status hs
    rw [hon] at hs
    exact ((dataReturn_status _ status).1 hs).1
  have hcbr : ∀ r : Outcome Unit × StreamHandleWrapper σ × FilterCallbacks,
      (dataReturn r).2.2 = r.2.2 := by
    intro r
    obtain ⟨o, h1, cb1⟩ := r
    cases o <;> rfl
  refine ⟨h3, hb, hs3, he3, hc3, hon, rfl, hbb, rfl, ?_, ?_, ?_, hout, ?_, ?_⟩
  · intro seg2 h2 cb2 hv
    obtain ⟨hf2, hs2, hcb2⟩ := visits_frame hv
    have hbuf2 : cb2.bufferedBody = some (cb.bufferedBody.getD [] ++ buf) := by
      simp only [FilterCallbacks.bufferedBody, hcb2]
      rfl
    refine ⟨by rw [hs2]; exact hs3, by rw [hf2.2.1]; exact he3, by rw [hcb2]; rfl, hbuf2, ?_⟩
    intro hw
    have hl3 := hlive hw
    have hw3 : h3.body_wrapper_ = LuaDeathRef.holds true := by
      simp only [bufferWrapper] at hl3
      cases hx : h3.body_wrapper_ with
      | empty => simp [hx] at hl3
      | holds live =>
        cases live with
        | false => simp [hx] at hl3
        | true => rfl
    have hw2 := visits_body_wrapper hv (by simpa [noteResume] using hw3)
    simp only [bufferWrapper, hw2, hbuf2]
  · rw [hon, hcbr, has.2.2.2, hsp.2.1]
    rfl
  · rw [hon, dataReturn_handle, hres.1, hsp.1.1]
    simp only [noteResume, hc3]
  · intro f d h0 x hh hl hc hx
    simp only [Filter.doData, hh, hl, hc] at hx
    rcases hr : onData h cb buf true with ⟨o, h1, cb1⟩
    rw [hr] at hx
    cases o with
    | ok status =>
      simp only [Filter.dataResult, Option.some.injEq] at hx
      subst hx
      exact hout status (by rw [hr])
    | luaException what =>
      simp only [Filter.dataResult, Option.some.injEq] at hx
      subst hx
      rfl
    | abort => simp [Filter.dataResult] at hx
  · intro habort
    apply run_abort _ _ _ (by simpa [noteResume] using hs3)
    rw [hon] at habort
    rcases hr : run (h.coroutine_.script.resume susp [Value.body])
      (noteResume h3 [Value.body]) (cb.addData buf) with ⟨s, h1, cb1⟩
    rw [hr] at habort
    cases s with
    | abort => rfl
    | finished => simp [afterRun, dataReturn] at habort
    | error msg => simp [afterRun, dataReturn] at habort
    | yielded susp2 site =>
      simp only [afterRun] at habort
      split at habort <;> simp [dataReturn] at habort

/-- Witness for C26: the handle of `BODY_SCRIPT`, suspended in `body()` after the headers
of a request with a body, receives the frame `hello` as the last frame of the stream. -/
theorem C26_last_frame_joins_body_witness :
    (Scripts.started Scripts.bodyScript).state_ = State.WaitForBody ∧
    (Scripts.started Scripts.bodyScript).end_stream_ = false ∧
    (Scripts.started Scripts.bodyScript).coroutine_.state_ = .Yielded 0 ∧
    (onData (Scripts.started Scripts.bodyScript) Scripts.emptyCallbacks
      Scripts.hello true).1 = .ok FilterDataStatus.Continue ∧
    (onData (Scripts.started Scripts.bodyScript) Scripts.emptyCallbacks
      Scripts.hello true).2.2.callbacks_.added_ = [Scripts.hello] ∧
    ∃ h3 : StreamHandleWrapper Nat,
      luaBody
        { (Scripts.started Scripts.bodyScript) with
          end_stream_ := true, state_ := State.Running }
        (Scripts.emptyCallbacks.addData Scripts.hello) = some (.values [Value.body], h3) ∧
      h3.state_ = State.Running ∧
      (Scripts.started Scripts.bodyScript).body_wrapper_ ≠ LuaDeathRef.holds false ∧
      bufferWrapper (noteResume h3 [Value.body])
        (Scripts.emptyCallbacks.addData Scripts.hello) Value.body = .live Scripts.hello :=
  ⟨rfl, rfl, rfl, rfl, rfl,
    (C26_last_frame_joins_body (Scripts.started Scripts.bodyScript) Scripts.emptyCallbacks
      Scripts.hello 0 rfl rfl rfl).elim
      (fun h3 hx => ⟨h3, hx.1, hx.2.1, by decide,
        (hx.2.2.2.2.2.2.2.2.1 _ _ _ (Visits.here _ _ _)).2.2.2.2 (by decide)⟩)⟩

/-- Writing twice through the same header map wrapper keeps the second map. -/
theorem StreamHandleWrapper.setHeaderMap_setHeaderMap (h : StreamHandleWrapper σ) (w : Value)
    (m1 m2 : HeaderMap) : setHeaderMap (setHeaderMap h w m1) w m2 = setHeaderMap h w m2 := by
  cases w <;> rfl

/-- A live header map wrapper resolves, after a write through it, to the map written. -/
theorem StreamHandleWrapper.headerMapWrapper_setHeaderMap (h : StreamHandleWrapper σ)
    (w : Value) (m m1 : HeaderMap) (hw : headerMapWrapper h w = .live m) :
    headerMapWrapper (setHeaderMap h w m1) w = .live m1 := by
  cases w <;> simp only [headerMapWrapper, setHeaderMap] at hw ⊢ <;>
    (repeat' split at hw) <;> simp_all

/-- Modelled `HeaderMap::get` after `HeaderMap::addCopy` of a key the map does not
hold. -/
theorem HeaderMap.get_addCopy (m : HeaderMap) (key value : String)
    (hno : ∀ e ∈ m.entries, e.1 ≠ key) : (m.addCopy key value).get key = some value := by
  have hnone : m.entries.find? (fun e => e.1 == key) = none := by
    rw [List.find?_eq_none]
    intro e he
    simpa using hno e he
  simp [HeaderMap.get, HeaderMap.addCopy, List.find?_append, hnone]

/-- Modelled `HeaderMap::remove` twice is `HeaderMap::remove` once. -/
theorem HeaderMap.remove_remove (m : HeaderMap) (key : String) :
    (m.remove key).remove key = m.remove key := by
  simp [HeaderMap.remove, List.filter_filter]

/-- C27: for every integer `level` and string `message`, `luaLog` is the one call
`scriptLog(level, message)`: the logger receives exactly that entry after what it had
received, and the proxy side of the callbacks is untouched.  As a script action on a
live handle, `log(level, message)` passes no value to the rest of the script and leaves
the handle, with `state_`, `end_stream_` and `trailers_`, as it was. -/
theorem C27_log_calls_scriptLog (h : StreamHandleWrapper σ) (cb : FilterCallbacks)
    (level : Int) (message : String) (k : Seg σ) (hl : h.live_ = true) :
    luaLog cb level message = cb.scriptLog level message ∧
    (luaLog cb level message).logger = cb.logger ++ [(level, message)] ∧
    (luaLog cb level message).callbacks_ = cb.callbacks_ ∧
    step (Seg.log level message k) h cb = .more k h (luaLog cb level message) ∧
    run (Seg.log level message k) h cb = run k h (luaLog cb level message) ∧
    (∀ seg1 h1 cb1, step (Seg.log level message k) h cb = .more seg1 h1 cb1 →
      seg1 = k ∧ h1 = h ∧ h1.state_ = h.state_ ∧ h1.end_stream_ = h.end_stream_ ∧
      h1.trailers_ = h.trailers_ ∧ cb1.logger = cb.logger ++ [(level, message)]) := by
  have hs : step (Seg.log level message k) h cb = .more k h (luaLog cb level message) := by
    simp [step, hl]
  refine ⟨rfl, rfl, rfl, hs, ?_, ?_⟩
  · rw [run_eq_step, hs]
  · intro seg1 h1 cb1 e
    rw [hs] at e
    cases e
    exact ⟨rfl, rfl, rfl, rfl, rfl, rfl⟩

/-- Witness for C27: a new handle logs `hello` at level 3. -/
theorem C27_log_calls_scriptLog_witness :
    (Scripts.newHandle Scripts.bodyScript).live_ = true ∧
    run (Seg.log 3 "hello" Seg.ret) (Scripts.newHandle Scripts.bodyScript)
        Scripts.emptyCallbacks =
      (.finished, Scripts.newHandle Scripts.bodyScript,
        { Scripts.emptyCallbacks with logger := [(3, "hello")] }) :=
  ⟨rfl, (C27_log_calls_scriptLog (Scripts.newHandle Scripts.bodyScript)
    Scripts.emptyCallbacks 3 "hello" Seg.ret rfl).2.2.2.2.1⟩

/-- C28: `luaByteSize` yields the length of the wrapped buffer, for every buffer.  As a
script action on a live buffer wrapper, `byteSize()` passes exactly that one value to
the rest of the script and leaves the handle and the callbacks, hence the buffer the
wrapper stands for, as they were; `byteSize` is the only exported method of
`BufferWrapper`. -/
theorem C28_byteSize (h : StreamHandleWrapper σ) (cb : FilterCallbacks) (w : Value)
    (data : Buffer) (k : Nat → Seg σ) (hw : bufferWrapper h cb w = .live data) :
    luaByteSize data = data.length ∧
    step (Seg.byteSize w k) h cb = .more (k data.length) h cb ∧
    run (Seg.byteSize w k) h cb = run (k data.length) h cb ∧
    (∀ seg1 h1 cb1, step (Seg.byteSize w k) h cb = .more seg1 h1 cb1 →
      seg1 = k data.length ∧ h1 = h ∧ cb1 = cb ∧ bufferWrapper h1 cb1 w = .live data) ∧
    BufferWrapper.exportedFunctions = ["byteSize"] := by
  have hs : step (Seg.byteSize w k) h cb = .more (k data.length) h cb := by
    simp only [step, hw, luaByteSize]
  refine ⟨rfl, hs, ?_, ?_, rfl⟩
  · rw [run_eq_step, hs]
  · intro seg1 h1 cb1 e
    rw [hs] at e
    cases e
    exact ⟨rfl, rfl, rfl, hw⟩

/-- Witness for C28: the body wrapper of a headers-only request over the buffered frame
`hello`. -/
theorem C28_byteSize_witness :
    bufferWrapper
      { (Scripts.headersOnlyHandle Scripts.bodyScript) with
        body_wrapper_ := LuaDeathRef.holds true }
      Scripts.bufferedCallbacks Value.body = .live Scripts.hello ∧
    run (Seg.byteSize Value.body (fun n => Seg.log 0 (toString n) Seg.ret))
        { (Scripts.headersOnlyHandle Scripts.bodyScript) with
          body_wrapper_ := LuaDeathRef.holds true }
        Scripts.bufferedCallbacks =
      run (Seg.log 0 (toString Scripts.hello.length) Seg.ret)
        { (Scripts.headersOnlyHandle Scripts.bodyScript) with
          body_wrapper_ := LuaDeathRef.holds true }
        Scripts.bufferedCallbacks :=
  ⟨rfl, (C28_byteSize
    { (Scripts.headersOnlyHandle Scripts.bodyScript) with
      body_wrapper_ := LuaDeathRef.holds true }
    Scripts.bufferedCallbacks Value.body Scripts.hello
    (fun n => Seg.log 0 (toString n) Seg.ret) rfl).2.2.1⟩

/-- C29: the round trip of the modelled `HeaderMapWrapper`: on a map that holds no entry
under the lower-cased name, `get(name)` after `add(name, value)` yields `value`.  As
script actions on a live header map wrapper: `add` followed by `get` hands `value` to
the rest of the script. -/
theorem C29_add_then_get (m : HeaderMap) (name value : String)
    (hno : ∀ e ∈ m.entries, e.1 ≠ LowerCaseString name) :
    luaGet (luaAdd m name value) name = some value ∧
    (∀ (h : StreamHandleWrapper σ) (cb : FilterCallbacks) (w : Value)
      (k : Option String → Seg σ),
      headerMapWrapper h w = .live m →
      run (Seg.headerAdd w name value (Seg.headerGet w name k)) h cb =
        run (k (some value)) (setHeaderMap h w (luaAdd m name value)) cb) := by
  have hg : luaGet (luaAdd m name value) name = some value :=
    HeaderMap.get_addCopy m (LowerCaseString name) value hno
  refine ⟨hg, ?_⟩
  intro h cb w k hw
  have hw1 := headerMapWrapper_setHeaderMap h w m (luaAdd m name value) hw
  rw [run_eq_step]
  simp only [step, hw]
  rw [run_eq_step]
  simp only [step, hw1, hg]

/-- Witness for C29: the request headers of the unit tests, the header
`request_body_size` and the value `10`. -/
theorem C29_add_then_get_witness :
    (∀ e ∈ Scripts.requestHeaders.entries, e.1 ≠ LowerCaseString "request_body_size") ∧
    luaGet (luaAdd Scripts.requestHeaders "request_body_size" "10") "request_body_size" =
      some "10" :=
  ⟨by decide,
    (C29_add_then_get (σ := Nat) Scripts.requestHeaders "request_body_size" "10"
      (by decide)).1⟩

/-- C30: `remove` of the modelled `HeaderMapWrapper` is idempotent: for every map and
name, removing twice leaves the map that removing once leaves.  As script actions on any
header map wrapper, two calls of `remove(name)` in a row run as one call does. -/
theorem C30_remove_idempotent (m : HeaderMap) (name : String) :
    luaRemove (luaRemove m name) name = luaRemove m name ∧
    (∀ (h : StreamHandleWrapper σ) (cb : FilterCallbacks) (w : Value) (k : Seg σ),
      run (Seg.headerRemove w name (Seg.headerRemove w name k)) h cb =
        run (Seg.headerRemove w name k) h cb) := by
  have hidem : ∀ m1 : HeaderMap, luaRemove (luaRemove m1 name) name = luaRemove m1 name :=
    fun m1 => HeaderMap.remove_remove m1 (LowerCaseString name)
  refine ⟨hidem m, ?_⟩
  intro h cb w k
  cases hw : headerMapWrapper h w with
  | missing =>
    rw [run_eq_step, run_eq_step (Seg.headerRemove w name k)]
    simp only [step, hw]
  | dead =>
    rw [run_eq_step, run_eq_step (Seg.headerRemove w name k)]
    simp only [step, hw]
  | live m1 =>
    have hw1 := headerMapWrapper_setHeaderMap h w m1 (luaRemove m1 name) hw
    rw [run_eq_step, run_eq_step (Seg.headerRemove w name k)]
    simp only [step, hw]
    rw [run_eq_step]
    simp only [step, hw1, setHeaderMap_setHeaderMap, hidem]

/-- Modelled `HeaderMap::get` of a key after `HeaderMap::remove` of that key. -/
theorem HeaderMap.get_remove (m : HeaderMap) (key : String) :
    (m.remove key).get key = none := by
  simp only [HeaderMap.get, HeaderMap.remove, Option.map_eq_none', List.find?_eq_none]
  intro e he
  have := (List.mem_filter.1 he).2
  simpa using this

/-- Modelled `HeaderMap::remove` keeps the entries under every other key, in order. -/
theorem HeaderMap.filter_remove (m : HeaderMap) (key other : String) (hne : other ≠ key) :
    (m.remove key).entries.filter (fun e => e.1 == other) =
      m.entries.filter (fun e => e.1 == other) := by
  simp only [HeaderMap.remove, List.filter_filter]
  congr 1
  funext e
  by_cases h1 : e.1 = other
  · have : e.1 ≠ key := by rw [h1]; exact hne
    simp [h1, hne]
  · simp [h1]

/-- Modelled `HeaderMap::get` of another key is not changed by `HeaderMap::remove`. -/
theorem HeaderMap.get_remove_ne (m : HeaderMap) (key other : String) (hne : other ≠ key) :
    (m.remove key).get other = m.get other := by
  obtain ⟨entries⟩ := m
  simp only [HeaderMap.get, HeaderMap.remove]
  congr 1
  induction entries with
  | nil => rfl
  | cons e rest ih =>
    by_cases h1 : e.1 = other
    · have h2 : e.1 ≠ key := by rw [h1]; exact hne
      simp [List.filter_cons, h1, hne]
    · by_cases h2 : e.1 = key
      · simp only [List.filter_cons, h2, bne_self_eq_false, Bool.false_eq_true, ↓reduceIte]
        rw [ih, List.find?_cons]
        have : (e.1 == other) = false := by simpa using h1
        rw [this]
      · have h3 : (e.1 != key) = true := by simpa using h2
        have h4 : (e.1 == other) = false := by simpa using h1
        simp only [List.filter_cons, h3, ↓reduceIte, List.find?_cons, h4]
        exact ih

/-- C31: after `remove(name)` of the modelled `HeaderMapWrapper` no entry under the
lower-cased name remains and `get(name)` returns nil; for every name that differs after
lower-casing, the entries under it are the same, in the same order, and `get` returns
what it returned before.  As script actions on a live header map wrapper, `remove`
followed by `get` of the same name hands nil to the rest of the script. -/
theorem C31_remove_then_get (m : HeaderMap) (name : String) :
    luaGet (luaRemove m name) name = none ∧
    (∀ e ∈ (luaRemove m name).entries, e.1 ≠ LowerCaseString name) ∧
    (∀ e ∈ m.entries, e.1 ≠ LowerCaseString name → e ∈ (luaRemove m name).entries) ∧
    (∀ other, LowerCaseString other ≠ LowerCaseString name →
      (luaRemove m name).entries.filter (fun e => e.1 == LowerCaseString other) =
        m.entries.filter (fun e => e.1 == LowerCaseString other) ∧
      luaGet (luaRemove m name) other = luaGet m other) ∧
    (∀ (h : StreamHandleWrapper σ) (cb : FilterCallbacks) (w : Value)
      (k : Option String → Seg σ),
      headerMapWrapper h w = .live m →
      run (Seg.headerRemove w name (Seg.headerGet w name k)) h cb =
        run (k none) (setHeaderMap h w (luaRemove m name)) cb) := by
  have hg : luaGet (luaRemove m name) name = none :=
    HeaderMap.get_remove m (LowerCaseString name)
  refine ⟨hg, ?_, ?_, ?_, ?_⟩
  · intro e he
    have := (List.mem_filter.1 he).2
    simpa using this
  · intro e he hne
    exact List.mem_filter.2 ⟨he, by simpa using hne⟩
  · intro other hne
    exact ⟨HeaderMap.filter_remove m _ _ hne, HeaderMap.get_remove_ne m _ _ hne⟩
  · intro h cb w k hw
    have hw1 := headerMapWrapper_setHeaderMap h w m (luaRemove m name) hw
    rw [run_eq_step]
    simp only [step, hw]
    rw [run_eq_step]
    simp only [step, hw1, hg]

/-- Witness for C31: the response headers of the integration test, from which the script
removes `foo`. -/
theorem C31_remove_then_get_witness :
    LowerCaseString ":status" ≠ LowerCaseString "foo" ∧
    luaGet (luaRemove { entries := [(":status", "200"), ("foo", "bar")] } "foo") "foo" =
      none ∧
    luaGet (luaRemove { entries := [(":status", "200"), ("foo", "bar")] } "foo") ":status" =
      luaGet { entries := [(":status", "200"), ("foo", "bar")] } ":status" :=
  ⟨by decide,
    (C31_remove_then_get (σ := Nat)
      { entries := [(":status", "200"), ("foo", "bar")] } "foo").1,
    ((C31_remove_then_get (σ := Nat)
      { entries := [(":status", "200"), ("foo", "bar")] } "foo").2.2.2.1 ":status"
      (by decide)).2⟩

/-- C32 (evaluation at the failing input): the script asks for the body chunks, so the
request headers event returns `Continue` and the headers are released.  Resumed by the
data frame `hello`, the script calls `add("late", "1")` and `remove(":path")` on the
headers wrapper.  Neither call raises a script error: the data event returns `Continue`,
nothing is logged, the handle is kept, and the header map has changed from
`:path: /` to `late: 1`. -/
theorem C32_headers_changed_after_release :
    Scripts.lateHeadersHeaders.map (fun r => (r.1, r.2.log_)) =
      some (FilterHeadersStatus.Continue, []) ∧
    (Scripts.lateHeadersHeaders.bind (fun r => r.2.request_stream_wrapper_)).map
      (fun h => h.headers_) = some Scripts.requestHeaders ∧
    Scripts.lateHeadersData.map (fun r => (r.1, r.2.log_)) =
      some (FilterDataStatus.Continue, []) ∧
    (Scripts.lateHeadersData.bind (fun r => r.2.request_stream_wrapper_)).map
      (fun h => h.headers_) = some { entries := [("late", "1")] } := by
  decide

/-- Handling a script error changes the log and the two handle references of the filter,
nothing else. -/
theorem Filter.handleScriptError_frame (f : Filter σ) (what : String) :
    (f.handleScriptError what).config_ = f.config_ ∧
    (f.handleScriptError what).decoder_callbacks_ = f.decoder_callbacks_ ∧
    (f.handleScriptError what).encoder_callbacks_ = f.encoder_callbacks_ ∧
    (f.handleScriptError what).log_ = f.log_ ++ [(2, what)] ∧
    (f.handleScriptError what).request_stream_wrapper_ = none ∧
    (f.handleScriptError what).response_stream_wrapper_ = none :=
  ⟨rfl, rfl, rfl, rfl, rfl, rfl⟩

theorem Filter.config_handleScriptError (f : Filter σ) (what : String) :
    (f.handleScriptError what).config_ = f.config_ := rfl

/-- No entry point of the filter changes the configuration the filter refers to, however
the script ends. -/
theorem Filter.config_step (f : Filter σ) (d : Direction) :
    (∀ function_ref headers end_stream r,
      f.doHeaders d function_ref headers end_stream = some r → r.2.config_ = f.config_) ∧
    (∀ data end_stream r, f.doData d data end_stream = some r → r.2.config_ = f.config_) ∧
    (∀ tr r, f.doTrailers d tr = some r → r.2.config_ = f.config_) := by
  refine ⟨?_, ?_, ?_⟩
  · intro function_ref headers end_stream r hr
    simp only [Filter.doHeaders] at hr
    split at hr
    · cases hr; rfl
    · rcases hs : StreamHandleWrapper.start
        (StreamHandleWrapper.create f.config_.createCoroutine headers end_stream)
        (f.callbacks d) function_ref with ⟨o, h1, cb1⟩
      rw [hs] at hr
      cases o <;> simp only [Filter.headersResult, Option.some.injEq] at hr
      · subst hr
        simp only [Filter.config_setHandle, Filter.config_withCallbacks]
      · subst hr
        simp only [Filter.config_handleScriptError, Filter.config_setHandle,
          Filter.config_withCallbacks]
      · cases hr
  · intro data end_stream r hr
    simp only [Filter.doData] at hr
    split at hr
    · rename_i h0 hh0
      rcases hs : StreamHandleWrapper.onData h0.markLive (f.callbacks d) data end_stream
        with ⟨o, h1, cb1⟩
      rw [hs] at hr
      cases o <;> simp only [Filter.dataResult, Option.some.injEq] at hr
      · subst hr
        simp only [Filter.config_setHandle, Filter.config_withCallbacks]
      · subst hr
        simp only [Filter.config_handleScriptError, Filter.config_setHandle,
          Filter.config_withCallbacks]
      · cases hr
    · cases hr; rfl
  · intro tr r hr
    simp only [Filter.doTrailers] at hr
    split at hr
    · rename_i h0 hh0
      rcases hs : StreamHandleWrapper.onTrailers h0.markLive (f.callbacks d) tr
        with ⟨o, h1, cb1⟩
      rw [hs] at hr
      cases o <;> simp only [Filter.trailersResult, Option.some.injEq] at hr
      · subst hr
        simp only [Filter.config_setHandle, Filter.config_withCallbacks]
      · subst hr
        simp only [Filter.config_handleScriptError, Filter.config_setHandle,
          Filter.config_withCallbacks]
      · cases hr
    · cases hr; rfl

/-- No script action that lets the script go on empties one of the three cached wrapper
references. -/
theorem StreamHandleWrapper.step_more_get {seg seg1 : Seg σ} {h h1 : StreamHandleWrapper σ}
    {cb cb1 : FilterCallbacks} (hs : step seg h cb = .more seg1 h1 cb1) :
    (h.headers_wrapper_.get = true → h1.headers_wrapper_.get = true) ∧
    (h.body_wrapper_.get = true → h1.body_wrapper_.get = true) ∧
    (h.trailers_wrapper_.get = true → h1.trailers_wrapper_.get = true) := by
  cases seg <;> simp only [step] at hs <;> (repeat' split at hs) <;> cases hs <;>
    (try exact ⟨id, id, id⟩)
  · simp only [luaHeaders]
    split <;> simp [LuaDeathRef.reset, LuaDeathRef.get]
  · rename_i e
    simp only [luaBody] at e
    (repeat' split at e) <;> simp at e <;> obtain ⟨-, rfl⟩ := e <;>
      simp [LuaDeathRef.reset, LuaDeathRef.get]
  · rename_i e; obtain ⟨-, rfl⟩ := luaBodyChunks_values e; exact ⟨id, id, id⟩
  · rename_i e; obtain ⟨-, rfl, -⟩ := luaBodyIterator_values e; exact ⟨id, id, id⟩
  · rename_i e
    simp only [luaTrailers] at e
    (repeat' split at e) <;> simp at e <;> obtain ⟨-, rfl⟩ := e <;>
      simp [LuaDeathRef.reset, LuaDeathRef.get]
  · rename_i e; simp [luaHttpCall] at e
  · rename_i w _ _ _ _ _; cases w <;> exact ⟨id, id, id⟩
  · rename_i w _ _ _ _; cases w <;> exact ⟨id, id, id⟩

/-- The script action at which a run segment stops leaves the three cached wrapper
references as they were. -/
theorem StreamHandleWrapper.step_stop_wrappers {seg : Seg σ} {s : Stop σ}
    {h h1 : StreamHandleWrapper σ} {cb cb1 : FilterCallbacks}
    (hs : step seg h cb = .stop s h1 cb1) :
    h1.headers_wrapper_ = h.headers_wrapper_ ∧ h1.body_wrapper_ = h.body_wrapper_ ∧
    h1.trailers_wrapper_ = h.trailers_wrapper_ := by
  cases seg <;> simp only [step] at hs <;> (repeat' split at hs) <;> cases hs <;>
    (try exact ⟨rfl, rfl, rfl⟩)
  · rename_i e
    simp only [luaBody] at e
    (repeat' split at e) <;> simp at e
    obtain ⟨rfl⟩ := e
    exact ⟨rfl, rfl, rfl⟩
  · rename_i e
    simp only [luaBodyIterator] at e
    (repeat' split at e) <;> simp at e
    obtain ⟨rfl⟩ := e
    exact ⟨rfl, rfl, rfl⟩
  · rename_i e
    simp only [luaTrailers] at e
    (repeat' split at e) <;> simp at e
    obtain ⟨rfl⟩ := e
    exact ⟨rfl, rfl, rfl⟩

theorem StreamHandleWrapper.luaBody_get {h h1 : StreamHandleWrapper σ} {cb : FilterCallbacks}
    {r : LuaRet} (e : luaBody h cb = some (r, h1)) :
    (h.headers_wrapper_.get = true → h1.headers_wrapper_.get = true) ∧
    (h.body_wrapper_.get = true → h1.body_wrapper_.get = true) ∧
    (h.trailers_wrapper_.get = true → h1.trailers_wrapper_.get = true) := by
  simp only [luaBody] at e
  (repeat' split at e) <;> simp at e <;> obtain ⟨-, rfl⟩ := e <;>
    simp [LuaDeathRef.reset, LuaDeathRef.get]

theorem StreamHandleWrapper.luaTrailers_get {h h1 : StreamHandleWrapper σ}
    {r : LuaRet} (e : luaTrailers h = some (r, h1)) :
    (h.headers_wrapper_.get = true → h1.headers_wrapper_.get = true) ∧
    (h.body_wrapper_.get = true → h1.body_wrapper_.get = true) ∧
    (h.trailers_wrapper_.get = true → h1.trailers_wrapper_.get = true) := by
  simp only [luaTrailers] at e
  (repeat' split at e) <;> simp at e <;> obtain ⟨-, rfl⟩ := e <;>
    simp [LuaDeathRef.reset, LuaDeathRef.get]

/-- A wrapper reference that holds a wrapper when a run segment begins holds one at every
point the run reaches. -/
theorem StreamHandleWrapper.visits_get {seg seg1 : Seg σ} {h h1 : StreamHandleWrapper σ}
    {cb cb1 : FilterCallbacks} (hv : Visits seg h cb seg1 h1 cb1) :
    (h.headers_wrapper_.get = true → h1.headers_wrapper_.get = true) ∧
    (h.body_wrapper_.get = true → h1.body_wrapper_.get = true) ∧
    (h.trailers_wrapper_.get = true → h1.trailers_wrapper_.get = true) := by
  induction hv with
  | here => exact ⟨id, id, id⟩
  | later hs _ ih =>
    obtain ⟨a1, a2, a3⟩ := step_more_get hs
    exact ⟨fun x => ih.1 (a1 x), fun x => ih.2.1 (a2 x), fun x => ih.2.2 (a3 x)⟩

/-- A wrapper reference that holds a wrapper when a run segment begins holds one when the
run stops. -/
theorem StreamHandleWrapper.run_get (seg : Seg σ) (h : StreamHandleWrapper σ)
    (cb : FilterCallbacks) :
    (h.headers_wrapper_.get = true → (run seg h cb).2.1.headers_wrapper_.get = true) ∧
    (h.body_wrapper_.get = true → (run seg h cb).2.1.body_wrapper_.get = true) ∧
    (h.trailers_wrapper_.get = true → (run seg h cb).2.1.trailers_wrapper_.get = true) := by
  obtain ⟨seg1, h1, cb1, hv, hst⟩ := run_visits seg h cb
  obtain ⟨a1, a2, a3⟩ := visits_get hv
  obtain ⟨e1, e2, e3⟩ := step_stop_wrappers hst
  rw [e1, e2, e3]
  exact ⟨a1, a2, a3⟩

theorem StreamHandleWrapper.coroutineResume_get (h : StreamHandleWrapper σ)
    (cb : FilterCallbacks) (vs : List Value) :
    (h.headers_wrapper_.get = true →
      (coroutineResume h cb vs).2.1.headers_wrapper_.get = true) ∧
    (h.body_wrapper_.get = true → (coroutineResume h cb vs).2.1.body_wrapper_.get = true) ∧
    (h.trailers_wrapper_.get = true →
      (coroutineResume h cb vs).2.1.trailers_wrapper_.get = true) := by
  unfold coroutineResume
  cases hc : h.coroutine_.state_ with
  | NotStarted => exact ⟨id, id, id⟩
  | Finished => exact ⟨id, id, id⟩
  | Yielded susp =>
    simp only
    rw [(afterRun_live _).2.2.2.1, (afterRun_live _).2.2.2.2.1, (afterRun_live _).2.2.2.2.2]
    exact run_get _ (noteResume h vs) cb

theorem StreamHandleWrapper.start_get (h : StreamHandleWrapper σ)
    (cb : FilterCallbacks) (function_ref : Int) :
    (h.headers_wrapper_.get = true →
      (start h cb function_ref).2.1.headers_wrapper_.get = true) ∧
    (h.body_wrapper_.get = true → (start h cb function_ref).2.1.body_wrapper_.get = true) ∧
    (h.trailers_wrapper_.get = true →
      (start h cb function_ref).2.1.trailers_wrapper_.get = true) := by
  have hcs : (h.headers_wrapper_.get = true →
        (coroutineStart h cb function_ref).2.1.headers_wrapper_.get = true) ∧
      (h.body_wrapper_.get = true →
        (coroutineStart h cb function_ref).2.1.body_wrapper_.get = true) ∧
      (h.trailers_wrapper_.get = true →
        (coroutineStart h cb function_ref).2.1.trailers_wrapper_.get = true) := by
    unfold coroutineStart
    cases hc : h.coroutine_.state_ <;>
      cases hf : h.coroutine_.script.function function_ref <;> simp only <;>
      (first | exact ⟨id, id, id⟩ | skip)
    rw [(afterRun_live _).2.2.2.1, (afterRun_live _).2.2.2.2.1, (afterRun_live _).2.2.2.2.2]
    exact run_get _ (noteResume h [Value.handle]) cb
  unfold start
  rcases hr : coroutineStart h cb function_ref with ⟨o, h1, cb1⟩
  rw [hr] at hcs
  cases o <;> exact hcs

theorem StreamHandleWrapper.chunkReturn_wrappers
    (r : Outcome Unit × StreamHandleWrapper σ × FilterCallbacks) :
    (chunkReturn r).2.1.headers_wrapper_ = r.2.1.headers_wrapper_ ∧
    (chunkReturn r).2.1.body_wrapper_ = r.2.1.body_wrapper_ ∧
    (chunkReturn r).2.1.trailers_wrapper_ = r.2.1.trailers_wrapper_ := by
  obtain ⟨o, h, cb⟩ := r
  cases o <;> exact ⟨rfl, rfl, rfl⟩

theorem StreamHandleWrapper.onData_get (h : StreamHandleWrapper σ) (cb : FilterCallbacks)
    (data : Buffer) (end_stream : Bool) :
    (h.headers_wrapper_.get = true →
      (onData h cb data end_stream).2.1.headers_wrapper_.get = true) ∧
    (h.body_wrapper_.get = true →
      (onData h cb data end_stream).2.1.body_wrapper_.get = true) ∧
    (h.trailers_wrapper_.get = true →
      (onData h cb data end_stream).2.1.trailers_wrapper_.get = true) := by
  unfold onData
  by_cases hes : h.end_stream_ = true
  · simp only [hes, ↓reduceIte]
    exact ⟨id, id, id⟩
  · simp only [hes, Bool.false_eq_true, ↓reduceIte]
    split
    · rw [(chunkReturn_wrappers _).1, (chunkReturn_wrappers _).2.1,
        (chunkReturn_wrappers _).2.2]
      exact ⟨fun x => (coroutineResume_get _ cb _).1 x,
        fun x => (coroutineResume_get _ cb _).2.1 x,
        fun x => (coroutineResume_get _ cb _).2.2 x⟩
    · split
      · split
        · rename_i vs h3 e
          obtain ⟨b1, b2, b3⟩ := luaBody_get e
          rw [dataReturn_handle]
          obtain ⟨c1, c2, c3⟩ := coroutineResume_get h3 (cb.addData data) vs
          exact ⟨fun x => c1 (b1 x), fun x => c2 (b2 x), fun x => c3 (b3 x)⟩
        · exact ⟨id, id, id⟩
      · split
        · exact ⟨id, id, id⟩
        · split
          · rw [dataReturn_handle]
            exact ⟨fun x => (coroutineResume_get _ cb _).1 x,
        fun x => (coroutineResume_get _ cb _).2.1 x,
        fun x => (coroutineResume_get _ cb _).2.2 x⟩
          · exact ⟨id, id, id⟩

theorem StreamHandleWrapper.onTrailers_get (h : StreamHandleWrapper σ)
    (cb : FilterCallbacks) (tr : HeaderMap) :
    (h.headers_wrapper_.get = true → (onTrailers h cb tr).2.1.headers_wrapper_.get = true) ∧
    (h.body_wrapper_.get = true → (onTrailers h cb tr).2.1.body_wrapper_.get = true) ∧
    (h.trailers_wrapper_.get = true →
      (onTrailers h cb tr).2.1.trailers_wrapper_.get = true) := by
  by_cases hes : h.end_stream_ = true
  · rw [onTrailers_after_end h cb tr hes]
    exact ⟨id, id, id⟩
  · simp only [Bool.not_eq_true] at hes
    cases hst : h.state_ with
    | Running =>
      simp only [onTrailers, onTrailersBody, onTrailersTrailers, hst, hes]
      simp only [Bool.false_eq_true, ↓reduceIte, reduceCtorEq]
      exact ⟨id, id, id⟩
    | WaitForBodyChunk =>
      rw [onTrailers_waitForBodyChunk h cb tr hst hes]
      exact ⟨fun x => (coroutineResume_get _ cb _).1 x,
        fun x => (coroutineResume_get _ cb _).2.1 x,
        fun x => (coroutineResume_get _ cb _).2.2 x⟩
    | WaitForBody =>
      obtain ⟨vs, h1, hb, -, -, -, -, -, -, hon⟩ := onTrailers_waitForBody h cb tr hst hes
      obtain ⟨b1, b2, b3⟩ := luaBody_get hb
      obtain ⟨c1, c2, c3⟩ := coroutineResume_get h1 cb vs
      rw [hon]
      exact ⟨fun x => c1 (b1 x), fun x => c2 (b2 x), fun x => c3 (b3 x)⟩
    | WaitForTrailers =>
      obtain ⟨h1, e1, -, -, -⟩ := luaTrailers_recorded
        { h with end_stream_ := true, trailers_ := some tr, state_ := State.Running } rfl rfl
      have hon : onTrailers h cb tr = coroutineResume h1 cb [Value.trailers] := by
        simp only [onTrailers, hes, onTrailersBody, hst, onTrailersTrailers]
        simp only [Bool.false_eq_true, ↓reduceIte, reduceCtorEq]
        rw [e1]
      obtain ⟨b1, b2, b3⟩ := luaTrailers_get e1
      obtain ⟨c1, c2, c3⟩ := coroutineResume_get h1 cb [Value.trailers]
      rw [hon]
      exact ⟨fun x => c1 (b1 x), fun x => c2 (b2 x), fun x => c3 (b3 x)⟩

/-- A wrapper reference that holds a wrapper before a call of an entry point holds one
after it. -/
theorem StreamHandleWrapper.call_get (h : StreamHandleWrapper σ) (cb : FilterCallbacks)
    (c : Call) :
    (h.headers_wrapper_.get = true → (call h cb c).2.1.headers_wrapper_.get = true) ∧
    (h.body_wrapper_.get = true → (call h cb c).2.1.body_wrapper_.get = true) ∧
    (h.trailers_wrapper_.get = true → (call h cb c).2.1.trailers_wrapper_.get = true) := by
  cases c with
  | start function_ref =>
    rw [call_start]
    exact start_get h cb function_ref
  | onData data end_stream =>
    have hc : (call h cb (.onData data end_stream)).2.1 = (onData h cb data end_stream).2.1 := by
      simp only [call]
      rcases onData h cb data end_stream with ⟨o, h1, cb1⟩
      cases o <;> rfl
    rw [hc]
    exact onData_get h cb data end_stream
  | onTrailers tr =>
    simp only [call]
    exact onTrailers_get h cb tr

theorem StreamHandleWrapper.markDead_get (h : StreamHandleWrapper σ) :
    h.markDead.headers_wrapper_.get = h.headers_wrapper_.get ∧
    h.markDead.body_wrapper_.get = h.body_wrapper_.get ∧
    h.markDead.trailers_wrapper_.get = h.trailers_wrapper_.get ∧
    h.markLive.headers_wrapper_.get = h.headers_wrapper_.get ∧
    h.markLive.body_wrapper_.get = h.body_wrapper_.get ∧
    h.markLive.trailers_wrapper_.get = h.trailers_wrapper_.get := by
  simp only [markDead, onMarkDead, markLive, onMarkLive]
  cases h.headers_wrapper_ <;> cases h.body_wrapper_ <;> cases h.trailers_wrapper_ <;>
    simp [LuaDeathRef.markDead, LuaDeathRef.markLive, LuaDeathRef.get]

/-- C34: the three sub-wrappers are created at most once per handle.  `headers()` always
pushes exactly one value, the headers wrapper, and leaves `state_` as it was; as a script
action on a live handle it lets the script go on.  When the reference holds no wrapper
the call creates one, otherwise it pushes the cached one and leaves the handle as it
was; after the call the reference holds a wrapper, so a second call changes nothing.
The same holds for `body()` in state `Running` at the end of the stream with a buffered
body, and for `trailers()` in state `Running` with trailers recorded.  A reference that
holds a wrapper holds one at every point a run of the script reaches, after every call
of an entry point, and after `markDead` and `markLive`: no later call creates a second
wrapper. -/
theorem C34_wrappers_cached (h : StreamHandleWrapper σ) (cb : FilterCallbacks) :
    ((luaHeaders h).1 = [Value.headers] ∧ (luaHeaders h).2.state_ = h.state_ ∧
      (luaHeaders h).2.headers_wrapper_.get = true ∧
      (h.headers_wrapper_.get = true → (luaHeaders h).2 = h) ∧
      (h.headers_wrapper_.get = false →
        (luaHeaders h).2 = { h with headers_wrapper_ := LuaDeathRef.holds true }) ∧
      luaHeaders (luaHeaders h).2 = ([Value.headers], (luaHeaders h).2)) ∧
    (h.live_ = true → ∀ k : List Value → Seg σ,
      step (Seg.headers k) h cb = .more (k [Value.headers]) (luaHeaders h).2 cb) ∧
    (h.state_ = State.Running → h.end_stream_ = true → ∀ b, cb.bufferedBody = some b →
      ∃ h1, luaBody h cb = some (.values [Value.body], h1) ∧
        h1.body_wrapper_.get = true ∧
        (h.body_wrapper_.get = true → h1 = h) ∧
        (h.body_wrapper_.get = false →
          h1 = { h with body_wrapper_ := LuaDeathRef.holds true }) ∧
        luaBody h1 cb = some (.values [Value.body], h1)) ∧
    (h.state_ = State.Running → h.trailers_.isSome = true →
      ∃ h1, luaTrailers h = some (.values [Value.trailers], h1) ∧
        h1.trailers_wrapper_.get = true ∧
        (h.trailers_wrapper_.get = true → h1 = h) ∧
        (h.trailers_wrapper_.get = false →
          h1 = { h with trailers_wrapper_ := LuaDeathRef.holds true }) ∧
        luaTrailers h1 = some (.values [Value.trailers], h1)) ∧
    (∀ seg seg1 h1 cb1, Visits seg h cb seg1 h1 cb1 →
      (h.headers_wrapper_.get = true → h1.headers_wrapper_.get = true) ∧
      (h.body_wrapper_.get = true → h1.body_wrapper_.get = true) ∧
      (h.trailers_wrapper_.get = true → h1.trailers_wrapper_.get = true)) ∧
    (∀ c,
      (h.headers_wrapper_.get = true → (call h cb c).2.1.headers_wrapper_.get = true) ∧
      (h.body_wrapper_.get = true → (call h cb c).2.1.body_wrapper_.get = true) ∧
      (h.trailers_wrapper_.get = true → (call h cb c).2.1.trailers_wrapper_.get = true)) ∧
    (h.markDead.headers_wrapper_.get = h.headers_wrapper_.get ∧
      h.markDead.body_wrapper_.get = h.body_wrapper_.get ∧
      h.markDead.trailers_wrapper_.get = h.trailers_wrapper_.get ∧
      h.markLive.headers_wrapper_.get = h.headers_wrapper_.get ∧
      h.markLive.body_wrapper_.get = h.body_wrapper_.get ∧
      h.markLive.trailers_wrapper_.get = h.trailers_wrapper_.get) := by
  refine ⟨?_, ?_, ?_, ?_, ?_, ?_, markDead_get h⟩
  · cases hw : h.headers_wrapper_ with
    | empty => simp [luaHeaders, hw, LuaDeathRef.get, LuaDeathRef.reset]
    | holds live => simp [luaHeaders, hw, LuaDeathRef.get]
  · intro hl k
    simp only [step, hl, ↓reduceIte, (luaHeaders_values h).1]
  · intro hrun hes b hb
    cases hw : h.body_wrapper_ with
    | empty =>
      refine ⟨{ h with body_wrapper_ := LuaDeathRef.holds true }, ?_, ?_, ?_, ?_, ?_⟩ <;>
        simp [luaBody, hrun, hes, hb, hw, LuaDeathRef.get, LuaDeathRef.reset]
    | holds live =>
      refine ⟨h, ?_, ?_, ?_, ?_, ?_⟩ <;>
        simp [luaBody, hrun, hes, hb, hw, LuaDeathRef.get, LuaDeathRef.reset]
  · intro hrun ht
    have ht1 : h.trailers_.isNone = false := by
      cases hx : h.trailers_ <;> simp_all
    cases hw : h.trailers_wrapper_ with
    | empty =>
      refine ⟨{ h with trailers_wrapper_ := LuaDeathRef.holds true }, ?_, ?_, ?_, ?_, ?_⟩ <;>
        simp [luaTrailers, hrun, ht, ht1, hw, LuaDeathRef.get, LuaDeathRef.reset]
    | holds live =>
      refine ⟨h, ?_, ?_, ?_, ?_, ?_⟩ <;>
        simp [luaTrailers, hrun, ht, ht1, hw, LuaDeathRef.get, LuaDeathRef.reset]
  · intro seg seg1 h1 cb1 hv
    exact visits_get hv
  · intro c
    exact call_get h cb c

/-- Witness for C34: on a new handle the first `headers()` creates the wrapper and the
second returns the cached one; on the handle of a headers-only request with `hello`
buffered the first `body()` creates the body wrapper and the second returns it. -/
theorem C34_wrappers_cached_witness :
    (Scripts.newHandle Scripts.bodyScript).headers_wrapper_.get = false ∧
    (luaHeaders (Scripts.newHandle Scripts.bodyScript)).2 =
      { (Scripts.newHandle Scripts.bodyScript) with
        headers_wrapper_ := LuaDeathRef.holds true } ∧
    luaHeaders (luaHeaders (Scripts.newHandle Scripts.bodyScript)).2 =
      ([Value.headers], (luaHeaders (Scripts.newHandle Scripts.bodyScript)).2) ∧
    (Scripts.headersOnlyHandle Scripts.bodyScript).state_ = State.Running ∧
    (Scripts.headersOnlyHandle Scripts.bodyScript).end_stream_ = true ∧
    Scripts.bufferedCallbacks.bufferedBody = some Scripts.hello ∧
    ∃ h1, luaBody (Scripts.headersOnlyHandle Scripts.bodyScript) Scripts.bufferedCallbacks =
        some (.values [Value.body], h1) ∧
      h1.body_wrapper_.get = true ∧
      luaBody h1 Scripts.bufferedCallbacks = some (.values [Value.body], h1) :=
  ⟨rfl,
    (C34_wrappers_cached (Scripts.newHandle Scripts.bodyScript)
      Scripts.emptyCallbacks).1.2.2.2.2.1 rfl,
    (C34_wrappers_cached (Scripts.newHandle Scripts.bodyScript)
      Scripts.emptyCallbacks).1.2.2.2.2.2,
    rfl, rfl, rfl,
    ((C34_wrappers_cached (Scripts.headersOnlyHandle Scripts.bodyScript)
      Scripts.bufferedCallbacks).2.2.1 rfl rfl Scripts.hello rfl).elim
      (fun h1 hx => ⟨h1, hx.1, hx.2.1, hx.2.2.2.2⟩)⟩

/-- A run segment begun in state `Running` with `end_stream_` true does not stop at a
yield inside a bridge function, and `state_` is `Running` when it stops. -/
theorem StreamHandleWrapper.run_end_running (seg : Seg σ) (h : StreamHandleWrapper σ)
    (cb : FilterCallbacks) (hrun : h.state_ = State.Running) (hes : h.end_stream_ = true) :
    (∀ susp site, (run seg h cb).1 = .yielded susp site → site = YieldSite.script) ∧
    (run seg h cb).2.1.state_ = State.Running := by
  obtain ⟨-, -, hst, hy, -⟩ := run_spec seg h cb
  have hsite : ∀ susp site, (run seg h cb).1 = .yielded susp site →
      site = YieldSite.script := by
    intro susp site e
    by_contra hne
    have := (hy susp site e hne).2
    rw [hes] at this
    cases this
  refine ⟨hsite, ?_⟩
  rw [hst, hrun]
  cases hs : (run seg h cb).1 with
  | finished => rfl
  | error msg => rfl
  | abort => rfl
  | yielded susp site =>
    have := hsite susp site hs
    subst this
    rfl

theorem StreamHandleWrapper.coroutineResume_end_running (h : StreamHandleWrapper σ)
    (cb : FilterCallbacks) (vs : List Value) (hrun : h.state_ = State.Running)
    (hes : h.end_stream_ = true) :
    (coroutineResume h cb vs).2.1.state_ = State.Running := by
  by_contra hne
  have := (coroutineResume_spec h cb vs hrun).2.2.2.1 hne
  rw [hes] at this
  cases this

theorem StreamHandleWrapper.start_end_running (h : StreamHandleWrapper σ)
    (cb : FilterCallbacks) (function_ref : Int) (hrun : h.state_ = State.Running)
    (hes : h.end_stream_ = true) :
    (start h cb function_ref).2.1.state_ = State.Running := by
  have hcs : (coroutineStart h cb function_ref).2.1.state_ = State.Running := by
    unfold coroutineStart
    cases hc : h.coroutine_.state_ <;>
      cases hf : h.coroutine_.script.function function_ref <;> simp only <;>
      (first | exact hrun | skip)
    rw [(afterRun_state _).1]
    exact (run_end_running _ (noteResume h [Value.handle]) cb hrun hes).2
  unfold start
  rcases hr : coroutineStart h cb function_ref with ⟨o, h1, cb1⟩
  rw [hr] at hcs
  cases o <;> exact hcs

/-- After `onData` with `end_stream` true, `state_` is `Running`. -/
theorem StreamHandleWrapper.onData_end_running (h : StreamHandleWrapper σ)
    (cb : FilterCallbacks) (data : Buffer) (hes : h.end_stream_ = false) :
    (onData h cb data true).2.1.state_ = State.Running := by
  unfold onData
  simp only [hes, Bool.false_eq_true, ↓reduceIte]
  split
  · rw [(chunkReturn_state _).1]
    exact coroutineResume_end_running _ cb _ rfl rfl
  · split
    · split
      · rename_i vs h3 e
        obtain ⟨hf, hs3, -⟩ := luaBody_values e
        rw [dataReturn_handle]
        exact coroutineResume_end_running h3 _ vs hs3 hf.2.1
      · rfl
    · split
      · rename_i hc
        simp at hc
      · split
        · rw [dataReturn_handle]
          exact coroutineResume_end_running _ cb _ rfl rfl
        · rename_i n1 n2 n3 n4
          simp only [Bool.and_true, decide_eq_true_eq] at n2 n4
          cases hst : h.state_ with
          | Running => rfl
          | WaitForBodyChunk => exact absurd hst n1
          | WaitForBody => exact absurd hst n2
          | WaitForTrailers => exact absurd hst n4

/-- After `onTrailers`, `state_` is `Running`. -/
theorem StreamHandleWrapper.onTrailers_end_running (h : StreamHandleWrapper σ)
    (cb : FilterCallbacks) (tr : HeaderMap) (hes : h.end_stream_ = false) :
    (onTrailers h cb tr).2.1.state_ = State.Running := by
  cases hst : h.state_ with
  | Running =>
    have e : onTrailers h cb tr =
        (.ok (), { h with end_stream_ := true, trailers_ := some tr }, cb) := by
      simp [onTrailers, onTrailersBody, onTrailersTrailers, hst, hes]
    rw [e]
    exact hst
  | WaitForBodyChunk =>
    rw [onTrailers_waitForBodyChunk h cb tr hst hes]
    exact coroutineResume_end_running _ cb _ rfl rfl
  | WaitForBody =>
    obtain ⟨vs, h1, -, -, -, he1, -, hs1, -, hon⟩ := onTrailers_waitForBody h cb tr hst hes
    rw [hon]
    exact coroutineResume_end_running h1 cb vs hs1 he1
  | WaitForTrailers =>
    obtain ⟨h1, e1, hs1, -, -⟩ := luaTrailers_recorded
      { h with end_stream_ := true, trailers_ := some tr, state_ := State.Running } rfl rfl
    have hon : onTrailers h cb tr = coroutineResume h1 cb [Value.trailers] := by
      simp only [onTrailers, hes, onTrailersBody, hst, onTrailersTrailers]
      simp only [Bool.false_eq_true, ↓reduceIte, reduceCtorEq]
      rw [e1]
    rw [hon]
    exact coroutineResume_end_running h1 cb _ hs1 (luaTrailers_values e1).1.2.1

/-- C35: once `end_stream_` is true no bridge call suspends the script.  (1) With
`end_stream_` true, `body()`, the chunk iterator and `trailers()` do not yield.  (2) A run
of the script from state `Running` with `end_stream_` true stops at no yield of a bridge
function and leaves `state_` at `Running`.  (3) After `start` on the handle of a
headers-only stream, after `onData` with `end_stream` true and after `onTrailers`,
`state_` is `Running`; when the call returned normally the coroutine is not suspended
(for `onData` and `onTrailers` on a handle that was not in state `Running` with a
suspended coroutine on entry, which no handle of a filter is).  (4) At the filter, the
handle kept after a headers event with `end_stream` true, after a data event with
`end_stream` true and after a trailers event is in state `Running` with a coroutine that
is not suspended. -/
theorem C35_no_suspension_after_end (h : StreamHandleWrapper σ) (cb : FilterCallbacks) :
    (h.end_stream_ = true →
      (∀ h1, luaBody h cb ≠ some (.yield, h1)) ∧
      (∀ h1, luaBodyIterator h ≠ some (.yield, h1)) ∧
      (∀ h1, luaTrailers h ≠ some (.yield, h1))) ∧
    (h.state_ = State.Running → h.end_stream_ = true → ∀ seg,
      (∀ susp site, (run seg h cb).1 = .yielded susp site → site = YieldSite.script) ∧
      (run seg h cb).2.1.state_ = State.Running) ∧
    (h.state_ = State.Running → h.end_stream_ = true → ∀ function_ref,
      (start h cb function_ref).2.1.state_ = State.Running ∧
      ∀ status, (start h cb function_ref).1 = .ok status →
        (start h cb function_ref).2.1.coroutine_.state_.isYielded = false) ∧
    (h.end_stream_ = false → ∀ data,
      (onData h cb data true).2.1.state_ = State.Running ∧
      ((h.coroutine_.state_.isYielded = true → h.state_ ≠ State.Running) →
        ∀ status, (onData h cb data true).1 = .ok status →
          (onData h cb data true).2.1.coroutine_.state_.isYielded = false)) ∧
    (h.end_stream_ = false → ∀ tr,
      (onTrailers h cb tr).2.1.state_ = State.Running ∧
      ((h.coroutine_.state_.isYielded = true → h.state_ ≠ State.Running) →
        (onTrailers h cb tr).1 = .ok () →
          (onTrailers h cb tr).2.1.coroutine_.state_.isYielded = false)) ∧
    (∀ (f : Filter σ) (d : Direction),
      (∀ h0, f.handle d = some h0 →
        h0.coroutine_.state_.isYielded = true → h0.state_ ≠ State.Running) →
      (∀ function_ref headers r h1, function_ref ≠ LUA_REFNIL →
        f.doHeaders d function_ref headers true = some r → r.2.handle d = some h1 →
        h1.state_ = State.Running ∧ h1.coroutine_.state_.isYielded = false) ∧
      (∀ data r h1, f.doData d data true = some r → r.2.handle d = some h1 →
        h1.state_ = State.Running ∧ h1.coroutine_.state_.isYielded = false) ∧
      (∀ tr r h1, f.doTrailers d tr = some r → r.2.handle d = some h1 →
        h1.state_ = State.Running ∧ h1.coroutine_.state_.isYielded = false)) := by
  have notY : ∀ c : CoroutineState σ, (c.isYielded = true → False) → c.isYielded = false := by
    intro c hc
    cases hx : c.isYielded
    · rfl
    · exact absurd hx hc
  have hstart : ∀ (h : StreamHandleWrapper σ) (cb : FilterCallbacks),
      h.state_ = State.Running → h.end_stream_ = true → ∀ function_ref,
      (start h cb function_ref).2.1.state_ = State.Running ∧
      ∀ status, (start h cb function_ref).1 = .ok status →
        (start h cb function_ref).2.1.coroutine_.state_.isYielded = false := by
    intro h cb hrun hes function_ref
    have hs := start_end_running h cb function_ref hrun hes
    refine ⟨hs, fun status hok => notY _ (fun hy => ?_)⟩
    exact start_consistent h cb function_ref status hrun hok hy hs
  have hdata : ∀ (h : StreamHandleWrapper σ) (cb : FilterCallbacks),
      h.end_stream_ = false → ∀ data,
      (onData h cb data true).2.1.state_ = State.Running ∧
      ((h.coroutine_.state_.isYielded = true → h.state_ ≠ State.Running) →
        ∀ status, (onData h cb data true).1 = .ok status →
          (onData h cb data true).2.1.coroutine_.state_.isYielded = false) := by
    intro h cb hes data
    have hs := onData_end_running h cb data hes
    refine ⟨hs, fun hJ status hok => notY _ (fun hy => ?_)⟩
    exact onData_consistent h cb data true status hJ hok hy hs
  have htr : ∀ (h : StreamHandleWrapper σ) (cb : FilterCallbacks),
      h.end_stream_ = false → ∀ tr,
      (onTrailers h cb tr).2.1.state_ = State.Running ∧
      ((h.coroutine_.state_.isYielded = true → h.state_ ≠ State.Running) →
        (onTrailers h cb tr).1 = .ok () →
          (onTrailers h cb tr).2.1.coroutine_.state_.isYielded = false) := by
    intro h cb hes tr
    have hs := onTrailers_end_running h cb tr hes
    refine ⟨hs, fun hJ hok => notY _ (fun hy => ?_)⟩
    exact onTrailers_consistent h cb tr hJ hok hy hs
  refine ⟨?_, ?_, hstart h cb, hdata h cb, htr h cb, ?_⟩
  · intro hes
    refine ⟨fun h1 e => ?_, fun h1 e => ?_, fun h1 e => ?_⟩
    · have := (luaBody_yield e).2.1
      rw [hes] at this
      cases this
    · have := (luaBodyIterator_yield e).2.1
      rw [hes] at this
      cases this
    · have := (luaTrailers_yield e).2.1
      rw [hes] at this
      cases this
  · intro hrun hes seg
    exact run_end_running seg h cb hrun hes
  · intro f d hJ
    refine ⟨?_, ?_, ?_⟩
    · intro function_ref headers r h1 href hr hh1
      simp only [Filter.doHeaders, href, ↓reduceIte] at hr
      obtain ⟨hok, rfl⟩ := Filter.headersResult_handle f d _ r h1 hr hh1
      rw [(markDead_fields _).1, (markDead_fields _).2.1]
      have := hstart (StreamHandleWrapper.create f.config_.createCoroutine headers true)
        (f.callbacks d) rfl rfl function_ref
      exact ⟨this.1, this.2 _ hok⟩
    · intro data r h1 hr hh1
      simp only [Filter.doData] at hr
      split at hr
      · rename_i h0 hh0
        obtain ⟨hok, rfl⟩ := Filter.dataResult_handle f d _ r h1 hr hh1
        rw [(markDead_fields _).1, (markDead_fields _).2.1]
        have hes0 : h0.markLive.end_stream_ = false := by
          cases hx : h0.markLive.end_stream_
          · rfl
          · rw [onData_after_end _ _ _ _ hx] at hok
            cases hok
        have := hdata h0.markLive (f.callbacks d) hes0 data
        refine ⟨this.1, this.2 ?_ _ hok⟩
        rw [(markLive_fields _).1, (markLive_fields _).2.1]
        exact hJ h0 hh0
      · rename_i hnone
        cases hr
        simp only at hh1
        rw [hnone] at hh1
        cases hh1
    · intro tr r h1 hr hh1
      simp only [Filter.doTrailers] at hr
      split at hr
      · rename_i h0 hh0
        obtain ⟨hok, rfl⟩ := Filter.trailersResult_handle f d _ r h1 hr hh1
        rw [(markDead_fields _).1, (markDead_fields _).2.1]
        have hes0 : h0.markLive.end_stream_ = false := by
          cases hx : h0.markLive.end_stream_
          · rfl
          · rw [onTrailers_after_end _ _ _ hx] at hok
            cases hok
        have := htr h0.markLive (f.callbacks d) hes0 tr
        refine ⟨this.1, this.2 ?_ hok⟩
        rw [(markLive_fields _).1, (markLive_fields _).2.1]
        exact hJ h0 hh0
      · rename_i hnone
        cases hr
        simp only at hh1
        rw [hnone] at hh1
        cases hh1

/-- Witness for C35: `BODY_SCRIPT` on a headers-only request runs to its end during
`start`; suspended in `body()` on a request with a body, it runs to its end when the
frame `hello` ends the stream. -/
theorem C35_no_suspension_after_end_witness :
    (Scripts.headersOnlyHandle Scripts.bodyScript).state_ = State.Running ∧
    (Scripts.headersOnlyHandle Scripts.bodyScript).end_stream_ = true ∧
    (start (Scripts.headersOnlyHandle Scripts.bodyScript) Scripts.emptyCallbacks
      Scripts.requestRef).1 = .ok FilterHeadersStatus.Continue ∧
    (start (Scripts.headersOnlyHandle Scripts.bodyScript) Scripts.emptyCallbacks
      Scripts.requestRef).2.1.state_ = State.Running ∧
    (start (Scripts.headersOnlyHandle Scripts.bodyScript) Scripts.emptyCallbacks
      Scripts.requestRef).2.1.coroutine_.state_.isYielded = false ∧
    (Scripts.started Scripts.bodyScript).end_stream_ = false ∧
    (Scripts.started Scripts.bodyScript).state_ = State.WaitForBody ∧
    (onData (Scripts.started Scripts.bodyScript) Scripts.emptyCallbacks
      Scripts.hello true).1 = .ok FilterDataStatus.Continue ∧
    (onData (Scripts.started Scripts.bodyScript) Scripts.emptyCallbacks
      Scripts.hello true).2.1.state_ = State.Running ∧
    (onData (Scripts.started Scripts.bodyScript) Scripts.emptyCallbacks
      Scripts.hello true).2.1.coroutine_.state_.isYielded = false :=
  ⟨rfl, rfl, rfl,
    ((C35_no_suspension_after_end (Scripts.headersOnlyHandle Scripts.bodyScript)
      Scripts.emptyCallbacks).2.2.1 rfl rfl Scripts.requestRef).1,
    ((C35_no_suspension_after_end (Scripts.headersOnlyHandle Scripts.bodyScript)
      Scripts.emptyCallbacks).2.2.1 rfl rfl Scripts.requestRef).2
      FilterHeadersStatus.Continue rfl,
    rfl, rfl, rfl,
    ((C35_no_suspension_after_end (Scripts.started Scripts.bodyScript)
      Scripts.emptyCallbacks).2.2.2.1 rfl Scripts.hello).1,
    ((C35_no_suspension_after_end (Scripts.started Scripts.bodyScript)
      Scripts.emptyCallbacks).2.2.2.1 rfl Scripts.hello).2
      (fun _ => by decide) FilterDataStatus.Continue rfl⟩

theorem StreamHandleWrapper.coroutineResume_trailers (h : StreamHandleWrapper σ)
    (cb : FilterCallbacks) (vs : List Value) :
    (coroutineResume h cb vs).2.1.trailers_.isSome = h.trailers_.isSome ∧
    (coroutineResume h cb vs).2.1.end_stream_ = h.end_stream_ := by
  unfold coroutineResume
  cases hc : h.coroutine_.state_ with
  | NotStarted => exact ⟨rfl, rfl⟩
  | Finished => exact ⟨rfl, rfl⟩
  | Yielded susp =>
    simp only
    rw [(afterRun_state _).2.2.1, (afterRun_state _).2.1, (run_spec _ _ _).1.2.2.2.2.2,
      (run_spec _ _ _).1.2.1]
    exact ⟨rfl, rfl⟩

theorem StreamHandleWrapper.start_trailers (h : StreamHandleWrapper σ)
    (cb : FilterCallbacks) (function_ref : Int) :
    (start h cb function_ref).2.1.trailers_.isSome = h.trailers_.isSome := by
  have hcs : (coroutineStart h cb function_ref).2.1.trailers_.isSome =
      h.trailers_.isSome := by
    unfold coroutineStart
    cases hc : h.coroutine_.state_ <;>
      cases hf : h.coroutine_.script.function function_ref <;> simp only
    rw [(afterRun_state _).2.2.1, (run_spec _ _ _).1.2.2.2.2.2]
    rfl
  unfold start
  rcases hr : coroutineStart h cb function_ref with ⟨o, h1, cb1⟩
  rw [hr] at hcs
  cases o <;> exact hcs

theorem StreamHandleWrapper.chunkReturn_trailers
    (r : Outcome Unit × StreamHandleWrapper σ × FilterCallbacks) :
    (chunkReturn r).2.1.trailers_ = r.2.1.trailers_ ∧ (chunkReturn r).2.2 = r.2.2 := by
  obtain ⟨o, h, cb⟩ := r
  cases o <;> exact ⟨rfl, rfl⟩

/-- `onData` does not touch the trailers pointer. -/
theorem StreamHandleWrapper.onData_trailers (h : StreamHandleWrapper σ)
    (cb : FilterCallbacks) (data : Buffer) (end_stream : Bool) :
    (onData h cb data end_stream).2.1.trailers_.isSome = h.trailers_.isSome := by
  unfold onData
  by_cases hes : h.end_stream_ = true
  · simp only [hes, ↓reduceIte]
  · simp only [hes, Bool.false_eq_true, ↓reduceIte]
    split
    · rw [(chunkReturn_trailers _).1, (coroutineResume_trailers _ _ _).1]
    · split
      · split
        · rename_i vs h3 e
          rw [dataReturn_handle, (coroutineResume_trailers _ _ _).1,
            (luaBody_values e).1.2.2.2.2.2]
        · rfl
      · split
        · rfl
        · split
          · rw [dataReturn_handle, (coroutineResume_trailers _ _ _).1]
          · rfl

/-- `onTrailers` on a handle with `end_stream_` false records the trailers and sets
`end_stream_`. -/
theorem StreamHandleWrapper.onTrailers_trailers (h : StreamHandleWrapper σ)
    (cb : FilterCallbacks) (tr : HeaderMap) (hes : h.end_stream_ = false) :
    (onTrailers h cb tr).2.1.trailers_.isSome = true ∧
    (onTrailers h cb tr).2.1.end_stream_ = true := by
  rcases onTrailers_shape h cb tr hes with ⟨h1, vs, -, -, -, he1, ht1, e⟩ | e
  · rw [e, (coroutineResume_trailers _ _ _).1, (coroutineResume_trailers _ _ _).2, ht1, he1]
    exact ⟨rfl, rfl⟩
  · rw [e]
    exact ⟨rfl, rfl⟩

/-- No call of an entry point resets the trailers pointer, and after every call the
pointer is set only if `end_stream_` is true, when this held before the call. -/
theorem StreamHandleWrapper.call_trailers (h : StreamHandleWrapper σ)
    (cb : FilterCallbacks) (c : Call) :
    (h.trailers_.isSome = true → (call h cb c).2.1.trailers_.isSome = true) ∧
    ((h.trailers_.isSome = true → h.end_stream_ = true) →
      (call h cb c).2.1.trailers_.isSome = true → (call h cb c).2.1.end_stream_ = true) := by
  cases c with
  | start function_ref =>
    rw [call_start, start_trailers, start_end_stream]
    exact ⟨id, id⟩
  | onData data end_stream =>
    have hc : (call h cb (.onData data end_stream)).2.1 = (onData h cb data end_stream).2.1 := by
      simp only [call]
      rcases onData h cb data end_stream with ⟨o, h1, cb1⟩
      cases o <;> rfl
    rw [hc, onData_trailers]
    refine ⟨id, fun hI ht => ?_⟩
    rw [onData_after_end h cb data end_stream (hI ht)]
    exact hI ht
  | onTrailers tr =>
    simp only [call]
    cases hes : h.end_stream_ with
    | true =>
      rw [onTrailers_after_end h cb tr hes]
      exact ⟨id, fun _ _ => hes⟩
    | false =>
      obtain ⟨a, b⟩ := onTrailers_trailers h cb tr hes
      exact ⟨fun _ => a, fun _ _ => b⟩

/-- Along every sequence of calls the trailers pointer is set only if `end_stream_` is
true. -/
theorem StreamHandleWrapper.calls_trailers (cs : List Call) :
    ∀ (h : StreamHandleWrapper σ) (cb : FilterCallbacks),
      (h.trailers_.isSome = true → h.end_stream_ = true) →
      ∀ x ∈ calls h cb cs, x.2.trailers_.isSome = true → x.2.end_stream_ = true := by
  induction cs with
  | nil =>
    intro h cb hI x hx
    simp [calls] at hx
  | cons c rest ih =>
    intro h cb hI x hx
    have hstep := (call_trailers h cb c).2 hI
    simp only [calls] at hx
    rcases hc : call h cb c with ⟨o1, h1, cb1⟩
    rw [hc] at hx hstep
    cases o1 with
    | ok u =>
      simp only [List.mem_cons] at hx
      rcases hx with rfl | hx
      · exact hstep
      · exact ih h1 cb1 hstep x hx
    | luaException what =>
      simp only [List.mem_singleton] at hx
      subst hx
      exact hstep
    | abort =>
      simp only [List.mem_singleton] at hx
      subst hx
      exact hstep

/-- C36: the trailers pointer is set only if `end_stream_` is true.  A new handle has no
trailers.  `start`, `onData`, every script action, `markDead` and `markLive` leave the
pointer null when it is null and set when it is set; `onTrailers` on a handle with
`end_stream_` false sets both the pointer and `end_stream_`; no call of an entry point
resets a pointer that is set.  So a handle on which the pointer is set only if
`end_stream_` is true keeps that property at every point a run of the script reaches and
after every call, and every handle along a sequence of calls that begins with a new
handle has it. -/
theorem C36_trailers_only_after_end (h : StreamHandleWrapper σ) (cb : FilterCallbacks) :
    (∀ (coroutine : Coroutine σ) headers end_stream,
      (StreamHandleWrapper.create coroutine headers end_stream).trailers_ = none) ∧
    (∀ function_ref, (start h cb function_ref).2.1.trailers_.isSome = h.trailers_.isSome) ∧
    (∀ data end_stream,
      (onData h cb data end_stream).2.1.trailers_.isSome = h.trailers_.isSome) ∧
    (∀ seg seg1 h1 cb1, Visits seg h cb seg1 h1 cb1 →
      h1.trailers_.isSome = h.trailers_.isSome ∧ h1.end_stream_ = h.end_stream_) ∧
    (h.markDead.trailers_ = h.trailers_ ∧ h.markLive.trailers_ = h.trailers_ ∧
      h.markDead.end_stream_ = h.end_stream_ ∧ h.markLive.end_stream_ = h.end_stream_) ∧
    (h.end_stream_ = false → ∀ tr,
      (onTrailers h cb tr).2.1.trailers_.isSome = true ∧
      (onTrailers h cb tr).2.1.end_stream_ = true) ∧
    (∀ c, h.trailers_.isSome = true → (call h cb c).2.1.trailers_.isSome = true) ∧
    ((h.trailers_.isSome = true → h.end_stream_ = true) →
      (∀ c, (call h cb c).2.1.trailers_.isSome = true →
        (call h cb c).2.1.end_stream_ = true) ∧
      (∀ cs, ∀ x ∈ calls h cb cs, x.2.trailers_.isSome = true → x.2.end_stream_ = true)) ∧
    (∀ (coroutine : Coroutine σ) headers end_stream cs,
      ∀ x ∈ calls (StreamHandleWrapper.create coroutine headers end_stream) cb cs,
        x.2.trailers_.isSome = true → x.2.end_stream_ = true) := by
  refine ⟨fun _ _ _ => rfl, fun function_ref => start_trailers h cb function_ref,
    fun data end_stream => onData_trailers h cb data end_stream, ?_, ⟨rfl, rfl, rfl, rfl⟩,
    fun hes tr => onTrailers_trailers h cb tr hes, fun c => (call_trailers h cb c).1, ?_, ?_⟩
  · intro seg seg1 h1 cb1 hv
    have hf := (visits_frame hv).1
    exact ⟨hf.2.2.2.2.2, hf.2.1⟩
  · intro hI
    exact ⟨fun c => (call_trailers h cb c).2 hI, fun cs => calls_trailers cs h cb hI⟩
  · intro coroutine headers end_stream cs
    exact calls_trailers cs _ cb (fun ht => by cases ht)

/-- Witness for C36: the handle of `TRAILERS_SCRIPT`, suspended in its chunk loop, has
no trailers; `onTrailers` records them and sets `end_stream_`. -/
theorem C36_trailers_only_after_end_witness :
    (Scripts.started Scripts.trailersScript).end_stream_ = false ∧
    (Scripts.started Scripts.trailersScript).trailers_ = none ∧
    (onTrailers (Scripts.started Scripts.trailersScript) Scripts.emptyCallbacks
      Scripts.requestTrailers).2.1.trailers_.isSome = true ∧
    (onTrailers (Scripts.started Scripts.trailersScript) Scripts.emptyCallbacks
      Scripts.requestTrailers).2.1.end_stream_ = true :=
  ⟨rfl, rfl,
    (C36_trailers_only_after_end (Scripts.started Scripts.trailersScript)
      Scripts.emptyCallbacks).2.2.2.2.2.1 rfl Scripts.requestTrailers⟩

theorem StreamHandleWrapper.coroutineResume_callbacks (h : StreamHandleWrapper σ)
    (cb : FilterCallbacks) (vs : List Value) :
    (coroutineResume h cb vs).2.2.callbacks_ = cb.callbacks_ := by
  unfold coroutineResume
  cases hc : h.coroutine_.state_ with
  | NotStarted => rfl
  | Finished => rfl
  | Yielded susp =>
    simp only
    rw [(afterRun_state _).2.2.2, (run_spec _ _ _).2.1]

/-- `start` does not act on the proxy side of the callbacks. -/
theorem StreamHandleWrapper.start_callbacks (h : StreamHandleWrapper σ)
    (cb : FilterCallbacks) (function_ref : Int) :
    (start h cb function_ref).2.2.callbacks_ = cb.callbacks_ := by
  have hcs : (coroutineStart h cb function_ref).2.2.callbacks_ = cb.callbacks_ := by
    unfold coroutineStart
    cases hc : h.coroutine_.state_ <;>
      cases hf : h.coroutine_.script.function function_ref <;> simp only
    rw [(afterRun_state _).2.2.2, (run_spec _ _ _).2.1]
  unfold start
  rcases hr : coroutineStart h cb function_ref with ⟨o, h1, cb1⟩
  rw [hr] at hcs
  cases o <;> exact hcs

theorem StreamHandleWrapper.dataReturn_callbacks
    (r : Outcome Unit × StreamHandleWrapper σ × FilterCallbacks) :
    (dataReturn r).2.2 = r.2.2 := by
  obtain ⟨o, h, cb⟩ := r
  cases o <;> rfl

/-- `onTrailers` does not act on the proxy side of the callbacks. -/
theorem StreamHandleWrapper.onTrailers_callbacks (h : StreamHandleWrapper σ)
    (cb : FilterCallbacks) (tr : HeaderMap) :
    (onTrailers h cb tr).2.2.callbacks_ = cb.callbacks_ := by
  by_cases hes : h.end_stream_ = true
  · rw [onTrailers_after_end h cb tr hes]
  · simp only [Bool.not_eq_true] at hes
    rcases onTrailers_shape h cb tr hes with ⟨h1, vs, -, -, -, -, -, e⟩ | e
    · rw [e, coroutineResume_callbacks]
    · rw [e]

/-- The proxy side of the callbacks after `onData`: what `addData(data)` leaves when the
call was entered in `WaitForBody` with `end_stream` true, and what it was otherwise. -/
theorem StreamHandleWrapper.onData_callbacks (h : StreamHandleWrapper σ)
    (cb : FilterCallbacks) (data : Buffer) (end_stream : Bool) :
    (h.end_stream_ = false → h.state_ = State.WaitForBody → end_stream = true →
      (onData h cb data end_stream).2.2.callbacks_ = (cb.addData data).callbacks_) ∧
    (¬ (h.end_stream_ = false ∧ h.state_ = State.WaitForBody ∧ end_stream = true) →
      (onData h cb data end_stream).2.2.callbacks_ = cb.callbacks_) := by
  by_cases hes : h.end_stream_ = true
  · rw [onData_after_end h cb data end_stream hes]
    exact ⟨fun hf => (by rw [hes] at hf; cases hf), fun _ => rfl⟩
  · simp only [Bool.not_eq_true] at hes
    have core : (onData h cb data end_stream).2.2.callbacks_ =
        if h.state_ = State.WaitForBody ∧ end_stream = true then (cb.addData data).callbacks_
        else cb.callbacks_ := by
      unfold onData
      simp only [hes, Bool.false_eq_true, ↓reduceIte]
      split
      · rename_i hst
        rw [(chunkReturn_trailers _).2, coroutineResume_callbacks]
        have hst1 : h.state_ = State.WaitForBodyChunk := hst
        simp [hst1]
      · split
        · rename_i hc
          simp only [Bool.and_eq_true, decide_eq_true_eq] at hc
          rw [if_pos hc]
          split
          · rw [dataReturn_callbacks, coroutineResume_callbacks]
          · rfl
        · rename_i hc
          simp only [Bool.and_eq_true, decide_eq_true_eq] at hc
          rw [if_neg hc]
          split
          · rfl
          · split
            · rw [dataReturn_callbacks, coroutineResume_callbacks]
            · rfl
    refine ⟨fun _ hst he => ?_, fun hn => ?_⟩
    · rw [core, if_pos ⟨hst, he⟩]
    · rw [core, if_neg (fun hc => hn ⟨hes, hc⟩)]

/-- The proxy sides of a filter after the `try` / `catch` of an entry point: that of the
direction is what the handle function left, that of the other direction is untouched. -/
theorem Filter.result_streamCallbacks (f : Filter σ) (d : Direction) :
    (∀ r x, f.headersResult d r = some x →
      x.2.streamCallbacks d = r.2.2.callbacks_ ∧
      ∀ d1, d1 ≠ d → x.2.streamCallbacks d1 = f.streamCallbacks d1) ∧
    (∀ r x, f.dataResult d r = some x →
      x.2.streamCallbacks d = r.2.2.callbacks_ ∧
      ∀ d1, d1 ≠ d → x.2.streamCallbacks d1 = f.streamCallbacks d1) ∧
    (∀ r x, f.trailersResult d r = some x →
      x.2.streamCallbacks d = r.2.2.callbacks_ ∧
      ∀ d1, d1 ≠ d → x.2.streamCallbacks d1 = f.streamCallbacks d1) := by
  refine ⟨?_, ?_, ?_⟩ <;>
  · intro r x hr
    obtain ⟨o, h1, cb1⟩ := r
    cases o with
    | ok a =>
      first
        | simp only [Filter.headersResult, Option.some.injEq] at hr
        | simp only [Filter.dataResult, Option.some.injEq] at hr
        | simp only [Filter.trailersResult, Option.some.injEq] at hr
      subst hr
      refine ⟨?_, fun d1 hne => ?_⟩
      · cases d <;> rfl
      · cases d <;> cases d1 <;> first | rfl | exact absurd rfl hne
    | luaException what =>
      first
        | simp only [Filter.headersResult, Option.some.injEq] at hr
        | simp only [Filter.dataResult, Option.some.injEq] at hr
        | simp only [Filter.trailersResult, Option.some.injEq] at hr
      subst hr
      refine ⟨?_, fun d1 hne => ?_⟩
      · cases d <;> rfl
      · cases d <;> cases d1 <;> first | rfl | exact absurd rfl hne
    | abort =>
      first
        | simp [Filter.headersResult] at hr
        | simp [Filter.dataResult] at hr
        | simp [Filter.trailersResult] at hr

/-- C37: `addData` is called only by `onData` entered in state `WaitForBody` with
`end_stream` true, and then once, with the frame of the call.  With the record of the
frames handed to `addData`: `onData` entered (with `end_stream_` false) in `WaitForBody`
with `end_stream` true leaves the record extended by exactly that frame; `onData` in
every other case, `start`, `onTrailers` and every script action leave the proxy side of
the callbacks, hence the record, as it was.  At the filter: `doHeaders` and `doTrailers`
leave the records of both directions as they were; `doData` leaves the record of the
other direction as it was, and extends the record of its direction by the frame exactly
when the handle of the direction is in `WaitForBody` and `end_stream` is true. -/
theorem C37_addData_only_for_last_body_frame (h : StreamHandleWrapper σ)
    (cb : FilterCallbacks) :
    (∀ data, (cb.addData data).callbacks_.added_ = cb.callbacks_.added_ ++ [data] ∧
      (cb.addData data).logger = cb.logger) ∧
    (∀ data end_stream, h.end_stream_ = false → h.state_ = State.WaitForBody →
      end_stream = true →
      (onData h cb data end_stream).2.2.callbacks_.added_ =
        cb.callbacks_.added_ ++ [data]) ∧
    (∀ data end_stream,
      ¬ (h.end_stream_ = false ∧ h.state_ = State.WaitForBody ∧ end_stream = true) →
      (onData h cb data end_stream).2.2.callbacks_ = cb.callbacks_) ∧
    (∀ function_ref, (start h cb function_ref).2.2.callbacks_ = cb.callbacks_) ∧
    (∀ tr, (onTrailers h cb tr).2.2.callbacks_ = cb.callbacks_) ∧
    (∀ seg seg1 h1 cb1, Visits seg h cb seg1 h1 cb1 → cb1.callbacks_ = cb.callbacks_) ∧
    (∀ (f : Filter σ) (d : Direction),
      (∀ function_ref headers end_stream r,
        f.doHeaders d function_ref headers end_stream = some r →
        ∀ d1, r.2.streamCallbacks d1 = f.streamCallbacks d1) ∧
      (∀ tr r, f.doTrailers d tr = some r →
        ∀ d1, r.2.streamCallbacks d1 = f.streamCallbacks d1) ∧
      (∀ data end_stream r, f.doData d data end_stream = some r →
        (∀ d1, d1 ≠ d → r.2.streamCallbacks d1 = f.streamCallbacks d1) ∧
        (∀ h0, f.handle d = some h0 → h0.state_ = State.WaitForBody → end_stream = true →
          (r.2.streamCallbacks d).added_ = (f.streamCallbacks d).added_ ++ [data]) ∧
        ((∀ h0, f.handle d = some h0 →
            ¬ (h0.state_ = State.WaitForBody ∧ end_stream = true)) →
          r.2.streamCallbacks d = f.streamCallbacks d))) := by
  refine ⟨fun data => ⟨rfl, rfl⟩, ?_, fun data end_stream => (onData_callbacks h cb data
    end_stream).2, fun function_ref => start_callbacks h cb function_ref,
    fun tr => onTrailers_callbacks h cb tr, ?_, ?_⟩
  · intro data end_stream hes hst he
    rw [(onData_callbacks h cb data end_stream).1 hes hst he]
    rfl
  · intro seg seg1 h1 cb1 hv
    exact (visits_frame hv).2.2
  · intro f d
    have both : ∀ (x : Filter σ) (c : StreamFilterCallbacks),
        x.streamCallbacks d = c → c = f.streamCallbacks d →
        (∀ d1, d1 ≠ d → x.streamCallbacks d1 = f.streamCallbacks d1) →
        ∀ d1, x.streamCallbacks d1 = f.streamCallbacks d1 := by
      intro x c e1 e2 e3 d1
      by_cases hd : d1 = d
      · rw [hd, e1, e2]
      · exact e3 d1 hd
    refine ⟨?_, ?_, ?_⟩
    · intro function_ref headers end_stream r hr
      simp only [Filter.doHeaders] at hr
      split at hr
      · cases hr
        exact fun d1 => rfl
      · obtain ⟨a, b⟩ := (Filter.result_streamCallbacks f d).1 _ r hr
        exact both r.2 _ a (start_callbacks _ _ _) b
    · intro tr r hr
      simp only [Filter.doTrailers] at hr
      split at hr
      · obtain ⟨a, b⟩ := (Filter.result_streamCallbacks f d).2.2 _ r hr
        exact both r.2 _ a (onTrailers_callbacks _ _ _) b
      · cases hr
        exact fun d1 => rfl
    · intro data end_stream r hr
      simp only [Filter.doData] at hr
      split at hr
      · rename_i h0 hh0
        obtain ⟨a, b⟩ := (Filter.result_streamCallbacks f d).2.1 _ r hr
        have hes0 : h0.markLive.end_stream_ = false := by
          cases hx : h0.markLive.end_stream_
          · rfl
          · rw [onData_after_end _ _ _ _ hx] at hr
            simp [Filter.dataResult] at hr
        refine ⟨b, ?_, ?_⟩
        · intro h1 hh1 hst he
          rw [hh0] at hh1
          cases hh1
          rw [a, (onData_callbacks h0.markLive (f.callbacks d) data end_stream).1 hes0
            (by rw [(markLive_fields _).1]; exact hst) he]
          rfl
        · intro hn
          rw [a, (onData_callbacks h0.markLive (f.callbacks d) data end_stream).2
            (fun hc => hn h0 hh0 ⟨by rw [← (markLive_fields h0).1]; exact hc.2.1, hc.2.2⟩)]
          rfl
      · cases hr
        exact ⟨fun d1 _ => rfl, fun h0 hh0 => by simp_all, fun _ => rfl⟩

/-- Witness for C37: the handle of `BODY_SCRIPT`, suspended in `body()`, receives the
frame `hello` as the last frame of the stream. -/
theorem C37_addData_only_for_last_body_frame_witness :
    (Scripts.started Scripts.bodyScript).end_stream_ = false ∧
    (Scripts.started Scripts.bodyScript).state_ = State.WaitForBody ∧
    (onData (Scripts.started Scripts.bodyScript) Scripts.emptyCallbacks Scripts.hello
      true).2.2.callbacks_.added_ = [Scripts.hello] ∧
    (onData (Scripts.started Scripts.bodyScript) Scripts.emptyCallbacks Scripts.hello
      false).2.2.callbacks_ = Scripts.emptyCallbacks.callbacks_ :=
  ⟨rfl, rfl,
    (C37_addData_only_for_last_body_frame (Scripts.started Scripts.bodyScript)
      Scripts.emptyCallbacks).2.1 Scripts.hello true rfl rfl rfl,
    (C37_addData_only_for_last_body_frame (Scripts.started Scripts.bodyScript)
      Scripts.emptyCallbacks).2.2.1 Scripts.hello false (by decide)⟩

/-- After the `try` / `catch` of an entry point of one direction: when the handle
function returned normally the handle of the other direction is as it was, and when it
threw, that handle is empty. -/
theorem Filter.result_other_handle (f : Filter σ) (d d1 : Direction) (hne : d1 ≠ d) :
    (∀ r x, f.headersResult d1 r = some x →
      ((∃ status, r.1 = .ok status) → x.2.handle d = f.handle d) ∧
      (∀ what, r.1 = .luaException what → x.2.handle d = none)) ∧
    (∀ r x, f.dataResult d1 r = some x →
      ((∃ status, r.1 = .ok status) → x.2.handle d = f.handle d) ∧
      (∀ what, r.1 = .luaException what → x.2.handle d = none)) ∧
    (∀ r x, f.trailersResult d1 r = some x →
      ((∃ status, r.1 = .ok status) → x.2.handle d = f.handle d) ∧
      (∀ what, r.1 = .luaException what → x.2.handle d = none)) := by
  refine ⟨?_, ?_, ?_⟩ <;>
  · intro r x hr
    obtain ⟨o, h1, cb1⟩ := r
    cases o with
    | ok a =>
      first
        | simp only [Filter.headersResult, Option.some.injEq] at hr
        | simp only [Filter.dataResult, Option.some.injEq] at hr
        | simp only [Filter.trailersResult, Option.some.injEq] at hr
      subst hr
      refine ⟨fun _ => ?_, fun what e => (by cases e)⟩
      cases d <;> cases d1 <;> first | rfl | exact absurd rfl hne
    | luaException what =>
      first
        | simp only [Filter.headersResult, Option.some.injEq] at hr
        | simp only [Filter.dataResult, Option.some.injEq] at hr
        | simp only [Filter.trailersResult, Option.some.injEq] at hr
      subst hr
      refine ⟨fun ⟨status, e⟩ => (by cases e), fun _ _ => ?_⟩
      exact Filter.handle_handleScriptError _ _ _
    | abort =>
      first
        | simp [Filter.headersResult] at hr
        | simp [Filter.dataResult] at hr
        | simp [Filter.trailersResult] at hr

/-- C38: the two directions are independent when no script error occurs.  For two
different directions: a `doData` or `doTrailers` call on one of them that does not fail
an assertion, and in which `onData` / `onTrailers` returns normally (or the direction
has no handle), leaves the handle of the other direction exactly as it was, with its
state, `end_stream_`, trailers and liveness, and leaves the proxy side of the other
direction as it was; the same holds for `doHeaders`.  The condition is needed: when
`onData` or `onTrailers` throws, the handle of the other direction is emptied. -/
theorem C38_directions_independent (f : Filter σ) (d d1 : Direction) (hne : d1 ≠ d) :
    (∀ data end_stream r, f.doData d1 data end_stream = some r →
      (∀ h0, f.handle d1 = some h0 →
        ∃ status, (onData h0.markLive (f.callbacks d1) data end_stream).1 = .ok status) →
      r.2.handle d = f.handle d ∧ r.2.streamCallbacks d = f.streamCallbacks d ∧
      (r.2.handle d).map (fun x => (x.state_, x.end_stream_, x.trailers_, x.live_)) =
        (f.handle d).map (fun x => (x.state_, x.end_stream_, x.trailers_, x.live_))) ∧
    (∀ tr r, f.doTrailers d1 tr = some r →
      (∀ h0, f.handle d1 = some h0 →
        (onTrailers h0.markLive (f.callbacks d1) tr).1 = .ok ()) →
      r.2.handle d = f.handle d ∧ r.2.streamCallbacks d = f.streamCallbacks d ∧
      (r.2.handle d).map (fun x => (x.state_, x.end_stream_, x.trailers_, x.live_)) =
        (f.handle d).map (fun x => (x.state_, x.end_stream_, x.trailers_, x.live_))) ∧
    (∀ function_ref headers end_stream r,
      f.doHeaders d1 function_ref headers end_stream = some r →
      (function_ref ≠ LUA_REFNIL →
        ∃ status, (start (StreamHandleWrapper.create f.config_.createCoroutine headers
          end_stream) (f.callbacks d1) function_ref).1 = .ok status) →
      r.2.handle d = f.handle d ∧ r.2.streamCallbacks d = f.streamCallbacks d) ∧
    (∀ data end_stream r h0 what, f.doData d1 data end_stream = some r →
      f.handle d1 = some h0 →
      (onData h0.markLive (f.callbacks d1) data end_stream).1 = .luaException what →
      r.2.handle d = none) ∧
    (∀ tr r h0 what, f.doTrailers d1 tr = some r → f.handle d1 = some h0 →
      (onTrailers h0.markLive (f.callbacks d1) tr).1 = .luaException what →
      r.2.handle d = none) := by
  have hne1 : d ≠ d1 := fun e => hne e.symm
  refine ⟨?_, ?_, ?_, ?_, ?_⟩
  · intro data end_stream r hr hok
    have key : r.2.handle d = f.handle d ∧ r.2.streamCallbacks d = f.streamCallbacks d := by
      simp only [Filter.doData] at hr
      split at hr
      · rename_i h0 hh0
        exact ⟨((Filter.result_other_handle f d d1 hne).2.1 _ r hr).1 (hok h0 hh0),
          ((Filter.result_streamCallbacks f d1).2.1 _ r hr).2 d hne1⟩
      · cases hr
        exact ⟨rfl, rfl⟩
    exact ⟨key.1, key.2, by rw [key.1]⟩
  · intro tr r hr hok
    have key : r.2.handle d = f.handle d ∧ r.2.streamCallbacks d = f.streamCallbacks d := by
      simp only [Filter.doTrailers] at hr
      split at hr
      · rename_i h0 hh0
        exact ⟨((Filter.result_other_handle f d d1 hne).2.2 _ r hr).1 ⟨(), hok h0 hh0⟩,
          ((Filter.result_streamCallbacks f d1).2.2 _ r hr).2 d hne1⟩
      · cases hr
        exact ⟨rfl, rfl⟩
    exact ⟨key.1, key.2, by rw [key.1]⟩
  · intro function_ref headers end_stream r hr hok
    simp only [Filter.doHeaders] at hr
    split at hr
    · cases hr
      exact ⟨rfl, rfl⟩
    · rename_i href
      exact ⟨((Filter.result_other_handle f d d1 hne).1 _ r hr).1 (hok href),
        ((Filter.result_streamCallbacks f d1).1 _ r hr).2 d hne1⟩
  · intro data end_stream r h0 what hr hh0 he
    simp only [Filter.doData, hh0] at hr
    exact ((Filter.result_other_handle f d d1 hne).2.1 _ r hr).2 what he
  · intro tr r h0 what hr hh0 he
    simp only [Filter.doTrailers, hh0] at hr
    exact ((Filter.result_other_handle f d d1 hne).2.2 _ r hr).2 what he

/-- Witness for C38: on the filter of `requestAndResponseScript`, with both scripts
waiting for a body chunk, the request frame `hello` resumes the request script and
leaves the response handle as it was. -/
theorem C38_directions_independent_witness :
    Direction.request ≠ Direction.response ∧
    (Scripts.requestAndResponseFilter.handle Direction.response).map
      (fun x => (x.state_, x.end_stream_, x.trailers_, x.live_)) =
      some (State.WaitForBodyChunk, false, none, false) ∧
    ∃ r, Scripts.requestAndResponseFilter.doData Direction.request Scripts.hello false =
        some r ∧
      r.1 = FilterDataStatus.Continue ∧ r.2.log_ = [(0, "5")] ∧
      r.2.handle Direction.response =
        Scripts.requestAndResponseFilter.handle Direction.response :=
  ⟨by decide, rfl, _, rfl, rfl, rfl,
    ((C38_directions_independent Scripts.requestAndResponseFilter Direction.response
      Direction.request (by decide)).1 Scripts.hello false _ rfl
      (fun h0 hh0 => ⟨FilterDataStatus.Continue, by cases hh0; rfl⟩)).1⟩

/-- After `onData` in `WaitForBodyChunk` with the coroutine suspended: the chunk counter
has advanced by one and the resume with the new chunk is recorded. -/
theorem StreamHandleWrapper.onData_waitForBodyChunk_fields (h : StreamHandleWrapper σ)
    (cb : FilterCallbacks) (buf : Buffer) (eos : Bool) (susp : σ)
    (hst : h.state_ = State.WaitForBodyChunk) (hes : h.end_stream_ = false)
    (hco : h.coroutine_.state_ = .Yielded susp) :
    (onData h cb buf eos).2.1.chunks_ = h.chunks_ + 1 ∧
    (onData h cb buf eos).2.1.coroutine_.resumes_ =
      h.coroutine_.resumes_ ++ [[Value.chunk h.chunks_]] ∧
    (∀ status, (onData h cb buf eos).1 = .ok status →
      status = FilterDataStatus.Continue) := by
  have hon := onData_waitForBodyChunk h cb buf eos susp hst hes hco
  refine ⟨?_, ?_, ?_⟩
  · rw [hon]
    rcases hr : afterRun (run (h.coroutine_.script.resume susp [Value.chunk h.chunks_])
      (noteResume
        { h with
          end_stream_ := eos
          chunk_ := some buf
          chunks_ := h.chunks_ + 1
          state_ := State.Running } [Value.chunk h.chunks_]) cb) with ⟨o, h1, cb1⟩
    have hal := afterRun_live (run (h.coroutine_.script.resume susp [Value.chunk h.chunks_])
      (noteResume
        { h with
          end_stream_ := eos
          chunk_ := some buf
          chunks_ := h.chunks_ + 1
          state_ := State.Running } [Value.chunk h.chunks_]) cb)
    rw [hr] at hal
    have e2 : h1.chunks_ = h.chunks_ + 1 := by
      rw [hal.2.2.1, (run_spec _ _ _).1.2.2.2.2.1]; rfl
    cases o <;> exact e2
  · rw [hon, chunkReturn_coroutine, (afterRun_resumes _).1, (run_spec _ _ _).1.1]
    rfl
  · intro status hs
    rw [hon] at hs
    exact ((chunkReturn_status _ status).1 hs).1

/-- During the resume made by `onData` in `WaitForBodyChunk` the wrapper of the new chunk
stands for the frame of the call, `state_` is `Running`, `end_stream_` is that of the
call, and the chunk iterator yields when the stream goes on and returns nil when it has
ended. -/
theorem StreamHandleWrapper.visits_chunk (h : StreamHandleWrapper σ) (cb : FilterCallbacks)
    (buf : Buffer) (eos : Bool) {seg seg2 : Seg σ} {h2 : StreamHandleWrapper σ}
    {cb2 : FilterCallbacks}
    (hv : Visits seg
      (noteResume
        { h with
          end_stream_ := eos
          chunk_ := some buf
          chunks_ := h.chunks_ + 1
          state_ := State.Running } [Value.chunk h.chunks_]) cb seg2 h2 cb2) :
    bufferWrapper h2 cb2 (Value.chunk h.chunks_) = .live buf ∧
    h2.state_ = State.Running ∧ h2.end_stream_ = eos ∧
    (eos = false → luaBodyIterator h2 =
      some (.yield, { h2 with state_ := State.WaitForBodyChunk })) ∧
    (eos = true → luaBodyIterator h2 = some (.values [], h2)) := by
  obtain ⟨hf, hs2, -⟩ := visits_frame hv
  have e1 : h2.chunk_ = some buf := by rw [hf.2.2.2.1]; rfl
  have e2 : h2.chunks_ = h.chunks_ + 1 := by rw [hf.2.2.2.2.1]; rfl
  have e3 : h2.state_ = State.Running := by rw [hs2]; rfl
  have e4 : h2.end_stream_ = eos := by rw [hf.2.1]; rfl
  refine ⟨by simp [bufferWrapper, e1, e2], e3, e4, ?_, ?_⟩
  · intro he
    simp [luaBodyIterator, e3, e4, he]
  · intro he
    simp [luaBodyIterator, e3, e4, he]

/-- A data frame that does not end the stream, delivered while the script waits in the
chunk iterator: the frame is answered with `Continue`, and a handle that is kept has seen
one more chunk. -/
theorem Filter.deliverData_waiting (f : Filter σ) (d : Direction)
    (h0 : StreamHandleWrapper σ) (susp : σ) (data : Buffer)
    (hh : f.handle d = some h0) (hst : h0.state_ = State.WaitForBodyChunk)
    (hes : h0.end_stream_ = false) (hco : h0.coroutine_.state_ = .Yielded susp)
    (r : FilterDataStatus × Filter σ) (hr : f.deliverData d data false = some r) :
    r.1 = FilterDataStatus.Continue ∧
    ∀ h1, r.2.handle d = some h1 →
      h1.chunks_ = h0.chunks_ + 1 ∧
      h1.coroutine_.resumes_ = h0.coroutine_.resumes_ ++ [[Value.chunk h0.chunks_]] := by
  have e1 : h0.markLive.end_stream_ = false := by rw [(markLive_fields _).2.2.1]; exact hes
  have e2 : h0.markLive.state_ = State.WaitForBodyChunk := by
    rw [(markLive_fields _).1]; exact hst
  have e3 : h0.markLive.coroutine_.state_ = .Yielded susp := by
    rw [(markLive_fields _).2.1]; exact hco
  obtain ⟨a1, a2, a3⟩ := onData_waitForBodyChunk_fields h0.markLive (f.callbacks d) data
    false susp e2 e1 e3
  simp only [Filter.deliverData, Filter.doData, hh] at hr
  rcases hon : onData h0.markLive (f.callbacks d) data false with ⟨o, h2, cb2⟩
  rw [hon] at hr a1 a2 a3
  cases o with
  | ok status =>
    have hs := a3 status rfl
    subst hs
    simp only [Filter.dataResult, Option.some.injEq] at hr
    subst hr
    refine ⟨rfl, fun h1 hh1 => ?_⟩
    rw [Filter.handle_setHandle] at hh1
    cases hh1
    simp only at a1 a2
    refine ⟨?_, ?_⟩
    · have : h2.markDead.chunks_ = h2.chunks_ := rfl
      rw [this, a1]
      rfl
    · rw [(markDead_fields _).2.1, a2, (markLive_fields _).2.1]
      rfl
  | luaException what =>
    simp only [Filter.dataResult, Option.some.injEq] at hr
    subst hr
    refine ⟨rfl, fun h1 hh1 => ?_⟩
    rw [Filter.handle_handleScriptError] at hh1
    cases hh1
  | abort => simp [Filter.dataResult] at hr

/-- Frames that do not end the stream, delivered to a script that is waiting in the
chunk iterator each time one of them arrives: every frame is answered with `Continue` and
resumes the script once, with the wrapper of the next chunk. -/
theorem Filter.deliverFrames_waiting (d : Direction) (frames : List Buffer) :
    ∀ (f : Filter σ) (h0 : StreamHandleWrapper σ), f.handle d = some h0 →
      (∀ i, i ≤ frames.length → ∃ statuses fi hi susp,
        f.deliverFrames d (frames.take i) = some (statuses, fi) ∧
        fi.handle d = some hi ∧ hi.state_ = State.WaitForBodyChunk ∧
        hi.end_stream_ = false ∧ hi.coroutine_.state_ = .Yielded susp) →
      ∀ i, i ≤ frames.length → ∃ fi hi susp,
        f.deliverFrames d (frames.take i) =
          some (List.replicate i FilterDataStatus.Continue, fi) ∧
        fi.handle d = some hi ∧ hi.state_ = State.WaitForBodyChunk ∧
        hi.end_stream_ = false ∧ hi.coroutine_.state_ = .Yielded susp ∧
        hi.chunks_ = h0.chunks_ + i ∧
        hi.coroutine_.resumes_ = h0.coroutine_.resumes_ ++
          (List.range i).map (fun j => [Value.chunk (h0.chunks_ + j)]) := by
  induction frames with
  | nil =>
    intro f h0 hh hloop i hi
    have hi0 : i = 0 := by simpa using hi
    subst hi0
    obtain ⟨statuses, f0, h1, susp, e, hh1, a, b, c⟩ := hloop 0 (Nat.le_refl _)
    simp only [List.take_nil, Filter.deliverFrames, Option.some.injEq, Prod.mk.injEq] at e
    obtain ⟨-, rfl⟩ := e
    rw [hh] at hh1
    cases hh1
    exact ⟨f, h0, susp, rfl, hh, a, b, c, rfl, by simp⟩
  | cons data rest ih =>
    intro f h0 hh hloop i hi
    obtain ⟨statuses0, f0, h0a, susp0, e0, hh0, a0, b0, c0⟩ := hloop 0 (Nat.zero_le _)
    simp only [List.take_zero, Filter.deliverFrames, Option.some.injEq, Prod.mk.injEq] at e0
    obtain ⟨-, rfl⟩ := e0
    rw [hh] at hh0
    cases hh0
    cases i with
    | zero => exact ⟨f, h0, susp0, rfl, hh, a0, b0, c0, rfl, by simp⟩
    | succ j =>
      have hj : j ≤ rest.length := by simpa using hi
      -- the first frame
      have hfirst : ∃ f1, f.deliverData d data false = some (FilterDataStatus.Continue, f1) := by
        obtain ⟨statuses1, fx, hx, suspx, e1, -⟩ := hloop 1 (by simp)
        simp only [List.take_succ_cons, List.take_zero, Filter.deliverFrames] at e1
        cases hd : f.deliverData d data false with
        | none => rw [hd] at e1; cases e1
        | some r =>
          have := (Filter.deliverData_waiting f d h0 susp0 data hh a0 b0 c0 r hd).1
          obtain ⟨st, f1⟩ := r
          simp only at this
          subst this
          exact ⟨f1, rfl⟩
      obtain ⟨f1, hd⟩ := hfirst
      have hstep : ∀ (l : List Buffer) (sts : List FilterDataStatus) (f2 : Filter σ),
          f1.deliverFrames d l = some (sts, f2) →
          f.deliverFrames d (data :: l) = some (FilterDataStatus.Continue :: sts, f2) := by
        intro l sts f2 hl
        simp only [Filter.deliverFrames, hd, hl]
      have hstepNone : ∀ (l : List Buffer), f1.deliverFrames d l = none →
          f.deliverFrames d (data :: l) = none := by
        intro l hl
        simp only [Filter.deliverFrames, hd, hl]
      have hloop1 : ∀ k, k ≤ rest.length → ∃ statuses fi hi susp,
          f1.deliverFrames d (rest.take k) = some (statuses, fi) ∧
          fi.handle d = some hi ∧ hi.state_ = State.WaitForBodyChunk ∧
          hi.end_stream_ = false ∧ hi.coroutine_.state_ = .Yielded susp := by
        intro k hk
        obtain ⟨statuses, fk, hk1, suspk, e, rest1⟩ := hloop (k + 1) (by simpa using hk)
        rw [List.take_succ_cons] at e
        cases hx : f1.deliverFrames d (rest.take k) with
        | none => rw [hstepNone _ hx] at e; cases e
        | some x =>
          obtain ⟨sts, fx⟩ := x
          rw [hstep _ _ _ hx] at e
          simp only [Option.some.injEq, Prod.mk.injEq] at e
          obtain ⟨-, rfl⟩ := e
          exact ⟨sts, fx, hk1, suspk, rfl, rest1⟩
      obtain ⟨sts0, fz, h1, susp1, ez, hh1, a1, b1, c1⟩ := hloop1 0 (Nat.zero_le _)
      simp only [List.take_zero, Filter.deliverFrames, Option.some.injEq, Prod.mk.injEq] at ez
      obtain ⟨-, rfl⟩ := ez
      obtain ⟨hc1, hr1⟩ := (Filter.deliverData_waiting f d h0 susp0 data hh a0 b0 c0 _ hd).2
        h1 hh1
      obtain ⟨fi, hi1, susp, e, hhi, a, b, c, hc, hr⟩ := ih f1 h1 hh1 hloop1 j hj
      refine ⟨fi, hi1, susp, ?_, hhi, a, b, c, ?_, ?_⟩
      · rw [List.take_succ_cons, hstep _ _ _ e]
        rfl
      · rw [hc, hc1]
        omega
      · rw [hr, hr1, hc1, List.range_succ_eq_map, List.map_cons, List.map_map,
          List.append_assoc]
        congr 1
        rw [List.singleton_append]
        congr 1
        apply List.map_congr_left
        intro t _
        have ht : h0.chunks_ + 1 + t = h0.chunks_ + (t + 1) := by omega
        simp [Function.comp, ht]

/-- C5 (counterexample): a script whose chunk loop also calls `trailers()`.  The body has
the three frames `hello`, `world` and `!` (11 bytes); every event returns `Continue`.
The first frame is seen as a chunk of 5 bytes, then the script waits in `trailers()`;
the second frame arrives while it waits there and is not passed to it; the last frame
ends the stream, `trailers()` returns nil and the next iterator call ends the loop.  The
loop has run to completion (`done` is logged, the coroutine is finished) having seen one
chunk of 5 bytes: the coroutine was resumed with a chunk once. -/
theorem C5_frames_missed_while_waiting_for_trailers :
    Scripts.chunksAndTrailersHeaders.map (fun r => (r.1, r.2.log_)) =
      some (FilterHeadersStatus.Continue, []) ∧
    Scripts.chunksAndTrailersFirst.map (fun r => (r.1, r.2.log_)) =
      some (FilterDataStatus.Continue, [(0, "5")]) ∧
    (Scripts.chunksAndTrailersFirst.bind (fun r => r.2.request_stream_wrapper_)).map
      (fun h => h.state_) = some State.WaitForTrailers ∧
    Scripts.chunksAndTrailersSecond.map (fun r => (r.1, r.2.log_)) =
      some (FilterDataStatus.Continue, [(0, "5")]) ∧
    Scripts.chunksAndTrailersLast.map (fun r => (r.1, r.2.log_)) =
      some (FilterDataStatus.Continue, [(0, "5"), (0, "done")]) ∧
    (Scripts.chunksAndTrailersLast.bind (fun r => r.2.request_stream_wrapper_)).map
      (fun h => (h.state_, h.coroutine_.state_.isYielded, h.coroutine_.resumes_)) =
      some (State.Running, false, [[Value.handle], [Value.chunk 0], []]) ∧
    luaByteSize ([Scripts.hello, Scripts.world, Scripts.bang].flatten) = 11 := by
  decide!

/-- C5 (amended): a script that is waiting in the chunk iterator each time a data frame
arrives.  `frames` are data frames that do not end the stream, delivered in order to the
direction `d` of filter `f`; when each of them arrives, and when the event after the
last of them arrives, the handle of `d` is in `WaitForBodyChunk` with its coroutine
suspended.  (1) Every frame is answered with `Continue`; when frame `i` arrives the
script has been resumed once for each earlier frame, in order, each time with the single
value `chunk (c + j)` for frame `j`, where `c` is the chunk counter at the start.
(2) A data frame `data` delivered to a filter whose script waits in the iterator
resumes it with exactly one value, the wrapper of the next chunk; at every point the
script reaches in that resume the wrapper stands for `data`, whose `byteSize` is the
length of `data`, and a call of the iterator yields when the frame does not end the
stream and returns nil when it does: the loop goes on exactly while the end of the
stream has not been seen.  The event returns `Continue` whenever it returns.
(3) Trailers delivered to such a filter resume the pending iterator call with nil, with
`end_stream_` true, and every later iterator call returns nil.  (4) The sizes of the
chunks add up to the length of the body. -/
theorem C5_chunks_are_frames (f : Filter σ) (d : Direction) (h0 : StreamHandleWrapper σ)
    (frames : List Buffer) (hh : f.handle d = some h0)
    (hloop : ∀ i, i ≤ frames.length → ∃ statuses fi hi susp,
      f.deliverFrames d (frames.take i) = some (statuses, fi) ∧
      fi.handle d = some hi ∧ hi.state_ = State.WaitForBodyChunk ∧
      hi.end_stream_ = false ∧ hi.coroutine_.state_ = .Yielded susp) :
    (∀ i, i ≤ frames.length → ∃ fi hi susp,
      f.deliverFrames d (frames.take i) =
        some (List.replicate i FilterDataStatus.Continue, fi) ∧
      fi.handle d = some hi ∧ hi.state_ = State.WaitForBodyChunk ∧
      hi.end_stream_ = false ∧ hi.coroutine_.state_ = .Yielded susp ∧
      hi.chunks_ = h0.chunks_ + i ∧
      hi.coroutine_.resumes_ = h0.coroutine_.resumes_ ++
        (List.range i).map (fun j => [Value.chunk (h0.chunks_ + j)])) ∧
    (∀ (g : Filter σ) (h : StreamHandleWrapper σ) (susp : σ), g.handle d = some h →
      h.state_ = State.WaitForBodyChunk → h.end_stream_ = false →
      h.coroutine_.state_ = .Yielded susp → ∀ (data : Buffer) (end_stream : Bool),
      g.doData d data end_stream =
        g.dataResult d (chunkReturn (afterRun
          (run (h.coroutine_.script.resume susp [Value.chunk h.chunks_])
            (noteResume
              { h.markLive with
                end_stream_ := end_stream
                chunk_ := some data
                chunks_ := h.chunks_ + 1
                state_ := State.Running } [Value.chunk h.chunks_]) (g.callbacks d)))) ∧
      (∀ r, g.doData d data end_stream = some r → r.1 = FilterDataStatus.Continue) ∧
      (∀ seg2 h2 cb2,
        Visits (h.coroutine_.script.resume susp [Value.chunk h.chunks_])
          (noteResume
            { h.markLive with
              end_stream_ := end_stream
              chunk_ := some data
              chunks_ := h.chunks_ + 1
              state_ := State.Running } [Value.chunk h.chunks_]) (g.callbacks d)
          seg2 h2 cb2 →
        bufferWrapper h2 cb2 (Value.chunk h.chunks_) = .live data ∧
        luaByteSize data = data.length ∧
        h2.state_ = State.Running ∧ h2.end_stream_ = end_stream ∧
        (end_stream = false → luaBodyIterator h2 =
          some (.yield, { h2 with state_ := State.WaitForBodyChunk })) ∧
        (end_stream = true → luaBodyIterator h2 = some (.values [], h2)))) ∧
    (∀ (g : Filter σ) (h : StreamHandleWrapper σ) (susp : σ), g.handle d = some h →
      h.state_ = State.WaitForBodyChunk → h.end_stream_ = false →
      h.coroutine_.state_ = .Yielded susp → ∀ (tr : HeaderMap),
      g.doTrailers d tr =
        g.trailersResult d (afterRun
          (run (h.coroutine_.script.resume susp [])
            (noteResume
              { h.markLive with
                end_stream_ := true
                trailers_ := some tr
                state_ := State.Running } []) (g.callbacks d))) ∧
      (∀ seg2 h2 cb2,
        Visits (h.coroutine_.script.resume susp [])
          (noteResume
            { h.markLive with
              end_stream_ := true
              trailers_ := some tr
              state_ := State.Running } []) (g.callbacks d) seg2 h2 cb2 →
        h2.state_ = State.Running ∧ h2.end_stream_ = true ∧
        luaBodyIterator h2 = some (.values [], h2))) ∧
    ((frames.map luaByteSize).sum = luaByteSize frames.flatten ∧
      ∀ last : Buffer,
        ((frames ++ [last]).map luaByteSize).sum = luaByteSize (frames ++ [last]).flatten) := by
  have hsum : ∀ l : List Buffer, (l.map luaByteSize).sum = luaByteSize l.flatten := by
    intro l
    simp only [luaByteSize, List.length_flatten]
    rfl
  refine ⟨Filter.deliverFrames_waiting d frames f h0 hh hloop, ?_, ?_, hsum _, fun last => hsum _⟩
  · intro g h susp hg hst hes hco data end_stream
    have e1 : h.markLive.end_stream_ = false := by rw [(markLive_fields _).2.2.1]; exact hes
    have e2 : h.markLive.state_ = State.WaitForBodyChunk := by
      rw [(markLive_fields _).1]; exact hst
    have e3 : h.markLive.coroutine_.state_ = .Yielded susp := by
      rw [(markLive_fields _).2.1]; exact hco
    have hon := onData_waitForBodyChunk h.markLive (g.callbacks d) data end_stream susp e2 e1 e3
    have hdo : g.doData d data end_stream =
        g.dataResult d (onData h.markLive (g.callbacks d) data end_stream) := by
      simp only [Filter.doData, hg]
    refine ⟨?_, ?_, ?_⟩
    · rw [hdo, hon]
      rfl
    · intro r hr
      rw [hdo] at hr
      rcases hx : onData h.markLive (g.callbacks d) data end_stream with ⟨o, h2, cb2⟩
      rw [hx] at hr
      have hs := (onData_waitForBodyChunk_fields h.markLive (g.callbacks d) data end_stream
        susp e2 e1 e3).2.2
      rw [hx] at hs
      cases o with
      | ok status =>
        simp only [Filter.dataResult, Option.some.injEq] at hr
        subst hr
        exact hs status rfl
      | luaException what =>
        simp only [Filter.dataResult, Option.some.injEq] at hr
        subst hr
        rfl
      | abort => simp [Filter.dataResult] at hr
    · intro seg2 h2 cb2 hv
      obtain ⟨a, b, c, e, g1⟩ := visits_chunk h.markLive (g.callbacks d) data end_stream hv
      exact ⟨a, rfl, b, c, e, g1⟩
  · intro g h susp hg hst hes hco tr
    have e1 : h.markLive.end_stream_ = false := by rw [(markLive_fields _).2.2.1]; exact hes
    have e2 : h.markLive.state_ = State.WaitForBodyChunk := by
      rw [(markLive_fields _).1]; exact hst
    have e3 : h.markLive.coroutine_ = h.coroutine_ := (markLive_fields _).2.1
    refine ⟨?_, ?_⟩
    · simp only [Filter.doTrailers, hg]
      rw [onTrailers_waitForBodyChunk h.markLive (g.callbacks d) tr e2 e1]
      simp only [coroutineResume, e3, hco]
    · intro seg2 h2 cb2 hv
      obtain ⟨hf, hs2, -⟩ := visits_frame hv
      have s2 : h2.state_ = State.Running := by rw [hs2]; rfl
      have es2 : h2.end_stream_ = true := by rw [hf.2.1]; rfl
      exact ⟨s2, es2, by simp [luaBodyIterator, s2, es2]⟩

/-- A filter whose handle, after the frames, is in `WaitForBodyChunk` with the end of the
stream not seen and the coroutine suspended: the evaluated form of the condition. -/
theorem Filter.waiting_of_eval (f : Filter σ) (d : Direction) (frames : List Buffer)
    (hc : ((f.deliverFrames d frames).bind (fun r => r.2.handle d)).map
        (fun h => (h.state_, h.end_stream_, h.coroutine_.state_.isYielded)) =
      some (State.WaitForBodyChunk, false, true)) :
    ∃ statuses fi hi susp, f.deliverFrames d frames = some (statuses, fi) ∧
      fi.handle d = some hi ∧ hi.state_ = State.WaitForBodyChunk ∧
      hi.end_stream_ = false ∧ hi.coroutine_.state_ = .Yielded susp := by
  cases hr : f.deliverFrames d frames with
  | none => rw [hr] at hc; cases hc
  | some r =>
    obtain ⟨statuses, fi⟩ := r
    rw [hr] at hc
    cases hh : fi.handle d with
    | none => simp [hh] at hc
    | some hi =>
      simp only [Option.some_bind, hh, Option.map_some', Option.some.injEq, Prod.mk.injEq] at hc
      obtain ⟨h1, h2, h3⟩ := hc
      cases hco : hi.coroutine_.state_ with
      | NotStarted => rw [hco] at h3; cases h3
      | Finished => rw [hco] at h3; cases h3
      | Yielded susp => exact ⟨statuses, fi, hi, susp, rfl, hh, h1, h2, hco⟩

/-- Witness for the amended C5: `BODY_CHUNK_SCRIPT` after the headers of a request with
a body.  The script waits in the iterator when the frames `hello` and `world` arrive and
after them; both frames are answered with `Continue` and the script is resumed with the
chunks 0 and 1. -/
theorem C5_chunks_are_frames_witness :
    (Scripts.afterHeaders Scripts.bodyChunkScript).handle Direction.request =
      some (Scripts.started Scripts.bodyChunkScript).markDead ∧
    ∃ fi hi susp,
      (Scripts.afterHeaders Scripts.bodyChunkScript).deliverFrames Direction.request
          ([Scripts.hello, Scripts.world].take 2) =
        some (List.replicate 2 FilterDataStatus.Continue, fi) ∧
      fi.handle Direction.request = some hi ∧ hi.state_ = State.WaitForBodyChunk ∧
      hi.end_stream_ = false ∧ hi.coroutine_.state_ = .Yielded susp ∧
      hi.chunks_ = (Scripts.started Scripts.bodyChunkScript).markDead.chunks_ + 2 ∧
      hi.coroutine_.resumes_ =
        (Scripts.started Scripts.bodyChunkScript).markDead.coroutine_.resumes_ ++
          (List.range 2).map (fun j =>
            [Value.chunk ((Scripts.started Scripts.bodyChunkScript).markDead.chunks_ + j)]) :=
  ⟨rfl,
    (C5_chunks_are_frames (Scripts.afterHeaders Scripts.bodyChunkScript) Direction.request
      (Scripts.started Scripts.bodyChunkScript).markDead [Scripts.hello, Scripts.world] rfl
      (fun i hi => by
        have hi2 : i ≤ 2 := hi
        interval_cases i
        · exact Filter.waiting_of_eval _ _ _ (by decide!)
        · exact Filter.waiting_of_eval _ _ _ (by decide!)
        · exact Filter.waiting_of_eval _ _ _ (by decide!))).1 2 (by decide)⟩

end LuaFilter
